import Mathlib

/-!
# Fractal planet generator: the altitude oracle

A shallow embedding of `planet.c` (seed hash `rand2`, squared distance `dist2`,
the recursive subdivision `planet`, the cached entry point `planet1`, the sample
pipeline `planet0`, the palette set-up `readcolors`, the root tetrahedron and
the option processing of `main`), and of the map lookup of `planet_mod.c`.

Conventions of the embedding

* C `double` values are modelled twice.  In the first embedding they are
  elements of an arbitrary linearly ordered field `K` with a floor function
  (`ℚ` for evaluation), and no operation rounds.  In the second embedding (the
  type `Dbl` and the definitions whose names end in `D`) they are the rational
  numbers that IEEE 754 doubles stand for, and every operation rounds its exact
  result to the nearest double, as the compiled program does; the statements
  that hang on the outcome of a sign test or on the last digit of a result are
  made there.
* C `int` values are `Int`.  The conversion `(int)r` truncates toward zero when
  the truncated value fits a 32-bit `int`; outside that range the C result is
  undefined and the model takes it from the parameter `Libm.castOOR`.
* The functions of the C mathematics library (`sqrt`, `pow`, `sin`, `cos`,
  `asin`, `atan2`) are parameters, collected in `Libm`.
* Global variables read by the code are fields of `Config`; the globals written
  by `planet` (`ssa`, `ssb`, `ssc`, `ssd`, `rainShadow`, `shade`) are fields of
  `State`, passed explicitly.
* Recursion is by fuel: every call of `planet` consumes one unit, so the fuel
  bounds the nesting depth of the calls; `none` means the fuel ran out.
* The globals that `planet0` reads besides those of `Config` are fields of
  `Display`; the statistics it updates are a `Stats` value and the array cells
  it stores are a `Pixel` value, both returned.
* `readcolors` is a function of the records that `fscanf` stored; the palette
  globals are fields of `Palette`.
* The `while` loops of the option processing take fuel for the number of tests
  of their condition; `none` means the fuel ran out.
-/

set_option linter.unusedSectionVars false

namespace Planet

/-- The C struct `vertex`: altitude, seed, coordinates, approximate rain shadow. -/
structure Vertex (K : Type) where
  h : K
  s : K
  x : K
  y : K
  z : K
  shadow : K
deriving DecidableEq, Repr

/-- Functions of the C library used by the code, and the value produced by a
`double` to `int` conversion whose operand is out of the range of `int`. -/
structure Libm (K : Type) where
  sqrt : K → K
  pow : K → K → K
  sin : K → K
  cos : K → K
  asin : K → K
  atan2 : K → K → K
  castOOR : K → Int

/-- Global variables that `planet` and `planet1` read. -/
structure Config (K : Type) where
  dd1 : K
  POWA : K
  dd2 : K
  POW : K
  Depth : Int
  rainfall : Int
  makeBiomes : Int
  matchMap : Int
  matchSize : K
  MatchWidth : Int
  MatchHeight : Int
  cl0 : Int → Int → Int
  doshade : Int
  shade_angle : K
  shade_angle2 : K
  tetra0 : Vertex K
  tetra1 : Vertex K
  tetra2 : Vertex K
  tetra3 : Vertex K

/-- Global variables that `planet` writes. -/
structure State (K : Type) where
  ssa : Vertex K
  ssb : Vertex K
  ssc : Vertex K
  ssd : Vertex K
  rainShadow : K
  shade : Int
deriving DecidableEq, Repr

section Defs

variable {K : Type} [LinearOrderedField K] [FloorRing K]

/-- The macro `PI` of planet.c, 3.14159265358979323846. -/
def PI : K := 314159265358979323846 / 100000000000000000000

/-- Squared distance between two vertices (`dist2`). -/
def dist2 (a b : Vertex K) : K :=
  let abx := a.x - b.x
  let aby := a.y - b.y
  let abz := a.z - b.z
  abx * abx + aby * aby + abz * abz

/-- Truncation toward zero. -/
def truncInt (r : K) : Int := if 0 ≤ r then ⌊r⌋ else ⌈r⌉

/-- The C conversion `(int)r` for a 32-bit `int`. -/
def toInt (m : Libm K) (r : K) : Int :=
  if -2147483649 < r ∧ r < 2147483648 then truncInt r else m.castOOR r

/-- The seed hash `rand2`. -/
def rand2 (m : Libm K) (p q : K) : K :=
  let r := (p + 314159265 / 100000000) * (q + 314159265 / 100000000)
  2 * (r - (toInt m r : K)) - 1

/-- The expression `ux*vy*wz+uy*vz*wx+uz*vx*wy-uz*vy*wx-uy*vx*wz-ux*vz*wy` that
the code writes out for every scalar triple product. -/
def det3 (ux uy uz vx vy vz wx wy wz : K) : K :=
  ux * vy * wz + uy * vz * wx + uz * vx * wy - uz * vy * wx - uy * vx * wz - ux * vz * wy

/-- The largest of the six squared edge lengths, as accumulated in `maxlength`. -/
def maxlength (a b c d : Vertex K) : K :=
  let lab := dist2 a b
  let lac := dist2 a c
  let lad := dist2 a d
  let lbc := dist2 b c
  let lbd := dist2 b d
  let lcd := dist2 c d
  let ml := lab
  let ml := if lac > ml then lac else ml
  let ml := if lad > ml then lad else ml
  let ml := if lbc > ml then lbc else ml
  let ml := if lbd > ml then lbd else ml
  let ml := if lcd > ml then lcd else ml
  ml

/-- The seed `e.s` of the vertex that cuts edge `ab`. -/
def splitSeed (m : Libm K) (a b : Vertex K) : K := rand2 m a.s b.s

/-- The local `es1`. -/
def splitEs1 (m : Libm K) (a b : Vertex K) : K :=
  rand2 m (splitSeed m a b) (splitSeed m a b)

/-- The local `es2`, the cut point. -/
def splitEs2 (m : Libm K) (a b : Vertex K) : K :=
  1 / 2 + 1 / 10 * rand2 m (splitEs1 m a b) (splitEs1 m a b)

/-- The local `es3`. -/
def splitEs3 (m : Libm K) (a b : Vertex K) : K := 1 - splitEs2 m a b

/-- The test `matchMap && lab > matchSize` that selects the map height. -/
def useMap (cfg : Config K) (a b : Vertex K) : Prop :=
  cfg.matchMap ≠ 0 ∧ dist2 a b > cfg.matchSize

instance (cfg : Config K) (a b : Vertex K) : Decidable (useMap cfg a b) := by
  unfold useMap; infer_instance

/-- The value of the local `lab` after the altitude of `e` has been computed:
unchanged on the map branch, otherwise replaced by `pow(lab,0.5)` when above 1. -/
def labAfter (m : Libm K) (cfg : Config K) (a b : Vertex K) : K :=
  if useMap cfg a b then dist2 a b
  else if dist2 a b > 1 then m.pow (dist2 a b) (1 / 2) else dist2 a b

/-- One coordinate of the cut point: `es2*a+es3*b` when `a.s < b.s`,
`es3*a+es2*b` when `a.s > b.s`, the midpoint when the seeds are equal. -/
def splitCoord (m : Libm K) (a b : Vertex K) (ca cb : K) : K :=
  if a.s < b.s then splitEs2 m a b * ca + splitEs3 m a b * cb
  else if a.s > b.s then splitEs3 m a b * ca + splitEs2 m a b * cb
  else 1 / 2 * ca + 1 / 2 * cb

/-- The altitude `e.h` of the new vertex, whose position is `(ex,ey,ez)`: the
map height when `matchMap && lab > matchSize`, the displaced average otherwise. -/
def splitH (m : Libm K) (cfg : Config K) (a b : Vertex K) (ex ey ez : K) : K :=
  if useMap cfg a b then
    let l := m.sqrt (ex * ex + ey * ey + ez * ez)
    let yy := m.asin (ey / l) * ((cfg.MatchHeight - 1 : Int) : K) / PI
      + ((cfg.MatchHeight - 1 : Int) : K) / 2
    let xx := m.atan2 ex ez * ((cfg.MatchWidth - 1 : Int) : K) / 2 / PI
      + ((cfg.MatchWidth - 1 : Int) : K) / 2
    ((cfg.cl0 (toInt m (xx + 1 / 2)) (toInt m (yy + 1 / 2)) : Int) : K) * (1 / 10) / 8
  else
    1 / 2 * (a.h + b.h)
      + splitSeed m a b * cfg.dd1 * m.pow |a.h - b.h| cfg.POWA
      + splitEs1 m a b * cfg.dd2 * m.pow (labAfter m cfg a b) cfg.POW

/-- The approximate rain shadow `e.shadow` of the new vertex, whose altitude is
`eh`, for the goal point `(x,y,z)`. -/
def splitShadow (m : Libm K) (cfg : Config K) (a b : Vertex K) (x y z eh : K) : K :=
  if eh ≤ 0 ∨ ¬ (cfg.rainfall ≠ 0 ∨ cfg.makeBiomes ≠ 0) then 0
  else
    let x1 := 1 / 2 * (a.x + b.x)
    let x1 := a.h * (x1 - a.x) + b.h * (x1 - b.x)
    let y1 := 1 / 2 * (a.y + b.y)
    let y1 := a.h * (y1 - a.y) + b.h * (y1 - b.y)
    let z1 := 1 / 2 * (a.z + b.z)
    let z1 := a.h * (z1 - a.z) + b.h * (z1 - b.z)
    let l1 := m.sqrt (x1 * x1 + y1 * y1 + z1 * z1)
    let l1 := if l1 = 0 then 1 else l1
    let tmp := m.sqrt (1 - y * y)
    let tmp := if tmp < 1 / 10000 then 1 / 10000 else tmp
    let z2 := (-z) / tmp * x1 + x / tmp * z1
    if labAfter m cfg a b > 4 / 100 then
      (a.shadow + b.shadow - m.cos (PI * cfg.shade_angle / 180) * z2 / l1) / 3
    else
      (a.shadow + b.shadow) / 2

/-- The vertex `e` that `planet` creates on edge `ab` for the goal point
`(x,y,z)`: seed, cut position, altitude and approximate rain shadow. -/
def splitVertex (m : Libm K) (cfg : Config K) (a b : Vertex K) (x y z : K) : Vertex K :=
  let ex := splitCoord m a b a.x b.x
  let ey := splitCoord m a b a.y b.y
  let ez := splitCoord m a b a.z b.z
  let eh := splitH m cfg a b ex ey ez
  { h := eh, s := splitSeed m a b, x := ex, y := ey, z := ez
    shadow := splitShadow m cfg a b x y z eh }

/-- The product of the two scalar triple products, taken relative to `e`, that
`planet` compares with 0 to locate the goal point. -/
def sideProduct (a c d e : Vertex K) (x y z : K) : K :=
  let eax := a.x - e.x
  let eay := a.y - e.y
  let eaz := a.z - e.z
  let ecx := c.x - e.x
  let ecy := c.y - e.y
  let ecz := c.z - e.z
  let edx := d.x - e.x
  let edy := d.y - e.y
  let edz := d.z - e.z
  let epx := x - e.x
  let epy := y - e.y
  let epz := z - e.z
  det3 eax eay eaz ecx ecy ecz edx edy edz * det3 epx epy epz ecx ecy ecz edx edy edz

/-- The point-location test of `planet` ("point is inside acde"). -/
def insideACDE (a c d e : Vertex K) (x y z : K) : Prop :=
  sideProduct a c d e x y z > 0

instance (a c d e : Vertex K) (x y z : K) : Decidable (insideACDE a c d e x y z) := by
  unfold insideACDE; infer_instance

/-- The value that the level-0 branch of `planet` leaves in the global `shade`. -/
def leafShade (m : Libm K) (cfg : Config K) (st : State K) (a b c d : Vertex K)
    (x y z : K) : Int :=
  if cfg.doshade = 1 ∨ cfg.doshade = 2 then
    let x1 := 1 / 4 * (a.x + b.x + c.x + d.x)
    let x1 := a.h * (x1 - a.x) + b.h * (x1 - b.x) + c.h * (x1 - c.x) + d.h * (x1 - d.x)
    let y1 := 1 / 4 * (a.y + b.y + c.y + d.y)
    let y1 := a.h * (y1 - a.y) + b.h * (y1 - b.y) + c.h * (y1 - c.y) + d.h * (y1 - d.y)
    let z1 := 1 / 4 * (a.z + b.z + c.z + d.z)
    let z1 := a.h * (z1 - a.z) + b.h * (z1 - b.z) + c.h * (z1 - c.z) + d.h * (z1 - d.z)
    let l1 := m.sqrt (x1 * x1 + y1 * y1 + z1 * z1)
    let l1 := if l1 = 0 then 1 else l1
    let tmp := m.sqrt (1 - y * y)
    let tmp := if tmp < 1 / 10000 then 1 / 10000 else tmp
    let y2 := (-x) * y / tmp * x1 + tmp * y1 - z * y / tmp * z1
    let z2 := (-z) / tmp * x1 + x / tmp * z1
    let shade := toInt m (((-m.sin (PI * cfg.shade_angle / 180)) * y2
      - m.cos (PI * cfg.shade_angle / 180) * z2) / l1 * 48 + 128)
    let shade := if shade < 10 then 10 else shade
    let shade := if shade > 255 then 255 else shade
    if cfg.doshade = 2 ∧ a.h + b.h + c.h + d.h < 0 then 150 else shade
  else if cfg.doshade = 3 then
    let hh := a.h + b.h + c.h + d.h
    let x0 := 1 / 4 * (a.x + b.x + c.x + d.x)
    let x0 := a.h * (x0 - a.x) + b.h * (x0 - b.x) + c.h * (x0 - c.x) + d.h * (x0 - d.x)
    let y0 := 1 / 4 * (a.y + b.y + c.y + d.y)
    let y0 := a.h * (y0 - a.y) + b.h * (y0 - b.y) + c.h * (y0 - c.y) + d.h * (y0 - d.y)
    let z0 := 1 / 4 * (a.z + b.z + c.z + d.z)
    let z0 := a.h * (z0 - a.z) + b.h * (z0 - b.z) + c.h * (z0 - c.z) + d.h * (z0 - d.z)
    let l0 := 5 * m.sqrt (x0 * x0 + y0 * y0 + z0 * z0)
    let x1 := if hh ≤ 0 then x else x0 + x * l0
    let y1 := if hh ≤ 0 then y else y0 + y * l0
    let z1 := if hh ≤ 0 then z else z0 + z * l0
    let l1 := m.sqrt (x1 * x1 + y1 * y1 + z1 * z1)
    let l1 := if l1 = 0 then 1 else l1
    let x2 := m.cos (PI * cfg.shade_angle / 180 - 1 / 2 * PI)
      * m.cos (PI * cfg.shade_angle2 / 180)
    let y2 := -m.sin (PI * cfg.shade_angle2 / 180)
    let z2 := (-m.sin (PI * cfg.shade_angle / 180 - 1 / 2 * PI))
      * m.cos (PI * cfg.shade_angle2 / 180)
    let shade := toInt m ((x1 * x2 + y1 * y2 + z1 * z2) / l1 * 170 + 10)
    let shade := if shade < 10 then 10 else shade
    if shade > 255 then 255 else shade
  else st.shade

/-- The recursive subdivision `planet`.  The first argument is the fuel: it
bounds the nesting depth of the calls, and `none` means it ran out.  The result
is the altitude returned together with the globals as the call leaves them. -/
def planet (m : Libm K) (cfg : Config K) :
    Nat → State K → Vertex K → Vertex K → Vertex K → Vertex K → K → K → K → Int →
      Option (K × State K)
  | 0, _, _, _, _, _, _, _, _, _ => none
  | fuel + 1, st, a, b, c, d, x, y, z, level =>
    if level > 0 then
      if dist2 a c = maxlength a b c d then planet m cfg fuel st a c b d x y z level
      else if dist2 a d = maxlength a b c d then planet m cfg fuel st a d b c x y z level
      else if dist2 b c = maxlength a b c d then planet m cfg fuel st b c a d x y z level
      else if dist2 b d = maxlength a b c d then planet m cfg fuel st b d a c x y z level
      else if dist2 c d = maxlength a b c d then planet m cfg fuel st c d a b x y z level
      else
        let st1 : State K :=
          if level = 11 then { st with ssa := a, ssb := b, ssc := c, ssd := d } else st
        let e := splitVertex m cfg a b x y z
        if insideACDE a c d e x y z then planet m cfg fuel st1 c d a e x y z (level - 1)
        else planet m cfg fuel st1 c d b e x y z (level - 1)
    else
      some (1 / 4 * (a.h + b.h + c.h + d.h),
        { st with
          rainShadow := 1 / 4 * (a.shadow + b.shadow + c.shadow + d.shadow)
          shade := leafShade m cfg st a b c d x y z })

/-- The cache test of `planet1`: the four nested sign tests that decide whether
the goal point is inside the cached tetrahedron. -/
def cacheHit (st : State K) (x y z : K) : Prop :=
  let abx := st.ssb.x - st.ssa.x
  let aby := st.ssb.y - st.ssa.y
  let abz := st.ssb.z - st.ssa.z
  let acx := st.ssc.x - st.ssa.x
  let acy := st.ssc.y - st.ssa.y
  let acz := st.ssc.z - st.ssa.z
  let adx := st.ssd.x - st.ssa.x
  let ady := st.ssd.y - st.ssa.y
  let adz := st.ssd.z - st.ssa.z
  let apx := x - st.ssa.x
  let apy := y - st.ssa.y
  let apz := z - st.ssa.z
  let bax := -abx
  let bay := -aby
  let baz := -abz
  let bcx := st.ssc.x - st.ssb.x
  let bcy := st.ssc.y - st.ssb.y
  let bcz := st.ssc.z - st.ssb.z
  let bdx := st.ssd.x - st.ssb.x
  let bdy := st.ssd.y - st.ssb.y
  let bdz := st.ssd.z - st.ssb.z
  let bpx := x - st.ssb.x
  let bpy := y - st.ssb.y
  let bpz := z - st.ssb.z
  det3 adx ady adz abx aby abz acx acy acz * det3 apx apy apz abx aby abz acx acy acz > 0
  ∧ det3 acx acy acz abx aby abz adx ady adz * det3 apx apy apz abx aby abz adx ady adz > 0
  ∧ det3 abx aby abz adx ady adz acx acy acz * det3 apx apy apz adx ady adz acx acy acz > 0
  ∧ det3 bax bay baz bcx bcy bcz bdx bdy bdz * det3 bpx bpy bpz bcx bcy bcz bdx bdy bdz > 0

instance (st : State K) (x y z : K) : Decidable (cacheHit st x y z) := by
  unfold cacheHit; infer_instance

/-- The entry point `planet1`: resume from the cached tetrahedron at level 11
when the goal point passes the cache test, otherwise start from the root. -/
def planet1 (m : Libm K) (cfg : Config K) (fuel : Nat) (st : State K) (x y z : K) :
    Option (K × State K) :=
  if cacheHit st x y z then
    planet m cfg fuel st st.ssa st.ssb st.ssc st.ssd x y z 11
  else
    planet m cfg fuel st cfg.tetra0 cfg.tetra1 cfg.tetra2 cfg.tetra3 x y z cfg.Depth

/-- The seed cascade of `main`: `r1 = rseed; r1 = rand2(r1,r1); r2 = rand2(r1,r1);
r3 = rand2(r1,r2); r4 = rand2(r2,r3)`. -/
def rootSeeds (m : Libm K) (rseed : K) : K × K × K × K :=
  let r1 := rseed
  let r1 := rand2 m r1 r1
  let r2 := rand2 m r1 r1
  let r3 := rand2 m r1 r2
  let r4 := rand2 m r2 r3
  (r1, r2, r3, r4)

/-- The range `[-1,1)` that the data model gives to vertex seeds. -/
def SeedOK (s : K) : Prop := -1 ≤ s ∧ s < 1

instance (s : K) : Decidable (SeedOK s) := by
  unfold SeedOK; infer_instance

/-! ### The descent, step by step

The definitions below name the parts of one call of `planet` (rotation of the
tuple, snapshot, choice of the sub-tetrahedron, leaf) and iterate them; they are
related to `planet` by `planet_eq_descend`. -/

/-- The four vertices handed to `planet`. -/
structure Tetra (K : Type) where
  a : Vertex K
  b : Vertex K
  c : Vertex K
  d : Vertex K
deriving DecidableEq, Repr

/-- The vertices of a tuple, in order. -/
def Tetra.toList (t : Tetra K) : List (Vertex K) := [t.a, t.b, t.c, t.d]

/-- The six squared edge lengths `lab, lac, lad, lbc, lbd, lcd`. -/
def edges (t : Tetra K) : List K :=
  [dist2 t.a t.b, dist2 t.a t.c, dist2 t.a t.d, dist2 t.b t.c, dist2 t.b t.d, dist2 t.c t.d]

/-- Exactly one of the six squared edge lengths attains the maximum. -/
def HasStrictMax (t : Tetra K) : Prop :=
  ∃ l, (edges t).count l = 1 ∧ ∀ l1 ∈ edges t, l1 ≤ l

/-- Edge `ab` is strictly longer than the five other edges: the condition under
which a call of `planet` at a positive level reaches the split. -/
def StrictAB (t : Tetra K) : Prop :=
  dist2 t.a t.c < dist2 t.a t.b ∧ dist2 t.a t.d < dist2 t.a t.b
    ∧ dist2 t.b t.c < dist2 t.a t.b ∧ dist2 t.b t.d < dist2 t.a t.b
    ∧ dist2 t.c t.d < dist2 t.a t.b

instance (t : Tetra K) : Decidable (StrictAB t) := by
  unfold StrictAB; infer_instance

/-- The tuple of the recursive call that `planet` makes at the same level when
one of the five other edges attains `maxlength`; the tuple itself otherwise. -/
def rotate (t : Tetra K) : Tetra K :=
  if dist2 t.a t.c = maxlength t.a t.b t.c t.d then ⟨t.a, t.c, t.b, t.d⟩
  else if dist2 t.a t.d = maxlength t.a t.b t.c t.d then ⟨t.a, t.d, t.b, t.c⟩
  else if dist2 t.b t.c = maxlength t.a t.b t.c t.d then ⟨t.b, t.c, t.a, t.d⟩
  else if dist2 t.b t.d = maxlength t.a t.b t.c t.d then ⟨t.b, t.d, t.a, t.c⟩
  else if dist2 t.c t.d = maxlength t.a t.b t.c t.d then ⟨t.c, t.d, t.a, t.b⟩
  else t

/-- The tuple of the recursive call that `planet` makes at the next level after
cutting edge `ab`. -/
def child (m : Libm K) (cfg : Config K) (t : Tetra K) (x y z : K) : Tetra K :=
  if insideACDE t.a t.c t.d (splitVertex m cfg t.a t.b x y z) x y z then
    ⟨t.c, t.d, t.a, splitVertex m cfg t.a t.b x y z⟩
  else ⟨t.c, t.d, t.b, splitVertex m cfg t.a t.b x y z⟩

/-- The globals after the statement `if (level == 11) { ssa = a; ... }`. -/
def snapshot (st : State K) (t : Tetra K) (level : Int) : State K :=
  if level = 11 then { st with ssa := t.a, ssb := t.b, ssc := t.c, ssd := t.d } else st

/-- The result of the level-0 branch. -/
def leafResult (m : Libm K) (cfg : Config K) (st : State K) (t : Tetra K) (x y z : K) :
    K × State K :=
  (1 / 4 * (t.a.h + t.b.h + t.c.h + t.d.h),
    { st with
      rainShadow := 1 / 4 * (t.a.shadow + t.b.shadow + t.c.shadow + t.d.shadow)
      shade := leafShade m cfg st t.a t.b t.c t.d x y z })

/-- The descent of `planet` over `n` levels without fuel: at every level the
tuple is rotated once, and the descent stops with `none` when the rotated tuple
does not have `ab` strictly longest (the calls of `planet` then never end). -/
def descend (m : Libm K) (cfg : Config K) :
    Nat → State K → Tetra K → K → K → K → Option (K × State K)
  | 0, st, t, x, y, z => some (leafResult m cfg st t x y z)
  | n + 1, st, t, x, y, z =>
    if StrictAB (rotate t) then
      descend m cfg n (snapshot st (rotate t) (n + 1)) (child m cfg (rotate t) x y z) x y z
    else none

/-- No tie for the longest edge is met on the `n` levels of the descent. -/
def NoTie (m : Libm K) (cfg : Config K) : Nat → Tetra K → K → K → K → Prop
  | 0, _, _, _, _ => True
  | n + 1, t, x, y, z =>
    StrictAB (rotate t) ∧ NoTie m cfg n (child m cfg (rotate t) x y z) x y z

/-- Decision procedure for `NoTie`. -/
def NoTie.dec (m : Libm K) (cfg : Config K) :
    (n : Nat) → (t : Tetra K) → (x y z : K) → Decidable (NoTie m cfg n t x y z)
  | 0, _, _, _, _ => isTrue trivial
  | n + 1, t, x, y, z =>
    @instDecidableAnd _ _ inferInstance (NoTie.dec m cfg n (child m cfg (rotate t) x y z) x y z)

instance (m : Libm K) (cfg : Config K) (n : Nat) (t : Tetra K) (x y z : K) :
    Decidable (NoTie m cfg n t x y z) := NoTie.dec m cfg n t x y z

/-- All four seeds of a tuple lie in `[-1,1)`. -/
def SeedsOK (t : Tetra K) : Prop :=
  SeedOK t.a.s ∧ SeedOK t.b.s ∧ SeedOK t.c.s ∧ SeedOK t.d.s

instance (t : Tetra K) : Decidable (SeedsOK t) := by
  unfold SeedsOK; infer_instance

/-- The root tetrahedron `tetra[0..3]` of a configuration. -/
def Config.root (cfg : Config K) : Tetra K := ⟨cfg.tetra0, cfg.tetra1, cfg.tetra2, cfg.tetra3⟩

/-- The cached tetrahedron `(ssa,ssb,ssc,ssd)`. -/
def State.cache (st : State K) : Tetra K := ⟨st.ssa, st.ssb, st.ssc, st.ssd⟩

/-- The point `(x,y,z)` is the combination of the vertices of `t` with weights
`wa, wb, wc, wd` of sum 1 (barycentric coordinates). -/
def Bary (t : Tetra K) (x y z wa wb wc wd : K) : Prop :=
  wa + wb + wc + wd = 1
    ∧ x = wa * t.a.x + wb * t.b.x + wc * t.c.x + wd * t.d.x
    ∧ y = wa * t.a.y + wb * t.b.y + wc * t.c.y + wd * t.d.y
    ∧ z = wa * t.a.z + wb * t.b.z + wc * t.c.z + wd * t.d.z

instance (t : Tetra K) (x y z wa wb wc wd : K) : Decidable (Bary t x y z wa wb wc wd) := by
  unfold Bary; infer_instance

/-- The point lies in the closed tetrahedron: non-negative barycentric coordinates. -/
def InTetra (t : Tetra K) (x y z : K) : Prop :=
  ∃ wa wb wc wd : K, 0 ≤ wa ∧ 0 ≤ wb ∧ 0 ≤ wc ∧ 0 ≤ wd ∧ Bary t x y z wa wb wc wd

/-- The point lies strictly inside the tetrahedron: positive barycentric coordinates. -/
def StrictIn (t : Tetra K) (x y z : K) : Prop :=
  ∃ wa wb wc wd : K, 0 < wa ∧ 0 < wb ∧ 0 < wc ∧ 0 < wd ∧ Bary t x y z wa wb wc wd

/-- Six times the signed volume of the tetrahedron. -/
def vol (t : Tetra K) : K :=
  det3 (t.b.x - t.a.x) (t.b.y - t.a.y) (t.b.z - t.a.z)
    (t.c.x - t.a.x) (t.c.y - t.a.y) (t.c.z - t.a.z)
    (t.d.x - t.a.x) (t.d.y - t.a.y) (t.d.z - t.a.z)

/-- The vertex `e` is the point `s*a + (1-s)*b` of the line `ab`. -/
def CutAt (a b e : Vertex K) (s : K) : Prop :=
  e.x = s * a.x + (1 - s) * b.x ∧ e.y = s * a.y + (1 - s) * b.y
    ∧ e.z = s * a.z + (1 - s) * b.z

/-- The vertex `e` lies on edge `ab`, strictly between `a` and `b`. -/
def Between (a b e : Vertex K) : Prop := ∃ s : K, 0 < s ∧ s < 1 ∧ CutAt a b e s

/-- General position over `n` levels of the descent: at every level one edge is
strictly the longest and the goal point is not on the plane through `c`, `d`
and the cut point (the product tested by `planet` is not 0). -/
def GenPos (m : Libm K) (cfg : Config K) : Nat → Tetra K → K → K → K → Prop
  | 0, _, _, _, _ => True
  | n + 1, t, x, y, z =>
    StrictAB (rotate t)
      ∧ sideProduct (rotate t).a (rotate t).c (rotate t).d
          (splitVertex m cfg (rotate t).a (rotate t).b x y z) x y z ≠ 0
      ∧ GenPos m cfg n (child m cfg (rotate t) x y z) x y z

/-- Decision procedure for `GenPos`. -/
def GenPos.dec (m : Libm K) (cfg : Config K) :
    (n : Nat) → (t : Tetra K) → (x y z : K) → Decidable (GenPos m cfg n t x y z)
  | 0, _, _, _, _ => isTrue trivial
  | n + 1, t, x, y, z =>
    @instDecidableAnd _ _ inferInstance
      (@instDecidableAnd _ _ inferInstance
        (GenPos.dec m cfg n (child m cfg (rotate t) x y z) x y z))

instance (m : Libm K) (cfg : Config K) (n : Nat) (t : Tetra K) (x y z : K) :
    Decidable (GenPos m cfg n t x y z) := GenPos.dec m cfg n t x y z

/-- A vertex with its rain shadow erased: what the altitudes and the
point location depend on. -/
def Vertex.geo (v : Vertex K) : Vertex K := { v with shadow := 0 }

/-- A tuple with the rain shadows of its vertices erased. -/
def Tetra.geo (t : Tetra K) : Tetra K := ⟨t.a.geo, t.b.geo, t.c.geo, t.d.geo⟩

/-- The tuple reached after `k` levels of the descent towards `(x,y,z)`,
before it is rotated. -/
def descTetra (m : Libm K) (cfg : Config K) : Nat → Tetra K → K → K → K → Tetra K
  | 0, t, _, _, _ => t
  | k + 1, t, x, y, z => descTetra m cfg k (child m cfg (rotate t) x y z) x y z

/-- The globals `st` hold a cache filled by earlier queries of `planet1` under
the configuration `cfg`: a first query that started from the root (from any
globals), followed by any number of queries, each of which returned. -/
inductive CacheFrom (m : Libm K) (cfg : Config K) : State K → Prop
  | first (fuel : Nat) (st0 : State K) (x y z h : K) (st : State K) :
      ¬ cacheHit st0 x y z → planet1 m cfg fuel st0 x y z = some (h, st) → CacheFrom m cfg st
  | next (fuel : Nat) (st0 : State K) (x y z h : K) (st : State K) :
      CacheFrom m cfg st0 → planet1 m cfg fuel st0 x y z = some (h, st) → CacheFrom m cfg st

/-! ### The sample pipeline `planet0` -/

/-- The C functions `min(x,y)` and `max(x,y)` on `int`. -/
def cmin (u v : Int) : Int := if u < v then u else v

/-- The C function `max(x,y)`. -/
def cmax (u v : Int) : Int := if u < v then v else u

/-- The Whittaker diagram `biomes[45][45]`, one string per row. -/
def biomesRows : List String := [
    "IIITTTTTGGGGGGGGDDDDDDDDDDDDDDDDDDDDDDDDDDDDD",
    "IIITTTTTGGGGGGGGDDDDGGDSDDSDDDDDDDDDDDDDDDDDD",
    "IITTTTTTTTTBGGGGGGGGGGGSSSSSSDDDDDDDDDDDDDDDD",
    "IITTTTTTTTBBBBBBGGGGGGGSSSSSSSSSWWWWWWWDDDDDD",
    "IITTTTTTTTBBBBBBGGGGGGGSSSSSSSSSSWWWWWWWWWWDD",
    "IIITTTTTTTBBBBBBFGGGGGGSSSSSSSSSSSWWWWWWWWWWW",
    "IIIITTTTTTBBBBBBFFGGGGGSSSSSSSSSSSWWWWWWWWWWW",
    "IIIIITTTTTBBBBBBFFFFGGGSSSSSSSSSSSWWWWWWWWWWW",
    "IIIIITTTTTBBBBBBBFFFFGGGSSSSSSSSSSSWWWWWWWWWW",
    "IIIIIITTTTBBBBBBBFFFFFFGGGSSSSSSSSWWWWWWWWWWW",
    "IIIIIIITTTBBBBBBBFFFFFFFFGGGSSSSSSWWWWWWWWWWW",
    "IIIIIIIITTBBBBBBBFFFFFFFFFFGGSSSSSWWWWWWWWWWW",
    "IIIIIIIIITBBBBBBBFFFFFFFFFFFFFSSSSWWWWWWWWWWW",
    "IIIIIIIIIITBBBBBBFFFFFFFFFFFFFFFSSEEEWWWWWWWW",
    "IIIIIIIIIITBBBBBBFFFFFFFFFFFFFFFFFFEEEEEEWWWW",
    "IIIIIIIIIIIBBBBBBFFFFFFFFFFFFFFFFFFEEEEEEEEWW",
    "IIIIIIIIIIIBBBBBBRFFFFFFFFFFFFFFFFFEEEEEEEEEE",
    "IIIIIIIIIIIIBBBBBBRFFFFFFFFFFFFFFFFEEEEEEEEEE",
    "IIIIIIIIIIIIIBBBBBRRRFFFFFFFFFFFFFFEEEEEEEEEE",
    "IIIIIIIIIIIIIIIBBBRRRRRFFFFFFFFFFFFEEEEEEEEEE",
    "IIIIIIIIIIIIIIIIIBRRRRRRRFFFFFFFFFFEEEEEEEEEE",
    "IIIIIIIIIIIIIIIIIRRRRRRRRRRFFFFFFFFEEEEEEEEEE",
    "IIIIIIIIIIIIIIIIIIRRRRRRRRRRRRFFFFFEEEEEEEEEE",
    "IIIIIIIIIIIIIIIIIIIRRRRRRRRRRRRRFRREEEEEEEEEE",
    "IIIIIIIIIIIIIIIIIIIIIRRRRRRRRRRRRRRRREEEEEEEE",
    "IIIIIIIIIIIIIIIIIIIIIIIRRRRRRRRRRRRRROOEEEEEE",
    "IIIIIIIIIIIIIIIIIIIIIIIIRRRRRRRRRRRROOOOOEEEE",
    "IIIIIIIIIIIIIIIIIIIIIIIIIIRRRRRRRRRROOOOOOEEE",
    "IIIIIIIIIIIIIIIIIIIIIIIIIIIRRRRRRRRROOOOOOOEE",
    "IIIIIIIIIIIIIIIIIIIIIIIIIIIIRRRRRRRROOOOOOOEE",
    "IIIIIIIIIIIIIIIIIIIIIIIIIIIIIRRRRRRROOOOOOOOE",
    "IIIIIIIIIIIIIIIIIIIIIIIIIIIIIIRRRRROOOOOOOOOO",
    "IIIIIIIIIIIIIIIIIIIIIIIIIIIIIIIIRROOOOOOOOOOO",
    "IIIIIIIIIIIIIIIIIIIIIIIIIIIIIIIIIROOOOOOOOOOO",
    "IIIIIIIIIIIIIIIIIIIIIIIIIIIIIIIIIROOOOOOOOOOO",
    "IIIIIIIIIIIIIIIIIIIIIIIIIIIIIIIIIIOOOOOOOOOOO",
    "IIIIIIIIIIIIIIIIIIIIIIIIIIIIIIIIIIIOOOOOOOOOO",
    "IIIIIIIIIIIIIIIIIIIIIIIIIIIIIIIIIIIIOOOOOOOOO",
    "IIIIIIIIIIIIIIIIIIIIIIIIIIIIIIIIIIIIOOOOOOOOO",
    "IIIIIIIIIIIIIIIIIIIIIIIIIIIIIIIIIIIIIOOOOOOOO",
    "IIIIIIIIIIIIIIIIIIIIIIIIIIIIIIIIIIIIIOOOOOOOO",
    "IIIIIIIIIIIIIIIIIIIIIIIIIIIIIIIIIIIIIOOOOOOOO",
    "IIIIIIIIIIIIIIIIIIIIIIIIIIIIIIIIIIIIIOOOOOOOO",
    "IIIIIIIIIIIIIIIIIIIIIIIIIIIIIIIIIIIIIIOOOOOOO",
    "IIIIIIIIIIIIIIIIIIIIIIIIIIIIIIIIIIIIIIOOOOOOO"]

/-- The character code `biomes[tt][rr]` (0 outside the table). -/
def biomes (tt rr : Int) : Int :=
  if 0 ≤ tt ∧ 0 ≤ rr then
    ((((biomesRows.getD tt.toNat "").toList.getD rr.toNat (Char.ofNat 0)).toNat : Nat) : Int)
  else 0

/-- Global variables that `planet0` reads besides those of `Config`: display
flags, latitude colouring, the palette roles, the output type and the grid
spacings. -/
structure Display (K : Type) where
  temperature : Int
  nonLinear : Int
  latic : Int
  LOWEST : Int
  SEA : Int
  LAND : Int
  HIGHEST : Int
  heightfield : Bool
  vgrid : K
  hgrid : K

/-- The statistics `tempMin`, `tempMax`, `rainMin`, `rainMax` updated by `planet0`. -/
structure Stats (K : Type) where
  tempMin : K
  tempMax : K
  rainMin : K
  rainMax : K
deriving DecidableEq, Repr

/-- What `planet0` stores for the pixel `(i,j)`: `col[i][j]`, and, when the
corresponding store is executed, `heights[i][j]`, `xxx[i][j]`, `zzz[i][j]`,
`yyy[i][j]` and `shades[i][j]`. -/
structure Pixel (K : Type) where
  col : Int
  heights : Option Int
  xxx : Option K
  zzz : Option K
  yyy : Option K
  shades : Option Int
deriving DecidableEq, Repr

/-- The local `temp` of `planet0` for the altitude `alt` returned by `planet1`. -/
def tempOf (m : Libm K) (alt y : K) : K :=
  let sun := m.sqrt (1 - y * y)
  if alt < 0 then sun / 8 + alt * (3 / 10) else sun / 8 - alt * (12 / 10)

/-- The local `rain` of `planet0`. -/
def rainOf (temp y rainShadow : K) : K :=
  let y2 := |y| - 1 / 2
  let rain := temp * (65 / 100) + 1 / 10 - 11 / 1000 / (y2 * y2 + 1 / 10)
  let rain := rain + 3 / 100 * rainShadow
  if rain < 0 then 0 else rain

/-- The sea ramp `colour = SEA+(int)((SEA-LOWEST+1)*(10*alt))`, raised to
`LOWEST` when below it. -/
def seaColour (m : Libm K) (dsp : Display K) (alt : K) : Int :=
  let colour := dsp.SEA + toInt m (((dsp.SEA - dsp.LOWEST + 1 : Int) : K) * (10 * alt))
  if colour < dsp.LOWEST then dsp.LOWEST else colour

/-- The colour computed by `planet0` from the display altitude `alt` (the local
`alt` after the temperature, rainfall and non-linear replacements), the locals
`temp` and `rain`, and the coordinate `y`. -/
def colourOf (m : Libm K) (cfg : Config K) (dsp : Display K) (alt temp rain y : K) : Int :=
  let y2 := y * y
  let y2 := y2 * y2
  let y2 := y2 * y2
  if cfg.makeBiomes ≠ 0 then
    let tt := cmin 44 (cmax 0 (toInt m (rain * 300 - 9)))
    let rr := cmin 44 (cmax 0 (toInt m (temp * 300 + 10)))
    let bio := biomes tt rr
    if alt ≤ 0 then seaColour m dsp alt else bio - 64 + dsp.LAND
  else if alt ≤ 0 then
    if dsp.latic > 0 ∧ y2 + alt ≥ 1 - 2 / 100 * (dsp.latic : K) * (dsp.latic : K) then dsp.HIGHEST
    else seaColour m dsp alt
  else
    let alt := if dsp.latic ≠ 0 then alt + 1 / 10 * (dsp.latic : K) * y2 else alt
    if alt ≥ 1 / 10 then dsp.HIGHEST
    else
      let colour := dsp.LAND + toInt m (((dsp.HIGHEST - dsp.LAND + 1 : Int) : K) * (10 * alt))
      if colour > dsp.HIGHEST then dsp.HIGHEST else colour

/-- The statistics after the two updates of `tempMin`/`tempMax` and the two
updates of `rainMin`/`rainMax`; `alt0` is the altitude returned by `planet1`
and `alt1` the value of the local `alt` when the rainfall statistics are updated. -/
def updateStats (stats : Stats K) (alt0 alt1 temp rain : K) : Stats K :=
  let tempMin := if temp < stats.tempMin ∧ alt0 > 0 then temp else stats.tempMin
  let tempMax := if temp > stats.tempMax ∧ alt0 > 0 then temp else stats.tempMax
  let rainMin := if rain < stats.rainMin ∧ alt1 > 0 then rain else stats.rainMin
  let rainMax := if rain > stats.rainMax ∧ alt1 > 0 then rain else stats.rainMax
  { tempMin := tempMin, tempMax := tempMax, rainMin := rainMin, rainMax := rainMax }

/-- The sample pipeline `planet0` for the goal point `(x,y,z)`: the pixel
stores, the statistics and the globals of `planet` as the call leaves them. -/
def planet0 (m : Libm K) (cfg : Config K) (dsp : Display K) (fuel : Nat) (st : State K)
    (stats : Stats K) (x y z : K) : Option (Pixel K × Stats K × State K) :=
  match planet1 m cfg fuel st x y z with
  | none => none
  | some (alt0, st1) =>
    let temp := tempOf m alt0 y
    let alt1 := if dsp.temperature ≠ 0 then temp - 5 / 100 else alt0
    let rain := rainOf temp y st1.rainShadow
    let stats1 := updateStats stats alt0 alt1 temp rain
    let alt2 := if cfg.rainfall ≠ 0 then rain - 2 / 100 else alt1
    let alt3 := if dsp.nonLinear ≠ 0 then alt2 * alt2 * alt2 * 300 else alt2
    some
      ({ col := colourOf m cfg dsp alt3 temp rain y
         heights := if dsp.heightfield then some (toInt m (10000000 * alt3)) else none
         xxx := if dsp.vgrid ≠ 0 then some x else none
         zzz := if dsp.vgrid ≠ 0 then some z else none
         yyy := if dsp.hgrid ≠ 0 ∨ dsp.vgrid ≠ 0 then some y else none
         shades := if cfg.doshade > 0 then some st1.shade else none },
        stats1, st1)

/-! ### Shading and rain shadow: the converted value and the divisions -/

/-- The operand of the conversion `(int)(...)` in the bump-map branch of the
level-0 code: `(-sin(a1)*y2 - cos(a1)*z2)/l1*48.0 + 128.0`. -/
def bumpValue (m : Libm K) (cfg : Config K) (a b c d : Vertex K) (x y z : K) : K :=
  let x1 := 1 / 4 * (a.x + b.x + c.x + d.x)
  let x1 := a.h * (x1 - a.x) + b.h * (x1 - b.x) + c.h * (x1 - c.x) + d.h * (x1 - d.x)
  let y1 := 1 / 4 * (a.y + b.y + c.y + d.y)
  let y1 := a.h * (y1 - a.y) + b.h * (y1 - b.y) + c.h * (y1 - c.y) + d.h * (y1 - d.y)
  let z1 := 1 / 4 * (a.z + b.z + c.z + d.z)
  let z1 := a.h * (z1 - a.z) + b.h * (z1 - b.z) + c.h * (z1 - c.z) + d.h * (z1 - d.z)
  let l1 := m.sqrt (x1 * x1 + y1 * y1 + z1 * z1)
  let l1 := if l1 = 0 then 1 else l1
  let tmp := m.sqrt (1 - y * y)
  let tmp := if tmp < 1 / 10000 then 1 / 10000 else tmp
  let y2 := (-x) * y / tmp * x1 + tmp * y1 - z * y / tmp * z1
  let z2 := (-z) / tmp * x1 + x / tmp * z1
  ((-m.sin (PI * cfg.shade_angle / 180)) * y2 - m.cos (PI * cfg.shade_angle / 180) * z2)
    / l1 * 48 + 128

/-- The two clamps `if (shade<10) shade = 10; if (shade>255) shade = 255;`. -/
def clampShade (shade : Int) : Int :=
  let shade := if shade < 10 then 10 else shade
  if shade > 255 then 255 else shade

/-- The local `tmp` after its guard: `tmp = sqrt(1.0-y*y); if (tmp<0.0001) tmp = 0.0001;`. -/
def guardTmp (m : Libm K) (y : K) : K :=
  let tmp := m.sqrt (1 - y * y)
  if tmp < 1 / 10000 then 1 / 10000 else tmp

/-- The local `l1` after its guard: `l1 = sqrt(x1*x1+y1*y1+z1*z1); if (l1==0.0) l1 = 1.0;`. -/
def guardLen (m : Libm K) (x1 y1 z1 : K) : K :=
  let l1 := m.sqrt (x1 * x1 + y1 * y1 + z1 * z1)
  if l1 = 0 then 1 else l1

/-- Division that fails on a zero divisor. -/
def cdiv (u v : K) : Option K := if v = 0 then none else some (u / v)

/-- The rain-shadow computation of `planet` with every division checked: `none`
when a divisor is 0. -/
def splitShadowChk (m : Libm K) (cfg : Config K) (a b : Vertex K) (x y z eh : K) : Option K :=
  if eh ≤ 0 ∨ ¬ (cfg.rainfall ≠ 0 ∨ cfg.makeBiomes ≠ 0) then some 0
  else
    let x1 := 1 / 2 * (a.x + b.x)
    let x1 := a.h * (x1 - a.x) + b.h * (x1 - b.x)
    let y1 := 1 / 2 * (a.y + b.y)
    let y1 := a.h * (y1 - a.y) + b.h * (y1 - b.y)
    let z1 := 1 / 2 * (a.z + b.z)
    let z1 := a.h * (z1 - a.z) + b.h * (z1 - b.z)
    let l1 := guardLen m x1 y1 z1
    let tmp := guardTmp m y
    (cdiv (-z) tmp).bind fun q1 =>
    (cdiv x tmp).bind fun q2 =>
    let z2 := q1 * x1 + q2 * z1
    if labAfter m cfg a b > 4 / 100 then
      (cdiv (m.cos (PI * cfg.shade_angle / 180) * z2) l1).bind fun q3 =>
      cdiv (a.shadow + b.shadow - q3) 3
    else
      cdiv (a.shadow + b.shadow) 2

/-- The level-0 shading code of `planet` with every division checked: `none`
when a divisor is 0. -/
def leafShadeChk (m : Libm K) (cfg : Config K) (st : State K) (a b c d : Vertex K)
    (x y z : K) : Option Int :=
  if cfg.doshade = 1 ∨ cfg.doshade = 2 then
    let x1 := 1 / 4 * (a.x + b.x + c.x + d.x)
    let x1 := a.h * (x1 - a.x) + b.h * (x1 - b.x) + c.h * (x1 - c.x) + d.h * (x1 - d.x)
    let y1 := 1 / 4 * (a.y + b.y + c.y + d.y)
    let y1 := a.h * (y1 - a.y) + b.h * (y1 - b.y) + c.h * (y1 - c.y) + d.h * (y1 - d.y)
    let z1 := 1 / 4 * (a.z + b.z + c.z + d.z)
    let z1 := a.h * (z1 - a.z) + b.h * (z1 - b.z) + c.h * (z1 - c.z) + d.h * (z1 - d.z)
    let l1 := guardLen m x1 y1 z1
    let tmp := guardTmp m y
    (cdiv ((-x) * y) tmp).bind fun q1 =>
    (cdiv (z * y) tmp).bind fun q2 =>
    let y2 := q1 * x1 + tmp * y1 - q2 * z1
    (cdiv (-z) tmp).bind fun q3 =>
    (cdiv x tmp).bind fun q4 =>
    let z2 := q3 * x1 + q4 * z1
    (cdiv ((-m.sin (PI * cfg.shade_angle / 180)) * y2
      - m.cos (PI * cfg.shade_angle / 180) * z2) l1).bind fun q5 =>
    let shade := clampShade (toInt m (q5 * 48 + 128))
    some (if cfg.doshade = 2 ∧ a.h + b.h + c.h + d.h < 0 then 150 else shade)
  else if cfg.doshade = 3 then
    let hh := a.h + b.h + c.h + d.h
    let x0 := 1 / 4 * (a.x + b.x + c.x + d.x)
    let x0 := a.h * (x0 - a.x) + b.h * (x0 - b.x) + c.h * (x0 - c.x) + d.h * (x0 - d.x)
    let y0 := 1 / 4 * (a.y + b.y + c.y + d.y)
    let y0 := a.h * (y0 - a.y) + b.h * (y0 - b.y) + c.h * (y0 - c.y) + d.h * (y0 - d.y)
    let z0 := 1 / 4 * (a.z + b.z + c.z + d.z)
    let z0 := a.h * (z0 - a.z) + b.h * (z0 - b.z) + c.h * (z0 - c.z) + d.h * (z0 - d.z)
    let l0 := 5 * m.sqrt (x0 * x0 + y0 * y0 + z0 * z0)
    let x1 := if hh ≤ 0 then x else x0 + x * l0
    let y1 := if hh ≤ 0 then y else y0 + y * l0
    let z1 := if hh ≤ 0 then z else z0 + z * l0
    let l1 := guardLen m x1 y1 z1
    let x2 := m.cos (PI * cfg.shade_angle / 180 - 1 / 2 * PI)
      * m.cos (PI * cfg.shade_angle2 / 180)
    let y2 := -m.sin (PI * cfg.shade_angle2 / 180)
    let z2 := (-m.sin (PI * cfg.shade_angle / 180 - 1 / 2 * PI))
      * m.cos (PI * cfg.shade_angle2 / 180)
    (cdiv (x1 * x2 + y1 * y2 + z1 * z2) l1).bind fun q =>
    some (clampShade (toInt m (q * 170 + 10)))
  else some st.shade

/-! ### The map lookup of planet_mod.c -/

/-- The locals `(xx, yy)` of the map branch of `planet` in planet.c. -/
def mapCoords (m : Libm K) (cfg : Config K) (ex ey ez : K) : K × K :=
  let l := m.sqrt (ex * ex + ey * ey + ez * ez)
  let yy := m.asin (ey / l) * ((cfg.MatchHeight - 1 : Int) : K) / PI
    + ((cfg.MatchHeight - 1 : Int) : K) / 2
  let xx := m.atan2 ex ez * ((cfg.MatchWidth - 1 : Int) : K) / 2 / PI
    + ((cfg.MatchWidth - 1 : Int) : K) / 2
  (xx, yy)

/-- The locals `(xx, yy)` of the map branch of `planet` in planet_mod.c:
`yy = asin(e.y/l)*23/PI + 11.5; xx = atan2(e.x,e.z)*23.5/PI + 23.5`. -/
def mapCoordsMod (m : Libm K) (ex ey ez : K) : K × K :=
  let l := m.sqrt (ex * ex + ey * ey + ez * ez)
  let yy := m.asin (ey / l) * 23 / PI + 115 / 10
  let xx := m.atan2 ex ez * (235 / 10) / PI + 235 / 10
  (xx, yy)

/-- The altitude `e.h` of the new vertex as `planet` computes it in planet_mod.c. -/
def splitHMod (m : Libm K) (cfg : Config K) (a b : Vertex K) (ex ey ez : K) : K :=
  if useMap cfg a b then
    let l := m.sqrt (ex * ex + ey * ey + ez * ez)
    let yy := m.asin (ey / l) * 23 / PI + 115 / 10
    let xx := m.atan2 ex ez * (235 / 10) / PI + 235 / 10
    ((cfg.cl0 (toInt m (xx + 1 / 2)) (toInt m (yy + 1 / 2)) : Int) : K) * (1 / 10) / 8
  else
    1 / 2 * (a.h + b.h)
      + splitSeed m a b * cfg.dd1 * m.pow |a.h - b.h| cfg.POWA
      + splitEs1 m a b * cfg.dd2 * m.pow (labAfter m cfg a b) cfg.POW

/-! ### The root tetrahedron of `main` -/

/-- The macro `DEG2RAD`, 0.01745329251994329576923. -/
def DEG2RAD : K := 1745329251994329576923 / 100000000000000000000000

/-- The positions that `main` assigns to `tetra[0..3]`; the other fields of the
global array are still zero at that point. -/
def mainTetra (m : Libm K) : Tetra K :=
  ⟨⟨0, 0, -m.sqrt 3 - 20 / 100, -m.sqrt 3 - 22 / 100, -m.sqrt 3 - 23 / 100, 0⟩,
    ⟨0, 0, -m.sqrt 3 - 19 / 100, m.sqrt 3 + 18 / 100, m.sqrt 3 + 17 / 100, 0⟩,
    ⟨0, 0, m.sqrt 3 + 21 / 100, -m.sqrt 3 - 24 / 100, m.sqrt 3 + 15 / 100, 0⟩,
    ⟨0, 0, m.sqrt 3 + 24 / 100, m.sqrt 3 + 22 / 100, -m.sqrt 3 - 25 / 100, 0⟩⟩

/-- One pass of the loop "rotate around y axis" of `main`. -/
def rotY (sR2 cR2 : K) (v : Vertex K) : Vertex K :=
  let tx := v.x
  let ty := v.y
  let tz := v.z
  { v with x := cR2 * tx + sR2 * tz, y := ty, z := (-sR2) * tx + cR2 * tz }

/-- One pass of the loop "rotate around x axis" of `main`. -/
def rotX (sR1 cR1 : K) (v : Vertex K) : Vertex K :=
  let tx := v.x
  let ty := v.y
  let tz := v.z
  { v with x := tx, y := cR1 * ty - sR1 * tz, z := sR1 * ty + cR1 * tz }

/-- The two rotation loops of `main` for the option values `rotate1`, `rotate2`
(in degrees), applied to the four vertices. -/
def rotateTetra (m : Libm K) (rotate1 rotate2 : K) (t : Tetra K) : Tetra K :=
  let rotate1 := (-rotate1) * DEG2RAD
  let rotate2 := (-rotate2) * DEG2RAD
  let sR1 := m.sin rotate1
  let cR1 := m.cos rotate1
  let sR2 := m.sin rotate2
  let cR2 := m.cos rotate2
  let t : Tetra K := ⟨rotY sR2 cR2 t.a, rotY sR2 cR2 t.b, rotY sR2 cR2 t.c, rotY sR2 cR2 t.d⟩
  ⟨rotX sR1 cR1 t.a, rotX sR1 cR1 t.b, rotX sR1 cR1 t.c, rotX sR1 cR1 t.d⟩

/-- The vector `(x1,y1,z1)` of the level-0 shading code (bump map): the
altitude-weighted gradient estimate. -/
def leafGrad (a b c d : Vertex K) : K × K × K :=
  let x1 := 1 / 4 * (a.x + b.x + c.x + d.x)
  let x1 := a.h * (x1 - a.x) + b.h * (x1 - b.x) + c.h * (x1 - c.x) + d.h * (x1 - d.x)
  let y1 := 1 / 4 * (a.y + b.y + c.y + d.y)
  let y1 := a.h * (y1 - a.y) + b.h * (y1 - b.y) + c.h * (y1 - c.y) + d.h * (y1 - d.y)
  let z1 := 1 / 4 * (a.z + b.z + c.z + d.z)
  let z1 := a.h * (z1 - a.z) + b.h * (z1 - b.z) + c.h * (z1 - c.z) + d.h * (z1 - d.z)
  (x1, y1, z1)

/-- The operand `x1*x1+y1*y1+z1*z1` of the square root that gives `l1` in the
level-0 shading code (bump map). -/
def leafGrad2 (a b c d : Vertex K) : K :=
  (leafGrad a b c d).1 * (leafGrad a b c d).1
    + (leafGrad a b c d).2.1 * (leafGrad a b c d).2.1
    + (leafGrad a b c d).2.2 * (leafGrad a b c d).2.2

/-! ### Option processing in `main` -/

/-- The case `'S'` of the option loop: `dd1 /= 2.0; POWA = 0.75;`. -/
def optS (cfg : Config K) : Config K := { cfg with dd1 := cfg.dd1 / 2, POWA := 75 / 100 }

/-- The loop `while (r<-180) r += 360;`, with fuel for the number of tests of
the condition; `none` means the fuel ran out. -/
def whileBelow : Nat → K → Option K
  | 0, _ => none
  | fuel + 1, r => if r < -180 then whileBelow fuel (r + 360) else some r

/-- The loop `while (r>180) r -= 360;`. -/
def whileAbove : Nat → K → Option K
  | 0, _ => none
  | fuel + 1, r => if r > 180 then whileAbove fuel (r - 360) else some r

/-- The loop `while (rotate2>180) rotate2 += 360;` of the case `'T'`. -/
def whileAboveAdd : Nat → K → Option K
  | 0, _ => none
  | fuel + 1, r => if r > 180 then whileAboveAdd fuel (r + 360) else some r

/-- The two loops of the case `'l'` applied to the parsed `longi`. -/
def normLongi (fuel : Nat) (longi : K) : Option K :=
  (whileBelow fuel longi).bind fun longi => whileAbove fuel longi

/-- The four loops of the case `'T'` applied to the parsed `rotate1` and
`rotate2`; the result is `(rotate1, rotate2)`. -/
def normRotate (fuel : Nat) (rotate1 rotate2 : K) : Option (K × K) :=
  (whileBelow fuel rotate1).bind fun rotate1 =>
  (whileAbove fuel rotate1).bind fun rotate1 =>
  (whileBelow fuel rotate2).bind fun rotate2 =>
  (whileAboveAdd fuel rotate2).bind fun rotate2 => some (rotate1, rotate2)

/-- The squared distances of all pairs of a list of vertices. -/
def pairDists : List (Vertex K) → List K
  | [] => []
  | v :: l => l.map (dist2 v) ++ pairDists l

end Defs

/-! ## The palette set up by `readcolors` -/

/-- The globals that `readcolors` reads and writes: the number of colours, the
palette roles and the three colour tables. -/
structure Palette where
  nocols : Int
  LOWEST : Int
  SEA : Int
  LAND : Int
  HIGHEST : Int
  rtable : Int → Int
  gtable : Int → Int
  btable : Int → Int

/-- The four integers that one successful `fscanf(" %d %d %d %d")` leaves in
`cNum`, `rValue`, `gValue`, `bValue`. -/
structure ColRec where
  cNum : Int
  rValue : Int
  gValue : Int
  bValue : Int
deriving DecidableEq, Repr

/-- The values that one successful `fscanf(" %c %d %d %d")` of the biome colour
file leaves in `letter`, `rValue`, `gValue`, `bValue`. -/
structure BioRec where
  letter : Int
  rValue : Int
  gValue : Int
  bValue : Int
deriving DecidableEq, Repr

/-- The assignment `t[i] = v`. -/
def setTab (t : Int → Int) (i v : Int) : Int → Int := fun j => if j = i then v else t j

/-- The loop `for (i = oldcNum+1; i<cNum; i++) t[i] = (t[oldcNum]*(cNum-i)+
t[cNum]*(i-oldcNum)) / (cNum-oldcNum)` for one colour table. -/
def interpolate (t : Int → Int) (oldcNum cNum : Int) : Int → Int :=
  (List.range (cNum - (oldcNum + 1)).toNat).foldl
    (fun t k =>
      let i := oldcNum + 1 + (k : Int)
      setTab t i (Int.tdiv (t oldcNum * (cNum - i) + t cNum * (i - oldcNum)) (cNum - oldcNum)))
    t

/-- One pass of the reading loop whose `fscanf` stored the record `r`; the first
component is the local `cNum`. -/
def readRecord (s : Int × Palette) (r : ColRec) : Int × Palette :=
  let oldcNum := s.1
  let cNum := r.cNum
  let cNum := if cNum < oldcNum then oldcNum else cNum
  let cNum := if cNum > 65535 then 65535 else cNum
  (cNum,
    { s.2 with
      rtable := interpolate (setTab s.2.rtable cNum r.rValue) oldcNum cNum
      gtable := interpolate (setTab s.2.gtable cNum r.gValue) oldcNum cNum
      btable := interpolate (setTab s.2.btable cNum r.bValue) oldcNum cNum })

/-- The local `cNum` and the tables after the reading loop, started with `cNum = 0`. -/
def readRecords (pal : Palette) (recs : List ColRec) : Int × Palette :=
  recs.foldl readRecord (0, pal)

/-- The loop `for (i = cNum+1; i<nocols; i++) t[i] = t[cNum]` for one colour table. -/
def fillRest (t : Int → Int) (cNum nocols : Int) : Int → Int :=
  (List.range (nocols - (cNum + 1)).toNat).foldl
    (fun t k => setTab t (cNum + 1 + (k : Int)) (t cNum)) t

/-- The three assignments `rtable[letter-64+LAND] = r; gtable[...] = g; btable[...] = b`. -/
def setBiome (p : Palette) (letter r g b : Int) : Palette :=
  { p with
    rtable := setTab p.rtable (letter - 64 + p.LAND) r
    gtable := setTab p.gtable (letter - 64 + p.LAND) g
    btable := setTab p.btable (letter - 64 + p.LAND) b }

/-- The default biome colours, in the order of the assignments: the letters
I, T, G, B, D, S, F, R, W, E, O with their red, green and blue values. -/
def biomeDefaults : List BioRec :=
  [⟨73, 255, 255, 255⟩, ⟨84, 210, 210, 210⟩, ⟨71, 250, 215, 165⟩, ⟨66, 105, 155, 120⟩,
    ⟨68, 220, 195, 175⟩, ⟨83, 225, 155, 100⟩, ⟨70, 155, 215, 170⟩, ⟨82, 170, 195, 200⟩,
    ⟨87, 185, 150, 160⟩, ⟨69, 130, 190, 25⟩, ⟨79, 110, 160, 170⟩]

/-- The test `strchr("ITGBDSFRWEO",letter)>0`: the letter occurs in the string,
whose terminating null character counts. -/
def isBiomeLetter (letter : Int) : Bool :=
  letter = 0 || ("ITGBDSFRWEO".toList.map fun ch => (ch.toNat : Int)).contains letter

/-- The function `readcolors`: `recs` are the records of the colour file in file
order, `bio` the records of the biome colour file (`none` when it cannot be
opened), `makeBiomes` the global flag. -/
def readcolors (makeBiomes : Int) (pal : Palette) (recs : List ColRec)
    (bio : Option (List BioRec)) : Palette :=
  let s := readRecords pal recs
  let cNum := s.1
  let nocols := cNum + 1
  let nocols := if nocols < 10 then 10 else nocols
  let HIGHEST := nocols - 1
  let SEA := Int.tdiv (HIGHEST + s.2.LOWEST) 2
  let LAND := SEA + 1
  let p : Palette :=
    { s.2 with
      nocols := nocols, HIGHEST := HIGHEST, SEA := SEA, LAND := LAND
      rtable := fillRest s.2.rtable cNum nocols
      gtable := fillRest s.2.gtable cNum nocols
      btable := fillRest s.2.btable cNum nocols }
  if makeBiomes ≠ 0 then
    let p := biomeDefaults.foldl (fun p r => setBiome p r.letter r.rValue r.gValue r.bValue) p
    match bio with
    | none => p
    | some rs =>
      rs.foldl
        (fun p r => if isBiomeLetter r.letter then setBiome p r.letter r.rValue r.gValue r.bValue
          else p) p
  else p

/-- The number of colours and the four palette roles of a palette:
`(nocols, LOWEST, SEA, LAND, HIGHEST)`. -/
def Palette.roles (p : Palette) : Int × Int × Int × Int × Int :=
  (p.nocols, p.LOWEST, p.SEA, p.LAND, p.HIGHEST)

/-- The palette globals as their initialisers leave them: `LOWEST = 6`, `SEA = 7`,
`LAND = 8`, `HIGHEST = 9`, `nocols = 65536`, zero tables. -/
def initPalette : Palette :=
  { nocols := 65536, LOWEST := 6, SEA := 7, LAND := 8, HIGHEST := 9
    rtable := fun _ => 0, gtable := fun _ => 0, btable := fun _ => 0 }

/-! ## Concrete data over `ℚ` used to evaluate the definitions -/

/-- Integer square root by Newton iteration, with fuel. -/
def isqrtAux : Nat → Nat → Nat → Nat
  | 0, _, g => g
  | f + 1, n, g => if (g + n / g) / 2 < g then isqrtAux f n ((g + n / g) / 2) else g

/-- Integer square root. -/
def isqrt (n : Nat) : Nat := if n = 0 then 0 else isqrtAux 200 n n

/-- Square root rounded down to twelve decimals. -/
def sqrtQ (x : ℚ) : ℚ :=
  (isqrt (⌊x * 1000000000000000000000000⌋).toNat : ℚ) / 1000000000000

/-- A library over `ℚ`: `sqrt` rounded to twelve decimals, `pow` exact for the
exponents 1 and 0.5 (up to the rounding of `sqrt`), `cos` and `sin` exact at 0,
and an out-of-range conversion that yields `INT_MIN`, as x86-64 does. -/
def libQ : Libm ℚ :=
  { sqrt := sqrtQ
    pow := fun u v => if v = 1 / 2 then sqrtQ u else u
    sin := fun _ => 0
    cos := fun _ => 1
    asin := fun _ => 0
    atan2 := fun _ _ => 0
    castOOR := fun _ => -2147483648 }

/-- The all-zero vertex of the zero-initialised globals. -/
def zeroVertex : Vertex ℚ := ⟨0, 0, 0, 0, 0, 0⟩

/-- The globals before the first query: zero-initialised cache, `rainShadow = 0.0`. -/
def zeroState : State ℚ := ⟨zeroVertex, zeroVertex, zeroVertex, zeroVertex, 0, 0⟩

/-- The value of `sqrt(3.0)` to sixteen decimals. -/
def sqrt3Q : ℚ := 17320508075688772 / 10000000000000000

/-- A configuration over `ℚ`: the root tetrahedron of `main` for the default
master seed 0.123 and initial altitude -0.02, the default weights `dd1`, `dd2`,
exponents 1, rainfall on, no map, no shading, `shade_angle` 0. -/
def cfgQ (Depth : Int) : Config ℚ :=
  { dd1 := 45 / 100
    POWA := 1
    dd2 := 35 / 1000
    POW := 1
    Depth := Depth
    rainfall := 1
    makeBiomes := 0
    matchMap := 0
    matchSize := 1 / 10
    MatchWidth := 48
    MatchHeight := 24
    cl0 := fun _ _ => 0
    doshade := 0
    shade_angle := 0
    shade_angle2 := 20
    tetra0 := ⟨-2 / 100, (rootSeeds libQ (123 / 1000)).1,
      -sqrt3Q - 20 / 100, -sqrt3Q - 22 / 100, -sqrt3Q - 23 / 100, 0⟩
    tetra1 := ⟨-2 / 100, (rootSeeds libQ (123 / 1000)).2.1,
      -sqrt3Q - 19 / 100, sqrt3Q + 18 / 100, sqrt3Q + 17 / 100, 0⟩
    tetra2 := ⟨-2 / 100, (rootSeeds libQ (123 / 1000)).2.2.1,
      sqrt3Q + 21 / 100, -sqrt3Q - 24 / 100, sqrt3Q + 15 / 100, 0⟩
    tetra3 := ⟨-2 / 100, (rootSeeds libQ (123 / 1000)).2.2.2,
      sqrt3Q + 24 / 100, sqrt3Q + 22 / 100, -sqrt3Q - 25 / 100, 0⟩ }

/-- A regular tetrahedron: its six edges have the same length. -/
def regularQ : Tetra ℚ :=
  ⟨⟨0, 1 / 10, 1, 1, 1, 0⟩, ⟨0, 2 / 10, 1, -1, -1, 0⟩, ⟨0, 3 / 10, -1, 1, -1, 0⟩,
    ⟨0, 4 / 10, -1, -1, 1, 0⟩⟩

/-- The configuration `cfgQ` with the hint map on, every cell of the map being 8. -/
def cfgMapQ : Config ℚ := { cfgQ 12 with matchMap := 1, cl0 := fun _ _ => 8 }

/-- Two vertices at sea level, at distance 0.5 of each other. -/
def flatA : Vertex ℚ := ⟨0, 1 / 10, 0, 0, 0, 0⟩

/-- The second vertex of the flat edge. -/
def flatB : Vertex ℚ := ⟨0, 2 / 10, 1 / 2, 0, 0, 0⟩

/-- A tetrahedron whose edge `ab` is strictly the longest, with different
altitudes at `a` and `b`. -/
def wedgeQ : Tetra ℚ :=
  ⟨⟨0, 1 / 10, 0, 0, 0, 0⟩, ⟨1, 2 / 10, 4, 0, 0, 0⟩, ⟨0, 3 / 10, 2, 1, 0, 0⟩,
    ⟨0, 4 / 10, 2, 0, 1, 0⟩⟩

/-- The globals after a first query of `planet1` for the goal point `(1,0,0)`
at base depth `D`, started from the initial globals. -/
def cacheQ (D : Nat) : State ℚ :=
  ((planet1 libQ (cfgQ D) (2 * D + 1) zeroState 1 0 0).getD (0, zeroState)).2

/-- The altitude returned by that first query. -/
def firstAltQ (D : Nat) : ℚ :=
  ((planet1 libQ (cfgQ D) (2 * D + 1) zeroState 1 0 0).getD (0, zeroState)).1

/-- The result of a descent from the root, started from the globals `cacheQ D`,
for the goal point `(x,y,z)`. -/
def restartQ (D : Nat) (x y z : ℚ) : ℚ × State ℚ :=
  (planet libQ (cfgQ D) (2 * D + 1) (cacheQ D) (cfgQ D).tetra0 (cfgQ D).tetra1 (cfgQ D).tetra2
    (cfgQ D).tetra3 x y z D).getD (0, zeroState)

/-- The palette roles as the initialisers of the globals give them (and as
`readcolors` leaves them for a colour file of ten colours or fewer), no latitude
colouring, no display flag, no grid. -/
def dspQ : Display ℚ :=
  { temperature := 0, nonLinear := 0, latic := 0, LOWEST := 6, SEA := 7, LAND := 8
    HIGHEST := 9, heightfield := false, vgrid := 0, hgrid := 0 }

/-- The statistics as their initialisers give them: `tempMin = 1000.0`,
`tempMax = -1000.0`, `rainMin = 1000.0`, `rainMax = -1000.0`. -/
def statsQ : Stats ℚ := ⟨1000, -1000, 1000, -1000⟩

/-- The configuration `cfgQ` without the rainfall display. -/
def cfgDryQ (Depth : Int) : Config ℚ := { cfgQ Depth with rainfall := 0 }

/-- The configuration `cfgQ` with bump-map shading (`doshade = 1`). -/
def cfgBumpQ : Config ℚ := { cfgQ 0 with doshade := 1 }

/-- A leaf tetrahedron whose altitude-weighted gradient estimate is `(3/4, 0, 1)`. -/
def bumpQ : Tetra ℚ :=
  ⟨⟨1, 1 / 10, 0, 0, 0, 0⟩, ⟨0, 2 / 10, 2, 1, 0, 0⟩, ⟨0, 3 / 10, 0, -1, 4, 0⟩,
    ⟨0, 4 / 10, 1, 0, 0, 0⟩⟩

/-- Two vertices below sea level with non-zero rain shadows. -/
def seaA : Vertex ℚ := ⟨-1, 1 / 10, 0, 0, 0, 1 / 2⟩

/-- The second vertex of the edge below sea level. -/
def seaB : Vertex ℚ := ⟨-1, 2 / 10, 1 / 2, 0, 0, 1 / 3⟩

/-- Two vertices with the same seed, at sea level, at distance 0.5 of each other. -/
def twinA : Vertex ℚ := ⟨0, 1 / 10, 0, 0, 0, 0⟩

/-- The second vertex of the equal-seed edge. -/
def twinB : Vertex ℚ := ⟨0, 1 / 10, 1 / 2, 0, 0, 0⟩

/-- The tuple `wedgeQ` handed over with `b` and `c` exchanged: its edge `ac` is
strictly the longest. -/
def wedgeSwapQ : Tetra ℚ := ⟨wedgeQ.a, wedgeQ.c, wedgeQ.b, wedgeQ.d⟩

/-- A leaf tetrahedron whose altitude-weighted gradient estimate is `(0, 0, 1/3)`. -/
def bump79Q : Tetra ℚ :=
  ⟨⟨0, 1 / 10, 1, 0, 1, 0⟩, ⟨1 / 3, 2 / 10, 1, 0, -1, 0⟩, ⟨1 / 6, 3 / 10, 2, 1, 0, 0⟩,
    ⟨1 / 6, 4 / 10, 2, -1, 0, 0⟩⟩

/-! ## The same code in `double` arithmetic

The definitions above compute in an exact ordered field.  The definitions of
this part compute as the compiled program does on IEEE 754 hardware: a `double`
is the rational number it stands for, and every arithmetic operation rounds its
exact result to the nearest `double` (53 significant bits, ties to the even
significand), one operation at a time in the order of the C expression.
Overflow, infinities, NaN and the sign of zero are not represented, and a
division by zero yields 0; the data used below stay far away from all of them. -/

/-- One step of the binary search for the position of the leading bit: the
pair `(n, k)` becomes `(n / 2 ^ s, k + s)` when `n` has more than `s` bits. -/
def bitStep (s : Nat) (p : Nat × Nat) : Nat × Nat :=
  if 2 ^ s ≤ p.1 then (p.1 / 2 ^ s, p.2 + s) else p

/-- The position of the leading bit of a natural number below `2 ^ 4096`:
`2 ^ ilog2 n ≤ n < 2 ^ (ilog2 n + 1)` for `n > 0`. -/
def ilog2 (n : Nat) : Nat :=
  (bitStep 1 (bitStep 2 (bitStep 4 (bitStep 8 (bitStep 16 (bitStep 32 (bitStep 64
    (bitStep 128 (bitStep 256 (bitStep 512 (bitStep 1024 (bitStep 2048 (n, 0))))))))))))).2

/-- The binary exponent `e` of the positive fraction `n / d`:
`2 ^ e ≤ n / d < 2 ^ (e + 1)`. -/
def expOf (n d : Nat) : Int :=
  let k : Int := (ilog2 n : Int) - (ilog2 d : Int)
  if d * 2 ^ k.toNat ≤ n * 2 ^ (-k).toNat then k else k - 1

/-- The positive fraction `n / d` rounded to the nearest `double`, ties to the
even significand: 53 significant bits for exponents from -1022, and the spacing
`2 ^ (-1074)` below. -/
def roundPos (n d : Nat) : ℚ :=
  let g : Int := max (expOf n d) (-1022) - 52
  let N := n * 2 ^ (-g).toNat
  let D := d * 2 ^ g.toNat
  let q := N / D
  let r := N % D
  let q := if D < 2 * r ∨ (2 * r = D ∧ q % 2 = 1) then q + 1 else q
  mkRat ((q * 2 ^ g.toNat : Nat) : Int) (2 ^ (-g).toNat)

/-- A rational number rounded to the nearest `double`. -/
def roundD (q : ℚ) : ℚ :=
  if q = 0 then 0
  else if 0 < q then roundPos q.num.natAbs q.den
  else -roundPos q.num.natAbs q.den

/-- The square root of the positive fraction `n / d` rounded to the nearest
`double`, as IEEE 754 requires of `sqrt`. -/
def sqrtPos (n d : Nat) : ℚ :=
  let g : Int := expOf n d / 2 - 52
  let N := n * 4 ^ (-g).toNat
  let D := d * 4 ^ g.toNat
  let s := isqrt (N / D)
  let s := if (2 * s + 1) * (2 * s + 1) * D < 4 * N
      ∨ ((2 * s + 1) * (2 * s + 1) * D = 4 * N ∧ s % 2 = 1) then s + 1 else s
  mkRat ((s * 2 ^ g.toNat : Nat) : Int) (2 ^ (-g).toNat)

/-- A value of the C type `double`: the rational number it stands for. -/
structure Dbl where
  val : ℚ
deriving DecidableEq, Repr

instance : Add Dbl := ⟨fun a b => ⟨roundD (a.val + b.val)⟩⟩

instance : Sub Dbl := ⟨fun a b => ⟨roundD (a.val - b.val)⟩⟩

instance : Mul Dbl := ⟨fun a b => ⟨roundD (a.val * b.val)⟩⟩

instance : Div Dbl := ⟨fun a b => ⟨roundD (a.val / b.val)⟩⟩

instance : Neg Dbl := ⟨fun a => ⟨-a.val⟩⟩

instance : LT Dbl := ⟨fun a b => a.val < b.val⟩

instance : LE Dbl := ⟨fun a b => a.val ≤ b.val⟩

instance (a b : Dbl) : Decidable (a < b) := inferInstanceAs (Decidable (a.val < b.val))

instance (a b : Dbl) : Decidable (a ≤ b) := inferInstanceAs (Decidable (a.val ≤ b.val))

/-- An integer constant or an `int` converted to `double`. -/
def Dbl.ofInt (i : Int) : Dbl := ⟨roundD i⟩

instance (n : Nat) : OfNat Dbl n := ⟨Dbl.ofInt n⟩

/-- A decimal constant of the C source: the nearest `double`. -/
def Dbl.ofDecimal (mantissa : Nat) (negExp : Bool) (e : Nat) : Dbl :=
  if negExp then ⟨roundD ((mantissa : ℚ) / ((10 ^ e : Nat) : ℚ))⟩
  else ⟨roundD ((mantissa * 10 ^ e : Nat) : ℚ)⟩

instance : OfScientific Dbl := ⟨Dbl.ofDecimal⟩

/-- The function `fabs`. -/
def Dbl.abs (a : Dbl) : Dbl := ⟨|a.val|⟩

/-- The function `sqrt`, correctly rounded (0 for an argument that is not positive). -/
def Dbl.sqrt (a : Dbl) : Dbl :=
  if 0 < a.val then ⟨sqrtPos a.val.num.natAbs a.val.den⟩ else ⟨0⟩

/-- The macro `PI` of planet.c. -/
def PID : Dbl := 3.14159265358979323846

/-- Squared distance between two vertices (`dist2`). -/
def dist2D (a b : Vertex Dbl) : Dbl :=
  let abx := a.x - b.x
  let aby := a.y - b.y
  let abz := a.z - b.z
  abx * abx + aby * aby + abz * abz

/-- The C conversion `(int)r` for a 32-bit `int`. -/
def toIntD (m : Libm Dbl) (r : Dbl) : Int :=
  if -2147483649 < r.val ∧ r.val < 2147483648 then truncInt r.val else m.castOOR r

/-- The seed hash `rand2`. -/
def rand2D (m : Libm Dbl) (p q : Dbl) : Dbl :=
  let r := (p + 3.14159265) * (q + 3.14159265)
  2.0 * (r - Dbl.ofInt (toIntD m r)) - 1.0

/-- The expression `ux*vy*wz+uy*vz*wx+uz*vx*wy-uz*vy*wx-uy*vx*wz-ux*vz*wy`,
evaluated from left to right. -/
def det3D (ux uy uz vx vy vz wx wy wz : Dbl) : Dbl :=
  ux * vy * wz + uy * vz * wx + uz * vx * wy - uz * vy * wx - uy * vx * wz - ux * vz * wy

/-- The largest of the six squared edge lengths, as accumulated in `maxlength`. -/
def maxlengthD (a b c d : Vertex Dbl) : Dbl :=
  let lab := dist2D a b
  let lac := dist2D a c
  let lad := dist2D a d
  let lbc := dist2D b c
  let lbd := dist2D b d
  let lcd := dist2D c d
  let ml := lab
  let ml := if lac > ml then lac else ml
  let ml := if lad > ml then lad else ml
  let ml := if lbc > ml then lbc else ml
  let ml := if lbd > ml then lbd else ml
  let ml := if lcd > ml then lcd else ml
  ml

/-- The seed `e.s` of the vertex that cuts edge `ab`. -/
def splitSeedD (m : Libm Dbl) (a b : Vertex Dbl) : Dbl := rand2D m a.s b.s

/-- The local `es1`. -/
def splitEs1D (m : Libm Dbl) (a b : Vertex Dbl) : Dbl :=
  rand2D m (splitSeedD m a b) (splitSeedD m a b)

/-- The local `es2`, the cut point. -/
def splitEs2D (m : Libm Dbl) (a b : Vertex Dbl) : Dbl :=
  0.5 + 0.1 * rand2D m (splitEs1D m a b) (splitEs1D m a b)

/-- The local `es3`. -/
def splitEs3D (m : Libm Dbl) (a b : Vertex Dbl) : Dbl := 1.0 - splitEs2D m a b

/-- The test `matchMap && lab > matchSize` that selects the map height. -/
def useMapD (cfg : Config Dbl) (a b : Vertex Dbl) : Prop :=
  cfg.matchMap ≠ 0 ∧ dist2D a b > cfg.matchSize

instance (cfg : Config Dbl) (a b : Vertex Dbl) : Decidable (useMapD cfg a b) := by
  unfold useMapD; infer_instance

/-- The value of the local `lab` after the altitude of `e` has been computed:
unchanged on the map branch, otherwise replaced by `pow(lab,0.5)` when above 1. -/
def labAfterD (m : Libm Dbl) (cfg : Config Dbl) (a b : Vertex Dbl) : Dbl :=
  if useMapD cfg a b then dist2D a b
  else if dist2D a b > 1.0 then m.pow (dist2D a b) 0.5 else dist2D a b

/-- One coordinate of the cut point: `es2*a+es3*b` when `a.s < b.s`,
`es3*a+es2*b` when `a.s > b.s`, `0.5*a+0.5*b` when the seeds are equal. -/
def splitCoordD (m : Libm Dbl) (a b : Vertex Dbl) (ca cb : Dbl) : Dbl :=
  if a.s < b.s then splitEs2D m a b * ca + splitEs3D m a b * cb
  else if a.s > b.s then splitEs3D m a b * ca + splitEs2D m a b * cb
  else 0.5 * ca + 0.5 * cb

/-- The altitude `e.h` of the new vertex, whose position is `(ex,ey,ez)`: the
map height when `matchMap && lab > matchSize`, the displaced average otherwise. -/
def splitHD (m : Libm Dbl) (cfg : Config Dbl) (a b : Vertex Dbl) (ex ey ez : Dbl) : Dbl :=
  if useMapD cfg a b then
    let l := m.sqrt (ex * ex + ey * ey + ez * ez)
    let yy := m.asin (ey / l) * Dbl.ofInt (cfg.MatchHeight - 1) / PID
      + Dbl.ofInt (cfg.MatchHeight - 1) / 2.0
    let xx := m.atan2 ex ez * Dbl.ofInt (cfg.MatchWidth - 1) / 2.0 / PID
      + Dbl.ofInt (cfg.MatchWidth - 1) / 2.0
    Dbl.ofInt (cfg.cl0 (toIntD m (xx + 0.5)) (toIntD m (yy + 0.5))) * 0.1 / 8.0
  else
    0.5 * (a.h + b.h)
      + splitSeedD m a b * cfg.dd1 * m.pow (Dbl.abs (a.h - b.h)) cfg.POWA
      + splitEs1D m a b * cfg.dd2 * m.pow (labAfterD m cfg a b) cfg.POW

/-- The approximate rain shadow `e.shadow` of the new vertex, whose altitude is
`eh`, for the goal point `(x,y,z)`. -/
def splitShadowD (m : Libm Dbl) (cfg : Config Dbl) (a b : Vertex Dbl) (x y z eh : Dbl) : Dbl :=
  if eh ≤ 0.0 ∨ ¬ (cfg.rainfall ≠ 0 ∨ cfg.makeBiomes ≠ 0) then 0.0
  else
    let x1 := 0.5 * (a.x + b.x)
    let x1 := a.h * (x1 - a.x) + b.h * (x1 - b.x)
    let y1 := 0.5 * (a.y + b.y)
    let y1 := a.h * (y1 - a.y) + b.h * (y1 - b.y)
    let z1 := 0.5 * (a.z + b.z)
    let z1 := a.h * (z1 - a.z) + b.h * (z1 - b.z)
    let l1 := m.sqrt (x1 * x1 + y1 * y1 + z1 * z1)
    let l1 := if l1 = 0.0 then 1.0 else l1
    let tmp := m.sqrt (1.0 - y * y)
    let tmp := if tmp < 0.0001 then 0.0001 else tmp
    let z2 := (-z) / tmp * x1 + x / tmp * z1
    if labAfterD m cfg a b > 0.04 then
      (a.shadow + b.shadow - m.cos (PID * cfg.shade_angle / 180.0) * z2 / l1) / 3.0
    else
      (a.shadow + b.shadow) / 2.0

/-- The vertex `e` that `planet` creates on edge `ab` for the goal point
`(x,y,z)`: seed, cut position, altitude and approximate rain shadow. -/
def splitVertexD (m : Libm Dbl) (cfg : Config Dbl) (a b : Vertex Dbl) (x y z : Dbl) :
    Vertex Dbl :=
  let ex := splitCoordD m a b a.x b.x
  let ey := splitCoordD m a b a.y b.y
  let ez := splitCoordD m a b a.z b.z
  let eh := splitHD m cfg a b ex ey ez
  { h := eh, s := splitSeedD m a b, x := ex, y := ey, z := ez
    shadow := splitShadowD m cfg a b x y z eh }

/-- The product of the two scalar triple products, taken relative to `e`, that
`planet` compares with 0.0 to locate the goal point. -/
def sideProductD (a c d e : Vertex Dbl) (x y z : Dbl) : Dbl :=
  let eax := a.x - e.x
  let eay := a.y - e.y
  let eaz := a.z - e.z
  let ecx := c.x - e.x
  let ecy := c.y - e.y
  let ecz := c.z - e.z
  let edx := d.x - e.x
  let edy := d.y - e.y
  let edz := d.z - e.z
  let epx := x - e.x
  let epy := y - e.y
  let epz := z - e.z
  det3D eax eay eaz ecx ecy ecz edx edy edz * det3D epx epy epz ecx ecy ecz edx edy edz

/-- The point-location test of `planet` ("point is inside acde"). -/
def insideACDED (a c d e : Vertex Dbl) (x y z : Dbl) : Prop :=
  sideProductD a c d e x y z > 0.0

instance (a c d e : Vertex Dbl) (x y z : Dbl) : Decidable (insideACDED a c d e x y z) := by
  unfold insideACDED; infer_instance

/-- The value that the level-0 branch of `planet` leaves in the global `shade`. -/
def leafShadeD (m : Libm Dbl) (cfg : Config Dbl) (st : State Dbl) (a b c d : Vertex Dbl)
    (x y z : Dbl) : Int :=
  if cfg.doshade = 1 ∨ cfg.doshade = 2 then
    let x1 := 0.25 * (a.x + b.x + c.x + d.x)
    let x1 := a.h * (x1 - a.x) + b.h * (x1 - b.x) + c.h * (x1 - c.x) + d.h * (x1 - d.x)
    let y1 := 0.25 * (a.y + b.y + c.y + d.y)
    let y1 := a.h * (y1 - a.y) + b.h * (y1 - b.y) + c.h * (y1 - c.y) + d.h * (y1 - d.y)
    let z1 := 0.25 * (a.z + b.z + c.z + d.z)
    let z1 := a.h * (z1 - a.z) + b.h * (z1 - b.z) + c.h * (z1 - c.z) + d.h * (z1 - d.z)
    let l1 := m.sqrt (x1 * x1 + y1 * y1 + z1 * z1)
    let l1 := if l1 = 0.0 then 1.0 else l1
    let tmp := m.sqrt (1.0 - y * y)
    let tmp := if tmp < 0.0001 then 0.0001 else tmp
    let y2 := (-x) * y / tmp * x1 + tmp * y1 - z * y / tmp * z1
    let z2 := (-z) / tmp * x1 + x / tmp * z1
    let shade := toIntD m (((-m.sin (PID * cfg.shade_angle / 180.0)) * y2
      - m.cos (PID * cfg.shade_angle / 180.0) * z2) / l1 * 48.0 + 128.0)
    let shade := if shade < 10 then 10 else shade
    let shade := if shade > 255 then 255 else shade
    if cfg.doshade = 2 ∧ a.h + b.h + c.h + d.h < 0.0 then 150 else shade
  else if cfg.doshade = 3 then
    let hh := a.h + b.h + c.h + d.h
    let x0 := 0.25 * (a.x + b.x + c.x + d.x)
    let x0 := a.h * (x0 - a.x) + b.h * (x0 - b.x) + c.h * (x0 - c.x) + d.h * (x0 - d.x)
    let y0 := 0.25 * (a.y + b.y + c.y + d.y)
    let y0 := a.h * (y0 - a.y) + b.h * (y0 - b.y) + c.h * (y0 - c.y) + d.h * (y0 - d.y)
    let z0 := 0.25 * (a.z + b.z + c.z + d.z)
    let z0 := a.h * (z0 - a.z) + b.h * (z0 - b.z) + c.h * (z0 - c.z) + d.h * (z0 - d.z)
    let l0 := 5.0 * m.sqrt (x0 * x0 + y0 * y0 + z0 * z0)
    let x1 := if hh ≤ 0.0 then x else x0 + x * l0
    let y1 := if hh ≤ 0.0 then y else y0 + y * l0
    let z1 := if hh ≤ 0.0 then z else z0 + z * l0
    let l1 := m.sqrt (x1 * x1 + y1 * y1 + z1 * z1)
    let l1 := if l1 = 0.0 then 1.0 else l1
    let x2 := m.cos (PID * cfg.shade_angle / 180.0 - 0.5 * PID)
      * m.cos (PID * cfg.shade_angle2 / 180.0)
    let y2 := -m.sin (PID * cfg.shade_angle2 / 180.0)
    let z2 := (-m.sin (PID * cfg.shade_angle / 180.0 - 0.5 * PID))
      * m.cos (PID * cfg.shade_angle2 / 180.0)
    let shade := toIntD m ((x1 * x2 + y1 * y2 + z1 * z2) / l1 * 170.0 + 10)
    let shade := if shade < 10 then 10 else shade
    if shade > 255 then 255 else shade
  else st.shade

/-- The recursive subdivision `planet` in `double` arithmetic.  The first
argument is the fuel: it bounds the nesting depth of the calls, and `none`
means it ran out.  The result is the altitude returned together with the
globals as the call leaves them. -/
def planetD (m : Libm Dbl) (cfg : Config Dbl) :
    Nat → State Dbl → Vertex Dbl → Vertex Dbl → Vertex Dbl → Vertex Dbl →
      Dbl → Dbl → Dbl → Int → Option (Dbl × State Dbl)
  | 0, _, _, _, _, _, _, _, _, _ => none
  | fuel + 1, st, a, b, c, d, x, y, z, level =>
    if level > 0 then
      if dist2D a c = maxlengthD a b c d then planetD m cfg fuel st a c b d x y z level
      else if dist2D a d = maxlengthD a b c d then planetD m cfg fuel st a d b c x y z level
      else if dist2D b c = maxlengthD a b c d then planetD m cfg fuel st b c a d x y z level
      else if dist2D b d = maxlengthD a b c d then planetD m cfg fuel st b d a c x y z level
      else if dist2D c d = maxlengthD a b c d then planetD m cfg fuel st c d a b x y z level
      else
        let st1 : State Dbl :=
          if level = 11 then { st with ssa := a, ssb := b, ssc := c, ssd := d } else st
        let e := splitVertexD m cfg a b x y z
        if insideACDED a c d e x y z then planetD m cfg fuel st1 c d a e x y z (level - 1)
        else planetD m cfg fuel st1 c d b e x y z (level - 1)
    else
      some (0.25 * (a.h + b.h + c.h + d.h),
        { st with
          rainShadow := 0.25 * (a.shadow + b.shadow + c.shadow + d.shadow)
          shade := leafShadeD m cfg st a b c d x y z })

/-- The cache test of `planet1`: the four nested sign tests that decide whether
the goal point is inside the cached tetrahedron. -/
def cacheHitD (st : State Dbl) (x y z : Dbl) : Prop :=
  let abx := st.ssb.x - st.ssa.x
  let aby := st.ssb.y - st.ssa.y
  let abz := st.ssb.z - st.ssa.z
  let acx := st.ssc.x - st.ssa.x
  let acy := st.ssc.y - st.ssa.y
  let acz := st.ssc.z - st.ssa.z
  let adx := st.ssd.x - st.ssa.x
  let ady := st.ssd.y - st.ssa.y
  let adz := st.ssd.z - st.ssa.z
  let apx := x - st.ssa.x
  let apy := y - st.ssa.y
  let apz := z - st.ssa.z
  let bax := -abx
  let bay := -aby
  let baz := -abz
  let bcx := st.ssc.x - st.ssb.x
  let bcy := st.ssc.y - st.ssb.y
  let bcz := st.ssc.z - st.ssb.z
  let bdx := st.ssd.x - st.ssb.x
  let bdy := st.ssd.y - st.ssb.y
  let bdz := st.ssd.z - st.ssb.z
  let bpx := x - st.ssb.x
  let bpy := y - st.ssb.y
  let bpz := z - st.ssb.z
  det3D adx ady adz abx aby abz acx acy acz * det3D apx apy apz abx aby abz acx acy acz > 0.0
  ∧ det3D acx acy acz abx aby abz adx ady adz * det3D apx apy apz abx aby abz adx ady adz > 0.0
  ∧ det3D abx aby abz adx ady adz acx acy acz * det3D apx apy apz adx ady adz acx acy acz > 0.0
  ∧ det3D bax bay baz bcx bcy bcz bdx bdy bdz * det3D bpx bpy bpz bcx bcy bcz bdx bdy bdz > 0.0

instance (st : State Dbl) (x y z : Dbl) : Decidable (cacheHitD st x y z) := by
  unfold cacheHitD; infer_instance

/-- The entry point `planet1` in `double` arithmetic. -/
def planet1D (m : Libm Dbl) (cfg : Config Dbl) (fuel : Nat) (st : State Dbl) (x y z : Dbl) :
    Option (Dbl × State Dbl) :=
  if cacheHitD st x y z then planetD m cfg fuel st st.ssa st.ssb st.ssc st.ssd x y z 11
  else planetD m cfg fuel st cfg.tetra0 cfg.tetra1 cfg.tetra2 cfg.tetra3 x y z cfg.Depth

/-- A library in `double` arithmetic: `sqrt` correctly rounded, `pow` for the
exponents 1.0 (the argument itself) and 0.5 (the correctly rounded root), `sin`
and `cos` exact at 0, and an out-of-range conversion that yields `INT_MIN`, as
x86-64 does. -/
def libD : Libm Dbl :=
  { sqrt := Dbl.sqrt
    pow := fun u v => if v = 0.5 then Dbl.sqrt u else u
    sin := fun _ => 0.0
    cos := fun _ => 1.0
    asin := fun _ => 0.0
    atan2 := fun _ _ => 0.0
    castOOR := fun _ => -2147483648 }

/-- The globals before the first query: zero-initialised cache. -/
def zeroStateD : State Dbl :=
  ⟨⟨0.0, 0.0, 0.0, 0.0, 0.0, 0.0⟩, ⟨0.0, 0.0, 0.0, 0.0, 0.0, 0.0⟩,
    ⟨0.0, 0.0, 0.0, 0.0, 0.0, 0.0⟩, ⟨0.0, 0.0, 0.0, 0.0, 0.0, 0.0⟩, 0.0, 0⟩

/-- The root tetrahedron that `main` builds for the master seed `rseed` and the
initial altitude `M`. -/
def rootD (m : Libm Dbl) (rseed M : Dbl) : Tetra Dbl :=
  let r1 := rseed
  let r1 := rand2D m r1 r1
  let r2 := rand2D m r1 r1
  let r3 := rand2D m r1 r2
  let r4 := rand2D m r2 r3
  ⟨⟨M, r1, -m.sqrt 3.0 - 0.20, -m.sqrt 3.0 - 0.22, -m.sqrt 3.0 - 0.23, 0.0⟩,
    ⟨M, r2, -m.sqrt 3.0 - 0.19, m.sqrt 3.0 + 0.18, m.sqrt 3.0 + 0.17, 0.0⟩,
    ⟨M, r3, m.sqrt 3.0 + 0.21, -m.sqrt 3.0 - 0.24, m.sqrt 3.0 + 0.15, 0.0⟩,
    ⟨M, r4, m.sqrt 3.0 + 0.24, m.sqrt 3.0 + 0.22, -m.sqrt 3.0 - 0.25, 0.0⟩⟩

/-- The configuration of a run without options except the depth: master seed
0.123, initial altitude -0.02, `dd1 = 0.45`, `dd2 = 0.035`, `POWA = 1.0`, no
rainfall, no map, no shading; the exponent `POW`, which the source sets to 0.47
and invites to change, is 1.0. -/
def cfgD (Depth : Int) : Config Dbl :=
  { dd1 := 0.45
    POWA := 1.0
    dd2 := 0.035
    POW := 1.0
    Depth := Depth
    rainfall := 0
    makeBiomes := 0
    matchMap := 0
    matchSize := 0.1
    MatchWidth := 48
    MatchHeight := 24
    cl0 := fun _ _ => 0
    doshade := 0
    shade_angle := 150.0
    shade_angle2 := 20.0
    tetra0 := (rootD libD 0.123 (-0.02)).a
    tetra1 := (rootD libD 0.123 (-0.02)).b
    tetra2 := (rootD libD 0.123 (-0.02)).c
    tetra3 := (rootD libD 0.123 (-0.02)).d }

/-- Edge `ab` is strictly longer than the five other edges in computed lengths:
the condition under which a call of `planet` at a positive level reaches the split. -/
def StrictABD (t : Tetra Dbl) : Prop :=
  dist2D t.a t.c < dist2D t.a t.b ∧ dist2D t.a t.d < dist2D t.a t.b
    ∧ dist2D t.b t.c < dist2D t.a t.b ∧ dist2D t.b t.d < dist2D t.a t.b
    ∧ dist2D t.c t.d < dist2D t.a t.b

instance (t : Tetra Dbl) : Decidable (StrictABD t) := by
  unfold StrictABD; infer_instance

/-- The tuple of the recursive call that `planet` makes at the same level when
one of the five other edges attains `maxlength`; the tuple itself otherwise. -/
def rotateD (t : Tetra Dbl) : Tetra Dbl :=
  if dist2D t.a t.c = maxlengthD t.a t.b t.c t.d then ⟨t.a, t.c, t.b, t.d⟩
  else if dist2D t.a t.d = maxlengthD t.a t.b t.c t.d then ⟨t.a, t.d, t.b, t.c⟩
  else if dist2D t.b t.c = maxlengthD t.a t.b t.c t.d then ⟨t.b, t.c, t.a, t.d⟩
  else if dist2D t.b t.d = maxlengthD t.a t.b t.c t.d then ⟨t.b, t.d, t.a, t.c⟩
  else if dist2D t.c t.d = maxlengthD t.a t.b t.c t.d then ⟨t.c, t.d, t.a, t.b⟩
  else t

/-- The tuple of the recursive call that `planet` makes at the next level after
cutting edge `ab`. -/
def childD (m : Libm Dbl) (cfg : Config Dbl) (t : Tetra Dbl) (x y z : Dbl) : Tetra Dbl :=
  if insideACDED t.a t.c t.d (splitVertexD m cfg t.a t.b x y z) x y z then
    ⟨t.c, t.d, t.a, splitVertexD m cfg t.a t.b x y z⟩
  else ⟨t.c, t.d, t.b, splitVertexD m cfg t.a t.b x y z⟩

/-- The result of the level-0 branch. -/
def leafResultD (m : Libm Dbl) (cfg : Config Dbl) (st : State Dbl) (t : Tetra Dbl)
    (x y z : Dbl) : Dbl × State Dbl :=
  (0.25 * (t.a.h + t.b.h + t.c.h + t.d.h),
    { st with
      rainShadow := 0.25 * (t.a.shadow + t.b.shadow + t.c.shadow + t.d.shadow)
      shade := leafShadeD m cfg st t.a t.b t.c t.d x y z })

/-- A vertex with its rain shadow erased: what the altitudes and the point
location depend on. -/
def Vertex.geoD (v : Vertex Dbl) : Vertex Dbl := { v with shadow := 0.0 }

/-- A tuple with the rain shadows of its vertices erased. -/
def Tetra.geoD (t : Tetra Dbl) : Tetra Dbl := ⟨t.a.geoD, t.b.geoD, t.c.geoD, t.d.geoD⟩

/-- The exact values of the fields of a vertex. -/
def Vertex.toQ (v : Vertex Dbl) : Vertex ℚ :=
  ⟨v.h.val, v.s.val, v.x.val, v.y.val, v.z.val, v.shadow.val⟩

/-- The exact positions of the vertices of a tuple. -/
def Tetra.toQ (t : Tetra Dbl) : Tetra ℚ := ⟨t.a.toQ, t.b.toQ, t.c.toQ, t.d.toQ⟩

/-- The six computed squared edge lengths `lab, lac, lad, lbc, lbd, lcd`. -/
def edgesD (t : Tetra Dbl) : List Dbl :=
  [dist2D t.a t.b, dist2D t.a t.c, dist2D t.a t.d, dist2D t.b t.c, dist2D t.b t.d,
    dist2D t.c t.d]

/-- Exactly one of the six computed squared edge lengths attains the maximum. -/
def HasStrictMaxD (t : Tetra Dbl) : Prop :=
  ∃ l, (edgesD t).count l = 1 ∧ ∀ l1 ∈ edgesD t, l1 ≤ l

/-- The computed squared distances of all pairs of a list of vertices. -/
def pairDistsD : List (Vertex Dbl) → List Dbl
  | [] => []
  | v :: l => l.map (dist2D v) ++ pairDistsD l

/-- The descent of `planet` over `n` levels without fuel, in `double`
arithmetic: at every level the tuple is rotated once, and the descent stops
with `none` when the rotated tuple does not have `ab` strictly longest. -/
def descendD (m : Libm Dbl) (cfg : Config Dbl) :
    Nat → State Dbl → Tetra Dbl → Dbl → Dbl → Dbl → Option (Dbl × State Dbl)
  | 0, st, t, x, y, z => some (leafResultD m cfg st t x y z)
  | n + 1, st, t, x, y, z =>
    if StrictABD (rotateD t) then
      descendD m cfg n (snapshot st (rotateD t) (n + 1)) (childD m cfg (rotateD t) x y z) x y z
    else none

/-- The computed point-location test gives the same verdict for the four
orders in which a tuple with cut edge `ab` can reach the split: exchanging `c`
with `d` does not change the outcome, and the test made from `b` is the
opposite of the test made from `a`. -/
def TestsAgreeD (m : Libm Dbl) (cfg : Config Dbl) (u : Tetra Dbl) (x y z : Dbl) : Prop :=
  (insideACDED u.a u.d u.c (splitVertexD m cfg u.a u.b x y z) x y z
      ↔ insideACDED u.a u.c u.d (splitVertexD m cfg u.a u.b x y z) x y z)
    ∧ (insideACDED u.b u.c u.d (splitVertexD m cfg u.a u.b x y z) x y z
      ↔ ¬ insideACDED u.a u.c u.d (splitVertexD m cfg u.a u.b x y z) x y z)
    ∧ (insideACDED u.b u.d u.c (splitVertexD m cfg u.a u.b x y z) x y z
      ↔ ¬ insideACDED u.a u.c u.d (splitVertexD m cfg u.a u.b x y z) x y z)

instance (m : Libm Dbl) (cfg : Config Dbl) (u : Tetra Dbl) (x y z : Dbl) :
    Decidable (TestsAgreeD m cfg u x y z) := by
  unfold TestsAgreeD; infer_instance

/-- General position over `n` levels of the descent in `double` arithmetic: at
every level one edge is strictly the longest in computed length and the
computed point-location tests agree. -/
def GenPosD (m : Libm Dbl) (cfg : Config Dbl) : Nat → Tetra Dbl → Dbl → Dbl → Dbl → Prop
  | 0, _, _, _, _ => True
  | n + 1, t, x, y, z =>
    StrictABD (rotateD t) ∧ TestsAgreeD m cfg (rotateD t) x y z
      ∧ GenPosD m cfg n (childD m cfg (rotateD t) x y z) x y z

/-- Decision procedure for `GenPosD`. -/
def GenPosD.dec (m : Libm Dbl) (cfg : Config Dbl) :
    (n : Nat) → (t : Tetra Dbl) → (x y z : Dbl) → Decidable (GenPosD m cfg n t x y z)
  | 0, _, _, _, _ => isTrue trivial
  | n + 1, t, x, y, z =>
    @instDecidableAnd _ _ inferInstance
      (@instDecidableAnd _ _ inferInstance
        (GenPosD.dec m cfg n (childD m cfg (rotateD t) x y z) x y z))

instance (m : Libm Dbl) (cfg : Config Dbl) (n : Nat) (t : Tetra Dbl) (x y z : Dbl) :
    Decidable (GenPosD m cfg n t x y z) := GenPosD.dec m cfg n t x y z

/-- The globals after the query `planet1(1,0,0)` at base depth 12, started from
the initial globals, under `cfgD 12`. -/
def cacheD12 : State Dbl :=
  ⟨⟨-0.02, 0.9265907259233721, 1.9420508075688772, -1.9720508075688772, 1.882050807568877,
      0.0⟩,
    ⟨-0.02, -0.13346934725375803, 1.9720508075688772, 1.9520508075688772,
      -1.9820508075688772, 0.0⟩,
    ⟨-0.02, 0.8978676711914453, -1.9220508075688771, 1.9120508075688771, 1.9020508075688771,
      0.0⟩,
    ⟨0.03116201867250693, -0.20350204006229689, 0.10057266449181057, 0.08057266449181077,
      -1.972463566622993, 0.0⟩, 0.0, 0⟩

/-- A tetrahedron whose longest edge `ab` lies on the x axis, so that the cut
point is exactly on the edge. -/
def skewD : Tetra Dbl :=
  ⟨⟨0.0, 0.1, 0.0, 0.0, 0.0, 0.0⟩, ⟨1.0, 0.2, 4.0, 0.0, 0.0, 0.0⟩,
    ⟨0.0, 0.3, 2.1, 1.3, 0.2, 0.0⟩, ⟨0.0, 0.4, 1.9, 0.1, 1.7, 0.0⟩⟩

/-- The library `libD` with the values that the C library returns for `sin` and
`cos` at 2.6179938779914944, the `double` computed for the default light angle
of 150 degrees (`PI*150.0/180.0`); they are the correctly rounded values. -/
def libShadeD : Libm Dbl :=
  { libD with
    sin := fun u => if u = 2.6179938779914944 then 0.49999999999999994 else 0.0
    cos := fun u => if u = 2.6179938779914944 then -0.8660254037844387 else 1.0 }

/-- The configuration `cfgD 0` with bump-map shading on (`-b`, `doshade = 1`);
the light angle is the default, 150 degrees. -/
def cfgShadeD : Config Dbl := { cfgD 0 with doshade := 1 }

/-- A leaf tetrahedron whose gradient estimate points along the light direction. -/
def leaf79D : Tetra Dbl :=
  ⟨⟨0.10499999999999998, 0.1, 1.0, -0.25, 0.0, 0.0⟩, ⟨0.0, 0.2, 1.0, 0.25, 0.0, 0.0⟩,
    ⟨-0.03843266739736607, 0.3, 1.25, 0.0, -0.25, 0.0⟩,
    ⟨0.14343266739736604, 0.4, 1.25, 0.0, 0.25, 0.0⟩⟩

section Basic

variable {K : Type} [LinearOrderedField K] [FloorRing K]

theorem truncInt_of_nonneg {r : K} (h : 0 ≤ r) : truncInt r = ⌊r⌋ := by
  simp [truncInt, h]

theorem toInt_of_nonneg (m : Libm K) {r : K} (h0 : 0 ≤ r) (h1 : r < 2147483648) :
    toInt m r = ⌊r⌋ := by
  have h2 : (-2147483649 : K) < r := by linarith
  simp [toInt, h1, h2, truncInt_of_nonneg h0]

theorem rand2_of_nonneg (m : Libm K) (p q : K)
    (h0 : 0 ≤ (p + 314159265 / 100000000) * (q + 314159265 / 100000000))
    (h1 : (p + 314159265 / 100000000) * (q + 314159265 / 100000000) < 2147483648) :
    rand2 m p q = 2 * Int.fract ((p + 314159265 / 100000000) * (q + 314159265 / 100000000)) - 1 := by
  simp only [rand2, toInt_of_nonneg m h0 h1, Int.self_sub_floor]

theorem rand2_comm (m : Libm K) (p q : K) : rand2 m p q = rand2 m q p := by
  simp only [rand2, mul_comm]

theorem seedOK_of_fract (r : K) : SeedOK (2 * Int.fract r - 1) := by
  have h0 := Int.fract_nonneg r
  have h1 := Int.fract_lt_one r
  constructor <;> linarith

theorem rand2_seedOK (m : Libm K) {p q : K} (hp : SeedOK p) (hq : SeedOK q) :
    SeedOK (rand2 m p q) := by
  obtain ⟨hp0, hp1⟩ := hp
  obtain ⟨hq0, hq1⟩ := hq
  have h0 : 0 ≤ (p + 314159265 / 100000000) * (q + 314159265 / 100000000) := by
    apply mul_nonneg <;> linarith
  have h1 : (p + 314159265 / 100000000) * (q + 314159265 / 100000000) < 2147483648 := by
    nlinarith
  rw [rand2_of_nonneg m p q h0 h1]
  exact seedOK_of_fract _

theorem rand2_self_seedOK (m : Libm K) (p : K)
    (h1 : (p + 314159265 / 100000000) * (p + 314159265 / 100000000) < 2147483648) :
    SeedOK (rand2 m p p) := by
  rw [rand2_of_nonneg m p p (mul_self_nonneg _) h1]
  exact seedOK_of_fract _

theorem splitSeed_seedOK (m : Libm K) {a b : Vertex K} (ha : SeedOK a.s) (hb : SeedOK b.s) :
    SeedOK (splitSeed m a b) := rand2_seedOK m ha hb

theorem splitEs1_seedOK (m : Libm K) {a b : Vertex K} (ha : SeedOK a.s) (hb : SeedOK b.s) :
    SeedOK (splitEs1 m a b) :=
  rand2_seedOK m (splitSeed_seedOK m ha hb) (splitSeed_seedOK m ha hb)

theorem splitVertex_s (m : Libm K) (cfg : Config K) (a b : Vertex K) (x y z : K) :
    (splitVertex m cfg a b x y z).s = splitSeed m a b := rfl

theorem splitEs2_range (m : Libm K) {a b : Vertex K} (ha : SeedOK a.s) (hb : SeedOK b.s) :
    4 / 10 ≤ splitEs2 m a b ∧ splitEs2 m a b < 6 / 10 := by
  have h := rand2_seedOK m (splitEs1_seedOK m ha hb) (splitEs1_seedOK m ha hb)
  obtain ⟨h0, h1⟩ := h
  unfold splitEs2
  constructor <;> linarith

theorem splitVertex_between (m : Libm K) (cfg : Config K) {a b : Vertex K} (x y z : K)
    (ha : SeedOK a.s) (hb : SeedOK b.s) : Between a b (splitVertex m cfg a b x y z) := by
  obtain ⟨h0, h1⟩ := splitEs2_range m ha hb
  rcases lt_trichotomy a.s b.s with h | h | h
  · refine ⟨splitEs2 m a b, by linarith, by linarith, ?_, ?_, ?_⟩ <;>
      simp only [splitVertex, splitCoord, if_pos h, splitEs3]
  · refine ⟨1 / 2, by norm_num, by norm_num, ?_, ?_, ?_⟩ <;>
      · simp only [splitVertex, splitCoord, h, lt_irrefl, gt_iff_lt, if_false]
        ring
  · refine ⟨splitEs3 m a b, by unfold splitEs3; linarith, by unfold splitEs3; linarith,
      ?_, ?_, ?_⟩ <;>
      · simp only [splitVertex, splitCoord, if_neg (not_lt.mpr h.le), gt_iff_lt, if_pos h,
          splitEs3]
        ring

theorem sqrtQ_nonneg (u : ℚ) : 0 ≤ sqrtQ u := by
  unfold sqrtQ
  positivity

theorem libQ_pow_nonneg : ∀ u v : ℚ, 0 ≤ u → 0 ≤ libQ.pow u v := by
  intro u v hu
  show 0 ≤ (if v = 1 / 2 then sqrtQ u else u)
  split_ifs
  · exact sqrtQ_nonneg u
  · exact hu

end Basic

section Descent

variable {K : Type} [LinearOrderedField K] [FloorRing K]

theorem dist2_comm (a b : Vertex K) : dist2 a b = dist2 b a := by
  simp only [dist2]; ring

theorem dist2_nonneg (a b : Vertex K) : 0 ≤ dist2 a b := by
  simp only [dist2]
  exact add_nonneg (add_nonneg (mul_self_nonneg _) (mul_self_nonneg _)) (mul_self_nonneg _)

theorem ite_gt_eq_max (u v : K) : (if v > u then v else u) = max u v := by
  rcases lt_or_le u v with h | h
  · rw [if_pos h, max_eq_right h.le]
  · rw [if_neg (not_lt.mpr h), max_eq_left h]

theorem maxlength_eq (a b c d : Vertex K) :
    maxlength a b c d =
      max (max (max (max (max (dist2 a b) (dist2 a c)) (dist2 a d)) (dist2 b c)) (dist2 b d))
        (dist2 c d) := by
  simp only [maxlength, ite_gt_eq_max]

theorem maxlength_ge (a b c d : Vertex K) :
    dist2 a b ≤ maxlength a b c d ∧ dist2 a c ≤ maxlength a b c d
      ∧ dist2 a d ≤ maxlength a b c d ∧ dist2 b c ≤ maxlength a b c d
      ∧ dist2 b d ≤ maxlength a b c d ∧ dist2 c d ≤ maxlength a b c d := by
  rw [maxlength_eq]
  simp only [le_max_iff, le_refl, true_or, or_true, and_self]

theorem maxlength_mem (a b c d : Vertex K) :
    maxlength a b c d = dist2 a b ∨ maxlength a b c d = dist2 a c
      ∨ maxlength a b c d = dist2 a d ∨ maxlength a b c d = dist2 b c
      ∨ maxlength a b c d = dist2 b d ∨ maxlength a b c d = dist2 c d := by
  rw [maxlength_eq]
  rcases max_choice (max (max (max (max (dist2 a b) (dist2 a c)) (dist2 a d)) (dist2 b c))
    (dist2 b d)) (dist2 c d) with h5 | h5 <;> rw [h5]
  swap
  · simp
  rcases max_choice (max (max (max (dist2 a b) (dist2 a c)) (dist2 a d)) (dist2 b c))
    (dist2 b d) with h4 | h4 <;> rw [h4]
  swap
  · simp
  rcases max_choice (max (max (dist2 a b) (dist2 a c)) (dist2 a d)) (dist2 b c) with h3 | h3
    <;> rw [h3]
  swap
  · simp
  rcases max_choice (max (dist2 a b) (dist2 a c)) (dist2 a d) with h2 | h2 <;> rw [h2]
  swap
  · simp
  rcases max_choice (dist2 a b) (dist2 a c) with h1 | h1 <;> rw [h1] <;> simp

/-- The split is reached exactly when `ab` is strictly the longest edge. -/
theorem strictAB_iff (a b c d : Vertex K) :
    StrictAB ⟨a, b, c, d⟩ ↔
      (dist2 a c ≠ maxlength a b c d ∧ dist2 a d ≠ maxlength a b c d
        ∧ dist2 b c ≠ maxlength a b c d ∧ dist2 b d ≠ maxlength a b c d
        ∧ dist2 c d ≠ maxlength a b c d) := by
  obtain ⟨g1, g2, g3, g4, g5, g6⟩ := maxlength_ge a b c d
  constructor
  · rintro ⟨h1, h2, h3, h4, h5⟩
    simp only at h1 h2 h3 h4 h5
    refine ⟨?_, ?_, ?_, ?_, ?_⟩ <;> intro h <;> linarith
  · rintro ⟨h1, h2, h3, h4, h5⟩
    have hm : maxlength a b c d = dist2 a b := by
      rcases maxlength_mem a b c d with h | h | h | h | h | h
      · exact h
      · exact absurd h.symm h1
      · exact absurd h.symm h2
      · exact absurd h.symm h3
      · exact absurd h.symm h4
      · exact absurd h.symm h5
    rw [hm] at h1 h2 h3 h4 h5 g2 g3 g4 g5 g6
    exact ⟨lt_of_le_of_ne g2 h1, lt_of_le_of_ne g3 h2, lt_of_le_of_ne g4 h3,
      lt_of_le_of_ne g5 h4, lt_of_le_of_ne g6 h5⟩

theorem rotate_of_strictAB {t : Tetra K} (h : StrictAB t) : rotate t = t := by
  obtain ⟨h1, h2, h3, h4, h5⟩ := (strictAB_iff t.a t.b t.c t.d).mp h
  simp only [rotate, h1, h2, h3, h4, h5, if_false]

/-- A call at a positive level whose tuple has `ab` strictly longest cuts `ab`. -/
theorem planet_succ_of_strictAB (m : Libm K) (cfg : Config K) (fuel : Nat) (st : State K)
    (t : Tetra K) (x y z : K) (level : Int) (hl : 0 < level) (h : StrictAB t) :
    planet m cfg (fuel + 1) st t.a t.b t.c t.d x y z level =
      planet m cfg fuel (snapshot st t level) (child m cfg t x y z).a (child m cfg t x y z).b
        (child m cfg t x y z).c (child m cfg t x y z).d x y z (level - 1) := by
  obtain ⟨h1, h2, h3, h4, h5⟩ := (strictAB_iff t.a t.b t.c t.d).mp h
  rw [planet]
  simp only [gt_iff_lt, hl, if_true, h1, h2, h3, h4, h5, if_false, child, snapshot]
  split_ifs <;> rfl

/-- A call at a positive level whose tuple does not have `ab` strictly longest
calls `planet` on the rotated tuple at the same level. -/
theorem planet_succ_of_not_strictAB (m : Libm K) (cfg : Config K) (fuel : Nat) (st : State K)
    (t : Tetra K) (x y z : K) (level : Int) (hl : 0 < level) (h : ¬ StrictAB t) :
    planet m cfg (fuel + 1) st t.a t.b t.c t.d x y z level =
      planet m cfg fuel st (rotate t).a (rotate t).b (rotate t).c (rotate t).d x y z level := by
  rw [planet]
  simp only [gt_iff_lt, hl, if_true, rotate]
  split_ifs <;>
    first
    | rfl
    | exact absurd ((strictAB_iff t.a t.b t.c t.d).mpr
        ⟨by assumption, by assumption, by assumption, by assumption, by assumption⟩) h

theorem count_six_eq_one {l e1 e2 e3 e4 e5 e6 : K}
    (hc : [e1, e2, e3, e4, e5, e6].count l = 1) :
    (e1 = l ∧ e2 ≠ l ∧ e3 ≠ l ∧ e4 ≠ l ∧ e5 ≠ l ∧ e6 ≠ l)
      ∨ (e1 ≠ l ∧ e2 = l ∧ e3 ≠ l ∧ e4 ≠ l ∧ e5 ≠ l ∧ e6 ≠ l)
      ∨ (e1 ≠ l ∧ e2 ≠ l ∧ e3 = l ∧ e4 ≠ l ∧ e5 ≠ l ∧ e6 ≠ l)
      ∨ (e1 ≠ l ∧ e2 ≠ l ∧ e3 ≠ l ∧ e4 = l ∧ e5 ≠ l ∧ e6 ≠ l)
      ∨ (e1 ≠ l ∧ e2 ≠ l ∧ e3 ≠ l ∧ e4 ≠ l ∧ e5 = l ∧ e6 ≠ l)
      ∨ (e1 ≠ l ∧ e2 ≠ l ∧ e3 ≠ l ∧ e4 ≠ l ∧ e5 ≠ l ∧ e6 = l) := by
  simp only [List.count_cons, List.count_nil, beq_iff_eq] at hc
  by_cases h1 : e1 = l <;> by_cases h2 : e2 = l <;> by_cases h3 : e3 = l <;>
    by_cases h4 : e4 = l <;> by_cases h5 : e5 = l <;> by_cases h6 : e6 = l <;>
    simp only [h1, h2, h3, h4, h5, h6, if_true, if_false] at hc <;>
    first
    | omega
    | simp [h1, h2, h3, h4, h5, h6]

theorem edges_eq_pairDists (t : Tetra K) : edges t = pairDists t.toList := by
  simp [edges, pairDists, Tetra.toList]

theorem pairDists_perm {l1 l2 : List (Vertex K)} (h : l1.Perm l2) :
    (pairDists l1).Perm (pairDists l2) := by
  induction h with
  | nil => exact List.Perm.refl _
  | cons v _ ih => exact List.Perm.append (List.Perm.map _ (by assumption)) ih
  | swap v w l =>
    simp only [pairDists, List.map_cons, List.cons_append]
    rw [dist2_comm w v]
    refine List.Perm.cons _ ?_
    rw [← List.append_assoc, ← List.append_assoc]
    exact List.Perm.append_right _ List.perm_append_comm
  | trans _ _ ih1 ih2 => exact ih1.trans ih2

theorem edges_perm {t1 t2 : Tetra K} (h : t1.toList.Perm t2.toList) :
    (edges t1).Perm (edges t2) := by
  rw [edges_eq_pairDists, edges_eq_pairDists]
  exact pairDists_perm h

theorem hasStrictMax_of_perm {t1 t2 : Tetra K} (h : t1.toList.Perm t2.toList)
    (h2 : HasStrictMax t2) : HasStrictMax t1 := by
  obtain ⟨l, hc, hle⟩ := h2
  refine ⟨l, ?_, ?_⟩
  · rw [(edges_perm h).count_eq]; exact hc
  · intro l1 hl1
    exact hle l1 ((edges_perm h).mem_iff.mp hl1)

theorem rotate_perm (t : Tetra K) : (rotate t).toList.Perm t.toList := by
  rw [List.perm_iff_count]
  intro v
  simp only [rotate]
  split_ifs <;> simp only [Tetra.toList, List.count_cons, List.count_nil] <;> omega

theorem hasStrictMax_of_strictAB {t : Tetra K} (h : StrictAB t) : HasStrictMax t := by
  obtain ⟨h1, h2, h3, h4, h5⟩ := h
  refine ⟨dist2 t.a t.b, ?_, ?_⟩
  · simp [edges, List.count_cons, h1.ne, h2.ne, h3.ne, h4.ne, h5.ne]
  · intro l1 hl1
    simp only [edges, List.mem_cons, List.mem_singleton, List.not_mem_nil, or_false] at hl1
    rcases hl1 with h | h | h | h | h | h <;> rw [h] <;> first | exact le_refl _ | exact le_of_lt (by assumption)

theorem strictAB_rotate {t : Tetra K} (h : HasStrictMax t) : StrictAB (rotate t) := by
  obtain ⟨l, hc, hle⟩ := h
  have g1 := hle (dist2 t.a t.b) (by simp [edges])
  have g2 := hle (dist2 t.a t.c) (by simp [edges])
  have g3 := hle (dist2 t.a t.d) (by simp [edges])
  have g4 := hle (dist2 t.b t.c) (by simp [edges])
  have g5 := hle (dist2 t.b t.d) (by simp [edges])
  have g6 := hle (dist2 t.c t.d) (by simp [edges])
  have hml : maxlength t.a t.b t.c t.d ≤ l := by
    rcases maxlength_mem t.a t.b t.c t.d with h | h | h | h | h | h <;> rw [h] <;> assumption
  obtain ⟨m1, m2, m3, m4, m5, m6⟩ := maxlength_ge t.a t.b t.c t.d
  have q1 := dist2_comm t.b t.a
  have q2 := dist2_comm t.c t.a
  have q3 := dist2_comm t.d t.a
  have q4 := dist2_comm t.c t.b
  have q5 := dist2_comm t.d t.b
  have q6 := dist2_comm t.d t.c
  rcases count_six_eq_one hc with ⟨c1, c2, c3, c4, c5, c6⟩ | ⟨c1, c2, c3, c4, c5, c6⟩
    | ⟨c1, c2, c3, c4, c5, c6⟩ | ⟨c1, c2, c3, c4, c5, c6⟩ | ⟨c1, c2, c3, c4, c5, c6⟩
    | ⟨c1, c2, c3, c4, c5, c6⟩
  · have hm : maxlength t.a t.b t.c t.d = l := le_antisymm hml (c1 ▸ m1)
    have s2 := lt_of_le_of_ne g2 c2
    have s3 := lt_of_le_of_ne g3 c3
    have s4 := lt_of_le_of_ne g4 c4
    have s5 := lt_of_le_of_ne g5 c5
    have s6 := lt_of_le_of_ne g6 c6
    simp only [rotate, hm, c2, c3, c4, c5, c6, if_false, StrictAB]
    refine ⟨?_, ?_, ?_, ?_, ?_⟩ <;> linarith
  · have hm : maxlength t.a t.b t.c t.d = l := le_antisymm hml (c2 ▸ m2)
    have s1 := lt_of_le_of_ne g1 c1
    have s3 := lt_of_le_of_ne g3 c3
    have s4 := lt_of_le_of_ne g4 c4
    have s5 := lt_of_le_of_ne g5 c5
    have s6 := lt_of_le_of_ne g6 c6
    simp only [rotate, hm, c2, if_true, StrictAB]
    refine ⟨?_, ?_, ?_, ?_, ?_⟩ <;> linarith
  · have hm : maxlength t.a t.b t.c t.d = l := le_antisymm hml (c3 ▸ m3)
    have s1 := lt_of_le_of_ne g1 c1
    have s2 := lt_of_le_of_ne g2 c2
    have s4 := lt_of_le_of_ne g4 c4
    have s5 := lt_of_le_of_ne g5 c5
    have s6 := lt_of_le_of_ne g6 c6
    simp only [rotate, hm, c2, c3, if_true, if_false, StrictAB]
    refine ⟨?_, ?_, ?_, ?_, ?_⟩ <;> linarith
  · have hm : maxlength t.a t.b t.c t.d = l := le_antisymm hml (c4 ▸ m4)
    have s1 := lt_of_le_of_ne g1 c1
    have s2 := lt_of_le_of_ne g2 c2
    have s3 := lt_of_le_of_ne g3 c3
    have s5 := lt_of_le_of_ne g5 c5
    have s6 := lt_of_le_of_ne g6 c6
    simp only [rotate, hm, c2, c3, c4, if_true, if_false, StrictAB]
    refine ⟨?_, ?_, ?_, ?_, ?_⟩ <;> linarith
  · have hm : maxlength t.a t.b t.c t.d = l := le_antisymm hml (c5 ▸ m5)
    have s1 := lt_of_le_of_ne g1 c1
    have s2 := lt_of_le_of_ne g2 c2
    have s3 := lt_of_le_of_ne g3 c3
    have s4 := lt_of_le_of_ne g4 c4
    have s6 := lt_of_le_of_ne g6 c6
    simp only [rotate, hm, c2, c3, c4, c5, if_true, if_false, StrictAB]
    refine ⟨?_, ?_, ?_, ?_, ?_⟩ <;> linarith
  · have hm : maxlength t.a t.b t.c t.d = l := le_antisymm hml (c6 ▸ m6)
    have s1 := lt_of_le_of_ne g1 c1
    have s2 := lt_of_le_of_ne g2 c2
    have s3 := lt_of_le_of_ne g3 c3
    have s4 := lt_of_le_of_ne g4 c4
    have s5 := lt_of_le_of_ne g5 c5
    simp only [rotate, hm, c2, c3, c4, c5, c6, if_true, if_false, StrictAB]
    refine ⟨?_, ?_, ?_, ?_, ?_⟩ <;> linarith

/-- The rotated tuple has `ab` strictly longest exactly when one edge of the
tuple is strictly the longest. -/
theorem strictAB_rotate_iff (t : Tetra K) : StrictAB (rotate t) ↔ HasStrictMax t :=
  ⟨fun h => hasStrictMax_of_perm (rotate_perm t).symm (hasStrictMax_of_strictAB h),
    strictAB_rotate⟩

theorem planet_zero (m : Libm K) (cfg : Config K) (fuel : Nat) (st : State K)
    (a b c d : Vertex K) (x y z : K) :
    planet m cfg (fuel + 1) st a b c d x y z 0 = some (leafResult m cfg st ⟨a, b, c, d⟩ x y z) := by
  rw [planet]
  simp only [gt_iff_lt, lt_self_iff_false, if_false, leafResult]

/-- With a tie for the longest edge, a call at a positive level returns nothing,
whatever the fuel: every call rotates the tuple and calls again. -/
theorem planet_tie (m : Libm K) (cfg : Config K) (x y z : K) (level : Int) (hl : 0 < level) :
    ∀ (fuel : Nat) (st : State K) (t : Tetra K), ¬ HasStrictMax t →
      planet m cfg fuel st t.a t.b t.c t.d x y z level = none := by
  intro fuel
  induction fuel with
  | zero => intro st t _; rw [planet]
  | succ f ih =>
    intro st t ht
    have h1 : ¬ StrictAB t := fun h => ht (hasStrictMax_of_strictAB h)
    rw [planet_succ_of_not_strictAB m cfg f st t x y z level hl h1]
    exact ih st (rotate t) (fun h => ht (hasStrictMax_of_perm (rotate_perm t).symm h))

/-- With fuel `2n+1` or more, `planet` at level `n` computes `descend`: one unit
for the leaf and at most two calls (one rotation, one split) per level. -/
theorem planet_eq_descend (m : Libm K) (cfg : Config K) (x y z : K) :
    ∀ (n fuel : Nat) (st : State K) (t : Tetra K), 2 * n + 1 ≤ fuel →
      planet m cfg fuel st t.a t.b t.c t.d x y z (n : Int) = descend m cfg n st t x y z := by
  intro n
  induction n with
  | zero =>
    intro fuel st t hf
    obtain ⟨f, rfl⟩ : ∃ f, fuel = f + 1 := ⟨fuel - 1, by omega⟩
    rw [Nat.cast_zero, planet_zero]
    rfl
  | succ n ih =>
    intro fuel st t hf
    obtain ⟨f, rfl⟩ : ∃ f, fuel = f + 2 := ⟨fuel - 2, by omega⟩
    have hl : (0 : Int) < (n : Int) + 1 := by positivity
    have hl1 : (n : Int) + 1 - 1 = (n : Int) := by ring
    rw [descend, Nat.cast_succ]
    by_cases hr : StrictAB (rotate t)
    · rw [if_pos hr]
      by_cases ht : StrictAB t
      · rw [planet_succ_of_strictAB m cfg (f + 1) st t x y z _ hl ht, hl1,
          ih (f + 1) _ _ (by omega), rotate_of_strictAB ht]
      · rw [planet_succ_of_not_strictAB m cfg (f + 1) st t x y z _ hl ht,
          planet_succ_of_strictAB m cfg f st (rotate t) x y z _ hl hr, hl1,
          ih f _ _ (by omega)]
    · rw [if_neg hr]
      exact planet_tie m cfg x y z _ hl _ st t (fun h => hr (strictAB_rotate h))

theorem descend_isSome_of_noTie (m : Libm K) (cfg : Config K) (x y z : K) :
    ∀ (n : Nat) (st : State K) (t : Tetra K), NoTie m cfg n t x y z →
      (descend m cfg n st t x y z).isSome = true := by
  intro n
  induction n with
  | zero => intro st t _; rfl
  | succ n ih =>
    intro st t h
    rw [descend, if_pos h.1]
    exact ih _ _ h.2

theorem planet_isSome_of_noTie (m : Libm K) (cfg : Config K) (x y z : K) (n fuel : Nat)
    (st : State K) (t : Tetra K) (h : NoTie m cfg n t x y z) (hf : 2 * n + 1 ≤ fuel) :
    (planet m cfg fuel st t.a t.b t.c t.d x y z (n : Int)).isSome = true := by
  rw [planet_eq_descend m cfg x y z n fuel st t hf]
  exact descend_isSome_of_noTie m cfg x y z n st t h

end Descent

section Geometry

variable {K : Type} [LinearOrderedField K] [FloorRing K]

theorem det_cut_a {t : Tetra K} {e : Vertex K} {s : K} (he : CutAt t.a t.b e s) :
    det3 (t.a.x - e.x) (t.a.y - e.y) (t.a.z - e.z) (t.c.x - e.x) (t.c.y - e.y) (t.c.z - e.z)
        (t.d.x - e.x) (t.d.y - e.y) (t.d.z - e.z) = -(1 - s) * vol t := by
  obtain ⟨hx, hy, hz⟩ := he
  simp only [det3, vol, hx, hy, hz]
  ring

theorem det_cut_p {t : Tetra K} {e : Vertex K} {s x y z wa wb wc wd : K}
    (he : CutAt t.a t.b e s) (hb : Bary t x y z wa wb wc wd) :
    det3 (x - e.x) (y - e.y) (z - e.z) (t.c.x - e.x) (t.c.y - e.y) (t.c.z - e.z)
        (t.d.x - e.x) (t.d.y - e.y) (t.d.z - e.z) = (wb * s - wa * (1 - s)) * vol t := by
  obtain ⟨hx, hy, hz⟩ := he
  obtain ⟨hs, px, py, pz⟩ := hb
  have hwd : wd = 1 - wa - wb - wc := by linarith
  subst hwd px py pz
  simp only [det3, vol, hx, hy, hz]
  ring

/-- The product tested by `planet`, in barycentric coordinates. -/
theorem sideProduct_eq {t : Tetra K} {e : Vertex K} {s x y z wa wb wc wd : K}
    (he : CutAt t.a t.b e s) (hb : Bary t x y z wa wb wc wd) :
    sideProduct t.a t.c t.d e x y z = (1 - s) * (wa * (1 - s) - wb * s) * (vol t) ^ 2 := by
  simp only [sideProduct]
  rw [det_cut_a he, det_cut_p he hb]
  ring

theorem bary_child_a {t : Tetra K} {e : Vertex K} {s x y z wa wb wc wd : K}
    (hs1 : s < 1) (he : CutAt t.a t.b e s) (hb : Bary t x y z wa wb wc wd) :
    Bary ⟨t.c, t.d, t.a, e⟩ x y z wc wd (wa - wb * s / (1 - s)) (wb / (1 - s)) := by
  obtain ⟨hx, hy, hz⟩ := he
  obtain ⟨hs, px, py, pz⟩ := hb
  have h1 : (1 - s) ≠ 0 := by linarith
  refine ⟨?_, ?_, ?_, ?_⟩
  · field_simp; linear_combination (1 - s) * hs
  · simp only [hx, px]; field_simp; ring
  · simp only [hy, py]; field_simp; ring
  · simp only [hz, pz]; field_simp; ring

theorem bary_child_b {t : Tetra K} {e : Vertex K} {s x y z wa wb wc wd : K}
    (hs0 : 0 < s) (he : CutAt t.a t.b e s) (hb : Bary t x y z wa wb wc wd) :
    Bary ⟨t.c, t.d, t.b, e⟩ x y z wc wd (wb - wa * (1 - s) / s) (wa / s) := by
  obtain ⟨hx, hy, hz⟩ := he
  obtain ⟨hs, px, py, pz⟩ := hb
  have h1 : s ≠ 0 := by linarith
  refine ⟨?_, ?_, ?_, ?_⟩
  · field_simp; linear_combination s * hs
  · simp only [hx, px]; field_simp; ring
  · simp only [hy, py]; field_simp; ring
  · simp only [hz, pz]; field_simp; ring

/-- The sub-tetrahedron chosen by the point-location test contains every point
of the closed, non-degenerate tetrahedron that is cut. -/
theorem inTetra_child (m : Libm K) (cfg : Config K) (t : Tetra K) (x y z : K)
    (hv : vol t ≠ 0) (hin : InTetra t x y z)
    (he : Between t.a t.b (splitVertex m cfg t.a t.b x y z)) :
    InTetra (child m cfg t x y z) x y z := by
  obtain ⟨s, hs0, hs1, hcut⟩ := he
  obtain ⟨wa, wb, wc, wd, ha, hb, hc, hd, hbary⟩ := hin
  have hprod := sideProduct_eq hcut hbary
  have hv2 : 0 < (vol t) ^ 2 := by positivity
  have h1s : 0 < 1 - s := by linarith
  unfold child
  by_cases hside : insideACDE t.a t.c t.d (splitVertex m cfg t.a t.b x y z) x y z
  · rw [if_pos hside]
    have hk : 0 < wa * (1 - s) - wb * s := by
      unfold insideACDE at hside
      rw [hprod] at hside
      by_contra hneg
      have : (1 - s) * (wa * (1 - s) - wb * s) * (vol t) ^ 2 ≤ 0 :=
        mul_nonpos_of_nonpos_of_nonneg
          (mul_nonpos_of_nonneg_of_nonpos h1s.le (not_lt.mp hneg)) hv2.le
      exact absurd hside (not_lt.mpr this)
    refine ⟨wc, wd, wa - wb * s / (1 - s), wb / (1 - s), hc, hd, ?_, ?_,
      bary_child_a hs1 hcut hbary⟩
    · have : wa - wb * s / (1 - s) = (wa * (1 - s) - wb * s) / (1 - s) := by
        field_simp
      rw [this]
      exact (div_pos hk h1s).le
    · exact div_nonneg hb h1s.le
  · rw [if_neg hside]
    have hk : wa * (1 - s) - wb * s ≤ 0 := by
      unfold insideACDE at hside
      rw [hprod] at hside
      by_contra hpos
      exact hside (mul_pos (mul_pos h1s (not_le.mp hpos)) hv2)
    refine ⟨wc, wd, wb - wa * (1 - s) / s, wa / s, hc, hd, ?_, ?_,
      bary_child_b hs0 hcut hbary⟩
    · have : wb - wa * (1 - s) / s = -(wa * (1 - s) - wb * s) / s := by
        field_simp
      rw [this]
      exact div_nonneg (by linarith) hs0.le
    · exact div_nonneg ha hs0.le

theorem perm_two {α : Type} {u v u1 v1 : α} (h : [u1, v1].Perm [u, v]) :
    (u1 = u ∧ v1 = v) ∨ (u1 = v ∧ v1 = u) := by
  have hm : u1 ∈ [u, v] := h.subset (List.mem_cons_self _ _)
  simp only [List.mem_cons, List.mem_singleton, List.not_mem_nil, or_false] at hm
  rcases hm with rfl | rfl
  · left
    have h2 := List.perm_singleton.mp h.cons_inv
    exact ⟨rfl, by simpa using h2⟩
  · right
    have h2 := List.perm_singleton.mp (h.trans (List.Perm.swap u1 u [])).cons_inv
    exact ⟨rfl, by simpa using h2⟩

theorem perm_three {α : Type} {u v w u1 v1 w1 : α} (h : [u1, v1, w1].Perm [u, v, w]) :
    (u1 = u ∧ v1 = v ∧ w1 = w) ∨ (u1 = u ∧ v1 = w ∧ w1 = v)
      ∨ (u1 = v ∧ v1 = u ∧ w1 = w) ∨ (u1 = v ∧ v1 = w ∧ w1 = u)
      ∨ (u1 = w ∧ v1 = u ∧ w1 = v) ∨ (u1 = w ∧ v1 = v ∧ w1 = u) := by
  have hm : u1 ∈ [u, v, w] := h.subset (List.mem_cons_self _ _)
  simp only [List.mem_cons, List.mem_singleton, List.not_mem_nil, or_false] at hm
  rcases hm with rfl | rfl | rfl
  · rcases perm_two h.cons_inv with ⟨h1, h2⟩ | ⟨h1, h2⟩
    · exact Or.inl ⟨rfl, h1, h2⟩
    · exact Or.inr (Or.inl ⟨rfl, h1, h2⟩)
  · have h2 : [u1, v1, w1].Perm [u1, u, w] := h.trans (List.Perm.swap u1 u [w])
    rcases perm_two h2.cons_inv with ⟨h1, h2⟩ | ⟨h1, h2⟩
    · exact Or.inr (Or.inr (Or.inl ⟨rfl, h1, h2⟩))
    · exact Or.inr (Or.inr (Or.inr (Or.inl ⟨rfl, h1, h2⟩)))
  · have h2 : [u1, v1, w1].Perm [u1, u, v] :=
      h.trans (@List.perm_append_comm _ [u, v] [u1])
    rcases perm_two h2.cons_inv with ⟨h1, h2⟩ | ⟨h1, h2⟩
    · exact Or.inr (Or.inr (Or.inr (Or.inr (Or.inl ⟨rfl, h1, h2⟩))))
    · exact Or.inr (Or.inr (Or.inr (Or.inr (Or.inr ⟨rfl, h1, h2⟩))))

end Geometry

section Symmetry

variable {K : Type} [LinearOrderedField K] [FloorRing K]

theorem splitSeed_comm (m : Libm K) (a b : Vertex K) : splitSeed m b a = splitSeed m a b :=
  rand2_comm m b.s a.s

theorem splitEs1_comm (m : Libm K) (a b : Vertex K) : splitEs1 m b a = splitEs1 m a b := by
  simp only [splitEs1, splitSeed_comm m a b]

theorem splitEs2_comm (m : Libm K) (a b : Vertex K) : splitEs2 m b a = splitEs2 m a b := by
  simp only [splitEs2, splitEs1_comm m a b]

theorem splitEs3_comm (m : Libm K) (a b : Vertex K) : splitEs3 m b a = splitEs3 m a b := by
  simp only [splitEs3, splitEs2_comm m a b]

theorem useMap_comm (cfg : Config K) (a b : Vertex K) : useMap cfg b a ↔ useMap cfg a b := by
  simp only [useMap, dist2_comm b a]

theorem labAfter_comm (m : Libm K) (cfg : Config K) (a b : Vertex K) :
    labAfter m cfg b a = labAfter m cfg a b := by
  simp only [labAfter, useMap_comm cfg a b, dist2_comm b a]

theorem splitCoord_swap (m : Libm K) (a b : Vertex K) (ca cb : K) :
    splitCoord m b a cb ca = splitCoord m a b ca cb := by
  simp only [splitCoord, splitEs2_comm m a b, splitEs3_comm m a b, gt_iff_lt]
  rcases lt_trichotomy a.s b.s with h | h | h
  · rw [if_neg (not_lt.mpr h.le), if_pos h, if_pos h]
    ring
  · simp only [h, lt_irrefl, if_false]
    ring
  · rw [if_pos h, if_neg (not_lt.mpr h.le), if_pos h]
    ring

theorem splitH_swap (m : Libm K) (cfg : Config K) (a b : Vertex K) (ex ey ez : K) :
    splitH m cfg b a ex ey ez = splitH m cfg a b ex ey ez := by
  simp only [splitH, useMap_comm cfg a b, splitSeed_comm m a b, splitEs1_comm m a b,
    labAfter_comm m cfg a b, abs_sub_comm b.h a.h, add_comm b.h a.h]

theorem splitShadow_swap (m : Libm K) (cfg : Config K) (a b : Vertex K) (x y z eh : K) :
    splitShadow m cfg b a x y z eh = splitShadow m cfg a b x y z eh := by
  have hx : b.h * (1 / 2 * (b.x + a.x) - b.x) + a.h * (1 / 2 * (b.x + a.x) - a.x)
      = a.h * (1 / 2 * (a.x + b.x) - a.x) + b.h * (1 / 2 * (a.x + b.x) - b.x) := by ring
  have hy : b.h * (1 / 2 * (b.y + a.y) - b.y) + a.h * (1 / 2 * (b.y + a.y) - a.y)
      = a.h * (1 / 2 * (a.y + b.y) - a.y) + b.h * (1 / 2 * (a.y + b.y) - b.y) := by ring
  have hz : b.h * (1 / 2 * (b.z + a.z) - b.z) + a.h * (1 / 2 * (b.z + a.z) - a.z)
      = a.h * (1 / 2 * (a.z + b.z) - a.z) + b.h * (1 / 2 * (a.z + b.z) - b.z) := by ring
  simp only [splitShadow, labAfter_comm m cfg a b, hx, hy, hz, add_comm b.shadow a.shadow]

/-- The new vertex does not depend on the order of the endpoints of the edge. -/
theorem splitVertex_swap (m : Libm K) (cfg : Config K) (a b : Vertex K) (x y z : K) :
    splitVertex m cfg b a x y z = splitVertex m cfg a b x y z := by
  simp only [splitVertex, splitCoord_swap, splitH_swap, splitShadow_swap, splitSeed_comm]

theorem det3_swap (ux uy uz vx vy vz wx wy wz : K) :
    det3 ux uy uz wx wy wz vx vy vz = -det3 ux uy uz vx vy vz wx wy wz := by
  simp only [det3]
  ring

theorem sideProduct_swap_cd (a c d e : Vertex K) (x y z : K) :
    sideProduct a d c e x y z = sideProduct a c d e x y z := by
  simp only [sideProduct]
  rw [det3_swap (a.x - e.x), det3_swap (x - e.x)]
  ring

theorem sideProduct_swap_ab {a b e : Vertex K} {s : K} (he : CutAt a b e s) (c d : Vertex K)
    (x y z : K) :
    sideProduct b c d e x y z * (1 - s) = -s * sideProduct a c d e x y z := by
  obtain ⟨hx, hy, hz⟩ := he
  have hD : det3 (b.x - e.x) (b.y - e.y) (b.z - e.z) (c.x - e.x) (c.y - e.y) (c.z - e.z)
        (d.x - e.x) (d.y - e.y) (d.z - e.z) * (1 - s)
      = -s * det3 (a.x - e.x) (a.y - e.y) (a.z - e.z) (c.x - e.x) (c.y - e.y) (c.z - e.z)
        (d.x - e.x) (d.y - e.y) (d.z - e.z) := by
    simp only [det3, hx, hy, hz]
    ring
  simp only [sideProduct]
  linear_combination
    (det3 (x - e.x) (y - e.y) (z - e.z) (c.x - e.x) (c.y - e.y) (c.z - e.z)
      (d.x - e.x) (d.y - e.y) (d.z - e.z)) * hD

end Symmetry

section Permutations

variable {K : Type} [LinearOrderedField K] [FloorRing K]

theorem perm_four {α : Type} {a b c d a1 b1 c1 d1 : α} (h : [a1, b1, c1, d1].Perm [a, b, c, d]) :
    (a1 = a ∧ b1 = b ∧ c1 = c ∧ d1 = d)
      ∨ (a1 = a ∧ b1 = b ∧ c1 = d ∧ d1 = c)
      ∨ (a1 = a ∧ b1 = c ∧ c1 = b ∧ d1 = d)
      ∨ (a1 = a ∧ b1 = c ∧ c1 = d ∧ d1 = b)
      ∨ (a1 = a ∧ b1 = d ∧ c1 = b ∧ d1 = c)
      ∨ (a1 = a ∧ b1 = d ∧ c1 = c ∧ d1 = b)
      ∨ (a1 = b ∧ b1 = a ∧ c1 = c ∧ d1 = d)
      ∨ (a1 = b ∧ b1 = a ∧ c1 = d ∧ d1 = c)
      ∨ (a1 = b ∧ b1 = c ∧ c1 = a ∧ d1 = d)
      ∨ (a1 = b ∧ b1 = c ∧ c1 = d ∧ d1 = a)
      ∨ (a1 = b ∧ b1 = d ∧ c1 = a ∧ d1 = c)
      ∨ (a1 = b ∧ b1 = d ∧ c1 = c ∧ d1 = a)
      ∨ (a1 = c ∧ b1 = a ∧ c1 = b ∧ d1 = d)
      ∨ (a1 = c ∧ b1 = a ∧ c1 = d ∧ d1 = b)
      ∨ (a1 = c ∧ b1 = b ∧ c1 = a ∧ d1 = d)
      ∨ (a1 = c ∧ b1 = b ∧ c1 = d ∧ d1 = a)
      ∨ (a1 = c ∧ b1 = d ∧ c1 = a ∧ d1 = b)
      ∨ (a1 = c ∧ b1 = d ∧ c1 = b ∧ d1 = a)
      ∨ (a1 = d ∧ b1 = a ∧ c1 = b ∧ d1 = c)
      ∨ (a1 = d ∧ b1 = a ∧ c1 = c ∧ d1 = b)
      ∨ (a1 = d ∧ b1 = b ∧ c1 = a ∧ d1 = c)
      ∨ (a1 = d ∧ b1 = b ∧ c1 = c ∧ d1 = a)
      ∨ (a1 = d ∧ b1 = c ∧ c1 = a ∧ d1 = b)
      ∨ (a1 = d ∧ b1 = c ∧ c1 = b ∧ d1 = a) := by
  have hm : a1 ∈ [a, b, c, d] := h.subset (List.mem_cons_self _ _)
  simp only [List.mem_cons, List.mem_singleton, List.not_mem_nil, or_false] at hm
  rcases hm with rfl | rfl | rfl | rfl
  · rcases perm_three h.cons_inv with h3 | h3 | h3 | h3 | h3 | h3 <;>
      obtain ⟨rfl, rfl, rfl⟩ := h3 <;> simp
  · have h2 : [a1, b1, c1, d1].Perm [a1, a, c, d] := h.trans (List.Perm.swap a1 a [c, d])
    rcases perm_three h2.cons_inv with h3 | h3 | h3 | h3 | h3 | h3 <;>
      obtain ⟨rfl, rfl, rfl⟩ := h3 <;> simp
  · have h2 : [a1, b1, c1, d1].Perm [a1, a, b, d] :=
      h.trans (List.Perm.append_right [d] (@List.perm_append_comm _ [a, b] [a1]))
    rcases perm_three h2.cons_inv with h3 | h3 | h3 | h3 | h3 | h3 <;>
      obtain ⟨rfl, rfl, rfl⟩ := h3 <;> simp
  · have h2 : [a1, b1, c1, d1].Perm [a1, a, b, c] :=
      h.trans (@List.perm_append_comm _ [a, b, c] [a1])
    rcases perm_three h2.cons_inv with h3 | h3 | h3 | h3 | h3 | h3 <;>
      obtain ⟨rfl, rfl, rfl⟩ := h3 <;> simp

/-- A tuple whose vertices are a permutation of those of `t2` is one of the 24
arrangements of `t2`. -/
theorem tetra_perm_cases {t1 t2 : Tetra K} (h : t1.toList.Perm t2.toList) :
    t1 = ⟨t2.a, t2.b, t2.c, t2.d⟩
      ∨ t1 = ⟨t2.a, t2.b, t2.d, t2.c⟩
      ∨ t1 = ⟨t2.a, t2.c, t2.b, t2.d⟩
      ∨ t1 = ⟨t2.a, t2.c, t2.d, t2.b⟩
      ∨ t1 = ⟨t2.a, t2.d, t2.b, t2.c⟩
      ∨ t1 = ⟨t2.a, t2.d, t2.c, t2.b⟩
      ∨ t1 = ⟨t2.b, t2.a, t2.c, t2.d⟩
      ∨ t1 = ⟨t2.b, t2.a, t2.d, t2.c⟩
      ∨ t1 = ⟨t2.b, t2.c, t2.a, t2.d⟩
      ∨ t1 = ⟨t2.b, t2.c, t2.d, t2.a⟩
      ∨ t1 = ⟨t2.b, t2.d, t2.a, t2.c⟩
      ∨ t1 = ⟨t2.b, t2.d, t2.c, t2.a⟩
      ∨ t1 = ⟨t2.c, t2.a, t2.b, t2.d⟩
      ∨ t1 = ⟨t2.c, t2.a, t2.d, t2.b⟩
      ∨ t1 = ⟨t2.c, t2.b, t2.a, t2.d⟩
      ∨ t1 = ⟨t2.c, t2.b, t2.d, t2.a⟩
      ∨ t1 = ⟨t2.c, t2.d, t2.a, t2.b⟩
      ∨ t1 = ⟨t2.c, t2.d, t2.b, t2.a⟩
      ∨ t1 = ⟨t2.d, t2.a, t2.b, t2.c⟩
      ∨ t1 = ⟨t2.d, t2.a, t2.c, t2.b⟩
      ∨ t1 = ⟨t2.d, t2.b, t2.a, t2.c⟩
      ∨ t1 = ⟨t2.d, t2.b, t2.c, t2.a⟩
      ∨ t1 = ⟨t2.d, t2.c, t2.a, t2.b⟩
      ∨ t1 = ⟨t2.d, t2.c, t2.b, t2.a⟩ := by
  obtain ⟨a1, b1, c1, d1⟩ := t1
  obtain ⟨a, b, c, d⟩ := t2
  simp only [Tetra.mk.injEq]
  exact perm_four h

/-- Two arrangements of the same vertices that both have `ab` strictly longest
differ at most by exchanging `a` with `b` and `c` with `d`. -/
theorem strictAB_perm_cases {u1 u2 : Tetra K} (h1 : StrictAB u1) (h2 : StrictAB u2)
    (h : u1.toList.Perm u2.toList) :
    u1 = u2 ∨ u1 = ⟨u2.b, u2.a, u2.c, u2.d⟩ ∨ u1 = ⟨u2.a, u2.b, u2.d, u2.c⟩
      ∨ u1 = ⟨u2.b, u2.a, u2.d, u2.c⟩ := by
  obtain ⟨a, b, c, d⟩ := u2
  have q1 := dist2_comm b a
  have q2 := dist2_comm c a
  have q3 := dist2_comm d a
  have q4 := dist2_comm c b
  have q5 := dist2_comm d b
  have q6 := dist2_comm d c
  obtain ⟨g1, g2, g3, g4, g5⟩ := h2
  simp only at g1 g2 g3 g4 g5
  rcases tetra_perm_cases h with r | r | r | r | r | r | r | r | r | r | r | r | r | r | r | r
    | r | r | r | r | r | r | r | r <;> subst r <;> obtain ⟨f1, f2, f3, f4, f5⟩ := h1 <;>
    simp only at f1 f2 f3 f4 f5 <;>
    first
    | (exfalso; linarith)
    | simp

end Permutations

section PermInvariance

variable {K : Type} [LinearOrderedField K] [FloorRing K]

theorem seedsOK_rotate {t : Tetra K} (h : SeedsOK t) : SeedsOK (rotate t) := by
  obtain ⟨h1, h2, h3, h4⟩ := h
  unfold rotate
  split_ifs <;> exact ⟨by assumption, by assumption, by assumption, by assumption⟩

theorem seedsOK_child (m : Libm K) (cfg : Config K) {t : Tetra K} (x y z : K)
    (h : SeedsOK t) : SeedsOK (child m cfg t x y z) := by
  obtain ⟨h1, h2, h3, h4⟩ := h
  have he : SeedOK (splitVertex m cfg t.a t.b x y z).s := splitSeed_seedOK m h1 h2
  unfold child
  split_ifs
  · exact ⟨h3, h4, h1, he⟩
  · exact ⟨h3, h4, h2, he⟩

theorem leaf_alt_perm {t1 t2 : Tetra K} (h : t1.toList.Perm t2.toList) :
    t1.a.h + t1.b.h + t1.c.h + t1.d.h = t2.a.h + t2.b.h + t2.c.h + t2.d.h := by
  have hs := (List.Perm.map (fun v : Vertex K => v.h) h).sum_eq
  simp only [Tetra.toList, List.map_cons, List.map_nil, List.sum_cons, List.sum_nil] at hs
  linarith

theorem child_perm_of_variant (m : Libm K) (cfg : Config K) {u1 u2 : Tetra K} (x y z : K)
    (hs : SeedsOK u2)
    (hne : sideProduct u2.a u2.c u2.d (splitVertex m cfg u2.a u2.b x y z) x y z ≠ 0)
    (hv : u1 = u2 ∨ u1 = ⟨u2.b, u2.a, u2.c, u2.d⟩ ∨ u1 = ⟨u2.a, u2.b, u2.d, u2.c⟩
      ∨ u1 = ⟨u2.b, u2.a, u2.d, u2.c⟩) :
    sideProduct u1.a u1.c u1.d (splitVertex m cfg u1.a u1.b x y z) x y z ≠ 0
      ∧ (child m cfg u1 x y z).toList.Perm (child m cfg u2 x y z).toList := by
  obtain ⟨s, hs0, hs1, hcut⟩ := splitVertex_between m cfg x y z hs.1 hs.2.1
  have hab := sideProduct_swap_ab hcut u2.c u2.d x y z
  have h1s : 0 < 1 - s := by linarith
  have hb0 : sideProduct u2.b u2.c u2.d (splitVertex m cfg u2.a u2.b x y z) x y z ≠ 0 := by
    intro h0
    rw [h0, zero_mul] at hab
    have : s * sideProduct u2.a u2.c u2.d (splitVertex m cfg u2.a u2.b x y z) x y z = 0 := by
      linarith
    rcases mul_eq_zero.mp this with h | h
    · exact absurd h hs0.ne'
    · exact hne h
  have hflip : sideProduct u2.b u2.c u2.d (splitVertex m cfg u2.a u2.b x y z) x y z > 0 ↔
      ¬ sideProduct u2.a u2.c u2.d (splitVertex m cfg u2.a u2.b x y z) x y z > 0 := by
    constructor
    · intro hb ha
      have h1 := mul_pos hb h1s
      have h2 := mul_pos hs0 ha
      linarith
    · intro ha
      have ha' := lt_of_le_of_ne (not_lt.mp ha) hne
      by_contra hb
      have hb' := lt_of_le_of_ne (not_lt.mp hb) hb0
      have h1 := mul_neg_of_neg_of_pos hb' h1s
      have h2 := mul_neg_of_pos_of_neg hs0 ha'
      linarith
  rcases hv with rfl | rfl | rfl | rfl
  · exact ⟨hne, List.Perm.refl _⟩
  · simp only [splitVertex_swap m cfg u2.a u2.b]
    refine ⟨hb0, ?_⟩
    simp only [child, insideACDE, splitVertex_swap m cfg u2.a u2.b, hflip]
    split_ifs <;> exact List.Perm.refl _
  · simp only [sideProduct_swap_cd]
    refine ⟨hne, ?_⟩
    simp only [child, insideACDE, sideProduct_swap_cd]
    split_ifs <;> exact List.Perm.swap _ _ _
  · simp only [splitVertex_swap m cfg u2.a u2.b, sideProduct_swap_cd]
    refine ⟨hb0, ?_⟩
    simp only [child, insideACDE, splitVertex_swap m cfg u2.a u2.b, sideProduct_swap_cd, hflip]
    split_ifs <;> exact List.Perm.swap _ _ _

theorem noTie_of_genPos (m : Libm K) (cfg : Config K) (x y z : K) :
    ∀ (n : Nat) (t : Tetra K), GenPos m cfg n t x y z → NoTie m cfg n t x y z := by
  intro n
  induction n with
  | zero => intro t _; trivial
  | succ n ih => intro t h; exact ⟨h.1, ih _ h.2.2⟩

/-- In general position the altitude computed by the descent does not depend
on the order of the four vertices. -/
theorem descend_perm (m : Libm K) (cfg : Config K) (x y z : K) :
    ∀ (n : Nat) (t1 t2 : Tetra K) (st1 st2 : State K), SeedsOK t2 →
      GenPos m cfg n t2 x y z → t1.toList.Perm t2.toList →
      GenPos m cfg n t1 x y z
        ∧ (descend m cfg n st1 t1 x y z).map Prod.fst
            = (descend m cfg n st2 t2 x y z).map Prod.fst := by
  intro n
  induction n with
  | zero =>
    intro t1 t2 st1 st2 _ _ hp
    refine ⟨trivial, ?_⟩
    simp only [descend, leafResult, Option.map_some', leaf_alt_perm hp]
  | succ n ih =>
    intro t1 t2 st1 st2 hs hg hp
    obtain ⟨hr2, hne2, hg2⟩ := hg
    have hr1 : StrictAB (rotate t1) :=
      strictAB_rotate (hasStrictMax_of_perm hp ((strictAB_rotate_iff t2).mp hr2))
    have hrp : (rotate t1).toList.Perm (rotate t2).toList :=
      (rotate_perm t1).trans (hp.trans (rotate_perm t2).symm)
    obtain ⟨hne1, hcp⟩ := child_perm_of_variant m cfg x y z (seedsOK_rotate hs) hne2
      (strictAB_perm_cases hr1 hr2 hrp)
    obtain ⟨hg1, heq⟩ := ih (child m cfg (rotate t1) x y z) (child m cfg (rotate t2) x y z)
      (snapshot st1 (rotate t1) (n + 1)) (snapshot st2 (rotate t2) (n + 1))
      (seedsOK_child m cfg x y z (seedsOK_rotate hs)) hg2 hcp
    refine ⟨⟨hr1, hne1, hg1⟩, ?_⟩
    rw [descend, descend, if_pos hr1, if_pos hr2]
    exact heq

end PermInvariance

section Cache

variable {K : Type} [LinearOrderedField K] [FloorRing K]

theorem descend_rotate (m : Libm K) (cfg : Config K) (n : Nat) (st : State K) (t : Tetra K)
    (x y z : K) :
    descend m cfg (n + 1) st (rotate t) x y z = descend m cfg (n + 1) st t x y z := by
  rw [descend, descend]
  by_cases h : StrictAB (rotate t)
  · rw [rotate_of_strictAB h]
  · have h2 : ¬ StrictAB (rotate (rotate t)) := by
      rw [strictAB_rotate_iff]
      intro h3
      exact h (strictAB_rotate (hasStrictMax_of_perm (rotate_perm t).symm h3))
    rw [if_neg h, if_neg h2]

/-- Whatever the fuel, a result returned by `planet` is the result of `descend`. -/
theorem descend_of_planet (m : Libm K) (cfg : Config K) (x y z : K) :
    ∀ (fuel n : Nat) (st : State K) (t : Tetra K) (r : K × State K),
      planet m cfg fuel st t.a t.b t.c t.d x y z (n : Int) = some r →
      descend m cfg n st t x y z = some r := by
  intro fuel
  induction fuel with
  | zero => intro n st t r h; rw [planet] at h; exact absurd h (by simp)
  | succ f ih =>
    intro n st t r h
    cases n with
    | zero =>
      rw [Nat.cast_zero, planet_zero] at h
      rw [descend]
      exact h
    | succ n =>
      have hl : (0 : Int) < ((n + 1 : Nat) : Int) := by positivity
      have hl1 : ((n + 1 : Nat) : Int) - 1 = (n : Int) := by push_cast; ring
      by_cases ht : StrictAB t
      · rw [planet_succ_of_strictAB m cfg f st t x y z _ hl ht, hl1] at h
        have h2 := ih n _ _ r h
        rw [descend, rotate_of_strictAB ht, if_pos ht]
        rw [Nat.cast_succ] at h2
        exact h2
      · rw [planet_succ_of_not_strictAB m cfg f st t x y z _ hl ht] at h
        have h2 := ih (n + 1) st (rotate t) r h
        rw [descend_rotate] at h2
        exact h2

theorem dist2_geo (a b : Vertex K) : dist2 a.geo b.geo = dist2 a b := rfl

theorem maxlength_geo (a b c d : Vertex K) :
    maxlength a.geo b.geo c.geo d.geo = maxlength a b c d := rfl

theorem rotate_geo (t : Tetra K) : (rotate t).geo = rotate t.geo := by
  simp only [rotate, Tetra.geo, dist2_geo, maxlength_geo]
  split_ifs <;> rfl

theorem strictAB_geo (t : Tetra K) : StrictAB t.geo ↔ StrictAB t := Iff.rfl

theorem splitVertex_geo (m : Libm K) (cfg : Config K) (a b : Vertex K) (x y z x1 y1 z1 : K) :
    (splitVertex m cfg a.geo b.geo x1 y1 z1).geo = (splitVertex m cfg a b x y z).geo := rfl

theorem sideProduct_geo (a c d e : Vertex K) (x y z : K) :
    sideProduct a.geo c.geo d.geo e.geo x y z = sideProduct a c d e x y z := rfl

theorem insideACDE_geo (a c d e : Vertex K) (x y z : K) :
    insideACDE a.geo c.geo d.geo e.geo x y z ↔ insideACDE a c d e x y z := Iff.rfl

/-- The geometry of the chosen sub-tetrahedron depends on the goal point only
through the outcome of the point-location test. -/
theorem child_geo_of_iff (m : Libm K) (cfg : Config K) (t1 t2 : Tetra K)
    (x1 y1 z1 x2 y2 z2 : K) (hg : t1.geo = t2.geo)
    (hside : insideACDE t1.a t1.c t1.d (splitVertex m cfg t1.a t1.b x1 y1 z1) x1 y1 z1 ↔
      insideACDE t2.a t2.c t2.d (splitVertex m cfg t2.a t2.b x2 y2 z2) x2 y2 z2) :
    (child m cfg t1 x1 y1 z1).geo = (child m cfg t2 x2 y2 z2).geo := by
  have ha : t1.a.geo = t2.a.geo := congrArg Tetra.a hg
  have hb : t1.b.geo = t2.b.geo := congrArg Tetra.b hg
  have hc : t1.c.geo = t2.c.geo := congrArg Tetra.c hg
  have hd : t1.d.geo = t2.d.geo := congrArg Tetra.d hg
  have he : (splitVertex m cfg t1.a t1.b x1 y1 z1).geo = (splitVertex m cfg t2.a t2.b x2 y2 z2).geo := by
    rw [← splitVertex_geo m cfg t1.a t1.b x1 y1 z1 x1 y1 z1,
      ← splitVertex_geo m cfg t2.a t2.b x2 y2 z2 x1 y1 z1, ha, hb]
  unfold child
  by_cases h1 : insideACDE t1.a t1.c t1.d (splitVertex m cfg t1.a t1.b x1 y1 z1) x1 y1 z1
  · rw [if_pos h1, if_pos (hside.mp h1)]
    simp only [Tetra.geo, ha, hc, hd, he]
  · rw [if_neg h1, if_neg (fun h => h1 (hside.mpr h))]
    simp only [Tetra.geo, hb, hc, hd, he]

theorem insideACDE_congr_geo (m : Libm K) (cfg : Config K) (t1 t2 : Tetra K)
    (x y z x1 y1 z1 : K) (hg : t1.geo = t2.geo) :
    insideACDE t1.a t1.c t1.d (splitVertex m cfg t1.a t1.b x1 y1 z1) x y z ↔
      insideACDE t2.a t2.c t2.d (splitVertex m cfg t2.a t2.b x1 y1 z1) x y z := by
  have ha : t1.a.geo = t2.a.geo := congrArg Tetra.a hg
  have hb : t1.b.geo = t2.b.geo := congrArg Tetra.b hg
  have hc : t1.c.geo = t2.c.geo := congrArg Tetra.c hg
  have hd : t1.d.geo = t2.d.geo := congrArg Tetra.d hg
  have he : (splitVertex m cfg t1.a t1.b x1 y1 z1).geo = (splitVertex m cfg t2.a t2.b x1 y1 z1).geo := by
    rw [← splitVertex_geo m cfg t1.a t1.b x1 y1 z1 x1 y1 z1,
      ← splitVertex_geo m cfg t2.a t2.b x1 y1 z1 x1 y1 z1, ha, hb]
  rw [← insideACDE_geo t1.a, ← insideACDE_geo t2.a, ha, hc, hd, he]

theorem strictAB_congr_geo {t1 t2 : Tetra K} (hg : t1.geo = t2.geo) :
    StrictAB t1 ↔ StrictAB t2 := by
  rw [← strictAB_geo t1, ← strictAB_geo t2, hg]

theorem rotate_congr_geo {t1 t2 : Tetra K} (hg : t1.geo = t2.geo) :
    (rotate t1).geo = (rotate t2).geo := by
  rw [rotate_geo, rotate_geo, hg]

theorem leaf_alt_geo (t1 t2 : Tetra K) (hg : t1.geo = t2.geo) :
    t1.a.h + t1.b.h + t1.c.h + t1.d.h = t2.a.h + t2.b.h + t2.c.h + t2.d.h := by
  have ha : t1.a.h = t2.a.h := by
    have h := congrArg (fun t : Tetra K => t.a.h) hg
    exact h
  have hb : t1.b.h = t2.b.h := by
    have h := congrArg (fun t : Tetra K => t.b.h) hg
    exact h
  have hc : t1.c.h = t2.c.h := by
    have h := congrArg (fun t : Tetra K => t.c.h) hg
    exact h
  have hd : t1.d.h = t2.d.h := by
    have h := congrArg (fun t : Tetra K => t.d.h) hg
    exact h
  rw [ha, hb, hc, hd]

/-- The altitude computed by the descent depends neither on the globals nor on
the rain shadows of the vertices. -/
theorem descend_alt_geo (m : Libm K) (cfg : Config K) (x y z : K) :
    ∀ (n : Nat) (st1 st2 : State K) (t1 t2 : Tetra K), t1.geo = t2.geo →
      (descend m cfg n st1 t1 x y z).map Prod.fst = (descend m cfg n st2 t2 x y z).map Prod.fst := by
  intro n
  induction n with
  | zero =>
    intro st1 st2 t1 t2 hg
    simp only [descend, leafResult, Option.map_some', leaf_alt_geo t1 t2 hg]
  | succ n ih =>
    intro st1 st2 t1 t2 hg
    have hr := rotate_congr_geo hg
    rw [descend, descend]
    by_cases h1 : StrictAB (rotate t1)
    · rw [if_pos h1, if_pos ((strictAB_congr_geo hr).mp h1)]
      exact ih _ _ _ _ (child_geo_of_iff m cfg _ _ x y z x y z hr
        (insideACDE_congr_geo m cfg _ _ x y z x y z hr))
    · rw [if_neg h1, if_neg (fun h => h1 ((strictAB_congr_geo hr).mpr h))]

/-- Below level 11 the descent does not touch the cache. -/
theorem descend_cache_low (m : Libm K) (cfg : Config K) (x y z : K) :
    ∀ (n : Nat) (st : State K) (t : Tetra K) (r : K × State K), n ≤ 10 →
      descend m cfg n st t x y z = some r → r.2.cache = st.cache := by
  intro n
  induction n with
  | zero =>
    intro st t r _ h
    rw [descend] at h
    rw [← Option.some.inj h]
    rfl
  | succ n ih =>
    intro st t r hn h
    rw [descend] at h
    by_cases h1 : StrictAB (rotate t)
    · rw [if_pos h1] at h
      have h2 := ih _ _ r (by omega) h
      rw [h2]
      have hne : ((n : Int) + 1) ≠ 11 := by omega
      simp only [snapshot, if_neg hne]
    · rw [if_neg h1] at h
      exact absurd h (by simp)

/-- A descent that starts at level `11+k` and returns has met no tie on its
first `k` levels and leaves in the cache the rotated tuple of level 11. -/
theorem descend_cache (m : Libm K) (cfg : Config K) (x y z : K) :
    ∀ (k : Nat) (st : State K) (t : Tetra K) (r : K × State K),
      descend m cfg (11 + k) st t x y z = some r →
      NoTie m cfg k t x y z ∧ StrictAB (rotate (descTetra m cfg k t x y z))
        ∧ r.2.cache = rotate (descTetra m cfg k t x y z) := by
  intro k
  induction k with
  | zero =>
    intro st t r h
    rw [Nat.add_zero, descend] at h
    by_cases h1 : StrictAB (rotate t)
    · rw [if_pos h1] at h
      refine ⟨trivial, h1, ?_⟩
      rw [descend_cache_low m cfg x y z 10 _ _ r (le_refl _) h]
      simp [snapshot, State.cache, descTetra]
    · rw [if_neg h1] at h
      exact absurd h (by simp)
  | succ k ih =>
    intro st t r h
    rw [← Nat.add_assoc, descend] at h
    by_cases h1 : StrictAB (rotate t)
    · rw [if_pos h1] at h
      obtain ⟨h2, h3, h4⟩ := ih _ _ r h
      exact ⟨⟨h1, h2⟩, h3, h4⟩
    · rw [if_neg h1] at h
      exact absurd h (by simp)

/-- Without a tie on the first `k` levels, a descent over `n+k` levels is a
descent over `n` levels from the tuple reached after `k` levels. -/
theorem descend_add (m : Libm K) (cfg : Config K) (x y z : K) (n : Nat) :
    ∀ (k : Nat) (st : State K) (t : Tetra K), NoTie m cfg k t x y z →
      ∃ st1 : State K,
        descend m cfg (n + k) st t x y z = descend m cfg n st1 (descTetra m cfg k t x y z) x y z := by
  intro k
  induction k with
  | zero => intro st t _; exact ⟨st, rfl⟩
  | succ k ih =>
    intro st t h
    obtain ⟨st1, h1⟩ := ih (snapshot st (rotate t) ((n + k : Nat) + 1))
      (child m cfg (rotate t) x y z) h.2
    refine ⟨st1, ?_⟩
    rw [← Nat.add_assoc, descend, if_pos h.1]
    exact h1

end Cache
section CacheGeometry

variable {K : Type} [LinearOrderedField K] [FloorRing K]

theorem vol_rotate (t : Tetra K) : vol (rotate t) = vol t ∨ vol (rotate t) = -vol t := by
  unfold rotate
  split_ifs <;>
    first
    | (left; rfl)
    | (left; simp only [vol, det3]; ring1)
    | (right; simp only [vol, det3]; ring1)

theorem vol_ne_zero_of_rotate {t : Tetra K} (h : vol (rotate t) ≠ 0) : vol t ≠ 0 := by
  intro h0
  rcases vol_rotate t with h1 | h1
  · exact h (by rw [h1, h0])
  · exact h (by rw [h1, h0, neg_zero])

theorem strictIn_of_rotate {t : Tetra K} {x y z : K} (h : StrictIn (rotate t) x y z) :
    StrictIn t x y z := by
  unfold rotate at h
  split_ifs at h <;> obtain ⟨w1, w2, w3, w4, p1, p2, p3, p4, hs, hx, hy, hz⟩ := h <;>
    try simp only at hs hx hy hz
  · exact ⟨w1, w3, w2, w4, p1, p3, p2, p4, by linarith, by linarith, by linarith, by linarith⟩
  · exact ⟨w1, w3, w4, w2, p1, p3, p4, p2, by linarith, by linarith, by linarith, by linarith⟩
  · exact ⟨w3, w1, w2, w4, p3, p1, p2, p4, by linarith, by linarith, by linarith, by linarith⟩
  · exact ⟨w3, w1, w4, w2, p3, p1, p4, p2, by linarith, by linarith, by linarith, by linarith⟩
  · exact ⟨w3, w4, w1, w2, p3, p4, p1, p2, by linarith, by linarith, by linarith, by linarith⟩
  · exact ⟨w1, w2, w3, w4, p1, p2, p3, p4, hs, hx, hy, hz⟩

theorem vol_child_a {t : Tetra K} {e : Vertex K} {s : K} (he : CutAt t.a t.b e s) :
    vol ⟨t.c, t.d, t.a, e⟩ = (1 - s) * vol t := by
  obtain ⟨hx, hy, hz⟩ := he
  simp only [vol, det3, hx, hy, hz]
  ring

theorem vol_child_b {t : Tetra K} {e : Vertex K} {s : K} (he : CutAt t.a t.b e s) :
    vol ⟨t.c, t.d, t.b, e⟩ = -s * vol t := by
  obtain ⟨hx, hy, hz⟩ := he
  simp only [vol, det3, hx, hy, hz]
  ring

theorem bary_parent_a {t : Tetra K} {e : Vertex K} {s x y z w1 w2 w3 w4 : K}
    (he : CutAt t.a t.b e s) (hb : Bary ⟨t.c, t.d, t.a, e⟩ x y z w1 w2 w3 w4) :
    Bary t x y z (w3 + w4 * s) (w4 * (1 - s)) w1 w2 := by
  obtain ⟨hx, hy, hz⟩ := he
  obtain ⟨hs, px, py, pz⟩ := hb
  simp only at px py pz
  refine ⟨by linarith, ?_, ?_, ?_⟩
  · rw [px, hx]; ring
  · rw [py, hy]; ring
  · rw [pz, hz]; ring

theorem bary_parent_b {t : Tetra K} {e : Vertex K} {s x y z w1 w2 w3 w4 : K}
    (he : CutAt t.a t.b e s) (hb : Bary ⟨t.c, t.d, t.b, e⟩ x y z w1 w2 w3 w4) :
    Bary t x y z (w4 * s) (w3 + w4 * (1 - s)) w1 w2 := by
  obtain ⟨hx, hy, hz⟩ := he
  obtain ⟨hs, px, py, pz⟩ := hb
  simp only at px py pz
  refine ⟨by linarith, ?_, ?_, ?_⟩
  · rw [px, hx]; ring
  · rw [py, hy]; ring
  · rw [pz, hz]; ring

/-- A point strictly inside the sub-tetrahedron chosen for a goal point `q` is
strictly inside the tetrahedron that was cut, it makes the point-location test
take the same branch as `q`, and the volumes are both non-zero. -/
theorem strictIn_child (m : Libm K) (cfg : Config K) (t : Tetra K) (x y z xq yq zq : K)
    (hs : SeedsOK t) (hin : StrictIn (child m cfg t xq yq zq) x y z)
    (hv : vol (child m cfg t xq yq zq) ≠ 0) :
    StrictIn t x y z ∧ vol t ≠ 0
      ∧ (insideACDE t.a t.c t.d (splitVertex m cfg t.a t.b x y z) x y z ↔
          insideACDE t.a t.c t.d (splitVertex m cfg t.a t.b xq yq zq) xq yq zq) := by
  obtain ⟨s, hs0, hs1, hcut⟩ := splitVertex_between m cfg xq yq zq hs.1 hs.2.1
  have h1s : 0 < 1 - s := by linarith
  have hgeo : insideACDE t.a t.c t.d (splitVertex m cfg t.a t.b x y z) x y z ↔
      insideACDE t.a t.c t.d (splitVertex m cfg t.a t.b xq yq zq) x y z := Iff.rfl
  rw [hgeo]
  unfold child at hin hv
  by_cases hq : insideACDE t.a t.c t.d (splitVertex m cfg t.a t.b xq yq zq) xq yq zq
  · rw [if_pos hq] at hin hv
    obtain ⟨w1, w2, w3, w4, p1, p2, p3, p4, hb⟩ := hin
    have hb2 := bary_parent_a hcut hb
    rw [vol_child_a hcut] at hv
    have hv0 : vol t ≠ 0 := fun h => hv (by rw [h, mul_zero])
    have hv2 : 0 < (vol t) ^ 2 := by positivity
    refine ⟨⟨_, _, _, _, by positivity, by positivity, p1, p2, hb2⟩, hv0, ?_⟩
    have hp : insideACDE t.a t.c t.d (splitVertex m cfg t.a t.b xq yq zq) x y z := by
      unfold insideACDE
      rw [sideProduct_eq hcut hb2]
      have : (1 - s) * ((w3 + w4 * s) * (1 - s) - w4 * (1 - s) * s) * vol t ^ 2
          = (1 - s) ^ 2 * w3 * vol t ^ 2 := by ring
      rw [this]
      positivity
    exact ⟨fun _ => hq, fun _ => hp⟩
  · rw [if_neg hq] at hin hv
    obtain ⟨w1, w2, w3, w4, p1, p2, p3, p4, hb⟩ := hin
    have hb2 := bary_parent_b hcut hb
    rw [vol_child_b hcut] at hv
    have hv0 : vol t ≠ 0 := fun h => hv (by rw [h, mul_zero])
    have hv2 : 0 < (vol t) ^ 2 := by positivity
    refine ⟨⟨_, _, _, _, by positivity, by positivity, p1, p2, hb2⟩, hv0, ?_⟩
    have hp : ¬ insideACDE t.a t.c t.d (splitVertex m cfg t.a t.b xq yq zq) x y z := by
      unfold insideACDE
      rw [sideProduct_eq hcut hb2]
      have : (1 - s) * (w4 * s * (1 - s) - (w3 + w4 * (1 - s)) * s) * vol t ^ 2
          = -((1 - s) * s * w3 * vol t ^ 2) := by ring
      rw [this]
      have : 0 < (1 - s) * s * w3 * vol t ^ 2 := by positivity
      linarith
    exact ⟨fun h => absurd h hp, fun h => absurd h hq⟩

end CacheGeometry

section CacheTest

variable {K : Type} [LinearOrderedField K] [FloorRing K]

/-- The numerator of the barycentric coordinate of `d` (first test of `planet1`). -/
theorem cache_num_sum (t : Tetra K) (x y z : K) :
    det3 (x - t.a.x) (y - t.a.y) (z - t.a.z) (t.b.x - t.a.x) (t.b.y - t.a.y) (t.b.z - t.a.z)
          (t.c.x - t.a.x) (t.c.y - t.a.y) (t.c.z - t.a.z)
        - det3 (x - t.a.x) (y - t.a.y) (z - t.a.z) (t.b.x - t.a.x) (t.b.y - t.a.y) (t.b.z - t.a.z)
          (t.d.x - t.a.x) (t.d.y - t.a.y) (t.d.z - t.a.z)
        - det3 (x - t.a.x) (y - t.a.y) (z - t.a.z) (t.d.x - t.a.x) (t.d.y - t.a.y) (t.d.z - t.a.z)
          (t.c.x - t.a.x) (t.c.y - t.a.y) (t.c.z - t.a.z)
        - det3 (x - t.b.x) (y - t.b.y) (z - t.b.z) (t.c.x - t.b.x) (t.c.y - t.b.y) (t.c.z - t.b.z)
          (t.d.x - t.b.x) (t.d.y - t.b.y) (t.d.z - t.b.z)
      = vol t := by
  simp only [det3, vol]
  ring

theorem cache_num_x (t : Tetra K) (x y z : K) :
    x * vol t =
      -det3 (x - t.b.x) (y - t.b.y) (z - t.b.z) (t.c.x - t.b.x) (t.c.y - t.b.y) (t.c.z - t.b.z)
          (t.d.x - t.b.x) (t.d.y - t.b.y) (t.d.z - t.b.z) * t.a.x
        + -det3 (x - t.a.x) (y - t.a.y) (z - t.a.z) (t.d.x - t.a.x) (t.d.y - t.a.y) (t.d.z - t.a.z)
          (t.c.x - t.a.x) (t.c.y - t.a.y) (t.c.z - t.a.z) * t.b.x
        + -det3 (x - t.a.x) (y - t.a.y) (z - t.a.z) (t.b.x - t.a.x) (t.b.y - t.a.y) (t.b.z - t.a.z)
          (t.d.x - t.a.x) (t.d.y - t.a.y) (t.d.z - t.a.z) * t.c.x
        + det3 (x - t.a.x) (y - t.a.y) (z - t.a.z) (t.b.x - t.a.x) (t.b.y - t.a.y) (t.b.z - t.a.z)
          (t.c.x - t.a.x) (t.c.y - t.a.y) (t.c.z - t.a.z) * t.d.x := by
  simp only [det3, vol]
  ring

theorem cache_num_y (t : Tetra K) (x y z : K) :
    y * vol t =
      -det3 (x - t.b.x) (y - t.b.y) (z - t.b.z) (t.c.x - t.b.x) (t.c.y - t.b.y) (t.c.z - t.b.z)
          (t.d.x - t.b.x) (t.d.y - t.b.y) (t.d.z - t.b.z) * t.a.y
        + -det3 (x - t.a.x) (y - t.a.y) (z - t.a.z) (t.d.x - t.a.x) (t.d.y - t.a.y) (t.d.z - t.a.z)
          (t.c.x - t.a.x) (t.c.y - t.a.y) (t.c.z - t.a.z) * t.b.y
        + -det3 (x - t.a.x) (y - t.a.y) (z - t.a.z) (t.b.x - t.a.x) (t.b.y - t.a.y) (t.b.z - t.a.z)
          (t.d.x - t.a.x) (t.d.y - t.a.y) (t.d.z - t.a.z) * t.c.y
        + det3 (x - t.a.x) (y - t.a.y) (z - t.a.z) (t.b.x - t.a.x) (t.b.y - t.a.y) (t.b.z - t.a.z)
          (t.c.x - t.a.x) (t.c.y - t.a.y) (t.c.z - t.a.z) * t.d.y := by
  simp only [det3, vol]
  ring

theorem cache_num_z (t : Tetra K) (x y z : K) :
    z * vol t =
      -det3 (x - t.b.x) (y - t.b.y) (z - t.b.z) (t.c.x - t.b.x) (t.c.y - t.b.y) (t.c.z - t.b.z)
          (t.d.x - t.b.x) (t.d.y - t.b.y) (t.d.z - t.b.z) * t.a.z
        + -det3 (x - t.a.x) (y - t.a.y) (z - t.a.z) (t.d.x - t.a.x) (t.d.y - t.a.y) (t.d.z - t.a.z)
          (t.c.x - t.a.x) (t.c.y - t.a.y) (t.c.z - t.a.z) * t.b.z
        + -det3 (x - t.a.x) (y - t.a.y) (z - t.a.z) (t.b.x - t.a.x) (t.b.y - t.a.y) (t.b.z - t.a.z)
          (t.d.x - t.a.x) (t.d.y - t.a.y) (t.d.z - t.a.z) * t.c.z
        + det3 (x - t.a.x) (y - t.a.y) (z - t.a.z) (t.b.x - t.a.x) (t.b.y - t.a.y) (t.b.z - t.a.z)
          (t.c.x - t.a.x) (t.c.y - t.a.y) (t.c.z - t.a.z) * t.d.z := by
  simp only [det3, vol]
  ring

theorem cache_den (t : Tetra K) :
    det3 (t.d.x - t.a.x) (t.d.y - t.a.y) (t.d.z - t.a.z) (t.b.x - t.a.x) (t.b.y - t.a.y)
        (t.b.z - t.a.z) (t.c.x - t.a.x) (t.c.y - t.a.y) (t.c.z - t.a.z) = vol t
      ∧ det3 (t.c.x - t.a.x) (t.c.y - t.a.y) (t.c.z - t.a.z) (t.b.x - t.a.x) (t.b.y - t.a.y)
        (t.b.z - t.a.z) (t.d.x - t.a.x) (t.d.y - t.a.y) (t.d.z - t.a.z) = -vol t
      ∧ det3 (t.b.x - t.a.x) (t.b.y - t.a.y) (t.b.z - t.a.z) (t.d.x - t.a.x) (t.d.y - t.a.y)
        (t.d.z - t.a.z) (t.c.x - t.a.x) (t.c.y - t.a.y) (t.c.z - t.a.z) = -vol t
      ∧ det3 (-(t.b.x - t.a.x)) (-(t.b.y - t.a.y)) (-(t.b.z - t.a.z)) (t.c.x - t.b.x)
        (t.c.y - t.b.y) (t.c.z - t.b.z) (t.d.x - t.b.x) (t.d.y - t.b.y) (t.d.z - t.b.z)
        = -vol t := by
  refine ⟨?_, ?_, ?_, ?_⟩ <;> simp only [det3, vol] <;> ring

/-- A goal point that passes the cache test of `planet1` is strictly inside the
cached tetrahedron, which is not degenerate. -/
theorem strictIn_of_cacheHit {st : State K} {x y z : K} (h : cacheHit st x y z) :
    StrictIn st.cache x y z ∧ vol st.cache ≠ 0 := by
  obtain ⟨e1, e2, e3, e4⟩ := cache_den st.cache
  have hsum := cache_num_sum st.cache x y z
  have hx := cache_num_x st.cache x y z
  have hy := cache_num_y st.cache x y z
  have hz := cache_num_z st.cache x y z
  simp only [cacheHit] at h
  simp only [State.cache] at e1 e2 e3 e4 hsum hx hy hz ⊢
  rw [e1, e2, e3, e4] at h
  obtain ⟨h1, h2, h3, h4⟩ := h
  generalize det3 (x - st.ssa.x) (y - st.ssa.y) (z - st.ssa.z) (st.ssb.x - st.ssa.x)
    (st.ssb.y - st.ssa.y) (st.ssb.z - st.ssa.z) (st.ssc.x - st.ssa.x) (st.ssc.y - st.ssa.y)
    (st.ssc.z - st.ssa.z) = n1 at h1 hsum hx hy hz
  generalize det3 (x - st.ssa.x) (y - st.ssa.y) (z - st.ssa.z) (st.ssb.x - st.ssa.x)
    (st.ssb.y - st.ssa.y) (st.ssb.z - st.ssa.z) (st.ssd.x - st.ssa.x) (st.ssd.y - st.ssa.y)
    (st.ssd.z - st.ssa.z) = n2 at h2 hsum hx hy hz
  generalize det3 (x - st.ssa.x) (y - st.ssa.y) (z - st.ssa.z) (st.ssd.x - st.ssa.x)
    (st.ssd.y - st.ssa.y) (st.ssd.z - st.ssa.z) (st.ssc.x - st.ssa.x) (st.ssc.y - st.ssa.y)
    (st.ssc.z - st.ssa.z) = n3 at h3 hsum hx hy hz
  generalize det3 (x - st.ssb.x) (y - st.ssb.y) (z - st.ssb.z) (st.ssc.x - st.ssb.x)
    (st.ssc.y - st.ssb.y) (st.ssc.z - st.ssb.z) (st.ssd.x - st.ssb.x) (st.ssd.y - st.ssb.y)
    (st.ssd.z - st.ssb.z) = n4 at h4 hsum hx hy hz
  generalize vol ⟨st.ssa, st.ssb, st.ssc, st.ssd⟩ = v at h1 h2 h3 h4 hsum hx hy hz ⊢
  have hv : v ≠ 0 := by
    intro h0
    rw [h0, zero_mul] at h1
    exact lt_irrefl _ h1
  have hv2 : 0 < v ^ 2 := by positivity
  have pos : ∀ n : K, v * n > 0 → 0 < n / v := by
    intro n hn
    have : n / v = v * n / v ^ 2 := by field_simp; ring
    rw [this]
    exact div_pos hn hv2
  refine ⟨⟨-n4 / v, -n3 / v, -n2 / v, n1 / v, pos _ (by linarith), pos _ (by linarith),
    pos _ (by linarith), pos _ h1, ?_, ?_, ?_, ?_⟩, hv⟩
  · have e : -n4 / v + -n3 / v + -n2 / v + n1 / v = (n1 - n2 - n3 - n4) / v := by ring
    rw [e, hsum, div_self hv]
  · have e : -n4 / v * st.ssa.x + -n3 / v * st.ssb.x + -n2 / v * st.ssc.x + n1 / v * st.ssd.x
        = (-n4 * st.ssa.x + -n3 * st.ssb.x + -n2 * st.ssc.x + n1 * st.ssd.x) / v := by ring
    rw [e, ← hx, mul_div_assoc, div_self hv, mul_one]
  · have e : -n4 / v * st.ssa.y + -n3 / v * st.ssb.y + -n2 / v * st.ssc.y + n1 / v * st.ssd.y
        = (-n4 * st.ssa.y + -n3 * st.ssb.y + -n2 * st.ssc.y + n1 * st.ssd.y) / v := by ring
    rw [e, ← hy, mul_div_assoc, div_self hv, mul_one]
  · have e : -n4 / v * st.ssa.z + -n3 / v * st.ssb.z + -n2 / v * st.ssc.z + n1 / v * st.ssd.z
        = (-n4 * st.ssa.z + -n3 * st.ssb.z + -n2 * st.ssc.z + n1 * st.ssd.z) / v := by ring
    rw [e, ← hz, mul_div_assoc, div_self hv, mul_one]

end CacheTest

section CachePath

variable {K : Type} [LinearOrderedField K] [FloorRing K]

/-- A point strictly inside the rotated tuple reached after `k` levels of a
descent is strictly inside the rotated tuple the descent started from. -/
theorem strictIn_of_descTetra (m : Libm K) (cfg : Config K) (x y z xq yq zq : K) :
    ∀ (k : Nat) (t : Tetra K), SeedsOK t →
      StrictIn (rotate (descTetra m cfg k t xq yq zq)) x y z →
      vol (rotate (descTetra m cfg k t xq yq zq)) ≠ 0 →
      StrictIn (rotate t) x y z ∧ vol (rotate t) ≠ 0 := by
  intro k
  induction k with
  | zero => intro t _ h1 h2; exact ⟨h1, h2⟩
  | succ k ih =>
    intro t hs h1 h2
    have hs1 := seedsOK_rotate hs
    obtain ⟨h3, h4⟩ := ih (child m cfg (rotate t) xq yq zq) (seedsOK_child m cfg xq yq zq hs1) h1 h2
    obtain ⟨h5, h6, -⟩ := strictIn_child m cfg (rotate t) x y z xq yq zq hs1
      (strictIn_of_rotate h3) (vol_ne_zero_of_rotate h4)
    exact ⟨h5, h6⟩

/-- A goal point strictly inside the rotated tuple reached after `k` levels of
the descent towards `q` follows the same path as `q` on these `k` levels. -/
theorem descTetra_geo (m : Libm K) (cfg : Config K) (x y z xq yq zq : K) :
    ∀ (k : Nat) (t1 t2 : Tetra K), t1.geo = t2.geo → SeedsOK t2 →
      NoTie m cfg k t2 xq yq zq →
      StrictIn (rotate (descTetra m cfg k t2 xq yq zq)) x y z →
      vol (rotate (descTetra m cfg k t2 xq yq zq)) ≠ 0 →
      NoTie m cfg k t1 x y z
        ∧ (descTetra m cfg k t1 x y z).geo = (descTetra m cfg k t2 xq yq zq).geo := by
  intro k
  induction k with
  | zero => intro t1 t2 hg _ _ _ _; exact ⟨trivial, hg⟩
  | succ k ih =>
    intro t1 t2 hg hs hn h1 h2
    have hr := rotate_congr_geo hg
    have hs1 := seedsOK_rotate hs
    have hs2 := seedsOK_child m cfg xq yq zq hs1
    obtain ⟨h3, h4⟩ := strictIn_of_descTetra m cfg x y z xq yq zq k
      (child m cfg (rotate t2) xq yq zq) hs2 h1 h2
    obtain ⟨-, -, hiff⟩ := strictIn_child m cfg (rotate t2) x y z xq yq zq hs1
      (strictIn_of_rotate h3) (vol_ne_zero_of_rotate h4)
    have hc : (child m cfg (rotate t1) x y z).geo = (child m cfg (rotate t2) xq yq zq).geo :=
      child_geo_of_iff m cfg _ _ x y z xq yq zq hr
        ((insideACDE_congr_geo m cfg _ _ x y z x y z hr).trans hiff)
    obtain ⟨h5, h6⟩ := ih _ _ hc hs2 hn.2 h1 h2
    exact ⟨⟨(strictAB_congr_geo hr).mpr hn.1, h5⟩, h6⟩

/-- What `CacheFrom` says about the cache: it holds the rotated tuple that a
descent from the root towards some point reached at level 11. -/
theorem cache_of_cacheFrom (m : Libm K) (cfg : Config K) (k : Nat)
    (hD : cfg.Depth = ((11 + k : Nat) : Int)) {st : State K} (h : CacheFrom m cfg st) :
    ∃ xq yq zq : K, NoTie m cfg k cfg.root xq yq zq ∧ StrictAB st.cache
      ∧ st.cache = rotate (descTetra m cfg k cfg.root xq yq zq) := by
  have miss : ∀ (fuel : Nat) (st0 : State K) (x y z hh : K) (st1 : State K),
      planet m cfg fuel st0 cfg.tetra0 cfg.tetra1 cfg.tetra2 cfg.tetra3 x y z cfg.Depth
        = some (hh, st1) →
      ∃ xq yq zq : K, NoTie m cfg k cfg.root xq yq zq ∧ StrictAB st1.cache
        ∧ st1.cache = rotate (descTetra m cfg k cfg.root xq yq zq) := by
    intro fuel st0 x y z hh st1 hp
    rw [hD] at hp
    have hd := descend_of_planet m cfg x y z fuel (11 + k) st0 cfg.root (hh, st1) hp
    obtain ⟨h1, h2, h3⟩ := descend_cache m cfg x y z k st0 cfg.root (hh, st1) hd
    exact ⟨x, y, z, h1, h3 ▸ h2, h3⟩
  induction h with
  | first fuel st0 x y z hh st1 hmiss hp =>
    unfold planet1 at hp
    rw [if_neg hmiss] at hp
    exact miss fuel st0 x y z hh st1 hp
  | next fuel st0 x y z hh st1 _ hp ih =>
    unfold planet1 at hp
    by_cases hhit : cacheHit st0 x y z
    · rw [if_pos hhit] at hp
      obtain ⟨xq, yq, zq, h1, h2, h3⟩ := ih
      have hd := descend_of_planet m cfg x y z fuel 11 st0 st0.cache (hh, st1) hp
      obtain ⟨-, -, h4⟩ := descend_cache m cfg x y z 0 st0 st0.cache (hh, st1) hd
      have h5 : st1.cache = st0.cache := by
        rw [h4]
        exact rotate_of_strictAB h2
      rw [h5]
      exact ⟨xq, yq, zq, h1, h2, h3⟩
    · rw [if_neg hhit] at hp
      exact miss fuel st0 x y z hh st1 hp

/-- The altitude of a descent of 11 levels from the cache is the altitude of
the descent from the root, for every goal point that passes the cache test. -/
theorem descend_cache_alt (m : Libm K) (cfg : Config K) (k : Nat)
    (hD : cfg.Depth = ((11 + k : Nat) : Int)) (hs : SeedsOK cfg.root) {st : State K}
    (h : CacheFrom m cfg st) (x y z : K) (hhit : cacheHit st x y z) (st1 st2 : State K) :
    (descend m cfg 11 st1 st.cache x y z).map Prod.fst
      = (descend m cfg (11 + k) st2 cfg.root x y z).map Prod.fst := by
  obtain ⟨xq, yq, zq, h1, h2, h3⟩ := cache_of_cacheFrom m cfg k hD h
  obtain ⟨h4, h5⟩ := strictIn_of_cacheHit hhit
  rw [h3] at h4 h5
  obtain ⟨h6, h7⟩ := descTetra_geo m cfg x y z xq yq zq k cfg.root cfg.root rfl hs h1 h4 h5
  obtain ⟨st3, h8⟩ := descend_add m cfg x y z 11 k st2 cfg.root h6
  rw [h8, h3, descend_rotate]
  exact descend_alt_geo m cfg x y z 11 st1 st3 _ _ h7.symm

end CachePath

section CacheShadow

variable {K : Type} [LinearOrderedField K] [FloorRing K]

/-- The altitude and the rain shadow computed by the descent do not depend on
the globals it starts from. -/
theorem descend_state_indep (m : Libm K) (cfg : Config K) (x y z : K) :
    ∀ (n : Nat) (st1 st2 : State K) (t : Tetra K),
      (descend m cfg n st1 t x y z).map (fun r => (r.1, r.2.rainShadow))
        = (descend m cfg n st2 t x y z).map (fun r => (r.1, r.2.rainShadow)) := by
  intro n
  induction n with
  | zero => intro st1 st2 t; rfl
  | succ n ih =>
    intro st1 st2 t
    rw [descend, descend]
    by_cases h : StrictAB (rotate t)
    · rw [if_pos h, if_pos h]
      exact ih _ _ _
    · rw [if_neg h, if_neg h]

end CacheShadow

section Colour

variable {K : Type} [LinearOrderedField K] [FloorRing K]

theorem truncInt_of_nonpos {r : K} (h : r ≤ 0) : truncInt r = ⌈r⌉ := by
  unfold truncInt
  split_ifs with h0
  · have h1 : r = 0 := le_antisymm h h0
    subst h1
    simp
  · rfl

theorem toInt_of_nonpos (m : Libm K) {r : K} (h0 : r ≤ 0) (h1 : -2147483649 < r) :
    toInt m r = ⌈r⌉ := by
  have h2 : r < 2147483648 := by linarith
  simp [toInt, h1, h2, truncInt_of_nonpos h0]

theorem truncInt_mono {r r1 : K} (h : r ≤ r1) : truncInt r ≤ truncInt r1 := by
  unfold truncInt
  split_ifs with h0 h1 h1
  · exact Int.floor_le_floor h
  · exact absurd (le_trans h0 h) h1
  · have h2 : ⌈r⌉ ≤ 0 := Int.ceil_le.mpr (by push_cast; linarith)
    have h3 : 0 ≤ ⌊r1⌋ := Int.floor_nonneg.mpr h1
    omega
  · exact Int.ceil_le_ceil h

/-- The sea ramp for an operand in the range of `int`. -/
theorem seaColour_eq (m : Libm K) (dsp : Display K) {alt : K} (hL : dsp.LOWEST ≤ dsp.SEA)
    (ha : alt ≤ 0)
    (hr : -2147483649 < ((dsp.SEA - dsp.LOWEST + 1 : Int) : K) * (10 * alt)) :
    seaColour m dsp alt
      = max dsp.LOWEST (dsp.SEA + ⌈((dsp.SEA - dsp.LOWEST + 1 : Int) : K) * (10 * alt)⌉) := by
  have hc : (0 : K) ≤ ((dsp.SEA - dsp.LOWEST + 1 : Int) : K) := by
    exact_mod_cast (by omega : (0 : Int) ≤ dsp.SEA - dsp.LOWEST + 1)
  have hv : ((dsp.SEA - dsp.LOWEST + 1 : Int) : K) * (10 * alt) ≤ 0 :=
    mul_nonpos_of_nonneg_of_nonpos hc (by linarith)
  simp only [seaColour, toInt_of_nonpos m hv hr]
  split_ifs with h
  · exact (max_eq_left h.le).symm
  · exact (max_eq_right (not_lt.mp h)).symm

theorem seaColour_le (m : Libm K) (dsp : Display K) {alt : K} (hL : dsp.LOWEST ≤ dsp.SEA)
    (ha : alt ≤ 0)
    (hr : -2147483649 < ((dsp.SEA - dsp.LOWEST + 1 : Int) : K) * (10 * alt)) :
    seaColour m dsp alt ≤ dsp.SEA := by
  have hc : (0 : K) ≤ ((dsp.SEA - dsp.LOWEST + 1 : Int) : K) := by
    exact_mod_cast (by omega : (0 : Int) ≤ dsp.SEA - dsp.LOWEST + 1)
  have hv : ((dsp.SEA - dsp.LOWEST + 1 : Int) : K) * (10 * alt) ≤ 0 :=
    mul_nonpos_of_nonneg_of_nonpos hc (by linarith)
  rw [seaColour_eq m dsp hL ha hr]
  have h2 : ⌈((dsp.SEA - dsp.LOWEST + 1 : Int) : K) * (10 * alt)⌉ ≤ 0 :=
    Int.ceil_le.mpr (by rw [Int.cast_zero]; exact hv)
  exact max_le hL (by omega)

theorem seaColour_mono (m : Libm K) (dsp : Display K) {alt alt1 : K}
    (hL : dsp.LOWEST ≤ dsp.SEA) (h : alt ≤ alt1) (ha : alt1 ≤ 0)
    (hr : -2147483649 < ((dsp.SEA - dsp.LOWEST + 1 : Int) : K) * (10 * alt)) :
    seaColour m dsp alt ≤ seaColour m dsp alt1 := by
  have hc : (0 : K) ≤ ((dsp.SEA - dsp.LOWEST + 1 : Int) : K) := by
    exact_mod_cast (by omega : (0 : Int) ≤ dsp.SEA - dsp.LOWEST + 1)
  have hle : ((dsp.SEA - dsp.LOWEST + 1 : Int) : K) * (10 * alt)
      ≤ ((dsp.SEA - dsp.LOWEST + 1 : Int) : K) * (10 * alt1) :=
    mul_le_mul_of_nonneg_left (by linarith) hc
  rw [seaColour_eq m dsp hL (le_trans h ha) hr,
    seaColour_eq m dsp hL ha (lt_of_lt_of_le hr hle)]
  have h2 := Int.ceil_le_ceil hle
  exact max_le_max le_rfl (by omega)

/-- The colour block with biomes off, for a display altitude at or below 0. -/
theorem colourOf_sea (m : Libm K) (cfg : Config K) (dsp : Display K) (alt temp rain y : K)
    (hb : cfg.makeBiomes = 0) (ha : alt ≤ 0) :
    colourOf m cfg dsp alt temp rain y
      = if dsp.latic > 0 ∧ y * y * (y * y) * (y * y * (y * y)) + alt
            ≥ 1 - 2 / 100 * (dsp.latic : K) * (dsp.latic : K) then dsp.HIGHEST
        else seaColour m dsp alt := by
  simp only [colourOf, hb, ne_eq, not_true_eq_false, if_false, if_pos ha]

/-- The value of the local `alt` on the land branch after the latitude term. -/
theorem colourOf_land (m : Libm K) (cfg : Config K) (dsp : Display K) (alt temp rain y : K)
    (hb : cfg.makeBiomes = 0) (ha : 0 < alt) :
    colourOf m cfg dsp alt temp rain y
      = if (if dsp.latic ≠ 0 then alt + 1 / 10 * (dsp.latic : K)
              * (y * y * (y * y) * (y * y * (y * y))) else alt) ≥ 1 / 10 then dsp.HIGHEST
        else if dsp.LAND + toInt m (((dsp.HIGHEST - dsp.LAND + 1 : Int) : K)
              * (10 * (if dsp.latic ≠ 0 then alt + 1 / 10 * (dsp.latic : K)
                * (y * y * (y * y) * (y * y * (y * y))) else alt))) > dsp.HIGHEST
          then dsp.HIGHEST
        else dsp.LAND + toInt m (((dsp.HIGHEST - dsp.LAND + 1 : Int) : K)
              * (10 * (if dsp.latic ≠ 0 then alt + 1 / 10 * (dsp.latic : K)
                * (y * y * (y * y) * (y * y * (y * y))) else alt))) := by
  simp only [colourOf, hb, ne_eq, not_true_eq_false, if_false, if_neg (not_le.mpr ha)]

theorem y8_nonneg (y : K) : 0 ≤ y * y * (y * y) * (y * y * (y * y)) :=
  mul_nonneg (mul_nonneg (mul_self_nonneg y) (mul_self_nonneg y))
    (mul_nonneg (mul_self_nonneg y) (mul_self_nonneg y))

/-- Monotonicity of the land ramp in the altitude after the latitude term. -/
theorem landRamp_mono (m : Libm K) (dsp : Display K) {e e1 : K} (h0 : 0 < e) (h : e ≤ e1)
    (hH : dsp.LAND ≤ dsp.HIGHEST) (hR : dsp.HIGHEST - dsp.LAND + 1 < 2147483648) :
    (if e ≥ 1 / 10 then dsp.HIGHEST
      else if dsp.LAND + toInt m (((dsp.HIGHEST - dsp.LAND + 1 : Int) : K) * (10 * e))
          > dsp.HIGHEST then dsp.HIGHEST
      else dsp.LAND + toInt m (((dsp.HIGHEST - dsp.LAND + 1 : Int) : K) * (10 * e)))
    ≤ (if e1 ≥ 1 / 10 then dsp.HIGHEST
      else if dsp.LAND + toInt m (((dsp.HIGHEST - dsp.LAND + 1 : Int) : K) * (10 * e1))
          > dsp.HIGHEST then dsp.HIGHEST
      else dsp.LAND + toInt m (((dsp.HIGHEST - dsp.LAND + 1 : Int) : K) * (10 * e1))) := by
  have hc : (0 : K) < ((dsp.HIGHEST - dsp.LAND + 1 : Int) : K) := by
    exact_mod_cast (by omega : (0 : Int) < dsp.HIGHEST - dsp.LAND + 1)
  have hcR : ((dsp.HIGHEST - dsp.LAND + 1 : Int) : K) < 2147483648 := by
    exact_mod_cast hR
  have key : ∀ u : K, 0 < u → u < 1 / 10 →
      toInt m (((dsp.HIGHEST - dsp.LAND + 1 : Int) : K) * (10 * u))
        = ⌊((dsp.HIGHEST - dsp.LAND + 1 : Int) : K) * (10 * u)⌋ := by
    intro u hu0 hu1
    apply toInt_of_nonneg m (mul_nonneg hc.le (by linarith))
    have : ((dsp.HIGHEST - dsp.LAND + 1 : Int) : K) * (10 * u)
        < ((dsp.HIGHEST - dsp.LAND + 1 : Int) : K) * 1 :=
      mul_lt_mul_of_pos_left (by linarith) hc
    linarith
  by_cases h1 : e1 ≥ 1 / 10
  · rw [if_pos h1]
    split_ifs with h2 h3
    · exact le_rfl
    · exact le_rfl
    · exact not_lt.mp h3
  · have h2 : ¬ e ≥ 1 / 10 := fun h2 => h1 (le_trans h2 h)
    rw [if_neg h1, if_neg h2, key e h0 (not_le.mp h2), key e1 (lt_of_lt_of_le h0 h) (not_le.mp h1)]
    have hle : ((dsp.HIGHEST - dsp.LAND + 1 : Int) : K) * (10 * e)
        ≤ ((dsp.HIGHEST - dsp.LAND + 1 : Int) : K) * (10 * e1) :=
      mul_le_mul_of_nonneg_left (by linarith) hc.le
    have h3 := Int.floor_le_floor hle
    split_ifs <;> omega

/-- The two clamped table indices for an operand in the range of `int`. -/
theorem clamp_toInt (m : Libm K) {v : K} (h1 : -2147483649 < v) (h2 : v < 2147483648) :
    cmin 44 (cmax 0 (toInt m v)) = max 0 (min 44 ⌊v⌋) := by
  have ht : toInt m v = truncInt v := by simp [toInt, h1, h2]
  rw [ht]
  unfold truncInt cmin cmax
  by_cases h0 : 0 ≤ v
  · rw [if_pos h0]
    have h3 : 0 ≤ ⌊v⌋ := Int.floor_nonneg.mpr h0
    split_ifs <;> omega
  · rw [if_neg h0]
    have h3 : ⌈v⌉ ≤ 0 := Int.ceil_le.mpr (by push_cast; linarith)
    have h4 : ⌊v⌋ < 0 := Int.floor_lt.mpr (by push_cast; linarith)
    split_ifs <;> omega

theorem clamp_range (u : Int) : 0 ≤ cmin 44 (cmax 0 u) ∧ cmin 44 (cmax 0 u) ≤ 44 := by
  unfold cmin cmax
  split_ifs <;> omega

theorem colourOf_biome (m : Libm K) (cfg : Config K) (dsp : Display K) (alt temp rain y : K)
    (hb : cfg.makeBiomes ≠ 0) (ha : 0 < alt) :
    colourOf m cfg dsp alt temp rain y
      = biomes (cmin 44 (cmax 0 (toInt m (rain * 300 - 9))))
          (cmin 44 (cmax 0 (toInt m (temp * 300 + 10)))) - 64 + dsp.LAND := by
  simp only [colourOf, hb, ne_eq, not_false_eq_true, if_true, if_neg (not_le.mpr ha)]

theorem biomes_corner : biomes 44 44 = 79 := by decide

end Colour

section Statistics

variable {K : Type} [LinearOrderedField K] [FloorRing K]

/-- When neither tested altitude is above 0 the four statistics keep their values. -/
theorem updateStats_sea (stats : Stats K) (alt0 alt1 temp rain : K) (h0 : alt0 ≤ 0)
    (h1 : alt1 ≤ 0) : updateStats stats alt0 alt1 temp rain = stats := by
  simp [updateStats, not_lt.mpr h0, not_lt.mpr h1]

end Statistics

section Shading

variable {K : Type} [LinearOrderedField K] [FloorRing K]

theorem splitShadow_of_nonpos (m : Libm K) (cfg : Config K) (a b : Vertex K) (x y z eh : K)
    (h : eh ≤ 0) : splitShadow m cfg a b x y z eh = 0 := by
  simp [splitShadow, h]

theorem leafShade_bump (m : Libm K) (cfg : Config K) (st : State K) (a b c d : Vertex K)
    (x y z : K) (h : cfg.doshade = 1) :
    leafShade m cfg st a b c d x y z = clampShade (toInt m (bumpValue m cfg a b c d x y z)) := by
  simp [leafShade, h, clampShade, bumpValue]

theorem clampShade_eq (u : Int) : clampShade u = max 10 (min 255 u) := by
  unfold clampShade
  simp only
  split_ifs <;> omega

/-- Truncation and rounding down agree after the clamp to `10..255`. -/
theorem clampShade_toInt (m : Libm K) {v : K} (h1 : -2147483649 < v) (h2 : v < 2147483648) :
    clampShade (toInt m v) = max 10 (min 255 ⌊v⌋) := by
  have ht : toInt m v = truncInt v := by simp [toInt, h1, h2]
  rw [ht, clampShade_eq]
  unfold truncInt
  by_cases h0 : 0 ≤ v
  · rw [if_pos h0]
  · rw [if_neg h0]
    have h3 : ⌈v⌉ ≤ 0 := Int.ceil_le.mpr (by push_cast; linarith)
    have h4 : ⌊v⌋ < 0 := Int.floor_lt.mpr (by push_cast; linarith)
    omega

theorem guardTmp_ge (m : Libm K) (y : K) : 1 / 10000 ≤ guardTmp m y := by
  unfold guardTmp
  simp only
  split_ifs with h
  · exact le_rfl
  · exact not_lt.mp h

theorem guardTmp_ne (m : Libm K) (y : K) : guardTmp m y ≠ 0 := by
  have h := guardTmp_ge m y
  intro h0
  rw [h0] at h
  norm_num at h

theorem guardLen_ne (m : Libm K) (u v w : K) : guardLen m u v w ≠ 0 := by
  unfold guardLen
  simp only
  split_ifs with h
  · exact one_ne_zero
  · exact h

theorem cdiv_of_ne (u : K) {v : K} (h : v ≠ 0) : cdiv u v = some (u / v) := by
  simp [cdiv, h]

theorem splitShadowChk_eq (m : Libm K) (cfg : Config K) (a b : Vertex K) (x y z eh : K) :
    splitShadowChk m cfg a b x y z eh = some (splitShadow m cfg a b x y z eh) := by
  by_cases h1 : eh ≤ 0 ∨ ¬ (cfg.rainfall ≠ 0 ∨ cfg.makeBiomes ≠ 0)
  · simp only [splitShadowChk, splitShadow, if_pos h1]
  · by_cases h2 : labAfter m cfg a b > 4 / 100
    · simp only [splitShadowChk, splitShadow, if_neg h1, if_pos h2,
        cdiv_of_ne _ (guardTmp_ne m y), cdiv_of_ne _ (guardLen_ne m _ _ _),
        cdiv_of_ne _ (three_ne_zero : (3 : K) ≠ 0), Option.some_bind]
      rfl
    · simp only [splitShadowChk, splitShadow, if_neg h1, if_neg h2,
        cdiv_of_ne _ (guardTmp_ne m y), cdiv_of_ne _ (two_ne_zero : (2 : K) ≠ 0),
        Option.some_bind]

theorem leafShadeChk_eq (m : Libm K) (cfg : Config K) (st : State K) (a b c d : Vertex K)
    (x y z : K) :
    leafShadeChk m cfg st a b c d x y z = some (leafShade m cfg st a b c d x y z) := by
  by_cases h1 : cfg.doshade = 1 ∨ cfg.doshade = 2
  · simp only [leafShadeChk, leafShade, if_pos h1, cdiv_of_ne _ (guardTmp_ne m y),
      cdiv_of_ne _ (guardLen_ne m _ _ _), Option.some_bind]
    rfl
  · by_cases h2 : cfg.doshade = 3
    · simp only [leafShadeChk, leafShade, if_neg h1, if_pos h2,
        cdiv_of_ne _ (guardLen_ne m _ _ _), Option.some_bind]
      rfl
    · simp only [leafShadeChk, leafShade, if_neg h1, if_neg h2]

end Shading

section PaletteRoles

theorem readRecord_lowest (s : Int × Palette) (r : ColRec) :
    (readRecord s r).2.LOWEST = s.2.LOWEST := rfl

theorem readRecord_range (s : Int × Palette) (r : ColRec) (h : 0 ≤ s.1 ∧ s.1 ≤ 65535) :
    0 ≤ (readRecord s r).1 ∧ (readRecord s r).1 ≤ 65535 := by
  unfold readRecord
  simp only
  split_ifs <;> omega

theorem foldl_readRecord (recs : List ColRec) :
    ∀ s : Int × Palette, 0 ≤ s.1 ∧ s.1 ≤ 65535 →
      (0 ≤ (recs.foldl readRecord s).1 ∧ (recs.foldl readRecord s).1 ≤ 65535)
        ∧ (recs.foldl readRecord s).2.LOWEST = s.2.LOWEST := by
  induction recs with
  | nil => intro s h; exact ⟨h, rfl⟩
  | cons r rs ih =>
    intro s h
    rw [List.foldl_cons]
    obtain ⟨h1, h2⟩ := ih (readRecord s r) (readRecord_range s r h)
    exact ⟨h1, h2.trans (readRecord_lowest s r)⟩

theorem readRecords_spec (pal : Palette) (recs : List ColRec) :
    (0 ≤ (readRecords pal recs).1 ∧ (readRecords pal recs).1 ≤ 65535)
      ∧ (readRecords pal recs).2.LOWEST = pal.LOWEST :=
  foldl_readRecord recs (0, pal) ⟨le_rfl, by norm_num⟩

theorem setBiome_roles (p : Palette) (l r g b : Int) :
    (setBiome p l r g b).roles = p.roles := rfl

theorem foldl_setBiome_roles (rs : List BioRec) :
    ∀ p : Palette,
      (rs.foldl (fun p r => setBiome p r.letter r.rValue r.gValue r.bValue) p).roles
        = p.roles := by
  induction rs with
  | nil => intro p; rfl
  | cons r rs ih => intro p; rw [List.foldl_cons, ih, setBiome_roles]

theorem foldl_setBiome_if_roles (rs : List BioRec) :
    ∀ p : Palette,
      (rs.foldl (fun p r => if isBiomeLetter r.letter
          then setBiome p r.letter r.rValue r.gValue r.bValue else p) p).roles = p.roles := by
  induction rs with
  | nil => intro p; rfl
  | cons r rs ih =>
    intro p
    rw [List.foldl_cons, ih]
    split_ifs
    · exact setBiome_roles _ _ _ _ _
    · rfl

/-- The roles that `readcolors` leaves, in terms of the last colour number. -/
theorem readcolors_roles (makeBiomes : Int) (pal : Palette) (recs : List ColRec)
    (bio : Option (List BioRec)) :
    (readcolors makeBiomes pal recs bio).roles
      = ((if (readRecords pal recs).1 + 1 < 10 then 10 else (readRecords pal recs).1 + 1),
          (readRecords pal recs).2.LOWEST,
          Int.tdiv ((if (readRecords pal recs).1 + 1 < 10 then 10
            else (readRecords pal recs).1 + 1) - 1 + (readRecords pal recs).2.LOWEST) 2,
          Int.tdiv ((if (readRecords pal recs).1 + 1 < 10 then 10
            else (readRecords pal recs).1 + 1) - 1 + (readRecords pal recs).2.LOWEST) 2 + 1,
          (if (readRecords pal recs).1 + 1 < 10 then 10 else (readRecords pal recs).1 + 1) - 1) := by
  unfold readcolors
  simp only
  by_cases h : makeBiomes ≠ 0
  · rw [if_pos h]
    cases bio with
    | none => simp only [foldl_setBiome_roles]; rfl
    | some rs => simp only [foldl_setBiome_if_roles, foldl_setBiome_roles]; rfl
  · rw [if_neg h]
    rfl

end PaletteRoles

section HintMap

variable {K : Type} [LinearOrderedField K] [FloorRing K]

theorem mapCoords_canonical (m : Libm K) (cfg : Config K) (ex ey ez : K)
    (hw : cfg.MatchWidth = 48) (hh : cfg.MatchHeight = 24) :
    mapCoords m cfg ex ey ez = mapCoordsMod m ex ey ez := by
  simp only [mapCoords, mapCoordsMod, hw, hh]
  refine Prod.ext ?_ ?_
  · simp only
    push_cast
    ring
  · simp only
    push_cast
    ring

theorem splitH_map (m : Libm K) (cfg : Config K) (a b : Vertex K) (ex ey ez : K) :
    splitH m cfg a b ex ey ez
      = if useMap cfg a b then
          ((cfg.cl0 (toInt m ((mapCoords m cfg ex ey ez).1 + 1 / 2))
            (toInt m ((mapCoords m cfg ex ey ez).2 + 1 / 2)) : Int) : K) * (1 / 10) / 8
        else 1 / 2 * (a.h + b.h) + splitSeed m a b * cfg.dd1 * m.pow |a.h - b.h| cfg.POWA
          + splitEs1 m a b * cfg.dd2 * m.pow (labAfter m cfg a b) cfg.POW := rfl

theorem splitHMod_map (m : Libm K) (cfg : Config K) (a b : Vertex K) (ex ey ez : K) :
    splitHMod m cfg a b ex ey ez
      = if useMap cfg a b then
          ((cfg.cl0 (toInt m ((mapCoordsMod m ex ey ez).1 + 1 / 2))
            (toInt m ((mapCoordsMod m ex ey ez).2 + 1 / 2)) : Int) : K) * (1 / 10) / 8
        else 1 / 2 * (a.h + b.h) + splitSeed m a b * cfg.dd1 * m.pow |a.h - b.h| cfg.POWA
          + splitEs1 m a b * cfg.dd2 * m.pow (labAfter m cfg a b) cfg.POW := rfl

end HintMap

section RootTetra

variable {K : Type} [LinearOrderedField K] [FloorRing K]

/-- An affine function `c + n·p` keeps the sign of `c` on a ball around the
origin whose radius is below `|c|/|n|` (Cauchy-Schwarz). -/
theorem affine_sign_on_ball {c nx ny nz x y z r2 : K} (hp : x * x + y * y + z * z ≤ r2)
    (hgap : r2 * (nx * nx + ny * ny + nz * nz) < c * c) :
    0 < c * (c + nx * x + ny * y + nz * z) := by
  have hn : 0 ≤ nx * nx + ny * ny + nz * nz :=
    add_nonneg (add_nonneg (mul_self_nonneg nx) (mul_self_nonneg ny)) (mul_self_nonneg nz)
  have hcs : (nx * x + ny * y + nz * z) * (nx * x + ny * y + nz * z)
      ≤ (nx * nx + ny * ny + nz * nz) * (x * x + y * y + z * z) := by
    nlinarith [sq_nonneg (nx * y - ny * x), sq_nonneg (nx * z - nz * x),
      sq_nonneg (ny * z - nz * y)]
  have h1 : (nx * nx + ny * ny + nz * nz) * (x * x + y * y + z * z)
      ≤ (nx * nx + ny * ny + nz * nz) * r2 := mul_le_mul_of_nonneg_left hp hn
  nlinarith [sq_nonneg (c + (nx * x + ny * y + nz * z))]

/-- One sign test of the cache test, for a determinant `A` of the tetrahedron
and a determinant `B` that is affine in the goal point. -/
theorem sign_test_pos (D c nx ny nz : K) {A B x y z r2 : K} (hA : A = D)
    (hB : B = c + nx * x + ny * y + nz * z) (hDc : 0 < D * c)
    (hgap : r2 * (nx * nx + ny * ny + nz * nz) < c * c)
    (hp : x * x + y * y + z * z ≤ r2) : A * B > 0 := by
  have h1 := affine_sign_on_ball hp hgap
  rw [hA, hB]
  have h2 : 0 < D * c * (c * (c + nx * x + ny * y + nz * z)) := mul_pos hDc h1
  have hc : c ≠ 0 := by
    rintro rfl
    simp at hDc
  have h3 : 0 < c * c := mul_self_pos.mpr hc
  have h4 : D * c * (c * (c + nx * x + ny * y + nz * z))
      = D * (c + nx * x + ny * y + nz * z) * (c * c) := by ring
  rw [h4] at h2
  exact (mul_pos_iff_of_pos_right h3).mp h2

/-- The distance from the origin to face 1 of the tetrahedron of `main`
exceeds the radius, in squared and cleared form. -/
theorem face_gap1 {s : K} (hs : 17 / 10 ≤ s) :
    10 / 9 * ((4 * s ^ 2 + 8 / 5 * s + 4 / 25) * (4 * s ^ 2 + 8 / 5 * s + 4 / 25)
        + (4 * s ^ 2 + 8 / 5 * s + 801 / 5000) * (4 * s ^ 2 + 8 / 5 * s + 801 / 5000)
        + (-(4 * s ^ 2 + 81 / 50 * s + 821 / 5000)) * (-(4 * s ^ 2 + 81 / 50 * s + 821 / 5000)))
      < (4 * s ^ 3 + 117 / 50 * s ^ 2 + 2277 / 5000 * s + 14739 / 500000)
        * (4 * s ^ 3 + 117 / 50 * s ^ 2 + 2277 / 5000 * s + 14739 / 500000) := by
  obtain ⟨t, ht, rfl⟩ : ∃ t : K, 0 ≤ t ∧ s = 17 / 10 + t :=
    ⟨s - 17 / 10, by linarith, by ring⟩
  have t2 := pow_nonneg ht 2
  have t3 := pow_nonneg ht 3
  have t4 := pow_nonneg ht 4
  have t5 := pow_nonneg ht 5
  have t6 := pow_nonneg ht 6
  linarith

/-- The distance from the origin to face 2 of the tetrahedron of `main`
exceeds the radius, in squared and cleared form. -/
theorem face_gap2 {s : K} (hs : 17 / 10 ≤ s) :
    10 / 9 * ((-(4 * s ^ 2 + 43 / 25 * s + 23 / 125)) * (-(4 * s ^ 2 + 43 / 25 * s + 23 / 125))
        + (4 * s ^ 2 + 42 / 25 * s + 881 / 5000) * (4 * s ^ 2 + 42 / 25 * s + 881 / 5000)
        + (-(4 * s ^ 2 + 83 / 50 * s + 429 / 2500)) * (-(4 * s ^ 2 + 83 / 50 * s + 429 / 2500)))
      < (-(4 * s ^ 3 + 127 / 50 * s ^ 2 + 1339 / 2500 * s + 586 / 15625))
        * (-(4 * s ^ 3 + 127 / 50 * s ^ 2 + 1339 / 2500 * s + 586 / 15625)) := by
  obtain ⟨t, ht, rfl⟩ : ∃ t : K, 0 ≤ t ∧ s = 17 / 10 + t :=
    ⟨s - 17 / 10, by linarith, by ring⟩
  have t2 := pow_nonneg ht 2
  have t3 := pow_nonneg ht 3
  have t4 := pow_nonneg ht 4
  have t5 := pow_nonneg ht 5
  have t6 := pow_nonneg ht 6
  linarith

/-- The distance from the origin to face 3 of the tetrahedron of `main`
exceeds the radius, in squared and cleared form. -/
theorem face_gap3 {s : K} (hs : 17 / 10 ≤ s) :
    10 / 9 * ((4 * s ^ 2 + 41 / 25 * s + 417 / 2500) * (4 * s ^ 2 + 41 / 25 * s + 417 / 2500)
        + (-(4 * s ^ 2 + 42 / 25 * s + 877 / 5000)) * (-(4 * s ^ 2 + 42 / 25 * s + 877 / 5000))
        + (-(4 * s ^ 2 + 87 / 50 * s + 473 / 2500)) * (-(4 * s ^ 2 + 87 / 50 * s + 473 / 2500)))
      < (-(4 * s ^ 3 + 139 / 50 * s ^ 2 + 1599 / 2500 * s + 6093 / 125000))
        * (-(4 * s ^ 3 + 139 / 50 * s ^ 2 + 1599 / 2500 * s + 6093 / 125000)) := by
  obtain ⟨t, ht, rfl⟩ : ∃ t : K, 0 ≤ t ∧ s = 17 / 10 + t :=
    ⟨s - 17 / 10, by linarith, by ring⟩
  have t2 := pow_nonneg ht 2
  have t3 := pow_nonneg ht 3
  have t4 := pow_nonneg ht 4
  have t5 := pow_nonneg ht 5
  have t6 := pow_nonneg ht 6
  linarith

/-- The distance from the origin to face 4 of the tetrahedron of `main`
exceeds the radius, in squared and cleared form. -/
theorem face_gap4 {s : K} (hs : 17 / 10 ≤ s) :
    10 / 9 * ((4 * s ^ 2 + 42 / 25 * s + 443 / 2500) * (4 * s ^ 2 + 42 / 25 * s + 443 / 2500)
        + (4 * s ^ 2 + 8 / 5 * s + 797 / 5000) * (4 * s ^ 2 + 8 / 5 * s + 797 / 5000)
        + (4 * s ^ 2 + 89 / 50 * s + 983 / 5000) * (4 * s ^ 2 + 89 / 50 * s + 983 / 5000))
      < (-(4 * s ^ 3 + 117 / 50 * s ^ 2 + 2251 / 5000 * s + 14223 / 500000))
        * (-(4 * s ^ 3 + 117 / 50 * s ^ 2 + 2251 / 5000 * s + 14223 / 500000)) := by
  obtain ⟨t, ht, rfl⟩ : ∃ t : K, 0 ≤ t ∧ s = 17 / 10 + t :=
    ⟨s - 17 / 10, by linarith, by ring⟩
  have t2 := pow_nonneg ht 2
  have t3 := pow_nonneg ht 3
  have t4 := pow_nonneg ht 4
  have t5 := pow_nonneg ht 5
  have t6 := pow_nonneg ht 6
  linarith

/-- The ball of squared radius 10/9 passes the four sign tests of the cache
test on the tetrahedron of `main`, when `sqrt(3.0)` is at least 1.7. -/
theorem mainTetra_cacheHit (m : Libm K) (x y z : K) (hs : 17 / 10 ≤ m.sqrt 3)
    (hp : x * x + y * y + z * z ≤ 10 / 9) :
    cacheHit ⟨(mainTetra m).a, (mainTetra m).b, (mainTetra m).c, (mainTetra m).d, 0, 0⟩
      x y z := by
  simp only [cacheHit, mainTetra]
  generalize m.sqrt 3 = s at hs
  have s0 : 0 < s := by linarith
  refine ⟨?_, ?_, ?_, ?_⟩
  · exact sign_test_pos
      (16 * s ^ 3 + 10 * s ^ 2 + 2601 / 1250 * s + 36043 / 250000)
      (4 * s ^ 3 + 117 / 50 * s ^ 2 + 2277 / 5000 * s + 14739 / 500000)
      (4 * s ^ 2 + 8 / 5 * s + 4 / 25)
      (4 * s ^ 2 + 8 / 5 * s + 801 / 5000)
      (-(4 * s ^ 2 + 81 / 50 * s + 821 / 5000))
      (by simp only [det3]; ring) (by simp only [det3]; ring)
      (by positivity) (face_gap1 hs) hp
  · exact sign_test_pos
      (-(16 * s ^ 3 + 10 * s ^ 2 + 2601 / 1250 * s + 36043 / 250000))
      (-(4 * s ^ 3 + 127 / 50 * s ^ 2 + 1339 / 2500 * s + 586 / 15625))
      (-(4 * s ^ 2 + 43 / 25 * s + 23 / 125))
      (4 * s ^ 2 + 42 / 25 * s + 881 / 5000)
      (-(4 * s ^ 2 + 83 / 50 * s + 429 / 2500))
      (by simp only [det3]; ring) (by simp only [det3]; ring)
      (by rw [neg_mul_neg]; positivity) (face_gap2 hs) hp
  · exact sign_test_pos
      (-(16 * s ^ 3 + 10 * s ^ 2 + 2601 / 1250 * s + 36043 / 250000))
      (-(4 * s ^ 3 + 139 / 50 * s ^ 2 + 1599 / 2500 * s + 6093 / 125000))
      (4 * s ^ 2 + 41 / 25 * s + 417 / 2500)
      (-(4 * s ^ 2 + 42 / 25 * s + 877 / 5000))
      (-(4 * s ^ 2 + 87 / 50 * s + 473 / 2500))
      (by simp only [det3]; ring) (by simp only [det3]; ring)
      (by rw [neg_mul_neg]; positivity) (face_gap3 hs) hp
  · exact sign_test_pos
      (-(16 * s ^ 3 + 10 * s ^ 2 + 2601 / 1250 * s + 36043 / 250000))
      (-(4 * s ^ 3 + 117 / 50 * s ^ 2 + 2251 / 5000 * s + 14223 / 500000))
      (4 * s ^ 2 + 42 / 25 * s + 443 / 2500)
      (4 * s ^ 2 + 8 / 5 * s + 797 / 5000)
      (4 * s ^ 2 + 89 / 50 * s + 983 / 5000)
      (by simp only [det3]; ring) (by simp only [det3]; ring)
      (by rw [neg_mul_neg]; positivity) (face_gap4 hs) hp

/-- The ball of squared radius 10/9 lies strictly inside the tetrahedron of `main`. -/
theorem mainTetra_ball (m : Libm K) (x y z : K) (hs : 17 / 10 ≤ m.sqrt 3)
    (hp : x * x + y * y + z * z ≤ 10 / 9) : StrictIn (mainTetra m) x y z :=
  (strictIn_of_cacheHit (mainTetra_cacheHit m x y z hs hp)).1

/-- Positive barycentric coordinates are kept by the rotation loop around the y axis. -/
theorem strictIn_rotY (s c : K) (t : Tetra K) (x y z : K) (h : StrictIn t x y z) :
    StrictIn ⟨rotY s c t.a, rotY s c t.b, rotY s c t.c, rotY s c t.d⟩
      (c * x + s * z) y ((-s) * x + c * z) := by
  obtain ⟨wa, wb, wc, wd, ha, hb, hc, hd, hsum, hx, hy, hz⟩ := h
  refine ⟨wa, wb, wc, wd, ha, hb, hc, hd, hsum, ?_, ?_, ?_⟩
  · simp only [rotY]
    linear_combination c * hx + s * hz
  · simp only [rotY]
    exact hy
  · simp only [rotY]
    linear_combination (-s) * hx + c * hz

/-- Positive barycentric coordinates are kept by the rotation loop around the x axis. -/
theorem strictIn_rotX (s c : K) (t : Tetra K) (x y z : K) (h : StrictIn t x y z) :
    StrictIn ⟨rotX s c t.a, rotX s c t.b, rotX s c t.c, rotX s c t.d⟩
      x (c * y - s * z) (s * y + c * z) := by
  obtain ⟨wa, wb, wc, wd, ha, hb, hc, hd, hsum, hx, hy, hz⟩ := h
  refine ⟨wa, wb, wc, wd, ha, hb, hc, hd, hsum, ?_, ?_, ?_⟩
  · simp only [rotX]
    exact hx
  · simp only [rotX]
    linear_combination c * hy - s * hz
  · simp only [rotX]
    linear_combination s * hy + c * hz

/-- The point that a rotation loop with coefficients `s`, `c` sends to `(u, v)`
in the rotated plane, and the bound on its squared length. -/
theorem rot_preimage (s c u v : K) (h : 19 / 20 ≤ s * s + c * c) :
    c * ((c * u - s * v) / (s * s + c * c)) + s * ((s * u + c * v) / (s * s + c * c)) = u
      ∧ (-s) * ((c * u - s * v) / (s * s + c * c)) + c * ((s * u + c * v) / (s * s + c * c)) = v
      ∧ ((c * u - s * v) / (s * s + c * c)) * ((c * u - s * v) / (s * s + c * c))
          + ((s * u + c * v) / (s * s + c * c)) * ((s * u + c * v) / (s * s + c * c))
        ≤ 20 / 19 * (u * u + v * v) := by
  have hr : 0 < s * s + c * c := by linarith
  have hne : s * s + c * c ≠ 0 := hr.ne'
  refine ⟨by field_simp; ring, by field_simp; ring, ?_⟩
  have e : ((c * u - s * v) / (s * s + c * c)) * ((c * u - s * v) / (s * s + c * c))
      + ((s * u + c * v) / (s * s + c * c)) * ((s * u + c * v) / (s * s + c * c))
      = (u * u + v * v) / (s * s + c * c) := by
    field_simp
    ring
  rw [e, div_le_iff₀ hr]
  have huv : 0 ≤ u * u + v * v := add_nonneg (mul_self_nonneg u) (mul_self_nonneg v)
  nlinarith

/-- A ball of squared radius 1 lies strictly inside the image of the
tetrahedron `t` under the two rotation loops, when the ball of squared radius
10/9 lies strictly inside `t`. -/
theorem strictIn_rotations (s1 c1 s2 c2 : K) (t : Tetra K)
    (h1 : 19 / 20 ≤ s1 * s1 + c1 * c1) (h2 : 19 / 20 ≤ s2 * s2 + c2 * c2)
    (ht : ∀ x y z : K, x * x + y * y + z * z ≤ 10 / 9 → StrictIn t x y z)
    (x y z : K) (hp : x * x + y * y + z * z ≤ 1) :
    StrictIn
      ⟨rotX s1 c1 (rotY s2 c2 t.a), rotX s1 c1 (rotY s2 c2 t.b), rotX s1 c1 (rotY s2 c2 t.c),
        rotX s1 c1 (rotY s2 c2 t.d)⟩ x y z := by
  -- undo the rotation around the x axis: it acts on `(y, z)` as `(c, -s; s, c)`
  obtain ⟨ey, ez, hq⟩ := rot_preimage (-s1) c1 y z (by linarith [neg_mul_neg s1 s1])
  generalize hy1 : (c1 * y - -s1 * z) / (-s1 * -s1 + c1 * c1) = y1 at ey ez hq
  generalize hz1 : (-s1 * y + c1 * z) / (-s1 * -s1 + c1 * c1) = z1 at ey ez hq
  -- undo the rotation around the y axis: it acts on `(x, z)` as `(c, s; -s, c)`
  obtain ⟨ex, ez2, hq2⟩ := rot_preimage s2 c2 x z1 h2
  generalize hx2 : (c2 * x - s2 * z1) / (s2 * s2 + c2 * c2) = x2 at ex ez2 hq2
  generalize hz2 : (s2 * x + c2 * z1) / (s2 * s2 + c2 * c2) = z2 at ex ez2 hq2
  have hball : x2 * x2 + y1 * y1 + z2 * z2 ≤ 10 / 9 := by
    linarith [mul_self_nonneg y1, mul_self_nonneg x, mul_self_nonneg y, mul_self_nonneg z]
  have hin := strictIn_rotX s1 c1 _ _ _ _ (strictIn_rotY s2 c2 t x2 y1 z2 (ht x2 y1 z2 hball))
  have e1 : c2 * x2 + s2 * z2 = x := ex
  have e2 : c1 * y1 - s1 * (-s2 * x2 + c2 * z2) = y := by
    rw [ez2]
    linear_combination ey
  have e3 : s1 * y1 + c1 * (-s2 * x2 + c2 * z2) = z := by
    rw [ez2]
    linear_combination ez
  rw [e1, e2, e3] at hin
  exact hin

end RootTetra

section Rotation

variable {K : Type} [LinearOrderedField K] [FloorRing K]

theorem iterate_rotate_perm (t : Tetra K) : ∀ k : Nat, (rotate^[k] t).toList.Perm t.toList := by
  intro k
  induction k with
  | zero => exact List.Perm.refl _
  | succ k ih =>
    rw [Function.iterate_succ_apply']
    exact (rotate_perm _).trans ih

theorem strictAB_le {t : Tetra K} (h : StrictAB t) :
    dist2 t.a t.c ≤ dist2 t.a t.b ∧ dist2 t.a t.d ≤ dist2 t.a t.b
      ∧ dist2 t.b t.c ≤ dist2 t.a t.b ∧ dist2 t.b t.d ≤ dist2 t.a t.b
      ∧ dist2 t.c t.d ≤ dist2 t.a t.b :=
  ⟨h.1.le, h.2.1.le, h.2.2.1.le, h.2.2.2.1.le, h.2.2.2.2.le⟩

/-- The calls that only rotate the tuple: `k` calls lead from `t` to `rotate^[k] t`
with the globals, the goal point and the level unchanged. -/
theorem planet_iterate_rotate (m : Libm K) (cfg : Config K) (st : State K) (x y z : K)
    (level : Int) (hl : 0 < level) :
    ∀ (k fuel : Nat) (t : Tetra K), (∀ j < k, ¬ StrictAB (rotate^[j] t)) →
      planet m cfg (fuel + k) st t.a t.b t.c t.d x y z level
        = planet m cfg fuel st (rotate^[k] t).a (rotate^[k] t).b (rotate^[k] t).c
            (rotate^[k] t).d x y z level := by
  intro k
  induction k with
  | zero => intro fuel t _; rfl
  | succ k ih =>
    intro fuel t hk
    have h0 : ¬ StrictAB t := hk 0 (Nat.succ_pos k)
    rw [← Nat.add_assoc, planet_succ_of_not_strictAB m cfg (fuel + k) st t x y z level hl h0,
      Function.iterate_succ_apply]
    apply ih fuel (rotate t)
    intro j hj
    have := hk (j + 1) (Nat.succ_lt_succ hj)
    rwa [Function.iterate_succ_apply] at this

theorem not_hasStrictMax_rotate {t : Tetra K} (h : ¬ HasStrictMax t) :
    ¬ HasStrictMax (rotate t) := fun h2 =>
  h (hasStrictMax_of_perm (rotate_perm t).symm h2)

theorem not_hasStrictMax_iterate {t : Tetra K} (h : ¬ HasStrictMax t) :
    ∀ k : Nat, ¬ HasStrictMax (rotate^[k] t) := by
  intro k
  induction k with
  | zero => exact h
  | succ k ih =>
    rw [Function.iterate_succ_apply']
    exact not_hasStrictMax_rotate ih

theorem split_within_one_iff (t : Tetra K) :
    (StrictAB t ∨ StrictAB (rotate t)) ↔ HasStrictMax t := by
  constructor
  · rintro (h | h)
    · exact hasStrictMax_of_strictAB h
    · exact (strictAB_rotate_iff t).mp h
  · intro h
    exact Or.inr (strictAB_rotate h)

end Rotation

section CacheIff

variable {K : Type} [LinearOrderedField K] [FloorRing K]

/-- The determinant with the goal point in place of a vertex is the barycentric
weight of that vertex times the determinant of the tetrahedron. -/
theorem det_point_d (t : Tetra K) (wb wc wd : K) :
    det3 ((1 - wb - wc - wd) * t.a.x + wb * t.b.x + wc * t.c.x + wd * t.d.x - t.a.x)
        ((1 - wb - wc - wd) * t.a.y + wb * t.b.y + wc * t.c.y + wd * t.d.y - t.a.y)
        ((1 - wb - wc - wd) * t.a.z + wb * t.b.z + wc * t.c.z + wd * t.d.z - t.a.z)
        (t.b.x - t.a.x) (t.b.y - t.a.y) (t.b.z - t.a.z)
        (t.c.x - t.a.x) (t.c.y - t.a.y) (t.c.z - t.a.z)
      = wd * det3 (t.d.x - t.a.x) (t.d.y - t.a.y) (t.d.z - t.a.z)
          (t.b.x - t.a.x) (t.b.y - t.a.y) (t.b.z - t.a.z)
          (t.c.x - t.a.x) (t.c.y - t.a.y) (t.c.z - t.a.z) := by
  simp only [det3]
  ring

theorem det_point_c (t : Tetra K) (wb wc wd : K) :
    det3 ((1 - wb - wc - wd) * t.a.x + wb * t.b.x + wc * t.c.x + wd * t.d.x - t.a.x)
        ((1 - wb - wc - wd) * t.a.y + wb * t.b.y + wc * t.c.y + wd * t.d.y - t.a.y)
        ((1 - wb - wc - wd) * t.a.z + wb * t.b.z + wc * t.c.z + wd * t.d.z - t.a.z)
        (t.b.x - t.a.x) (t.b.y - t.a.y) (t.b.z - t.a.z)
        (t.d.x - t.a.x) (t.d.y - t.a.y) (t.d.z - t.a.z)
      = wc * det3 (t.c.x - t.a.x) (t.c.y - t.a.y) (t.c.z - t.a.z)
          (t.b.x - t.a.x) (t.b.y - t.a.y) (t.b.z - t.a.z)
          (t.d.x - t.a.x) (t.d.y - t.a.y) (t.d.z - t.a.z) := by
  simp only [det3]
  ring

theorem det_point_b (t : Tetra K) (wb wc wd : K) :
    det3 ((1 - wb - wc - wd) * t.a.x + wb * t.b.x + wc * t.c.x + wd * t.d.x - t.a.x)
        ((1 - wb - wc - wd) * t.a.y + wb * t.b.y + wc * t.c.y + wd * t.d.y - t.a.y)
        ((1 - wb - wc - wd) * t.a.z + wb * t.b.z + wc * t.c.z + wd * t.d.z - t.a.z)
        (t.d.x - t.a.x) (t.d.y - t.a.y) (t.d.z - t.a.z)
        (t.c.x - t.a.x) (t.c.y - t.a.y) (t.c.z - t.a.z)
      = wb * det3 (t.b.x - t.a.x) (t.b.y - t.a.y) (t.b.z - t.a.z)
          (t.d.x - t.a.x) (t.d.y - t.a.y) (t.d.z - t.a.z)
          (t.c.x - t.a.x) (t.c.y - t.a.y) (t.c.z - t.a.z) := by
  simp only [det3]
  ring

theorem det_point_a (t : Tetra K) (wb wc wd : K) :
    det3 ((1 - wb - wc - wd) * t.a.x + wb * t.b.x + wc * t.c.x + wd * t.d.x - t.b.x)
        ((1 - wb - wc - wd) * t.a.y + wb * t.b.y + wc * t.c.y + wd * t.d.y - t.b.y)
        ((1 - wb - wc - wd) * t.a.z + wb * t.b.z + wc * t.c.z + wd * t.d.z - t.b.z)
        (t.c.x - t.b.x) (t.c.y - t.b.y) (t.c.z - t.b.z)
        (t.d.x - t.b.x) (t.d.y - t.b.y) (t.d.z - t.b.z)
      = (1 - wb - wc - wd) * det3 (-(t.b.x - t.a.x)) (-(t.b.y - t.a.y)) (-(t.b.z - t.a.z))
          (t.c.x - t.b.x) (t.c.y - t.b.y) (t.c.z - t.b.z)
          (t.d.x - t.b.x) (t.d.y - t.b.y) (t.d.z - t.b.z) := by
  simp only [det3]
  ring

theorem mul_weight_sq_pos {w D : K} (hw : 0 < w) (hD : D ≠ 0) : D * (w * D) > 0 := by
  have h : 0 < D * D := mul_self_pos.mpr hD
  have e : D * (w * D) = w * (D * D) := by ring
  rw [e]
  exact mul_pos hw h

/-- A point with positive barycentric coordinates in a cached tetrahedron of
non-zero volume passes the four sign tests. -/
theorem cacheHit_of_strictIn {st : State K} {x y z : K} (h : StrictIn st.cache x y z)
    (hv : vol st.cache ≠ 0) : cacheHit st x y z := by
  obtain ⟨wa, wb, wc, wd, ha, hb, hc, hd, hsum, hx, hy, hz⟩ := h
  obtain ⟨e1, e2, e3, e4⟩ := cache_den st.cache
  have hwa : wa = 1 - wb - wc - wd := by linarith
  subst hwa
  have d1 := det_point_d st.cache wb wc wd
  have d2 := det_point_c st.cache wb wc wd
  have d3 := det_point_b st.cache wb wc wd
  have d4 := det_point_a st.cache wb wc wd
  have hnv : -vol st.cache ≠ 0 := neg_ne_zero.mpr hv
  simp only [State.cache] at hx hy hz e1 e2 e3 e4 d1 d2 d3 d4 hv hnv
  simp only [cacheHit]
  rw [hx, hy, hz, d1, d2, d3, d4]
  refine ⟨mul_weight_sq_pos hd ?_, mul_weight_sq_pos hc ?_, mul_weight_sq_pos hb ?_,
    mul_weight_sq_pos ha ?_⟩
  · rw [e1]; exact hv
  · rw [e2]; exact hnv
  · rw [e3]; exact hnv
  · rw [e4]
    first
      | exact hv
      | exact hnv

theorem cacheHit_iff (st : State K) (x y z : K) :
    cacheHit st x y z ↔ vol st.cache ≠ 0 ∧ StrictIn st.cache x y z :=
  ⟨fun h => ⟨(strictIn_of_cacheHit h).2, (strictIn_of_cacheHit h).1⟩,
    fun h => cacheHit_of_strictIn h.2 h.1⟩

theorem planet1_of_vol_zero (m : Libm K) (cfg : Config K) (fuel : Nat) (st : State K)
    (x y z : K) (h : vol st.cache = 0) :
    planet1 m cfg fuel st x y z
      = planet m cfg fuel st cfg.tetra0 cfg.tetra1 cfg.tetra2 cfg.tetra3 x y z cfg.Depth := by
  have hn : ¬ cacheHit st x y z := fun hc => (strictIn_of_cacheHit hc).2 h
  simp only [planet1, if_neg hn]

theorem planet1_eq (m : Libm K) (cfg : Config K) (fuel : Nat) (st : State K) (x y z : K) :
    planet1 m cfg fuel st x y z
      = if cacheHit st x y z then planet m cfg fuel st st.ssa st.ssb st.ssc st.ssd x y z 11
        else planet m cfg fuel st cfg.tetra0 cfg.tetra1 cfg.tetra2 cfg.tetra3 x y z
          cfg.Depth := rfl

end CacheIff

section DepthIndep

variable {K : Type} [LinearOrderedField K] [FloorRing K]

theorem splitVertex_depth (m : Libm K) (cfg : Config K) (D : Int) (a b : Vertex K)
    (x y z : K) :
    splitVertex m { cfg with Depth := D } a b x y z = splitVertex m cfg a b x y z := rfl

theorem leafShade_depth (m : Libm K) (cfg : Config K) (D : Int) (st : State K)
    (a b c d : Vertex K) (x y z : K) :
    leafShade m { cfg with Depth := D } st a b c d x y z = leafShade m cfg st a b c d x y z :=
  rfl

/-- The function `planet` does not read the global `Depth`. -/
theorem planet_depth (m : Libm K) (cfg : Config K) (D : Int) :
    ∀ (fuel : Nat) (st : State K) (a b c d : Vertex K) (x y z : K) (level : Int),
      planet m { cfg with Depth := D } fuel st a b c d x y z level
        = planet m cfg fuel st a b c d x y z level := by
  intro fuel
  induction fuel with
  | zero => intro st a b c d x y z level; rw [planet, planet]
  | succ f ih =>
    intro st a b c d x y z level
    rw [planet, planet]
    simp only [ih, splitVertex_depth, leafShade_depth]

theorem planet1_depth_of_hit (m : Libm K) (cfg : Config K) (D : Int) (fuel : Nat)
    (st : State K) (x y z : K) (h : cacheHit st x y z) :
    planet1 m { cfg with Depth := D } fuel st x y z = planet1 m cfg fuel st x y z := by
  simp only [planet1, if_pos h, planet_depth]

end DepthIndep

section Angles

variable {K : Type} [LinearOrderedField K] [FloorRing K]

theorem whileAboveAdd_none : ∀ (fuel : Nat) (r : K), 180 < r → whileAboveAdd fuel r = none := by
  intro fuel
  induction fuel with
  | zero => intro r _; rfl
  | succ f ih =>
    intro r h
    rw [whileAboveAdd, if_pos h]
    exact ih (r + 360) (by linarith)

theorem whileAboveAdd_of_le (fuel : Nat) {r : K} (h : r ≤ 180) :
    whileAboveAdd (fuel + 1) r = some r := by
  rw [whileAboveAdd, if_neg (not_lt.mpr h)]

theorem whileBelow_of_ge : ∀ (fuel : Nat) (r r1 : K), -180 ≤ r →
    whileBelow fuel r = some r1 → r1 = r := by
  intro fuel r r1 h h1
  cases fuel with
  | zero => simp [whileBelow] at h1
  | succ f =>
    rw [whileBelow, if_neg (not_lt.mpr h)] at h1
    exact (Option.some.inj h1).symm

theorem whileBelow_spec : ∀ (n : Nat) (r : K), -180 - 360 * (n : K) ≤ r →
    ∃ r1 : K, whileBelow (n + 1) r = some r1 ∧ -180 ≤ r1 ∧ (r1 = r ∨ r1 < 180) := by
  intro n
  induction n with
  | zero =>
    intro r h
    have h0 : ¬ r < -180 := by
      simp only [Nat.cast_zero, mul_zero, sub_zero] at h
      exact not_lt.mpr h
    exact ⟨r, by rw [whileBelow, if_neg h0], not_lt.mp h0, Or.inl rfl⟩
  | succ n ih =>
    intro r h
    by_cases h0 : r < -180
    · have h1 : -180 - 360 * (n : K) ≤ r + 360 := by
        push_cast at h
        linarith
      obtain ⟨r1, e, g, c⟩ := ih (r + 360) h1
      refine ⟨r1, by rw [whileBelow, if_pos h0]; exact e, g, Or.inr ?_⟩
      rcases c with c | c
      · rw [c]; linarith
      · exact c
    · exact ⟨r, by rw [whileBelow, if_neg h0], not_lt.mp h0, Or.inl rfl⟩

theorem whileAbove_spec : ∀ (n : Nat) (r : K), r ≤ 180 + 360 * (n : K) →
    ∃ r1 : K, whileAbove (n + 1) r = some r1 ∧ r1 ≤ 180 ∧ (r1 = r ∨ -180 < r1) := by
  intro n
  induction n with
  | zero =>
    intro r h
    have h0 : ¬ r > 180 := by
      simp only [Nat.cast_zero, mul_zero, add_zero] at h
      exact not_lt.mpr h
    exact ⟨r, by rw [whileAbove, if_neg h0], not_lt.mp h0, Or.inl rfl⟩
  | succ n ih =>
    intro r h
    by_cases h0 : r > 180
    · have h1 : r - 360 ≤ 180 + 360 * (n : K) := by
        push_cast at h
        linarith
      obtain ⟨r1, e, g, c⟩ := ih (r - 360) h1
      refine ⟨r1, by rw [whileAbove, if_pos h0]; exact e, g, Or.inr ?_⟩
      rcases c with c | c
      · rw [c]; linarith
      · exact c
    · exact ⟨r, by rw [whileAbove, if_neg h0], not_lt.mp h0, Or.inl rfl⟩

theorem whileBelow_mono : ∀ (n : Nat) (r r1 : K), whileBelow n r = some r1 →
    ∀ k : Nat, whileBelow (n + k) r = some r1 := by
  intro n
  induction n with
  | zero => intro r r1 h; simp [whileBelow] at h
  | succ n ih =>
    intro r r1 h k
    rw [Nat.add_right_comm, whileBelow]
    rw [whileBelow] at h
    split_ifs with h0
    · rw [if_pos h0] at h
      exact ih _ _ h k
    · rw [if_neg h0] at h
      exact h

theorem whileAbove_mono : ∀ (n : Nat) (r r1 : K), whileAbove n r = some r1 →
    ∀ k : Nat, whileAbove (n + k) r = some r1 := by
  intro n
  induction n with
  | zero => intro r r1 h; simp [whileAbove] at h
  | succ n ih =>
    intro r r1 h k
    rw [Nat.add_right_comm, whileAbove]
    rw [whileAbove] at h
    split_ifs with h0
    · rw [if_pos h0] at h
      exact ih _ _ h k
    · rw [if_neg h0] at h
      exact h

/-- The two loops `while (r<-180) r += 360; while (r>180) r -= 360;` end, with
enough fuel, and leave a value in `[-180, 180]`. -/
theorem below_above_terminates (r : K) :
    ∃ (fuel : Nat) (r1 r2 : K), ∀ k : Nat,
      whileBelow (fuel + k) r = some r1 ∧ whileAbove (fuel + k) r1 = some r2
        ∧ -180 ≤ r1 ∧ -180 ≤ r2 ∧ r2 ≤ 180 := by
  obtain ⟨n1, hn1⟩ := exists_nat_ge ((-180 - r) / 360)
  have h1 : -180 - 360 * (n1 : K) ≤ r := by
    rw [div_le_iff₀ (by norm_num : (0 : K) < 360)] at hn1
    linarith
  obtain ⟨r1, e1, g1, c1⟩ := whileBelow_spec n1 r h1
  obtain ⟨n2, hn2⟩ := exists_nat_ge ((r1 - 180) / 360)
  have h2 : r1 ≤ 180 + 360 * (n2 : K) := by
    rw [div_le_iff₀ (by norm_num : (0 : K) < 360)] at hn2
    linarith
  obtain ⟨r2, e2, g2, c2⟩ := whileAbove_spec n2 r1 h2
  refine ⟨n1 + 1 + (n2 + 1), r1, r2, fun k => ⟨?_, ?_, g1, ?_, g2⟩⟩
  · rw [Nat.add_assoc]
    exact whileBelow_mono _ _ _ e1 _
  · rw [Nat.add_comm (n1 + 1) (n2 + 1), Nat.add_assoc]
    exact whileAbove_mono _ _ _ e2 _
  · rcases c2 with c2 | c2
    · rw [c2]; exact g1
    · exact c2.le

/-- The loops of the case `'l'` end and leave `longi` in `[-180, 180]`. -/
theorem normLongi_terminates (longi : K) :
    ∃ (fuel : Nat) (r : K), normLongi fuel longi = some r ∧ -180 ≤ r ∧ r ≤ 180 := by
  obtain ⟨fuel, r1, r2, h⟩ := below_above_terminates longi
  obtain ⟨e1, e2, -, g1, g2⟩ := h 0
  exact ⟨fuel, r2, by simp only [normLongi, Nat.add_zero] at e1 e2 ⊢; rw [e1]; exact e2, g1, g2⟩

/-- The loops of the case `'T'` end and leave both angles in `[-180, 180]` when
the parsed `rotate2` is at most 180. -/
theorem normRotate_terminates (rotate1 rotate2 : K) (h : rotate2 ≤ 180) :
    ∃ (fuel : Nat) (r1 r2 : K), normRotate fuel rotate1 rotate2 = some (r1, r2)
      ∧ -180 ≤ r1 ∧ r1 ≤ 180 ∧ -180 ≤ r2 ∧ r2 ≤ 180 := by
  obtain ⟨f1, u1, u2, h1⟩ := below_above_terminates rotate1
  obtain ⟨f2, v1, v2, h2⟩ := below_above_terminates rotate2
  obtain ⟨a1, a2, -, a3, a4⟩ := h1 (f2 + 1)
  obtain ⟨b1, -, b3, -, -⟩ := h2 (f1 + 1)
  have hf : f2 + (f1 + 1) = f1 + (f2 + 1) := by omega
  rw [hf] at b1
  have hv : v1 ≤ 180 := by
    obtain ⟨n, hn⟩ := exists_nat_ge ((-180 - rotate2) / 360)
    have hh : -180 - 360 * (n : K) ≤ rotate2 := by
      rw [div_le_iff₀ (by norm_num : (0 : K) < 360)] at hn
      linarith
    obtain ⟨w, e, -, c⟩ := whileBelow_spec n rotate2 hh
    have e2 := whileBelow_mono _ _ _ e (f1 + (f2 + 1))
    have e3 := whileBelow_mono _ _ _ b1 (n + 1)
    rw [Nat.add_comm (n + 1)] at e2
    rw [e3] at e2
    have hw : v1 = w := Option.some.inj e2
    rcases c with c | c
    · rw [hw, c]; exact h
    · rw [hw]; exact c.le
  refine ⟨f1 + (f2 + 1), u2, v1, ?_, a3, a4, b3, hv⟩
  simp only [normRotate, a1, a2, b1, Option.some_bind]
  rw [show f1 + (f2 + 1) = (f1 + f2) + 1 by omega, whileAboveAdd_of_le _ hv]
  rfl

/-- The loops of the case `'T'` never end when the parsed `rotate2` is above
180: `none` whatever the fuel. -/
theorem normRotate_none (rotate1 rotate2 : K) (h : 180 < rotate2) (fuel : Nat) :
    normRotate fuel rotate1 rotate2 = none := by
  unfold normRotate
  cases h1 : whileBelow fuel rotate1 with
  | none => simp only [Option.none_bind]
  | some u1 =>
    cases h2 : whileAbove fuel u1 with
    | none => simp only [Option.some_bind, h2, Option.none_bind]
    | some u2 =>
      cases h3 : whileBelow fuel rotate2 with
      | none => simp only [Option.some_bind, h2, h3, Option.none_bind]
      | some v1 =>
        have hv : v1 = rotate2 := whileBelow_of_ge fuel rotate2 v1 (by linarith) h3
        simp only [Option.some_bind, h2, hv, whileAboveAdd_none fuel rotate2 h,
          Option.none_bind]

end Angles

section BumpRange

variable {K : Type} [LinearOrderedField K] [FloorRing K]

theorem guardTmp_of_ge (m : Libm K) {y : K} (h : 1 / 10000 ≤ m.sqrt (1 - y * y)) :
    guardTmp m y = m.sqrt (1 - y * y) := by
  simp only [guardTmp, if_neg (not_lt.mpr h)]

theorem bumpValue_eq (m : Libm K) (cfg : Config K) (a b c d : Vertex K) (x y z : K) :
    bumpValue m cfg a b c d x y z
      = ((-m.sin (PI * cfg.shade_angle / 180))
            * ((-x) * y / guardTmp m y * (leafGrad a b c d).1
                + guardTmp m y * (leafGrad a b c d).2.1
                - z * y / guardTmp m y * (leafGrad a b c d).2.2)
          - m.cos (PI * cfg.shade_angle / 180)
            * ((-z) / guardTmp m y * (leafGrad a b c d).1
                + x / guardTmp m y * (leafGrad a b c d).2.2))
        / guardLen m (leafGrad a b c d).1 (leafGrad a b c d).2.1 (leafGrad a b c d).2.2
        * 48 + 128 := rfl

theorem leafShade_bump12 (m : Libm K) (cfg : Config K) (st : State K) (a b c d : Vertex K)
    (x y z : K) (h : cfg.doshade = 1 ∨ cfg.doshade = 2) :
    leafShade m cfg st a b c d x y z
      = if cfg.doshade = 2 ∧ a.h + b.h + c.h + d.h < 0 then 150
        else clampShade (toInt m (bumpValue m cfg a b c d x y z)) := by
  simp only [leafShade, if_pos h]
  rfl

/-- On the unit sphere, with `T = sqrt(1-y*y)`, the two transformed components
`(y2, z2)` of a vector are its components along two orthonormal directions
tangent to the sphere: their squares add up to the squared length of the vector
minus the square of its radial component. -/
theorem tangent_components (x y z T x1 y1 z1 : K) (hT : T * T = 1 - y * y)
    (hS : x * x + y * y + z * z = 1) (hT0 : T ≠ 0) :
    ((-x) * y / T * x1 + T * y1 - z * y / T * z1) ^ 2 + ((-z) / T * x1 + x / T * z1) ^ 2
      = x1 * x1 + y1 * y1 + z1 * z1 - (x * x1 + y * y1 + z * z1) ^ 2 := by
  have hA : ((-x) * y / T * x1 + T * y1 - z * y / T * z1) * T
      = -(y * (x * x1 + z * z1)) + T * T * y1 := by
    field_simp
    ring
  have hB : ((-z) / T * x1 + x / T * z1) * T = x * z1 - z * x1 := by
    field_simp
    ring
  have h2 : T * T = x * x + z * z := by linarith
  have hTT : T * T ≠ 0 := mul_ne_zero hT0 hT0
  apply mul_right_cancel₀ hTT
  have e : (((-x) * y / T * x1 + T * y1 - z * y / T * z1) ^ 2
        + ((-z) / T * x1 + x / T * z1) ^ 2) * (T * T)
      = (((-x) * y / T * x1 + T * y1 - z * y / T * z1) * T) ^ 2
        + (((-z) / T * x1 + x / T * z1) * T) ^ 2 := by ring
  rw [e, hA, hB]
  linear_combination ((x * x1 + z * z1) ^ 2 + T * T * y1 ^ 2) * hT - (x1 ^ 2 + z1 ^ 2) * h2

/-- The bump-map value lies between 80 and 176 under the stated conditions. -/
theorem bumpValue_range (m : Libm K) (cfg : Config K) (a b c d : Vertex K) (x y z : K)
    (hS : x * x + y * y + z * z = 1) (ht : 1 / 10000 ≤ m.sqrt (1 - y * y))
    (hT : m.sqrt (1 - y * y) * m.sqrt (1 - y * y) = 1 - y * y)
    (hL0 : 0 ≤ m.sqrt (leafGrad2 a b c d))
    (hL : m.sqrt (leafGrad2 a b c d) * m.sqrt (leafGrad2 a b c d) = leafGrad2 a b c d)
    (hsc : m.sin (PI * cfg.shade_angle / 180) * m.sin (PI * cfg.shade_angle / 180)
      + m.cos (PI * cfg.shade_angle / 180) * m.cos (PI * cfg.shade_angle / 180) = 1) :
    80 ≤ bumpValue m cfg a b c d x y z ∧ bumpValue m cfg a b c d x y z ≤ 176 := by
  have hT0 : m.sqrt (1 - y * y) ≠ 0 := by
    intro h0
    rw [h0] at ht
    norm_num at ht
  rw [bumpValue_eq, guardTmp_of_ge m ht]
  have hfr := tangent_components x y z (m.sqrt (1 - y * y)) (leafGrad a b c d).1
    (leafGrad a b c d).2.1 (leafGrad a b c d).2.2 hT hS hT0
  generalize (-x) * y / m.sqrt (1 - y * y) * (leafGrad a b c d).1
    + m.sqrt (1 - y * y) * (leafGrad a b c d).2.1
    - z * y / m.sqrt (1 - y * y) * (leafGrad a b c d).2.2 = y2 at hfr ⊢
  generalize (-z) / m.sqrt (1 - y * y) * (leafGrad a b c d).1
    + x / m.sqrt (1 - y * y) * (leafGrad a b c d).2.2 = z2 at hfr ⊢
  generalize m.sin (PI * cfg.shade_angle / 180) = sn at hsc ⊢
  generalize m.cos (PI * cfg.shade_angle / 180) = cs at hsc ⊢
  have hG : y2 ^ 2 + z2 ^ 2 ≤ leafGrad2 a b c d := by
    have : 0 ≤ (x * (leafGrad a b c d).1 + y * (leafGrad a b c d).2.1
        + z * (leafGrad a b c d).2.2) ^ 2 := sq_nonneg _
    unfold leafGrad2
    linarith
  have hN : ((-sn) * y2 - cs * z2) ^ 2 ≤ leafGrad2 a b c d := by
    have h1 : ((-sn) * y2 - cs * z2) ^ 2 + (sn * z2 - cs * y2) ^ 2
        = (sn * sn + cs * cs) * (y2 ^ 2 + z2 ^ 2) := by ring
    rw [hsc, one_mul] at h1
    have h2 : 0 ≤ (sn * z2 - cs * y2) ^ 2 := sq_nonneg _
    linarith
  have hq : -1 ≤ ((-sn) * y2 - cs * z2)
        / guardLen m (leafGrad a b c d).1 (leafGrad a b c d).2.1 (leafGrad a b c d).2.2
      ∧ ((-sn) * y2 - cs * z2)
        / guardLen m (leafGrad a b c d).1 (leafGrad a b c d).2.1 (leafGrad a b c d).2.2 ≤ 1 := by
    have hlen : guardLen m (leafGrad a b c d).1 (leafGrad a b c d).2.1 (leafGrad a b c d).2.2
        = if m.sqrt (leafGrad2 a b c d) = 0 then 1 else m.sqrt (leafGrad2 a b c d) := rfl
    rw [hlen]
    by_cases h0 : m.sqrt (leafGrad2 a b c d) = 0
    · rw [if_pos h0]
      have hG0 : leafGrad2 a b c d = 0 := by
        rw [← hL, h0, mul_zero]
      rw [hG0] at hN
      have hz : (-sn) * y2 - cs * z2 = 0 := by
        have := sq_nonneg ((-sn) * y2 - cs * z2)
        exact pow_eq_zero_iff (two_ne_zero) |>.mp (le_antisymm hN this)
      rw [hz]
      norm_num
    · rw [if_neg h0]
      have hpos : 0 < m.sqrt (leafGrad2 a b c d) := lt_of_le_of_ne hL0 (Ne.symm h0)
      rw [← hL] at hN
      have habs : |(-sn) * y2 - cs * z2| ≤ m.sqrt (leafGrad2 a b c d) := by
        apply abs_le_of_sq_le_sq' _ hL0 |> fun h => abs_le.mpr h
        rw [pow_two (m.sqrt (leafGrad2 a b c d))]
        exact hN
      obtain ⟨l, u⟩ := abs_le.mp habs
      constructor
      · rw [le_div_iff₀ hpos]
        linarith
      · rw [div_le_iff₀ hpos]
        linarith
  obtain ⟨q1, q2⟩ := hq
  constructor <;> linarith

theorem toInt_range (m : Libm K) {v : K} (h1 : 80 ≤ v) (h2 : v ≤ 176) :
    toInt m v = ⌊v⌋ ∧ 80 ≤ ⌊v⌋ ∧ ⌊v⌋ ≤ 176 := by
  refine ⟨toInt_of_nonneg m (by linarith) (by linarith), ?_, ?_⟩
  · exact Int.le_floor.mpr (by push_cast; exact h1)
  · have h3 : ((⌊v⌋ : Int) : K) ≤ 176 := le_trans (Int.floor_le v) h2
    exact_mod_cast h3

end BumpRange

section Progress
variable {K : Type} [LinearOrderedField K] [FloorRing K]

/-- At level 1 a tuple with one strictly longest edge returns the leaf value of
the sub-tetrahedron chosen after the split of the rotated tuple, within three
calls. -/
theorem planet_level_one (m : Libm K) (cfg : Config K) (st : State K) (t : Tetra K)
    (x y z : K) (h : HasStrictMax t) :
    planet m cfg 3 st t.a t.b t.c t.d x y z 1
      = some (leafResult m cfg (snapshot st (rotate t) 1) (child m cfg (rotate t) x y z) x y z) := by
  by_cases hs : StrictAB t
  · rw [rotate_of_strictAB hs, planet_succ_of_strictAB m cfg 2 st t x y z 1 one_pos hs]
    exact planet_zero m cfg 1 _ _ _ _ _ x y z
  · rw [planet_succ_of_not_strictAB m cfg 2 st t x y z 1 one_pos hs,
      planet_succ_of_strictAB m cfg 1 st (rotate t) x y z 1 one_pos (strictAB_rotate h)]
    exact planet_zero m cfg 0 _ _ _ _ _ x y z

/-- A call at a positive level that returns, with whatever fuel, was made on a
tuple with one strictly longest edge. -/
theorem hasStrictMax_of_planet_ne_none (m : Libm K) (cfg : Config K) (st : State K)
    (t : Tetra K) (x y z : K) (level : Int) (hl : 0 < level)
    (h : ∃ fuel : Nat, planet m cfg fuel st t.a t.b t.c t.d x y z level ≠ none) :
    HasStrictMax t := by
  by_contra hn
  obtain ⟨fuel, hf⟩ := h
  exact hf (planet_tie m cfg x y z level hl fuel st t hn)

end Progress


section DoubleBasics

/-- Rounding is odd: the nearest `double` of `-q` is minus that of `q`. -/
theorem roundD_neg (q : ℚ) : roundD (-q) = -roundD q := by
  unfold roundD
  rcases lt_trichotomy q 0 with h | h | h
  · have h1 : 0 < -q := neg_pos.mpr h
    rw [if_neg h1.ne', if_pos h1, if_neg h.ne, if_neg (not_lt.mpr h.le), Rat.neg_num,
      Rat.neg_den, Int.natAbs_neg, neg_neg]
  · subst h; simp
  · have h1 : -q < 0 := neg_neg_of_pos h
    rw [if_neg h1.ne, if_neg (not_lt.mpr h1.le), if_neg h.ne', if_pos h, Rat.neg_num,
      Rat.neg_den, Int.natAbs_neg]

theorem dlt_def (a b : Dbl) : a < b ↔ a.val < b.val := Iff.rfl

theorem dle_def (a b : Dbl) : a ≤ b ↔ a.val ≤ b.val := Iff.rfl

theorem deq_iff (a b : Dbl) : a = b ↔ a.val = b.val := by
  cases a; cases b; simp

theorem dlt_ne {a b : Dbl} (h : a < b) : a ≠ b := by
  intro e
  have h1 := (dlt_def a b).mp h
  rw [e] at h1
  exact lt_irrefl _ h1

theorem dadd_def (a b : Dbl) : a + b = ⟨roundD (a.val + b.val)⟩ := rfl

theorem dsub_def (a b : Dbl) : a - b = ⟨roundD (a.val - b.val)⟩ := rfl

theorem dmul_def (a b : Dbl) : a * b = ⟨roundD (a.val * b.val)⟩ := rfl

theorem dneg_def (a : Dbl) : -a = ⟨-a.val⟩ := rfl

/-- Rounded addition is commutative. -/
theorem dadd_comm (a b : Dbl) : a + b = b + a := by
  rw [dadd_def, dadd_def, add_comm]

/-- Rounded multiplication is commutative. -/
theorem dmul_comm (a b : Dbl) : a * b = b * a := by
  rw [dmul_def, dmul_def, mul_comm]

/-- Exchanging the operands of a rounded subtraction changes the sign. -/
theorem dsub_swap (a b : Dbl) : b - a = -(a - b) := by
  rw [dsub_def, dsub_def, dneg_def, ← roundD_neg, neg_sub]

theorem dneg_mul_neg (a b : Dbl) : (-a) * (-b) = a * b := by
  rw [dmul_def, dmul_def, dneg_def, dneg_def, neg_mul_neg]

theorem dabs_neg (a : Dbl) : Dbl.abs (-a) = Dbl.abs a := by
  simp only [Dbl.abs, dneg_def, abs_neg]

/-- The computed squared distance is symmetric. -/
theorem dist2D_comm (a b : Vertex Dbl) : dist2D b a = dist2D a b := by
  simp only [dist2D]
  rw [dsub_swap a.x b.x, dsub_swap a.y b.y, dsub_swap a.z b.z, dneg_mul_neg, dneg_mul_neg,
    dneg_mul_neg]

theorem rand2D_comm (m : Libm Dbl) (p q : Dbl) : rand2D m q p = rand2D m p q := by
  simp only [rand2D]
  rw [dmul_comm (q + 3.14159265) (p + 3.14159265)]

theorem maxlengthD_spec (a b c d : Vertex Dbl) :
    ((dist2D a b).val ≤ (maxlengthD a b c d).val ∧ (dist2D a c).val ≤ (maxlengthD a b c d).val
      ∧ (dist2D a d).val ≤ (maxlengthD a b c d).val ∧ (dist2D b c).val ≤ (maxlengthD a b c d).val
      ∧ (dist2D b d).val ≤ (maxlengthD a b c d).val ∧ (dist2D c d).val ≤ (maxlengthD a b c d).val)
    ∧ (maxlengthD a b c d = dist2D a b ∨ maxlengthD a b c d = dist2D a c
      ∨ maxlengthD a b c d = dist2D a d ∨ maxlengthD a b c d = dist2D b c
      ∨ maxlengthD a b c d = dist2D b d ∨ maxlengthD a b c d = dist2D c d) := by
  simp only [maxlengthD]
  split_ifs <;> simp only [gt_iff_lt, dlt_def, not_lt] at * <;>
    refine ⟨⟨?_, ?_, ?_, ?_, ?_, ?_⟩, by simp⟩ <;> linarith

/-- The split is reached exactly when `ab` is strictly the longest edge. -/
theorem strictABD_iff (a b c d : Vertex Dbl) :
    StrictABD ⟨a, b, c, d⟩ ↔
      (dist2D a c ≠ maxlengthD a b c d ∧ dist2D a d ≠ maxlengthD a b c d
        ∧ dist2D b c ≠ maxlengthD a b c d ∧ dist2D b d ≠ maxlengthD a b c d
        ∧ dist2D c d ≠ maxlengthD a b c d) := by
  obtain ⟨⟨g1, g2, g3, g4, g5, g6⟩, hm⟩ := maxlengthD_spec a b c d
  simp only [StrictABD, dlt_def, ne_eq, deq_iff]
  constructor
  · rintro ⟨h1, h2, h3, h4, h5⟩
    refine ⟨?_, ?_, ?_, ?_, ?_⟩ <;> intro h <;> linarith
  · rintro ⟨h1, h2, h3, h4, h5⟩
    have hm : (maxlengthD a b c d).val = (dist2D a b).val := by
      rcases hm with h | h | h | h | h | h
      · rw [h]
      · exact absurd (congrArg Dbl.val h).symm h1
      · exact absurd (congrArg Dbl.val h).symm h2
      · exact absurd (congrArg Dbl.val h).symm h3
      · exact absurd (congrArg Dbl.val h).symm h4
      · exact absurd (congrArg Dbl.val h).symm h5
    rw [hm] at h1 h2 h3 h4 h5 g2 g3 g4 g5 g6
    exact ⟨lt_of_le_of_ne g2 h1, lt_of_le_of_ne g3 h2, lt_of_le_of_ne g4 h3,
      lt_of_le_of_ne g5 h4, lt_of_le_of_ne g6 h5⟩

theorem rotateD_of_strictABD {t : Tetra Dbl} (h : StrictABD t) : rotateD t = t := by
  obtain ⟨h1, h2, h3, h4, h5⟩ := (strictABD_iff t.a t.b t.c t.d).mp h
  simp only [rotateD, h1, h2, h3, h4, h5, if_false]

/-- A call at a positive level whose tuple has `ab` strictly longest cuts `ab`. -/
theorem planetD_succ_of_strictABD (m : Libm Dbl) (cfg : Config Dbl) (fuel : Nat)
    (st : State Dbl) (t : Tetra Dbl) (x y z : Dbl) (level : Int) (hl : 0 < level)
    (h : StrictABD t) :
    planetD m cfg (fuel + 1) st t.a t.b t.c t.d x y z level =
      planetD m cfg fuel (snapshot st t level) (childD m cfg t x y z).a
        (childD m cfg t x y z).b (childD m cfg t x y z).c (childD m cfg t x y z).d
        x y z (level - 1) := by
  obtain ⟨h1, h2, h3, h4, h5⟩ := (strictABD_iff t.a t.b t.c t.d).mp h
  rw [planetD]
  simp only [gt_iff_lt, hl, if_true, h1, h2, h3, h4, h5, if_false, childD, snapshot]
  split_ifs <;> rfl

/-- A call at a positive level whose tuple does not have `ab` strictly longest
calls `planet` on the rotated tuple at the same level. -/
theorem planetD_succ_of_not_strictABD (m : Libm Dbl) (cfg : Config Dbl) (fuel : Nat)
    (st : State Dbl) (t : Tetra Dbl) (x y z : Dbl) (level : Int) (hl : 0 < level)
    (h : ¬ StrictABD t) :
    planetD m cfg (fuel + 1) st t.a t.b t.c t.d x y z level =
      planetD m cfg fuel st (rotateD t).a (rotateD t).b (rotateD t).c (rotateD t).d
        x y z level := by
  rw [planetD]
  simp only [gt_iff_lt, hl, if_true, rotateD]
  split_ifs <;>
    first
    | rfl
    | exact absurd ((strictABD_iff t.a t.b t.c t.d).mpr
        ⟨by assumption, by assumption, by assumption, by assumption, by assumption⟩) h

/-- A call at level 0 or below returns the leaf value. -/
theorem planetD_leaf (m : Libm Dbl) (cfg : Config Dbl) (fuel : Nat) (st : State Dbl)
    (t : Tetra Dbl) (x y z : Dbl) (level : Int) (hl : ¬ 0 < level) :
    planetD m cfg (fuel + 1) st t.a t.b t.c t.d x y z level
      = some (leafResultD m cfg st t x y z) := by
  rw [planetD]
  simp only [gt_iff_lt, hl, if_false, leafResultD]

end DoubleBasics

section DoubleCache

theorem planetD_fuel_zero (m : Libm Dbl) (cfg : Config Dbl) (st : State Dbl)
    (a b c d : Vertex Dbl) (x y z : Dbl) (level : Int) :
    planetD m cfg 0 st a b c d x y z level = none := by
  rw [planetD]

/-- More fuel does not change a result. -/
theorem planetD_mono (m : Libm Dbl) (cfg : Config Dbl) (x y z : Dbl) :
    ∀ (fuel : Nat) (st : State Dbl) (t : Tetra Dbl) (level : Int) (r : Dbl × State Dbl),
      planetD m cfg fuel st t.a t.b t.c t.d x y z level = some r →
      planetD m cfg (fuel + 1) st t.a t.b t.c t.d x y z level = some r := by
  intro fuel
  induction fuel with
  | zero =>
    intro st t level r h
    rw [planetD_fuel_zero] at h
    exact absurd h (by simp)
  | succ f ih =>
    intro st t level r h
    by_cases hl : 0 < level
    · by_cases hs : StrictABD t
      · rw [planetD_succ_of_strictABD m cfg f st t x y z level hl hs] at h
        rw [planetD_succ_of_strictABD m cfg (f + 1) st t x y z level hl hs]
        exact ih _ (childD m cfg t x y z) _ r h
      · rw [planetD_succ_of_not_strictABD m cfg f st t x y z level hl hs] at h
        rw [planetD_succ_of_not_strictABD m cfg (f + 1) st t x y z level hl hs]
        exact ih _ (rotateD t) _ r h
    · rw [planetD_leaf m cfg f st t x y z level hl] at h
      rw [planetD_leaf m cfg (f + 1) st t x y z level hl]
      exact h

theorem planetD_mono_le (m : Libm Dbl) (cfg : Config Dbl) (x y z : Dbl) (st : State Dbl)
    (t : Tetra Dbl) (level : Int) (r : Dbl × State Dbl) (fuel : Nat)
    (h : planetD m cfg fuel st t.a t.b t.c t.d x y z level = some r) :
    ∀ k : Nat, planetD m cfg (fuel + k) st t.a t.b t.c t.d x y z level = some r := by
  intro k
  induction k with
  | zero => exact h
  | succ k ih => exact planetD_mono m cfg x y z (fuel + k) st t level r ih

theorem snapshot_ne {st : State Dbl} {t : Tetra Dbl} {level : Int} (h : level ≠ 11) :
    snapshot st t level = st := by
  simp only [snapshot, h, if_false]

theorem snapshot_cache (st : State Dbl) (t : Tetra Dbl) : (snapshot st t 11).cache = t := by
  simp only [snapshot, if_true, State.cache]

/-- Below level 11 a call does not touch the cache. -/
theorem planetD_cache_low (m : Libm Dbl) (cfg : Config Dbl) (x y z : Dbl) :
    ∀ (fuel : Nat) (st : State Dbl) (t : Tetra Dbl) (level : Int) (r : Dbl × State Dbl),
      level < 11 → planetD m cfg fuel st t.a t.b t.c t.d x y z level = some r →
      r.2.cache = st.cache := by
  intro fuel
  induction fuel with
  | zero =>
    intro st t level r _ h
    rw [planetD_fuel_zero] at h
    exact absurd h (by simp)
  | succ f ih =>
    intro st t level r h11 h
    by_cases hl : 0 < level
    · by_cases hs : StrictABD t
      · rw [planetD_succ_of_strictABD m cfg f st t x y z level hl hs,
          snapshot_ne (by omega)] at h
        exact ih st (childD m cfg t x y z) _ r (by omega) h
      · rw [planetD_succ_of_not_strictABD m cfg f st t x y z level hl hs] at h
        exact ih st (rotateD t) _ r h11 h
    · rw [planetD_leaf m cfg f st t x y z level hl] at h
      have hr : r = leafResultD m cfg st t x y z := (Option.some.inj h).symm
      rw [hr]
      rfl

/-- A call at level 11 or above that returns has passed through a call at
level 11 on the tuple it leaves in the cache, with the same result. -/
theorem planetD_through_cache (m : Libm Dbl) (cfg : Config Dbl) (x y z : Dbl) :
    ∀ (fuel : Nat) (st : State Dbl) (t : Tetra Dbl) (level : Int) (r : Dbl × State Dbl),
      11 ≤ level → planetD m cfg fuel st t.a t.b t.c t.d x y z level = some r →
      ∃ (fuel1 : Nat) (st1 : State Dbl), fuel1 ≤ fuel
        ∧ planetD m cfg fuel1 st1 r.2.ssa r.2.ssb r.2.ssc r.2.ssd x y z 11 = some r := by
  intro fuel
  induction fuel with
  | zero =>
    intro st t level r _ h
    rw [planetD_fuel_zero] at h
    exact absurd h (by simp)
  | succ f ih =>
    intro st t level r h11 h
    have hl : 0 < level := by omega
    by_cases hs : StrictABD t
    · by_cases he : level = 11
      · subst he
        have h2 := h
        rw [planetD_succ_of_strictABD m cfg f st t x y z 11 hl hs] at h2
        have hc := planetD_cache_low m cfg x y z f _ (childD m cfg t x y z) _ r (by norm_num) h2
        rw [snapshot_cache] at hc
        refine ⟨f + 1, st, le_refl _, ?_⟩
        have ha : r.2.ssa = t.a := congrArg Tetra.a hc
        have hb : r.2.ssb = t.b := congrArg Tetra.b hc
        have hcc : r.2.ssc = t.c := congrArg Tetra.c hc
        have hd : r.2.ssd = t.d := congrArg Tetra.d hc
        rw [ha, hb, hcc, hd]
        exact h
      · rw [planetD_succ_of_strictABD m cfg f st t x y z level hl hs, snapshot_ne he] at h
        obtain ⟨f1, st1, hf1, h1⟩ := ih st (childD m cfg t x y z) _ r (by omega) h
        exact ⟨f1, st1, by omega, h1⟩
    · rw [planetD_succ_of_not_strictABD m cfg f st t x y z level hl hs] at h
      obtain ⟨f1, st1, hf1, h1⟩ := ih st (rotateD t) _ r h11 h
      exact ⟨f1, st1, by omega, h1⟩

theorem dist2D_geo (a b : Vertex Dbl) : dist2D a.geoD b.geoD = dist2D a b := rfl

theorem maxlengthD_geo (a b c d : Vertex Dbl) :
    maxlengthD a.geoD b.geoD c.geoD d.geoD = maxlengthD a b c d := rfl

theorem rotateD_geo (t : Tetra Dbl) : (rotateD t).geoD = rotateD t.geoD := by
  simp only [rotateD, Tetra.geoD, dist2D_geo, maxlengthD_geo]
  split_ifs <;> rfl

theorem strictABD_geo (t : Tetra Dbl) : StrictABD t.geoD ↔ StrictABD t := Iff.rfl

theorem geoD_eq_iff (v w : Vertex Dbl) :
    v.geoD = w.geoD ↔ v.h = w.h ∧ v.s = w.s ∧ v.x = w.x ∧ v.y = w.y ∧ v.z = w.z := by
  obtain ⟨h1, s1, x1, y1, z1, w1⟩ := v
  obtain ⟨h2, s2, x2, y2, z2, w2⟩ := w
  simp only [Vertex.geoD, Vertex.mk.injEq, and_true]

/-- The new vertex depends on the rain shadows of the end points in its own
rain shadow only. -/
theorem splitVertexD_congr (m : Libm Dbl) (cfg : Config Dbl) (a1 b1 a2 b2 : Vertex Dbl)
    (x y z : Dbl) (ha : a1.geoD = a2.geoD) (hb : b1.geoD = b2.geoD) :
    (splitVertexD m cfg a1 b1 x y z).geoD = (splitVertexD m cfg a2 b2 x y z).geoD := by
  obtain ⟨ah, as, ax, ay, az⟩ := (geoD_eq_iff a1 a2).mp ha
  obtain ⟨bh, bs, bx, bY, bz⟩ := (geoD_eq_iff b1 b2).mp hb
  simp only [splitVertexD, Vertex.geoD, splitCoordD, splitHD, splitSeedD, splitEs1D, splitEs2D,
    splitEs3D, useMapD, labAfterD, dist2D, ah, as, ax, ay, az, bh, bs, bx, bY, bz]

theorem insideACDED_geo (a c d e : Vertex Dbl) (x y z : Dbl) :
    insideACDED a.geoD c.geoD d.geoD e.geoD x y z ↔ insideACDED a c d e x y z := Iff.rfl

theorem strictABD_congr_geo {t1 t2 : Tetra Dbl} (hg : t1.geoD = t2.geoD) :
    StrictABD t1 ↔ StrictABD t2 := by
  rw [← strictABD_geo t1, ← strictABD_geo t2, hg]

theorem rotateD_congr_geo {t1 t2 : Tetra Dbl} (hg : t1.geoD = t2.geoD) :
    (rotateD t1).geoD = (rotateD t2).geoD := by
  rw [rotateD_geo, rotateD_geo, hg]

/-- Tuples that differ in rain shadows only have sub-tetrahedra that differ in
rain shadows only. -/
theorem childD_congr_geo (m : Libm Dbl) (cfg : Config Dbl) (t1 t2 : Tetra Dbl) (x y z : Dbl)
    (hg : t1.geoD = t2.geoD) :
    (childD m cfg t1 x y z).geoD = (childD m cfg t2 x y z).geoD := by
  have ha : t1.a.geoD = t2.a.geoD := congrArg Tetra.a hg
  have hb : t1.b.geoD = t2.b.geoD := congrArg Tetra.b hg
  have hc : t1.c.geoD = t2.c.geoD := congrArg Tetra.c hg
  have hd : t1.d.geoD = t2.d.geoD := congrArg Tetra.d hg
  have he : (splitVertexD m cfg t1.a t1.b x y z).geoD
      = (splitVertexD m cfg t2.a t2.b x y z).geoD :=
    splitVertexD_congr m cfg t1.a t1.b t2.a t2.b x y z ha hb
  have hside : insideACDED t1.a t1.c t1.d (splitVertexD m cfg t1.a t1.b x y z) x y z ↔
      insideACDED t2.a t2.c t2.d (splitVertexD m cfg t2.a t2.b x y z) x y z := by
    rw [← insideACDED_geo t1.a, ← insideACDED_geo t2.a, ha, hc, hd, he]
  unfold childD
  by_cases h1 : insideACDED t1.a t1.c t1.d (splitVertexD m cfg t1.a t1.b x y z) x y z
  · rw [if_pos h1, if_pos (hside.mp h1)]
    simp only [Tetra.geoD, ha, hc, hd, he]
  · rw [if_neg h1, if_neg (fun h => h1 (hside.mpr h))]
    simp only [Tetra.geoD, hb, hc, hd, he]

theorem leafD_alt_geo (m : Libm Dbl) (cfg : Config Dbl) (st1 st2 : State Dbl)
    (t1 t2 : Tetra Dbl) (x y z : Dbl) (hg : t1.geoD = t2.geoD) :
    (leafResultD m cfg st1 t1 x y z).1 = (leafResultD m cfg st2 t2 x y z).1 := by
  have ha : t1.a.h = t2.a.h := ((geoD_eq_iff _ _).mp (congrArg Tetra.a hg)).1
  have hb : t1.b.h = t2.b.h := ((geoD_eq_iff _ _).mp (congrArg Tetra.b hg)).1
  have hc : t1.c.h = t2.c.h := ((geoD_eq_iff _ _).mp (congrArg Tetra.c hg)).1
  have hd : t1.d.h = t2.d.h := ((geoD_eq_iff _ _).mp (congrArg Tetra.d hg)).1
  simp only [leafResultD, ha, hb, hc, hd]

/-- The altitude returned depends neither on the globals nor on the rain
shadows of the vertices. -/
theorem planetD_alt_geo (m : Libm Dbl) (cfg : Config Dbl) (x y z : Dbl) :
    ∀ (fuel : Nat) (st1 st2 : State Dbl) (t1 t2 : Tetra Dbl) (level : Int),
      t1.geoD = t2.geoD →
      (planetD m cfg fuel st1 t1.a t1.b t1.c t1.d x y z level).map Prod.fst
        = (planetD m cfg fuel st2 t2.a t2.b t2.c t2.d x y z level).map Prod.fst := by
  intro fuel
  induction fuel with
  | zero =>
    intro st1 st2 t1 t2 level _
    rw [planetD_fuel_zero, planetD_fuel_zero]
  | succ f ih =>
    intro st1 st2 t1 t2 level hg
    by_cases hl : 0 < level
    · by_cases hs : StrictABD t1
      · rw [planetD_succ_of_strictABD m cfg f st1 t1 x y z level hl hs,
          planetD_succ_of_strictABD m cfg f st2 t2 x y z level hl
            ((strictABD_congr_geo hg).mp hs)]
        exact ih _ _ _ _ _ (childD_congr_geo m cfg t1 t2 x y z hg)
      · rw [planetD_succ_of_not_strictABD m cfg f st1 t1 x y z level hl hs,
          planetD_succ_of_not_strictABD m cfg f st2 t2 x y z level hl
            (fun h => hs ((strictABD_congr_geo hg).mpr h))]
        exact ih _ _ _ _ _ (rotateD_congr_geo hg)
    · rw [planetD_leaf m cfg f st1 t1 x y z level hl, planetD_leaf m cfg f st2 t2 x y z level hl,
        Option.map_some', Option.map_some', leafD_alt_geo m cfg st1 st2 t1 t2 x y z hg]

/-- The subdivision does not read the global `Depth`. -/
theorem planetD_depth (m : Libm Dbl) (cfg : Config Dbl) (D2 : Int) (x y z : Dbl) :
    ∀ (fuel : Nat) (st : State Dbl) (t : Tetra Dbl) (level : Int),
      planetD m { cfg with Depth := D2 } fuel st t.a t.b t.c t.d x y z level
        = planetD m cfg fuel st t.a t.b t.c t.d x y z level := by
  intro fuel
  induction fuel with
  | zero =>
    intro st t level
    rw [planetD_fuel_zero, planetD_fuel_zero]
  | succ f ih =>
    intro st t level
    by_cases hl : 0 < level
    · by_cases hs : StrictABD t
      · rw [planetD_succ_of_strictABD m cfg f st t x y z level hl hs,
          planetD_succ_of_strictABD m _ f st t x y z level hl hs]
        exact ih _ (childD m cfg t x y z) _
      · rw [planetD_succ_of_not_strictABD m cfg f st t x y z level hl hs,
          planetD_succ_of_not_strictABD m _ f st t x y z level hl hs]
        exact ih _ (rotateD t) _
    · rw [planetD_leaf m cfg f st t x y z level hl, planetD_leaf m _ f st t x y z level hl]
      rfl

/-- A query that hits the cache returns the altitude of the restart from the
root whenever the restart returns and leaves in the cache the tuple that was
cached, up to rain shadows. -/
theorem planet1D_hit_eq_restart (m : Libm Dbl) (cfg : Config Dbl) (fuel : Nat)
    (st : State Dbl) (x y z : Dbl) (r2 : Dbl × State Dbl) (hD : 11 ≤ cfg.Depth)
    (hhit : cacheHitD st x y z)
    (hr : planetD m cfg fuel st cfg.tetra0 cfg.tetra1 cfg.tetra2 cfg.tetra3 x y z cfg.Depth
      = some r2)
    (hc : r2.2.cache.geoD = st.cache.geoD) :
    ∃ r1 : Dbl × State Dbl, planet1D m cfg fuel st x y z = some r1 ∧ r1.1 = r2.1 := by
  obtain ⟨f1, st1, hf1, h1⟩ := planetD_through_cache m cfg x y z fuel st cfg.root cfg.Depth r2 hD hr
  obtain ⟨k, rfl⟩ : ∃ k, fuel = f1 + k := ⟨fuel - f1, by omega⟩
  have h2 := planetD_mono_le m cfg x y z st1 r2.2.cache 11 r2 f1 h1 k
  have h3 := planetD_alt_geo m cfg x y z (f1 + k) st1 st r2.2.cache st.cache 11 hc
  rw [h2, Option.map_some'] at h3
  have h4 : planet1D m cfg (f1 + k) st x y z
      = planetD m cfg (f1 + k) st st.ssa st.ssb st.ssc st.ssd x y z 11 := by
    simp only [planet1D, hhit, if_true]
  rw [h4]
  cases hq : planetD m cfg (f1 + k) st st.cache.a st.cache.b st.cache.c st.cache.d x y z 11 with
  | none => rw [hq] at h3; exact absurd h3 (by simp)
  | some r1 =>
    rw [hq, Option.map_some'] at h3
    exact ⟨r1, hq, (Option.some.inj h3).symm⟩

end DoubleCache

section DoubleCacheData

/-- The query for `(1,0,0)` at base depth 12 returns and leaves `cacheD12`. -/
theorem cacheD12_filled :
    planet1D libD (cfgD 12) 30 zeroStateD 1.0 0.0 0.0 = some (0.08882500867668577, cacheD12) := by
  decide!

theorem cacheD12_hit :
    cacheHitD cacheD12 0.9995236415375948 (-0.006698664840951632) 0.030126697409016315 := by
  decide!

/-- For a goal point well inside the cached tetrahedron the descent from the
root passes through the cached tuple. -/
theorem cacheD12_restart :
    planetD libD (cfgD 12) 30 cacheD12 (cfgD 12).tetra0 (cfgD 12).tetra1 (cfgD 12).tetra2
        (cfgD 12).tetra3 0.9995236415375948 (-0.006698664840951632) 0.030126697409016315
        (cfgD 12).Depth = some (0.08882500867668577, cacheD12) := by
  decide!

/-- A goal point of the unit sphere within rounding error of the first cutting
plane passes the cache test. -/
theorem cacheD12_hit_edge :
    cacheHitD cacheD12 (-0.6428222350285374) 0.7361503374098199 (-0.2118071171710818) := by
  decide!

/-- From the cache `cacheD12`, the descent resumed at level 11 for that goal
point returns the altitude -0.12244832521621289. -/
theorem cacheD12_resume_edge :
    (planetD libD (cfgD 12) 30 cacheD12 cacheD12.ssa cacheD12.ssb cacheD12.ssc cacheD12.ssd
        (-0.6428222350285374) 0.7361503374098199 (-0.2118071171710818) 11).map Prod.fst
      = some (-0.12244832521621289) := by
  decide!

/-- The descent restarted from the root at level 12 for the same goal point
returns the altitude -0.12722702325949856. -/
theorem cacheD12_restart_edge :
    (planetD libD (cfgD 12) 30 cacheD12 (cfgD 12).tetra0 (cfgD 12).tetra1 (cfgD 12).tetra2
        (cfgD 12).tetra3 (-0.6428222350285374) 0.7361503374098199 (-0.2118071171710818)
        12).map Prod.fst
      = some (-0.12722702325949856) := by
  decide!

end DoubleCacheData

section PointLocationSides

variable {K : Type} [LinearOrderedField K] [FloorRing K]

/-- A point of the closed tetrahedron for which the tested product is not
negative lies in the closed sub-tetrahedron `(c,d,a,e)`. -/
theorem inTetra_side_a {t : Tetra K} {e : Vertex K} {x y z : K} (hv : vol t ≠ 0)
    (hin : InTetra t x y z) (he : Between t.a t.b e)
    (hs : 0 ≤ sideProduct t.a t.c t.d e x y z) : InTetra ⟨t.c, t.d, t.a, e⟩ x y z := by
  obtain ⟨s, hs0, hs1, hcut⟩ := he
  obtain ⟨wa, wb, wc, wd, ha, hb, hc, hd, hbary⟩ := hin
  have hprod := sideProduct_eq hcut hbary
  have hv2 : 0 < (vol t) ^ 2 := by positivity
  have h1s : 0 < 1 - s := by linarith
  have hk : 0 ≤ wa * (1 - s) - wb * s := by
    rw [hprod] at hs
    by_contra hneg
    have : (1 - s) * (wa * (1 - s) - wb * s) * (vol t) ^ 2 < 0 :=
      mul_neg_of_neg_of_pos (mul_neg_of_pos_of_neg h1s (not_le.mp hneg)) hv2
    exact absurd hs (not_le.mpr this)
  refine ⟨wc, wd, wa - wb * s / (1 - s), wb / (1 - s), hc, hd, ?_, ?_,
    bary_child_a hs1 hcut hbary⟩
  · have : wa - wb * s / (1 - s) = (wa * (1 - s) - wb * s) / (1 - s) := by
      field_simp
    rw [this]
    exact div_nonneg hk h1s.le
  · exact div_nonneg hb h1s.le

/-- A point of the closed tetrahedron for which the tested product is not
positive lies in the closed sub-tetrahedron `(c,d,b,e)`. -/
theorem inTetra_side_b {t : Tetra K} {e : Vertex K} {x y z : K} (hv : vol t ≠ 0)
    (hin : InTetra t x y z) (he : Between t.a t.b e)
    (hs : sideProduct t.a t.c t.d e x y z ≤ 0) : InTetra ⟨t.c, t.d, t.b, e⟩ x y z := by
  obtain ⟨s, hs0, hs1, hcut⟩ := he
  obtain ⟨wa, wb, wc, wd, ha, hb, hc, hd, hbary⟩ := hin
  have hprod := sideProduct_eq hcut hbary
  have hv2 : 0 < (vol t) ^ 2 := by positivity
  have h1s : 0 < 1 - s := by linarith
  have hk : wa * (1 - s) - wb * s ≤ 0 := by
    rw [hprod] at hs
    by_contra hpos
    exact absurd hs (not_le.mpr (mul_pos (mul_pos h1s (not_le.mp hpos)) hv2))
  refine ⟨wc, wd, wb - wa * (1 - s) / s, wa / s, hc, hd, ?_, ?_,
    bary_child_b hs0 hcut hbary⟩
  · have : wb - wa * (1 - s) / s = -(wa * (1 - s) - wb * s) / s := by
      field_simp
    rw [this]
    exact div_nonneg (by linarith) hs0.le
  · exact div_nonneg ha hs0.le

/-- Cramer's rule for the barycentric coordinate of the third vertex. -/
theorem bary_third {t : Tetra K} {x y z wa wb wc wd : K} (hb : Bary t x y z wa wb wc wd) :
    wc * vol t
      = det3 (t.b.x - t.a.x) (t.b.y - t.a.y) (t.b.z - t.a.z) (x - t.a.x) (y - t.a.y) (z - t.a.z)
          (t.d.x - t.a.x) (t.d.y - t.a.y) (t.d.z - t.a.z) := by
  obtain ⟨hs, px, py, pz⟩ := hb
  have hwa : wa = 1 - wb - wc - wd := by linarith
  subst hwa px py pz
  simp only [det3, vol]
  ring

/-- A point whose third barycentric coordinate, by Cramer's rule, is negative
is outside the closed tetrahedron. -/
theorem not_inTetra_of_third {t : Tetra K} {x y z : K}
    (h : det3 (t.b.x - t.a.x) (t.b.y - t.a.y) (t.b.z - t.a.z) (x - t.a.x) (y - t.a.y) (z - t.a.z)
          (t.d.x - t.a.x) (t.d.y - t.a.y) (t.d.z - t.a.z) * vol t < 0) :
    ¬ InTetra t x y z := by
  rintro ⟨wa, wb, wc, wd, _, _, hc, _, hbary⟩
  rw [← bary_third hbary] at h
  have : 0 ≤ wc * vol t * vol t := by
    rw [mul_assoc]
    exact mul_nonneg hc (mul_self_nonneg _)
  exact absurd h (not_lt.mpr this)

end PointLocationSides

section DoublePointLocation

/-- The sub-tetrahedron chosen by the computed test contains the goal point
when the computed product does not have the sign opposite to the exact one. -/
theorem inTetra_childD (m : Libm Dbl) (cfg : Config Dbl) (t : Tetra Dbl) (x y z : Dbl)
    (hv : vol t.toQ ≠ 0) (hin : InTetra t.toQ x.val y.val z.val)
    (he : Between t.a.toQ t.b.toQ (splitVertexD m cfg t.a t.b x y z).toQ)
    (hpos : sideProductD t.a t.c t.d (splitVertexD m cfg t.a t.b x y z) x y z > 0.0 →
      0 ≤ sideProduct t.a.toQ t.c.toQ t.d.toQ (splitVertexD m cfg t.a t.b x y z).toQ
        x.val y.val z.val)
    (hneg : ¬ sideProductD t.a t.c t.d (splitVertexD m cfg t.a t.b x y z) x y z > 0.0 →
      sideProduct t.a.toQ t.c.toQ t.d.toQ (splitVertexD m cfg t.a t.b x y z).toQ
        x.val y.val z.val ≤ 0) :
    InTetra (childD m cfg t x y z).toQ x.val y.val z.val := by
  unfold childD insideACDED
  by_cases h : sideProductD t.a t.c t.d (splitVertexD m cfg t.a t.b x y z) x y z > 0.0
  · rw [if_pos h]
    exact @inTetra_side_a ℚ _ _ t.toQ _ _ _ _ hv hin he (hpos h)
  · rw [if_neg h]
    exact @inTetra_side_b ℚ _ _ t.toQ _ _ _ _ hv hin he (hneg h)

theorem childD_eq (m : Libm Dbl) (cfg : Config Dbl) (t : Tetra Dbl) (x y z : Dbl) :
    childD m cfg t x y z
      = if sideProductD t.a t.c t.d (splitVertexD m cfg t.a t.b x y z) x y z > 0.0 then
          ⟨t.c, t.d, t.a, splitVertexD m cfg t.a t.b x y z⟩
        else ⟨t.c, t.d, t.b, splitVertexD m cfg t.a t.b x y z⟩ := rfl

end DoublePointLocation

section DoublePermutations

theorem count_six_eq_oneD {l e1 e2 e3 e4 e5 e6 : Dbl}
    (hc : [e1, e2, e3, e4, e5, e6].count l = 1) :
    (e1 = l ∧ e2 ≠ l ∧ e3 ≠ l ∧ e4 ≠ l ∧ e5 ≠ l ∧ e6 ≠ l)
      ∨ (e1 ≠ l ∧ e2 = l ∧ e3 ≠ l ∧ e4 ≠ l ∧ e5 ≠ l ∧ e6 ≠ l)
      ∨ (e1 ≠ l ∧ e2 ≠ l ∧ e3 = l ∧ e4 ≠ l ∧ e5 ≠ l ∧ e6 ≠ l)
      ∨ (e1 ≠ l ∧ e2 ≠ l ∧ e3 ≠ l ∧ e4 = l ∧ e5 ≠ l ∧ e6 ≠ l)
      ∨ (e1 ≠ l ∧ e2 ≠ l ∧ e3 ≠ l ∧ e4 ≠ l ∧ e5 = l ∧ e6 ≠ l)
      ∨ (e1 ≠ l ∧ e2 ≠ l ∧ e3 ≠ l ∧ e4 ≠ l ∧ e5 ≠ l ∧ e6 = l) := by
  simp only [List.count_cons, List.count_nil, beq_iff_eq] at hc
  by_cases h1 : e1 = l <;> by_cases h2 : e2 = l <;> by_cases h3 : e3 = l <;>
    by_cases h4 : e4 = l <;> by_cases h5 : e5 = l <;> by_cases h6 : e6 = l <;>
    simp only [h1, h2, h3, h4, h5, h6, if_true, if_false] at hc <;>
    first
    | omega
    | simp [h1, h2, h3, h4, h5, h6]

theorem edgesD_eq_pairDistsD (t : Tetra Dbl) : edgesD t = pairDistsD t.toList := by
  simp [edgesD, pairDistsD, Tetra.toList]

theorem pairDistsD_perm {l1 l2 : List (Vertex Dbl)} (h : l1.Perm l2) :
    (pairDistsD l1).Perm (pairDistsD l2) := by
  induction h with
  | nil => exact List.Perm.refl _
  | cons v _ ih => exact List.Perm.append (List.Perm.map _ (by assumption)) ih
  | swap v w l =>
    simp only [pairDistsD, List.map_cons, List.cons_append]
    rw [dist2D_comm w v]
    refine List.Perm.cons _ ?_
    rw [← List.append_assoc, ← List.append_assoc]
    exact List.Perm.append_right _ List.perm_append_comm
  | trans _ _ ih1 ih2 => exact ih1.trans ih2

theorem edgesD_perm {t1 t2 : Tetra Dbl} (h : t1.toList.Perm t2.toList) :
    (edgesD t1).Perm (edgesD t2) := by
  rw [edgesD_eq_pairDistsD, edgesD_eq_pairDistsD]
  exact pairDistsD_perm h

theorem hasStrictMaxD_of_perm {t1 t2 : Tetra Dbl} (h : t1.toList.Perm t2.toList)
    (h2 : HasStrictMaxD t2) : HasStrictMaxD t1 := by
  obtain ⟨l, hc, hle⟩ := h2
  refine ⟨l, ?_, ?_⟩
  · rw [(edgesD_perm h).count_eq]; exact hc
  · intro l1 hl1
    exact hle l1 ((edgesD_perm h).mem_iff.mp hl1)

theorem rotateD_perm (t : Tetra Dbl) : (rotateD t).toList.Perm t.toList := by
  rw [List.perm_iff_count]
  intro v
  simp only [rotateD]
  split_ifs <;> simp only [Tetra.toList, List.count_cons, List.count_nil] <;> omega

theorem hasStrictMaxD_of_strictABD {t : Tetra Dbl} (h : StrictABD t) : HasStrictMaxD t := by
  obtain ⟨h1, h2, h3, h4, h5⟩ := h
  have n1 := dlt_ne h1
  have n2 := dlt_ne h2
  have n3 := dlt_ne h3
  have n4 := dlt_ne h4
  have n5 := dlt_ne h5
  refine ⟨dist2D t.a t.b, ?_, ?_⟩
  · simp [edgesD, List.count_cons, n1, n2, n3, n4, n5]
  · intro l1 hl1
    simp only [edgesD, List.mem_cons, List.mem_singleton, List.not_mem_nil, or_false] at hl1
    rcases hl1 with h | h | h | h | h | h <;> rw [h] <;>
      first
      | exact le_refl (dist2D t.a t.b).val
      | exact le_of_lt ((dlt_def _ _).mp (by assumption))

theorem strictABD_rotateD {t : Tetra Dbl} (h : HasStrictMaxD t) : StrictABD (rotateD t) := by
  obtain ⟨l, hc, hle⟩ := h
  have g1 : (dist2D t.a t.b).val ≤ l.val := hle (dist2D t.a t.b) (by simp [edgesD])
  have g2 : (dist2D t.a t.c).val ≤ l.val := hle (dist2D t.a t.c) (by simp [edgesD])
  have g3 : (dist2D t.a t.d).val ≤ l.val := hle (dist2D t.a t.d) (by simp [edgesD])
  have g4 : (dist2D t.b t.c).val ≤ l.val := hle (dist2D t.b t.c) (by simp [edgesD])
  have g5 : (dist2D t.b t.d).val ≤ l.val := hle (dist2D t.b t.d) (by simp [edgesD])
  have g6 : (dist2D t.c t.d).val ≤ l.val := hle (dist2D t.c t.d) (by simp [edgesD])
  obtain ⟨⟨m1, m2, m3, m4, m5, m6⟩, hmem⟩ := maxlengthD_spec t.a t.b t.c t.d
  have hml : (maxlengthD t.a t.b t.c t.d).val ≤ l.val := by
    rcases hmem with h | h | h | h | h | h <;> rw [h] <;> assumption
  have q1 := congrArg Dbl.val (dist2D_comm t.b t.a)
  have q2 := congrArg Dbl.val (dist2D_comm t.c t.a)
  have q3 := congrArg Dbl.val (dist2D_comm t.d t.a)
  have q4 := congrArg Dbl.val (dist2D_comm t.c t.b)
  have q5 := congrArg Dbl.val (dist2D_comm t.d t.b)
  have q6 := congrArg Dbl.val (dist2D_comm t.d t.c)
  simp only [edgesD] at hc
  rcases count_six_eq_oneD hc with ⟨c1, c2, c3, c4, c5, c6⟩ | ⟨c1, c2, c3, c4, c5, c6⟩
    | ⟨c1, c2, c3, c4, c5, c6⟩ | ⟨c1, c2, c3, c4, c5, c6⟩ | ⟨c1, c2, c3, c4, c5, c6⟩
    | ⟨c1, c2, c3, c4, c5, c6⟩
  · have hm : maxlengthD t.a t.b t.c t.d = l :=
      (deq_iff _ _).mpr (le_antisymm hml (c1 ▸ m1))
    have s2 := lt_of_le_of_ne g2 (fun h => c2 ((deq_iff _ _).mpr h))
    have s3 := lt_of_le_of_ne g3 (fun h => c3 ((deq_iff _ _).mpr h))
    have s4 := lt_of_le_of_ne g4 (fun h => c4 ((deq_iff _ _).mpr h))
    have s5 := lt_of_le_of_ne g5 (fun h => c5 ((deq_iff _ _).mpr h))
    have s6 := lt_of_le_of_ne g6 (fun h => c6 ((deq_iff _ _).mpr h))
    have e1 := congrArg Dbl.val c1
    simp only [rotateD, hm, c2, c3, c4, c5, c6, if_false, StrictABD, dlt_def]
    refine ⟨?_, ?_, ?_, ?_, ?_⟩ <;> linarith
  · have hm : maxlengthD t.a t.b t.c t.d = l :=
      (deq_iff _ _).mpr (le_antisymm hml (c2 ▸ m2))
    have s1 := lt_of_le_of_ne g1 (fun h => c1 ((deq_iff _ _).mpr h))
    have s3 := lt_of_le_of_ne g3 (fun h => c3 ((deq_iff _ _).mpr h))
    have s4 := lt_of_le_of_ne g4 (fun h => c4 ((deq_iff _ _).mpr h))
    have s5 := lt_of_le_of_ne g5 (fun h => c5 ((deq_iff _ _).mpr h))
    have s6 := lt_of_le_of_ne g6 (fun h => c6 ((deq_iff _ _).mpr h))
    have e2 := congrArg Dbl.val c2
    simp only [rotateD, hm, c2, if_true, StrictABD, dlt_def]
    refine ⟨?_, ?_, ?_, ?_, ?_⟩ <;> linarith
  · have hm : maxlengthD t.a t.b t.c t.d = l :=
      (deq_iff _ _).mpr (le_antisymm hml (c3 ▸ m3))
    have s1 := lt_of_le_of_ne g1 (fun h => c1 ((deq_iff _ _).mpr h))
    have s2 := lt_of_le_of_ne g2 (fun h => c2 ((deq_iff _ _).mpr h))
    have s4 := lt_of_le_of_ne g4 (fun h => c4 ((deq_iff _ _).mpr h))
    have s5 := lt_of_le_of_ne g5 (fun h => c5 ((deq_iff _ _).mpr h))
    have s6 := lt_of_le_of_ne g6 (fun h => c6 ((deq_iff _ _).mpr h))
    have e3 := congrArg Dbl.val c3
    simp only [rotateD, hm, c2, c3, if_true, if_false, StrictABD, dlt_def]
    refine ⟨?_, ?_, ?_, ?_, ?_⟩ <;> linarith
  · have hm : maxlengthD t.a t.b t.c t.d = l :=
      (deq_iff _ _).mpr (le_antisymm hml (c4 ▸ m4))
    have s1 := lt_of_le_of_ne g1 (fun h => c1 ((deq_iff _ _).mpr h))
    have s2 := lt_of_le_of_ne g2 (fun h => c2 ((deq_iff _ _).mpr h))
    have s3 := lt_of_le_of_ne g3 (fun h => c3 ((deq_iff _ _).mpr h))
    have s5 := lt_of_le_of_ne g5 (fun h => c5 ((deq_iff _ _).mpr h))
    have s6 := lt_of_le_of_ne g6 (fun h => c6 ((deq_iff _ _).mpr h))
    have e4 := congrArg Dbl.val c4
    simp only [rotateD, hm, c2, c3, c4, if_true, if_false, StrictABD, dlt_def]
    refine ⟨?_, ?_, ?_, ?_, ?_⟩ <;> linarith
  · have hm : maxlengthD t.a t.b t.c t.d = l :=
      (deq_iff _ _).mpr (le_antisymm hml (c5 ▸ m5))
    have s1 := lt_of_le_of_ne g1 (fun h => c1 ((deq_iff _ _).mpr h))
    have s2 := lt_of_le_of_ne g2 (fun h => c2 ((deq_iff _ _).mpr h))
    have s3 := lt_of_le_of_ne g3 (fun h => c3 ((deq_iff _ _).mpr h))
    have s4 := lt_of_le_of_ne g4 (fun h => c4 ((deq_iff _ _).mpr h))
    have s6 := lt_of_le_of_ne g6 (fun h => c6 ((deq_iff _ _).mpr h))
    have e5 := congrArg Dbl.val c5
    simp only [rotateD, hm, c2, c3, c4, c5, if_true, if_false, StrictABD, dlt_def]
    refine ⟨?_, ?_, ?_, ?_, ?_⟩ <;> linarith
  · have hm : maxlengthD t.a t.b t.c t.d = l :=
      (deq_iff _ _).mpr (le_antisymm hml (c6 ▸ m6))
    have s1 := lt_of_le_of_ne g1 (fun h => c1 ((deq_iff _ _).mpr h))
    have s2 := lt_of_le_of_ne g2 (fun h => c2 ((deq_iff _ _).mpr h))
    have s3 := lt_of_le_of_ne g3 (fun h => c3 ((deq_iff _ _).mpr h))
    have s4 := lt_of_le_of_ne g4 (fun h => c4 ((deq_iff _ _).mpr h))
    have s5 := lt_of_le_of_ne g5 (fun h => c5 ((deq_iff _ _).mpr h))
    have e6 := congrArg Dbl.val c6
    simp only [rotateD, hm, c2, c3, c4, c5, c6, if_true, if_false, StrictABD, dlt_def]
    refine ⟨?_, ?_, ?_, ?_, ?_⟩ <;> linarith

/-- The rotated tuple has `ab` strictly longest exactly when one edge of the
tuple is strictly the longest, in computed lengths. -/
theorem strictABD_rotateD_iff (t : Tetra Dbl) : StrictABD (rotateD t) ↔ HasStrictMaxD t :=
  ⟨fun h => hasStrictMaxD_of_perm (rotateD_perm t).symm (hasStrictMaxD_of_strictABD h),
    strictABD_rotateD⟩

theorem tetraD_perm_cases {t1 t2 : Tetra Dbl} (h : t1.toList.Perm t2.toList) :
    t1 = ⟨t2.a, t2.b, t2.c, t2.d⟩
      ∨ t1 = ⟨t2.a, t2.b, t2.d, t2.c⟩
      ∨ t1 = ⟨t2.a, t2.c, t2.b, t2.d⟩
      ∨ t1 = ⟨t2.a, t2.c, t2.d, t2.b⟩
      ∨ t1 = ⟨t2.a, t2.d, t2.b, t2.c⟩
      ∨ t1 = ⟨t2.a, t2.d, t2.c, t2.b⟩
      ∨ t1 = ⟨t2.b, t2.a, t2.c, t2.d⟩
      ∨ t1 = ⟨t2.b, t2.a, t2.d, t2.c⟩
      ∨ t1 = ⟨t2.b, t2.c, t2.a, t2.d⟩
      ∨ t1 = ⟨t2.b, t2.c, t2.d, t2.a⟩
      ∨ t1 = ⟨t2.b, t2.d, t2.a, t2.c⟩
      ∨ t1 = ⟨t2.b, t2.d, t2.c, t2.a⟩
      ∨ t1 = ⟨t2.c, t2.a, t2.b, t2.d⟩
      ∨ t1 = ⟨t2.c, t2.a, t2.d, t2.b⟩
      ∨ t1 = ⟨t2.c, t2.b, t2.a, t2.d⟩
      ∨ t1 = ⟨t2.c, t2.b, t2.d, t2.a⟩
      ∨ t1 = ⟨t2.c, t2.d, t2.a, t2.b⟩
      ∨ t1 = ⟨t2.c, t2.d, t2.b, t2.a⟩
      ∨ t1 = ⟨t2.d, t2.a, t2.b, t2.c⟩
      ∨ t1 = ⟨t2.d, t2.a, t2.c, t2.b⟩
      ∨ t1 = ⟨t2.d, t2.b, t2.a, t2.c⟩
      ∨ t1 = ⟨t2.d, t2.b, t2.c, t2.a⟩
      ∨ t1 = ⟨t2.d, t2.c, t2.a, t2.b⟩
      ∨ t1 = ⟨t2.d, t2.c, t2.b, t2.a⟩ := by
  obtain ⟨a1, b1, c1, d1⟩ := t1
  obtain ⟨a, b, c, d⟩ := t2
  simp only [Tetra.mk.injEq]
  exact perm_four h

/-- Two arrangements of the same vertices that both have `ab` strictly longest
in computed length differ at most by exchanging `a` with `b` and `c` with `d`. -/
theorem strictABD_perm_cases {u1 u2 : Tetra Dbl} (h1 : StrictABD u1) (h2 : StrictABD u2)
    (h : u1.toList.Perm u2.toList) :
    u1 = u2 ∨ u1 = ⟨u2.b, u2.a, u2.c, u2.d⟩ ∨ u1 = ⟨u2.a, u2.b, u2.d, u2.c⟩
      ∨ u1 = ⟨u2.b, u2.a, u2.d, u2.c⟩ := by
  obtain ⟨a, b, c, d⟩ := u2
  have q1 := congrArg Dbl.val (dist2D_comm b a)
  have q2 := congrArg Dbl.val (dist2D_comm c a)
  have q3 := congrArg Dbl.val (dist2D_comm d a)
  have q4 := congrArg Dbl.val (dist2D_comm c b)
  have q5 := congrArg Dbl.val (dist2D_comm d b)
  have q6 := congrArg Dbl.val (dist2D_comm d c)
  obtain ⟨g1, g2, g3, g4, g5⟩ := h2
  simp only [dlt_def] at g1 g2 g3 g4 g5
  rcases tetraD_perm_cases h with r | r | r | r | r | r | r | r | r | r | r | r | r | r | r | r
    | r | r | r | r | r | r | r | r <;> subst r <;> obtain ⟨f1, f2, f3, f4, f5⟩ := h1 <;>
    simp only [dlt_def] at f1 f2 f3 f4 f5 <;>
    first
    | (exfalso; linarith)
    | simp

end DoublePermutations

section DoubleSymmetry

theorem splitSeedD_comm (m : Libm Dbl) (a b : Vertex Dbl) : splitSeedD m b a = splitSeedD m a b :=
  rand2D_comm m a.s b.s

theorem splitEs1D_comm (m : Libm Dbl) (a b : Vertex Dbl) : splitEs1D m b a = splitEs1D m a b := by
  simp only [splitEs1D, splitSeedD_comm m a b]

theorem splitEs2D_comm (m : Libm Dbl) (a b : Vertex Dbl) : splitEs2D m b a = splitEs2D m a b := by
  simp only [splitEs2D, splitEs1D_comm m a b]

theorem splitEs3D_comm (m : Libm Dbl) (a b : Vertex Dbl) : splitEs3D m b a = splitEs3D m a b := by
  simp only [splitEs3D, splitEs2D_comm m a b]

theorem useMapD_comm (cfg : Config Dbl) (a b : Vertex Dbl) : useMapD cfg b a ↔ useMapD cfg a b := by
  simp only [useMapD, dist2D_comm a b]

theorem labAfterD_comm (m : Libm Dbl) (cfg : Config Dbl) (a b : Vertex Dbl) :
    labAfterD m cfg b a = labAfterD m cfg a b := by
  simp only [labAfterD, useMapD_comm cfg a b, dist2D_comm a b]

theorem splitCoordD_swap (m : Libm Dbl) (a b : Vertex Dbl) (ca cb : Dbl) :
    splitCoordD m b a cb ca = splitCoordD m a b ca cb := by
  simp only [splitCoordD, splitEs2D_comm m a b, splitEs3D_comm m a b, gt_iff_lt, dlt_def]
  rcases lt_trichotomy a.s.val b.s.val with h | h | h
  · rw [if_neg (not_lt.mpr h.le), if_pos h, if_pos h]
    exact dadd_comm _ _
  · simp only [h, lt_irrefl, if_false]
    exact dadd_comm _ _
  · rw [if_pos h, if_neg (not_lt.mpr h.le), if_pos h]
    exact dadd_comm _ _

theorem dabs_sub_comm (a b : Dbl) : Dbl.abs (b - a) = Dbl.abs (a - b) := by
  rw [dsub_swap a b, dabs_neg]

theorem splitHD_swap (m : Libm Dbl) (cfg : Config Dbl) (a b : Vertex Dbl) (ex ey ez : Dbl) :
    splitHD m cfg b a ex ey ez = splitHD m cfg a b ex ey ez := by
  simp only [splitHD, useMapD_comm cfg a b, splitSeedD_comm m a b, splitEs1D_comm m a b,
    labAfterD_comm m cfg a b, dabs_sub_comm a.h b.h, dadd_comm b.h a.h]

theorem splitShadowD_swap (m : Libm Dbl) (cfg : Config Dbl) (a b : Vertex Dbl)
    (x y z eh : Dbl) :
    splitShadowD m cfg b a x y z eh = splitShadowD m cfg a b x y z eh := by
  have hx : b.h * (0.5 * (b.x + a.x) - b.x) + a.h * (0.5 * (b.x + a.x) - a.x)
      = a.h * (0.5 * (a.x + b.x) - a.x) + b.h * (0.5 * (a.x + b.x) - b.x) := by
    rw [dadd_comm b.x a.x, dadd_comm (b.h * _) (a.h * _)]
  have hy : b.h * (0.5 * (b.y + a.y) - b.y) + a.h * (0.5 * (b.y + a.y) - a.y)
      = a.h * (0.5 * (a.y + b.y) - a.y) + b.h * (0.5 * (a.y + b.y) - b.y) := by
    rw [dadd_comm b.y a.y, dadd_comm (b.h * _) (a.h * _)]
  have hz : b.h * (0.5 * (b.z + a.z) - b.z) + a.h * (0.5 * (b.z + a.z) - a.z)
      = a.h * (0.5 * (a.z + b.z) - a.z) + b.h * (0.5 * (a.z + b.z) - b.z) := by
    rw [dadd_comm b.z a.z, dadd_comm (b.h * _) (a.h * _)]
  simp only [splitShadowD, labAfterD_comm m cfg a b, hx, hy, hz, dadd_comm b.shadow a.shadow]

/-- In `double` arithmetic too the new vertex does not depend on the order of
the end points of the edge. -/
theorem splitVertexD_swap (m : Libm Dbl) (cfg : Config Dbl) (a b : Vertex Dbl) (x y z : Dbl) :
    splitVertexD m cfg b a x y z = splitVertexD m cfg a b x y z := by
  simp only [splitVertexD, splitCoordD_swap, splitHD_swap, splitShadowD_swap, splitSeedD_comm]

/-- When the computed tests agree, the sub-tetrahedra chosen for the four orders
of a tuple with cut edge `ab` are the same up to the order of their first two
vertices. -/
theorem childD_of_variant (m : Libm Dbl) (cfg : Config Dbl) {u1 u2 : Tetra Dbl} (x y z : Dbl)
    (ht : TestsAgreeD m cfg u2 x y z)
    (hv : u1 = u2 ∨ u1 = ⟨u2.b, u2.a, u2.c, u2.d⟩ ∨ u1 = ⟨u2.a, u2.b, u2.d, u2.c⟩
      ∨ u1 = ⟨u2.b, u2.a, u2.d, u2.c⟩) :
    childD m cfg u1 x y z = childD m cfg u2 x y z
      ∨ childD m cfg u1 x y z
          = ⟨(childD m cfg u2 x y z).b, (childD m cfg u2 x y z).a, (childD m cfg u2 x y z).c,
              (childD m cfg u2 x y z).d⟩ := by
  obtain ⟨t1, t2, t3⟩ := ht
  rcases hv with rfl | rfl | rfl | rfl
  · exact Or.inl rfl
  · simp only [childD, splitVertexD_swap m cfg u2.a u2.b, t2]
    split_ifs <;> simp
  · simp only [childD, t1]
    split_ifs <;> simp
  · simp only [childD, splitVertexD_swap m cfg u2.a u2.b, t3]
    split_ifs <;> simp

theorem perm_of_swap12 {t1 t2 : Tetra Dbl}
    (h : t1 = t2 ∨ t1 = ⟨t2.b, t2.a, t2.c, t2.d⟩) : t1.toList.Perm t2.toList := by
  rcases h with rfl | rfl
  · exact List.Perm.refl _
  · exact List.Perm.swap _ _ _

/-- One level of the descent for two arrangements of the same vertices. -/
theorem perm_stepD (m : Libm Dbl) (cfg : Config Dbl) {t1 t2 : Tetra Dbl} (x y z : Dbl)
    (hp : t1.toList.Perm t2.toList) (hr2 : StrictABD (rotateD t2))
    (ht : TestsAgreeD m cfg (rotateD t2) x y z) :
    StrictABD (rotateD t1)
      ∧ (childD m cfg (rotateD t1) x y z = childD m cfg (rotateD t2) x y z
        ∨ childD m cfg (rotateD t1) x y z
            = ⟨(childD m cfg (rotateD t2) x y z).b, (childD m cfg (rotateD t2) x y z).a,
                (childD m cfg (rotateD t2) x y z).c, (childD m cfg (rotateD t2) x y z).d⟩) := by
  have hr1 : StrictABD (rotateD t1) :=
    strictABD_rotateD (hasStrictMaxD_of_perm hp ((strictABD_rotateD_iff t2).mp hr2))
  have hrp : (rotateD t1).toList.Perm (rotateD t2).toList :=
    (rotateD_perm t1).trans (hp.trans (rotateD_perm t2).symm)
  exact ⟨hr1, childD_of_variant m cfg x y z ht (strictABD_perm_cases hr1 hr2 hrp)⟩

/-- Below the first split the two descents meet the same sub-tetrahedra up to
the order of the first two vertices, and return the same altitude. -/
theorem descendD_swap12 (m : Libm Dbl) (cfg : Config Dbl) (x y z : Dbl) :
    ∀ (n : Nat) (t1 t2 : Tetra Dbl) (st1 st2 : State Dbl),
      (t1 = t2 ∨ t1 = ⟨t2.b, t2.a, t2.c, t2.d⟩) → GenPosD m cfg n t2 x y z →
      (descendD m cfg n st1 t1 x y z).map Prod.fst
          = (descendD m cfg n st2 t2 x y z).map Prod.fst
        ∧ (descendD m cfg n st2 t2 x y z).isSome = true := by
  intro n
  induction n with
  | zero =>
    intro t1 t2 st1 st2 h _
    refine ⟨?_, rfl⟩
    rcases h with rfl | rfl
    · rfl
    · simp only [descendD, leafResultD, Option.map_some', dadd_comm t2.b.h t2.a.h]
  | succ n ih =>
    intro t1 t2 st1 st2 h hg
    obtain ⟨hr2, hta, hg2⟩ := hg
    obtain ⟨hr1, hc⟩ := perm_stepD m cfg x y z (perm_of_swap12 h) hr2 hta
    rw [descendD, descendD, if_pos hr1, if_pos hr2]
    exact ih _ _ _ _ hc hg2

/-- In general position the altitude computed by a descent of one level or more
does not depend on the order of the four vertices, in `double` arithmetic. -/
theorem descendD_perm (m : Libm Dbl) (cfg : Config Dbl) (x y z : Dbl) (n : Nat)
    (t1 t2 : Tetra Dbl) (st1 st2 : State Dbl) (hg : GenPosD m cfg (n + 1) t2 x y z)
    (hp : t1.toList.Perm t2.toList) :
    (descendD m cfg (n + 1) st1 t1 x y z).map Prod.fst
        = (descendD m cfg (n + 1) st2 t2 x y z).map Prod.fst
      ∧ (descendD m cfg (n + 1) st2 t2 x y z).isSome = true := by
  obtain ⟨hr2, hta, hg2⟩ := hg
  obtain ⟨hr1, hc⟩ := perm_stepD m cfg x y z hp hr2 hta
  rw [descendD, descendD, if_pos hr1, if_pos hr2]
  exact descendD_swap12 m cfg x y z n _ _ _ _ hc hg2

/-- With fuel `2n+1` or more, `planet` at level `n` returns what the descent
returns. -/
theorem planetD_of_descendD (m : Libm Dbl) (cfg : Config Dbl) (x y z : Dbl) :
    ∀ (n fuel : Nat) (st : State Dbl) (t : Tetra Dbl) (r : Dbl × State Dbl),
      2 * n + 1 ≤ fuel → descendD m cfg n st t x y z = some r →
      planetD m cfg fuel st t.a t.b t.c t.d x y z (n : Int) = some r := by
  intro n
  induction n with
  | zero =>
    intro fuel st t r hf h
    obtain ⟨f, rfl⟩ : ∃ f, fuel = f + 1 := ⟨fuel - 1, by omega⟩
    rw [Nat.cast_zero, planetD_leaf m cfg f st t x y z 0 (lt_irrefl 0)]
    exact h
  | succ n ih =>
    intro fuel st t r hf h
    obtain ⟨f, rfl⟩ : ∃ f, fuel = f + 2 := ⟨fuel - 2, by omega⟩
    have hl : (0 : Int) < (n : Int) + 1 := by positivity
    have hl1 : (n : Int) + 1 - 1 = (n : Int) := by ring
    rw [descendD] at h
    by_cases hr : StrictABD (rotateD t)
    · rw [if_pos hr] at h
      rw [Nat.cast_succ]
      by_cases ht : StrictABD t
      · rw [planetD_succ_of_strictABD m cfg (f + 1) st t x y z _ hl ht, hl1]
        rw [rotateD_of_strictABD ht] at h
        exact ih (f + 1) _ _ r (by omega) h
      · rw [planetD_succ_of_not_strictABD m cfg (f + 1) st t x y z _ hl ht,
          planetD_succ_of_strictABD m cfg f st (rotateD t) x y z _ hl hr, hl1]
        exact ih f _ _ r (by omega) h
    · rw [if_neg hr] at h
      exact absurd h (by simp)

/-- Permutation invariance of `planet` in `double` arithmetic, for one level or
more, in general position. -/
theorem planetD_perm (m : Libm Dbl) (cfg : Config Dbl) (st : State Dbl) (t1 t2 : Tetra Dbl)
    (x y z : Dbl) (n fuel : Nat) (hg : GenPosD m cfg (n + 1) t2 x y z)
    (hp : t1.toList.Perm t2.toList) (hf : 2 * (n + 1) + 1 ≤ fuel) :
    (planetD m cfg fuel st t1.a t1.b t1.c t1.d x y z ((n + 1 : Nat) : Int)).map Prod.fst
        = (planetD m cfg fuel st t2.a t2.b t2.c t2.d x y z ((n + 1 : Nat) : Int)).map Prod.fst
      ∧ (planetD m cfg fuel st t2.a t2.b t2.c t2.d x y z ((n + 1 : Nat) : Int)).isSome = true := by
  obtain ⟨heq, hsome⟩ := descendD_perm m cfg x y z n t1 t2 st st hg hp
  obtain ⟨r2, h2⟩ := Option.isSome_iff_exists.mp hsome
  rw [h2, Option.map_some'] at heq
  cases h1 : descendD m cfg (n + 1) st t1 x y z with
  | none => rw [h1] at heq; exact absurd heq (by simp)
  | some r1 =>
    rw [planetD_of_descendD m cfg x y z (n + 1) fuel st t1 r1 hf h1,
      planetD_of_descendD m cfg x y z (n + 1) fuel st t2 r2 hf h2]
    rw [h1] at heq
    exact ⟨heq, rfl⟩

/-- The goal point `(1,0,0)` is in general position for the root tetrahedron
over two levels. -/
theorem genPosD_root : GenPosD libD (cfgD 12) (1 + 1) (cfgD 12).root 1.0 0.0 0.0 := by
  decide!

end DoubleSymmetry

section BumpRangeTolerant

variable {K : Type} [LinearOrderedField K] [FloorRing K]

/-- Gram identity for the two tangent directions scaled by `T`: they are
orthogonal whatever `T` is. -/
theorem tangent_gram (x y z T x1 y1 z1 : K) :
    (-(x * y) * x1 + T * T * y1 - z * y * z1) ^ 2 * (x * x + z * z)
        + (x * z1 - z * x1) ^ 2 * (y * y * (x * x + z * z) + T * T * (T * T))
        + (T * T * x * x1 + y * (x * x + z * z) * y1 + T * T * z * z1) ^ 2
      = (y * y * (x * x + z * z) + T * T * (T * T)) * (x * x + z * z)
          * (x1 * x1 + y1 * y1 + z1 * z1) := by
  ring

/-- With `T*T` and `x*x+z*z` both within a factor `1 ± 1/1000` of `1-y*y`, the
squares of the two transformed components of a vector add up to at most
`1001/999` times its squared length. -/
theorem tangent_components_le (x y z T x1 y1 z1 : K) (hT0 : 0 < T)
    (hS1 : (1 - 1 / 1000) * (1 - y * y) ≤ x * x + z * z)
    (hS2 : x * x + z * z ≤ (1 + 1 / 1000) * (1 - y * y))
    (hT1 : (1 - 1 / 1000) * (1 - y * y) ≤ T * T)
    (hT2 : T * T ≤ (1 + 1 / 1000) * (1 - y * y)) :
    ((-x) * y / T * x1 + T * y1 - z * y / T * z1) ^ 2 + ((-z) / T * x1 + x / T * z1) ^ 2
      ≤ 1001 / 999 * (x1 * x1 + y1 * y1 + z1 * z1) := by
  have hTT : 0 < T * T := mul_pos hT0 hT0
  have hy : 0 < 1 - y * y := by
    by_contra h
    have h1 : (1 + 1 / 1000) * (1 - y * y) ≤ 0 :=
      mul_nonpos_of_nonneg_of_nonpos (by norm_num) (not_lt.mp h)
    linarith
  have hr : 0 < x * x + z * z := by
    have : 0 < (1 - 1 / 1000) * (1 - y * y) := mul_pos (by norm_num) hy
    linarith
  have hyy : 0 ≤ y * y := mul_self_nonneg y
  -- the two squared lengths, scaled by `T*T`
  have hq : x * x + z * z ≤ 1001 / 999 * (T * T) := by linarith
  have hp0 : 0 < y * y * (x * x + z * z) + T * T * (T * T) := by
    have := mul_nonneg hyy hr.le
    have := mul_pos hTT hTT
    linarith
  have hp : y * y * (x * x + z * z) + T * T * (T * T) ≤ 1001 / 999 * (T * T) := by
    have h1 : y * y * (x * x + z * z) ≤ y * y * (1001 / 999 * (T * T)) :=
      mul_le_mul_of_nonneg_left hq hyy
    have h2 : T * T * (T * T) ≤ T * T * ((1 + 1 / 1000) * (1 - y * y)) :=
      mul_le_mul_of_nonneg_left hT2 hTT.le
    have h3 : T * T * ((1 + 1 / 1000) * (1 - y * y)) ≤ T * T * (1001 / 999 * (1 - y * y)) := by
      apply mul_le_mul_of_nonneg_left _ hTT.le
      have : (1 + 1 / 1000 : K) ≤ 1001 / 999 := by norm_num
      exact mul_le_mul_of_nonneg_right this hy.le
    have h4 : y * y * (1001 / 999 * (T * T)) + T * T * (1001 / 999 * (1 - y * y))
        = 1001 / 999 * (T * T) := by ring
    linarith
  have hA : ((-x) * y / T * x1 + T * y1 - z * y / T * z1) * T
      = -(x * y) * x1 + T * T * y1 - z * y * z1 := by
    field_simp
    ring
  have hB : ((-z) / T * x1 + x / T * z1) * T = x * z1 - z * x1 := by
    field_simp
    ring
  have hgram := tangent_gram x y z T x1 y1 z1
  -- names for the five quantities
  generalize hGa : (-(x * y) * x1 + T * T * y1 - z * y * z1) ^ 2 = ga at hgram
  generalize hGb : (x * z1 - z * x1) ^ 2 = gb at hgram
  generalize hP : y * y * (x * x + z * z) + T * T * (T * T) = p at hgram hp hp0
  generalize hQ : x * x + z * z = q at hgram hq hr
  generalize hG : x1 * x1 + y1 * y1 + z1 * z1 = G at hgram ⊢
  have hga : 0 ≤ ga := by rw [← hGa]; exact sq_nonneg _
  have hgb : 0 ≤ gb := by rw [← hGb]; exact sq_nonneg _
  have hsq : 0 ≤ (T * T * x * x1 + y * q * y1 + T * T * z * z1) ^ 2 := sq_nonneg _
  have hsum : ga / p + gb / q ≤ G := by
    have e : ga / p + gb / q = (ga * q + gb * p) / (p * q) := by
      field_simp
    rw [e, div_le_iff₀ (mul_pos hp0 hr)]
    linarith
  have h1 : ga ≤ 1001 / 999 * (T * T) * (ga / p) := by
    have : ga = p * (ga / p) := by field_simp
    calc ga = p * (ga / p) := this
      _ ≤ 1001 / 999 * (T * T) * (ga / p) :=
        mul_le_mul_of_nonneg_right hp (div_nonneg hga hp0.le)
  have h2 : gb ≤ 1001 / 999 * (T * T) * (gb / q) := by
    have : gb = q * (gb / q) := by field_simp
    calc gb = q * (gb / q) := this
      _ ≤ 1001 / 999 * (T * T) * (gb / q) :=
        mul_le_mul_of_nonneg_right hq (div_nonneg hgb hr.le)
  have h3 : ga + gb ≤ 1001 / 999 * (T * T) * G := by
    have : 1001 / 999 * (T * T) * (ga / p + gb / q) ≤ 1001 / 999 * (T * T) * G :=
      mul_le_mul_of_nonneg_left hsum (by positivity)
    linarith
  have e : (((-x) * y / T * x1 + T * y1 - z * y / T * z1) ^ 2
        + ((-z) / T * x1 + x / T * z1) ^ 2) * (T * T)
      = (((-x) * y / T * x1 + T * y1 - z * y / T * z1) * T) ^ 2
        + (((-z) / T * x1 + x / T * z1) * T) ^ 2 := by ring
  rw [hA, hB, hGa, hGb] at e
  have h4 : (((-x) * y / T * x1 + T * y1 - z * y / T * z1) ^ 2
        + ((-z) / T * x1 + x / T * z1) ^ 2) * (T * T) ≤ 1001 / 999 * G * (T * T) := by
    rw [e]; linarith
  exact le_of_mul_le_mul_right h4 hTT

/-- A numerator whose square is at most `1001/1000 * (1001/999 * G)` divided by
the guarded approximate root of `G` lies within `1001/999` of 0. -/
theorem bump_quot_bound {N G L : K} (hN : N ^ 2 ≤ 1001 / 1000 * (1001 / 999 * G))
    (hG0 : 0 ≤ G) (hL0 : 0 ≤ L) (hL : (1 - 1 / 1000) * G ≤ L * L) :
    -(1001 / 999) ≤ N / (if L = 0 then 1 else L) ∧ N / (if L = 0 then 1 else L) ≤ 1001 / 999 := by
  by_cases h0 : L = 0
  · rw [if_pos h0]
    have hGz : G = 0 := by
      rw [h0, mul_zero] at hL
      have : (1 - 1 / 1000 : K) * G = 999 / 1000 * G := by norm_num
      linarith
    rw [hGz] at hN
    have hz : N = 0 := by
      have h1 := sq_nonneg N
      have h2 : N ^ 2 = 0 := le_antisymm (by linarith) h1
      exact pow_eq_zero_iff (two_ne_zero) |>.mp h2
    rw [hz]
    norm_num
  · rw [if_neg h0]
    have hpos : 0 < L := lt_of_le_of_ne hL0 (Ne.symm h0)
    have hN2 : N ^ 2 ≤ (1001 / 999 * L) ^ 2 := by
      have e : (1001 / 999 * L) ^ 2 = 1001 / 1000 * (1001 / 999) * (1000 / 999) * (L * L) := by
        ring
      rw [e]
      have h5 : G ≤ 1000 / 999 * (L * L) := by
        have : (1 - 1 / 1000 : K) * G = 999 / 1000 * G := by norm_num
        linarith
      have h6 : 1001 / 1000 * (1001 / 999 * G)
          ≤ 1001 / 1000 * (1001 / 999 * (1000 / 999 * (L * L))) := by
        apply mul_le_mul_of_nonneg_left _ (by norm_num)
        exact mul_le_mul_of_nonneg_left h5 (by norm_num)
      linarith
    have hb0 : 0 ≤ 1001 / 999 * L := by positivity
    have habs : |N| ≤ 1001 / 999 * L := abs_le.mpr (abs_le_of_sq_le_sq' hN2 hb0)
    obtain ⟨l, u⟩ := abs_le.mp habs
    constructor
    · rw [le_div_iff₀ hpos]
      linarith
    · rw [div_le_iff₀ hpos]
      linarith

/-- The bump-map value lies within `48 * 1001/999` of 128 when the library is
accurate to one part in a thousand at the operands met and the goal point is on
the unit sphere to the same accuracy. -/
theorem bumpValue_range_tol (m : Libm K) (cfg : Config K) (a b c d : Vertex K) (x y z : K)
    (hS1 : (1 - 1 / 1000) * (1 - y * y) ≤ x * x + z * z)
    (hS2 : x * x + z * z ≤ (1 + 1 / 1000) * (1 - y * y))
    (ht : 1 / 10000 ≤ m.sqrt (1 - y * y))
    (hT1 : (1 - 1 / 1000) * (1 - y * y) ≤ m.sqrt (1 - y * y) * m.sqrt (1 - y * y))
    (hT2 : m.sqrt (1 - y * y) * m.sqrt (1 - y * y) ≤ (1 + 1 / 1000) * (1 - y * y))
    (hL0 : 0 ≤ m.sqrt (leafGrad2 a b c d))
    (hL : (1 - 1 / 1000) * leafGrad2 a b c d
      ≤ m.sqrt (leafGrad2 a b c d) * m.sqrt (leafGrad2 a b c d))
    (hsc : m.sin (PI * cfg.shade_angle / 180) * m.sin (PI * cfg.shade_angle / 180)
      + m.cos (PI * cfg.shade_angle / 180) * m.cos (PI * cfg.shade_angle / 180)
        ≤ 1 + 1 / 1000) :
    79 ≤ bumpValue m cfg a b c d x y z ∧ bumpValue m cfg a b c d x y z < 177 := by
  have hT0 : 0 < m.sqrt (1 - y * y) := lt_of_lt_of_le (by norm_num) ht
  rw [bumpValue_eq, guardTmp_of_ge m ht]
  have hfr := tangent_components_le x y z (m.sqrt (1 - y * y)) (leafGrad a b c d).1
    (leafGrad a b c d).2.1 (leafGrad a b c d).2.2 hT0 hS1 hS2 hT1 hT2
  generalize (-x) * y / m.sqrt (1 - y * y) * (leafGrad a b c d).1
    + m.sqrt (1 - y * y) * (leafGrad a b c d).2.1
    - z * y / m.sqrt (1 - y * y) * (leafGrad a b c d).2.2 = y2 at hfr ⊢
  generalize (-z) / m.sqrt (1 - y * y) * (leafGrad a b c d).1
    + x / m.sqrt (1 - y * y) * (leafGrad a b c d).2.2 = z2 at hfr ⊢
  generalize m.sin (PI * cfg.shade_angle / 180) = sn at hsc ⊢
  generalize m.cos (PI * cfg.shade_angle / 180) = cs at hsc ⊢
  have hG : y2 ^ 2 + z2 ^ 2 ≤ 1001 / 999 * leafGrad2 a b c d := hfr
  have hG0 : 0 ≤ leafGrad2 a b c d := by
    unfold leafGrad2
    have h1 := mul_self_nonneg (leafGrad a b c d).1
    have h2 := mul_self_nonneg (leafGrad a b c d).2.1
    have h3 := mul_self_nonneg (leafGrad a b c d).2.2
    linarith
  have hyz : 0 ≤ y2 ^ 2 + z2 ^ 2 := by positivity
  have hN : ((-sn) * y2 - cs * z2) ^ 2 ≤ 1001 / 1000 * (1001 / 999 * leafGrad2 a b c d) := by
    have h1 : ((-sn) * y2 - cs * z2) ^ 2 + (sn * z2 - cs * y2) ^ 2
        = (sn * sn + cs * cs) * (y2 ^ 2 + z2 ^ 2) := by ring
    have h2 : 0 ≤ (sn * z2 - cs * y2) ^ 2 := sq_nonneg _
    have h3 : (sn * sn + cs * cs) * (y2 ^ 2 + z2 ^ 2)
        ≤ (1 + 1 / 1000) * (y2 ^ 2 + z2 ^ 2) := mul_le_mul_of_nonneg_right hsc hyz
    have h4 : (1 + 1 / 1000) * (y2 ^ 2 + z2 ^ 2)
        ≤ (1 + 1 / 1000) * (1001 / 999 * leafGrad2 a b c d) :=
      mul_le_mul_of_nonneg_left hG (by norm_num)
    linarith
  have hq := bump_quot_bound hN hG0 hL0 hL
  have hlen : guardLen m (leafGrad a b c d).1 (leafGrad a b c d).2.1 (leafGrad a b c d).2.2
      = if m.sqrt (leafGrad2 a b c d) = 0 then 1 else m.sqrt (leafGrad2 a b c d) := rfl
  rw [hlen]
  obtain ⟨q1, q2⟩ := hq
  constructor <;> linarith

theorem toInt_range_tol (m : Libm K) {v : K} (h1 : 79 ≤ v) (h2 : v < 177) :
    toInt m v = ⌊v⌋ ∧ 79 ≤ ⌊v⌋ ∧ ⌊v⌋ ≤ 176 := by
  refine ⟨toInt_of_nonneg m (by linarith) (by linarith), ?_, ?_⟩
  · exact Int.le_floor.mpr (by push_cast; exact h1)
  · have h3 : ⌊v⌋ < 177 := Int.floor_lt.mpr (by push_cast; exact h2)
    omega

/-- The shade stored at level 0 by the bump-map branch lies in `[79, 176]` when
the library is accurate to one part in a thousand. -/
theorem leafShade_range_tol (m : Libm K) (cfg : Config K) (st : State K)
    (a b c d : Vertex K) (x y z : K) (hd : cfg.doshade = 1 ∨ cfg.doshade = 2)
    (hS1 : (1 - 1 / 1000) * (1 - y * y) ≤ x * x + z * z)
    (hS2 : x * x + z * z ≤ (1 + 1 / 1000) * (1 - y * y))
    (ht : 1 / 10000 ≤ m.sqrt (1 - y * y))
    (hT1 : (1 - 1 / 1000) * (1 - y * y) ≤ m.sqrt (1 - y * y) * m.sqrt (1 - y * y))
    (hT2 : m.sqrt (1 - y * y) * m.sqrt (1 - y * y) ≤ (1 + 1 / 1000) * (1 - y * y))
    (hL0 : 0 ≤ m.sqrt (leafGrad2 a b c d))
    (hL : (1 - 1 / 1000) * leafGrad2 a b c d
      ≤ m.sqrt (leafGrad2 a b c d) * m.sqrt (leafGrad2 a b c d))
    (hsc : m.sin (PI * cfg.shade_angle / 180) * m.sin (PI * cfg.shade_angle / 180)
      + m.cos (PI * cfg.shade_angle / 180) * m.cos (PI * cfg.shade_angle / 180)
        ≤ 1 + 1 / 1000) :
    79 ≤ leafShade m cfg st a b c d x y z
      ∧ leafShade m cfg st a b c d x y z ≤ 176
      ∧ leafShade m cfg st a b c d x y z
          = if cfg.doshade = 2 ∧ a.h + b.h + c.h + d.h < 0 then 150
            else ⌊bumpValue m cfg a b c d x y z⌋ := by
  obtain ⟨v1, v2⟩ := bumpValue_range_tol m cfg a b c d x y z hS1 hS2 ht hT1 hT2 hL0 hL hsc
  obtain ⟨e, f1, f2⟩ := toInt_range_tol m v1 v2
  have hc : clampShade (toInt m (bumpValue m cfg a b c d x y z))
      = ⌊bumpValue m cfg a b c d x y z⌋ := by
    rw [e, clampShade_eq]
    omega
  have hls : leafShade m cfg st a b c d x y z
      = if cfg.doshade = 2 ∧ a.h + b.h + c.h + d.h < 0 then 150
        else ⌊bumpValue m cfg a b c d x y z⌋ := by
    rw [leafShade_bump12 m cfg st a b c d x y z hd, hc]
  refine ⟨?_, ?_, hls⟩
  · rw [hls]
    split_ifs
    · norm_num
    · exact f1
  · rw [hls]
    split_ifs
    · norm_num
    · exact f2

end BumpRangeTolerant

/-! ### Exact arithmetic

The statements of this section hold in the embedding over an ordered field,
where no operation rounds and the sign tests of `planet` and `planet1` agree
with the geometry.  In `double` arithmetic they fail for points within
rounding error of a cutting plane and for gradients along the light direction:
the counterexamples are evaluated in the embedding in `double` arithmetic, in
the last section. -/

section ExactArithmetic

variable {K : Type} [LinearOrderedField K] [FloorRing K]

/-- Point location in exact arithmetic: when `planet` at a positive level cuts edge
`ab` (strictly the longest) of a non-degenerate tetrahedron whose closure
contains the goal point, and the new vertex lies strictly between `a` and `b`,
the tuple passed to the recursive call, `(c,d,a,e)` when the tested product is
positive and `(c,d,b,e)` otherwise, again contains the goal point. -/
theorem planet_point_location_exact (m : Libm K) (cfg : Config K) (fuel : Nat) (st : State K)
    (t : Tetra K) (x y z : K) (level : Int) (hl : 0 < level) (hab : StrictAB t)
    (hv : vol t ≠ 0) (hin : InTetra t x y z)
    (he : Between t.a t.b (splitVertex m cfg t.a t.b x y z)) :
    InTetra (child m cfg t x y z) x y z
      ∧ child m cfg t x y z =
          (if sideProduct t.a t.c t.d (splitVertex m cfg t.a t.b x y z) x y z > 0 then
            ⟨t.c, t.d, t.a, splitVertex m cfg t.a t.b x y z⟩
          else ⟨t.c, t.d, t.b, splitVertex m cfg t.a t.b x y z⟩)
      ∧ planet m cfg (fuel + 1) st t.a t.b t.c t.d x y z level =
          planet m cfg fuel (snapshot st t level) (child m cfg t x y z).a
            (child m cfg t x y z).b (child m cfg t x y z).c (child m cfg t x y z).d
            x y z (level - 1) :=
  ⟨inTetra_child m cfg t x y z hv hin he, rfl,
    planet_succ_of_strictAB m cfg fuel st t x y z level hl hab⟩

/-- Witness of `planet_point_location_exact`: the tetrahedron `wedgeQ` and the goal
point `(2, 1/4, 1/4)`, whose barycentric coordinates are all `1/4`. -/
theorem planet_point_location_exact_witness :
    (0 : Int) < 1 ∧ StrictAB wedgeQ ∧ vol wedgeQ ≠ 0 ∧ InTetra wedgeQ 2 (1 / 4) (1 / 4)
      ∧ Between wedgeQ.a wedgeQ.b (splitVertex libQ (cfgQ 12) wedgeQ.a wedgeQ.b 2 (1 / 4) (1 / 4))
      ∧ (InTetra (child libQ (cfgQ 12) wedgeQ 2 (1 / 4) (1 / 4)) 2 (1 / 4) (1 / 4)
        ∧ child libQ (cfgQ 12) wedgeQ 2 (1 / 4) (1 / 4) =
            (if sideProduct wedgeQ.a wedgeQ.c wedgeQ.d
                (splitVertex libQ (cfgQ 12) wedgeQ.a wedgeQ.b 2 (1 / 4) (1 / 4))
                2 (1 / 4) (1 / 4) > 0 then
              ⟨wedgeQ.c, wedgeQ.d, wedgeQ.a,
                splitVertex libQ (cfgQ 12) wedgeQ.a wedgeQ.b 2 (1 / 4) (1 / 4)⟩
            else ⟨wedgeQ.c, wedgeQ.d, wedgeQ.b,
                splitVertex libQ (cfgQ 12) wedgeQ.a wedgeQ.b 2 (1 / 4) (1 / 4)⟩)
        ∧ planet libQ (cfgQ 12) (2 + 1) zeroState wedgeQ.a wedgeQ.b wedgeQ.c wedgeQ.d
              2 (1 / 4) (1 / 4) 1 =
            planet libQ (cfgQ 12) 2 (snapshot zeroState wedgeQ 1)
              (child libQ (cfgQ 12) wedgeQ 2 (1 / 4) (1 / 4)).a
              (child libQ (cfgQ 12) wedgeQ 2 (1 / 4) (1 / 4)).b
              (child libQ (cfgQ 12) wedgeQ 2 (1 / 4) (1 / 4)).c
              (child libQ (cfgQ 12) wedgeQ 2 (1 / 4) (1 / 4)).d 2 (1 / 4) (1 / 4) (1 - 1)) :=
  ⟨by decide, by decide!, by decide!,
    ⟨1 / 4, 1 / 4, 1 / 4, 1 / 4, by decide!, by decide!, by decide!, by decide!, by decide!⟩,
    splitVertex_between libQ (cfgQ 12) 2 (1 / 4) (1 / 4) (by decide!) (by decide!),
    planet_point_location_exact libQ (cfgQ 12) 2 zeroState wedgeQ 2 (1 / 4) (1 / 4) 1 (by decide)
      (by decide!) (by decide!)
      ⟨1 / 4, 1 / 4, 1 / 4, 1 / 4, by decide!, by decide!, by decide!, by decide!, by decide!⟩
      (splitVertex_between libQ (cfgQ 12) 2 (1 / 4) (1 / 4) (by decide!) (by decide!))⟩

/-- Permutation invariance in exact arithmetic: for vertices with seeds in `[-1,1)`, a goal point and a level
`n` such that on every level of the descent one edge is strictly the longest
and the goal point is not on the cutting plane (the tested product is not 0),
`planet` applied to any permutation of the four vertices returns, and returns
the same altitude as `planet(a,b,c,d,p,n)` (with fuel `2n+1` or more). -/
theorem planet_perm_invariant_exact (m : Libm K) (cfg : Config K) (st : State K)
    (t1 t2 : Tetra K) (x y z : K) (n fuel : Nat) (hs : SeedsOK t2)
    (hg : GenPos m cfg n t2 x y z) (hp : t1.toList.Perm t2.toList) (hf : 2 * n + 1 ≤ fuel) :
    (planet m cfg fuel st t1.a t1.b t1.c t1.d x y z (n : Int)).map Prod.fst
        = (planet m cfg fuel st t2.a t2.b t2.c t2.d x y z (n : Int)).map Prod.fst
      ∧ (planet m cfg fuel st t2.a t2.b t2.c t2.d x y z (n : Int)).isSome = true := by
  refine ⟨?_, planet_isSome_of_noTie m cfg x y z n fuel st t2
    (noTie_of_genPos m cfg x y z n t2 hg) hf⟩
  rw [planet_eq_descend m cfg x y z n fuel st t1 hf, planet_eq_descend m cfg x y z n fuel st t2 hf]
  exact (descend_perm m cfg x y z n t1 t2 st st hs hg hp).2

/-- Witness of `planet_perm_invariant_exact`: the root tetrahedron read backwards,
goal point `(1,0,0)`, four levels. -/
theorem planet_perm_invariant_exact_witness :
    SeedsOK (cfgQ 12).root ∧ GenPos libQ (cfgQ 12) 4 (cfgQ 12).root 1 0 0
      ∧ (Tetra.toList ⟨(cfgQ 12).root.d, (cfgQ 12).root.c, (cfgQ 12).root.b,
            (cfgQ 12).root.a⟩).Perm (cfgQ 12).root.toList
      ∧ 2 * 4 + 1 ≤ 9
      ∧ ((planet libQ (cfgQ 12) 9 zeroState (cfgQ 12).root.d (cfgQ 12).root.c
              (cfgQ 12).root.b (cfgQ 12).root.a 1 0 0 ((4 : Nat) : Int)).map Prod.fst
            = (planet libQ (cfgQ 12) 9 zeroState (cfgQ 12).root.a (cfgQ 12).root.b
              (cfgQ 12).root.c (cfgQ 12).root.d 1 0 0 ((4 : Nat) : Int)).map Prod.fst
        ∧ (planet libQ (cfgQ 12) 9 zeroState (cfgQ 12).root.a (cfgQ 12).root.b
              (cfgQ 12).root.c (cfgQ 12).root.d 1 0 0 ((4 : Nat) : Int)).isSome = true) :=
  ⟨by decide!, by decide!, List.reverse_perm (cfgQ 12).root.toList, by decide,
    planet_perm_invariant_exact libQ (cfgQ 12) zeroState
      ⟨(cfgQ 12).root.d, (cfgQ 12).root.c, (cfgQ 12).root.b, (cfgQ 12).root.a⟩
      (cfgQ 12).root 1 0 0 4 9 (by decide!) (by decide!)
      (List.reverse_perm (cfgQ 12).root.toList) (by decide)⟩

/-- Cache transparency in exact arithmetic: under a configuration with `Depth = 11+k` and root
seeds in `[-1,1)`, when the cache was filled by earlier queries of `planet1`
under that configuration and the goal point passes the cache test, `planet1`
resumes `planet(ssa,ssb,ssc,ssd,p,11)` and the altitude it returns is the
altitude that `planet(tetra[0..3],p,Depth)` returns from the root (fuel
`2*Depth+1` or more); both return when the descent from the cache meets no tie. -/
theorem cache_transparency_exact (m : Libm K) (cfg : Config K) (st : State K) (x y z : K)
    (k fuel : Nat) (hD : cfg.Depth = ((11 + k : Nat) : Int)) (hs : SeedsOK cfg.root)
    (hst : CacheFrom m cfg st) (hhit : cacheHit st x y z) (hf : 2 * (11 + k) + 1 ≤ fuel) :
    planet1 m cfg fuel st x y z = planet m cfg fuel st st.ssa st.ssb st.ssc st.ssd x y z 11
      ∧ (planet1 m cfg fuel st x y z).map Prod.fst
          = (planet m cfg fuel st cfg.tetra0 cfg.tetra1 cfg.tetra2 cfg.tetra3 x y z
              cfg.Depth).map Prod.fst
      ∧ (NoTie m cfg 11 st.cache x y z → (planet1 m cfg fuel st x y z).isSome = true) := by
  have h1 : planet1 m cfg fuel st x y z
      = planet m cfg fuel st st.ssa st.ssb st.ssc st.ssd x y z 11 := by
    unfold planet1
    rw [if_pos hhit]
  have h2 : planet m cfg fuel st st.ssa st.ssb st.ssc st.ssd x y z 11
      = descend m cfg 11 st st.cache x y z :=
    planet_eq_descend m cfg x y z 11 fuel st st.cache (by omega)
  have h3 : planet m cfg fuel st cfg.tetra0 cfg.tetra1 cfg.tetra2 cfg.tetra3 x y z cfg.Depth
      = descend m cfg (11 + k) st cfg.root x y z := by
    rw [hD]
    exact planet_eq_descend m cfg x y z (11 + k) fuel st cfg.root hf
  refine ⟨h1, ?_, ?_⟩
  · rw [h1, h2, h3]
    exact descend_cache_alt m cfg k hD hs hst x y z hhit st st
  · intro hn
    rw [h1, h2]
    exact descend_isSome_of_noTie m cfg x y z 11 st st.cache hn

/-- Witness of `cache_transparency_exact`: base depth 15, the cache left by a first
query for `(1,0,0)`, and the goal point `(9999/10001, 0, 200/10001)` of the
unit sphere, which passes the cache test. -/
theorem cache_transparency_exact_witness :
    (cfgQ 15).Depth = ((11 + 4 : Nat) : Int) ∧ SeedsOK (cfgQ 15).root
      ∧ CacheFrom libQ (cfgQ 15) (cacheQ 15)
      ∧ cacheHit (cacheQ 15) (9999 / 10001) 0 (200 / 10001)
      ∧ 2 * (11 + 4) + 1 ≤ 31
      ∧ (planet1 libQ (cfgQ 15) 31 (cacheQ 15) (9999 / 10001) 0 (200 / 10001)
          = planet libQ (cfgQ 15) 31 (cacheQ 15) (cacheQ 15).ssa (cacheQ 15).ssb (cacheQ 15).ssc
              (cacheQ 15).ssd (9999 / 10001) 0 (200 / 10001) 11
        ∧ (planet1 libQ (cfgQ 15) 31 (cacheQ 15) (9999 / 10001) 0 (200 / 10001)).map Prod.fst
            = (planet libQ (cfgQ 15) 31 (cacheQ 15) (cfgQ 15).tetra0 (cfgQ 15).tetra1
                (cfgQ 15).tetra2 (cfgQ 15).tetra3 (9999 / 10001) 0 (200 / 10001)
                (cfgQ 15).Depth).map Prod.fst
        ∧ (NoTie libQ (cfgQ 15) 11 (cacheQ 15).cache (9999 / 10001) 0 (200 / 10001) →
            (planet1 libQ (cfgQ 15) 31 (cacheQ 15) (9999 / 10001) 0 (200 / 10001)).isSome
              = true)) :=
  ⟨rfl, by decide!,
    CacheFrom.first 31 zeroState 1 0 0 (firstAltQ 15) (cacheQ 15) (by decide!) (by decide!),
    by decide!, by decide,
    cache_transparency_exact libQ (cfgQ 15) (cacheQ 15) (9999 / 10001) 0 (200 / 10001) 4 31 rfl
      (by decide!)
      (CacheFrom.first 31 zeroState 1 0 0 (firstAltQ 15) (cacheQ 15) (by decide!) (by decide!))
      (by decide!) (by decide)⟩

/-- In exact arithmetic a cache hit ignores the current `Depth`: when the cache was filled by
queries of `planet1` under `Depth = D1 = 11+k` (root seeds in `[-1,1)`) and the
goal point passes the cache test, `planet1` run with any other value `D2` of
`Depth` returns what it returns with `D1`, and the altitude is the altitude
that `planet(tetra[0..3],p,D1)` returns from the root (fuel `2*D1+1` or more). -/
theorem cache_hit_ignores_depth_exact (m : Libm K) (cfg : Config K) (st : State K) (x y z : K)
    (k fuel : Nat) (D2 : Int) (hD : cfg.Depth = ((11 + k : Nat) : Int))
    (hs : SeedsOK cfg.root) (hst : CacheFrom m cfg st) (hhit : cacheHit st x y z)
    (hf : 2 * (11 + k) + 1 ≤ fuel) :
    planet1 m { cfg with Depth := D2 } fuel st x y z = planet1 m cfg fuel st x y z
      ∧ (planet1 m { cfg with Depth := D2 } fuel st x y z).map Prod.fst
          = (planet m cfg fuel st cfg.tetra0 cfg.tetra1 cfg.tetra2 cfg.tetra3 x y z
              cfg.Depth).map Prod.fst := by
  have h0 := planet1_depth_of_hit m cfg D2 fuel st x y z hhit
  refine ⟨h0, ?_⟩
  rw [h0]
  have h1 : planet1 m cfg fuel st x y z
      = planet m cfg fuel st st.ssa st.ssb st.ssc st.ssd x y z 11 := by
    unfold planet1
    rw [if_pos hhit]
  have h2 : planet m cfg fuel st st.ssa st.ssb st.ssc st.ssd x y z 11
      = descend m cfg 11 st st.cache x y z :=
    planet_eq_descend m cfg x y z 11 fuel st st.cache (by omega)
  have h3 : planet m cfg fuel st cfg.tetra0 cfg.tetra1 cfg.tetra2 cfg.tetra3 x y z cfg.Depth
      = descend m cfg (11 + k) st cfg.root x y z := by
    rw [hD]
    exact planet_eq_descend m cfg x y z (11 + k) fuel st cfg.root hf
  rw [h1, h2, h3]
  exact descend_cache_alt m cfg k hD hs hst x y z hhit st st

/-- Witness of `cache_hit_ignores_depth_exact`: `D1 = 15`, the cache left by a first query for `(1,0,0)`, a goal
point that passes the cache test, and `D2 = 3`. -/
theorem cache_hit_ignores_depth_exact_witness :
    cacheHit (cacheQ 15) (9999 / 10001) 0 (200 / 10001)
      ∧ planet1 libQ { cfgQ 15 with Depth := 3 } 31 (cacheQ 15) (9999 / 10001) 0 (200 / 10001)
          = planet1 libQ (cfgQ 15) 31 (cacheQ 15) (9999 / 10001) 0 (200 / 10001)
      ∧ (planet1 libQ { cfgQ 15 with Depth := 3 } 31 (cacheQ 15) (9999 / 10001) 0
            (200 / 10001)).map Prod.fst
          = (planet libQ (cfgQ 15) 31 (cacheQ 15) (cfgQ 15).tetra0 (cfgQ 15).tetra1
              (cfgQ 15).tetra2 (cfgQ 15).tetra3 (9999 / 10001) 0 (200 / 10001)
              (cfgQ 15).Depth).map Prod.fst :=
  ⟨by decide!,
    cache_hit_ignores_depth_exact libQ (cfgQ 15) (cacheQ 15) (9999 / 10001) 0 (200 / 10001) 4 31 3 rfl
      (by decide!)
      (CacheFrom.first 31 zeroState 1 0 0 (firstAltQ 15) (cacheQ 15) (by decide!) (by decide!))
      (by decide!) (by decide)⟩

/-- Bump shade range with an exact library: at level 0 with `doshade = 1` or `2`, for a goal
point on the unit sphere with `sqrt(1-y*y) ≥ 0.0001`, `planet` returns and the
shade it stores lies in `[80, 176]`; it is the converted value itself (or 150
for a sea sample with `doshade = 2`), so the clamps to 10 and 255 do not take
effect.  The library is asked to give exact square roots at the two operands
met (`1-y*y` and the squared length of the gradient estimate) and
`sin^2 + cos^2 = 1` at the light angle. -/
theorem bump_shade_range_exact (m : Libm K) (cfg : Config K) (fuel : Nat) (st : State K)
    (a b c d : Vertex K) (x y z : K) (hd : cfg.doshade = 1 ∨ cfg.doshade = 2)
    (hS : x * x + y * y + z * z = 1) (ht : 1 / 10000 ≤ m.sqrt (1 - y * y))
    (hT : m.sqrt (1 - y * y) * m.sqrt (1 - y * y) = 1 - y * y)
    (hL0 : 0 ≤ m.sqrt (leafGrad2 a b c d))
    (hL : m.sqrt (leafGrad2 a b c d) * m.sqrt (leafGrad2 a b c d) = leafGrad2 a b c d)
    (hsc : m.sin (PI * cfg.shade_angle / 180) * m.sin (PI * cfg.shade_angle / 180)
      + m.cos (PI * cfg.shade_angle / 180) * m.cos (PI * cfg.shade_angle / 180) = 1) :
    (planet m cfg (fuel + 1) st a b c d x y z 0).map (fun r => r.2.shade)
        = some (leafShade m cfg st a b c d x y z)
      ∧ 80 ≤ leafShade m cfg st a b c d x y z
      ∧ leafShade m cfg st a b c d x y z ≤ 176
      ∧ leafShade m cfg st a b c d x y z
          = if cfg.doshade = 2 ∧ a.h + b.h + c.h + d.h < 0 then 150
            else ⌊bumpValue m cfg a b c d x y z⌋ := by
  obtain ⟨v1, v2⟩ := bumpValue_range m cfg a b c d x y z hS ht hT hL0 hL hsc
  obtain ⟨e, f1, f2⟩ := toInt_range m v1 v2
  have hc : clampShade (toInt m (bumpValue m cfg a b c d x y z))
      = ⌊bumpValue m cfg a b c d x y z⌋ := by
    rw [e, clampShade_eq]
    omega
  have hls : leafShade m cfg st a b c d x y z
      = if cfg.doshade = 2 ∧ a.h + b.h + c.h + d.h < 0 then 150
        else ⌊bumpValue m cfg a b c d x y z⌋ := by
    rw [leafShade_bump12 m cfg st a b c d x y z hd, hc]
  refine ⟨?_, ?_, ?_, hls⟩
  · rw [planet_zero, Option.map_some', leafResult]
  · rw [hls]
    split_ifs
    · norm_num
    · exact f1
  · rw [hls]
    split_ifs
    · norm_num
    · exact f2

/-- Witness of `bump_shade_range_exact`: the tuple `bumpQ` and the goal point
`(1,0,0)`; the stored shade is 89. -/
theorem bump_shade_range_exact_witness :
    (planet libQ cfgBumpQ 1 zeroState bumpQ.a bumpQ.b bumpQ.c bumpQ.d 1 0 0 0).map
        (fun r => r.2.shade) = some 89
      ∧ (planet libQ cfgBumpQ 1 zeroState bumpQ.a bumpQ.b bumpQ.c bumpQ.d 1 0 0 0).map
          (fun r => r.2.shade)
        = some (leafShade libQ cfgBumpQ zeroState bumpQ.a bumpQ.b bumpQ.c bumpQ.d 1 0 0)
      ∧ 80 ≤ leafShade libQ cfgBumpQ zeroState bumpQ.a bumpQ.b bumpQ.c bumpQ.d 1 0 0
      ∧ leafShade libQ cfgBumpQ zeroState bumpQ.a bumpQ.b bumpQ.c bumpQ.d 1 0 0 ≤ 176 :=
  ⟨by decide!,
    (bump_shade_range_exact libQ cfgBumpQ 0 zeroState bumpQ.a bumpQ.b bumpQ.c bumpQ.d 1 0 0
      (Or.inl rfl) (by norm_num) (by decide!) (by decide!) (by decide!) (by decide!)
      (by decide!)).1,
    (bump_shade_range_exact libQ cfgBumpQ 0 zeroState bumpQ.a bumpQ.b bumpQ.c bumpQ.d 1 0 0
      (Or.inl rfl) (by norm_num) (by decide!) (by decide!) (by decide!) (by decide!)
      (by decide!)).2.1,
    (bump_shade_range_exact libQ cfgBumpQ 0 zeroState bumpQ.a bumpQ.b bumpQ.c bumpQ.d 1 0 0
      (Or.inl rfl) (by norm_num) (by decide!) (by decide!) (by decide!) (by decide!)
      (by decide!)).2.2.1⟩

end ExactArithmetic

section Claims

variable {K : Type} [LinearOrderedField K] [FloorRing K]

/-- C2 (seed symmetry): for all `p` and `q`, `rand2(p,q) = rand2(q,p)`. -/
theorem rand2_symm (m : Libm K) (p q : K) : rand2 m p q = rand2 m q p :=
  rand2_comm m p q

/-- C3, refuted as stated: at `p = -4`, `q = 0` the product `r` is negative, the
conversion `(int)r` rounds toward zero instead of down, and `rand2` is neither
`2*(r - floor r) - 1` nor inside `[-1,1)`. -/
theorem rand2_floor_counterexample :
    rand2 libQ (-4) 0 ≠
        2 * ((-4 + 314159265 / 100000000) * (0 + 314159265 / 100000000)
          - ((⌊((-4 : ℚ) + 314159265 / 100000000) * (0 + 314159265 / 100000000)⌋ : Int) : ℚ)) - 1
      ∧ rand2 libQ (-4) 0 < -1 := by
  decide!

/-- C3, amended: for all `p` and `q` whose product `r = (p+3.14159265)*(q+3.14159265)`
satisfies `0 ≤ r < 2^31`, `rand2(p,q) = 2*(r - floor r) - 1`, and the value lies
in `[-1,1)`. -/
theorem rand2_eq_floor (m : Libm K) (p q : K)
    (h0 : 0 ≤ (p + 314159265 / 100000000) * (q + 314159265 / 100000000))
    (h1 : (p + 314159265 / 100000000) * (q + 314159265 / 100000000) < 2147483648) :
    rand2 m p q =
        2 * ((p + 314159265 / 100000000) * (q + 314159265 / 100000000)
          - ((⌊(p + 314159265 / 100000000) * (q + 314159265 / 100000000)⌋ : Int) : K)) - 1
      ∧ -1 ≤ rand2 m p q ∧ rand2 m p q < 1 := by
  refine ⟨?_, ?_⟩
  · rw [rand2_of_nonneg m p q h0 h1, Int.self_sub_floor]
  · rw [rand2_of_nonneg m p q h0 h1]
    exact seedOK_of_fract _

/-- Witness of `rand2_eq_floor` at the default master seed 0.123. -/
theorem rand2_eq_floor_witness :
    (0 : ℚ) ≤ (123 / 1000 + 314159265 / 100000000) * (123 / 1000 + 314159265 / 100000000)
      ∧ ((123 / 1000 + 314159265 / 100000000) * (123 / 1000 + 314159265 / 100000000) : ℚ)
          < 2147483648
      ∧ (rand2 libQ (123 / 1000) (123 / 1000) =
          2 * ((123 / 1000 + 314159265 / 100000000) * (123 / 1000 + 314159265 / 100000000)
            - ((⌊((123 / 1000 : ℚ) + 314159265 / 100000000)
                * (123 / 1000 + 314159265 / 100000000)⌋ : Int) : ℚ)) - 1
        ∧ -1 ≤ rand2 libQ (123 / 1000) (123 / 1000) ∧ rand2 libQ (123 / 1000) (123 / 1000) < 1) :=
  ⟨by norm_num, by norm_num,
    rand2_eq_floor libQ (123 / 1000) (123 / 1000) (by norm_num) (by norm_num)⟩

/-- C4, refuted as stated: for the master seed 50000 the product
`(rseed+3.14159265)^2` exceeds `INT_MAX`, the conversion is out of range, and the
first root seed is far outside `[-1,1)`. -/
theorem rootSeeds_counterexample : ¬ SeedOK (rootSeeds libQ 50000).1 := by
  decide!

/-- C4, amended: for every master seed `rseed` with `(rseed+3.14159265)^2 < 2^31`
the four root seeds lie in `[-1,1)`, and whenever `a.s` and `b.s` lie in `[-1,1)`
so does the seed of the vertex that `planet` creates on edge `ab`. -/
theorem seeds_in_range (m : Libm K) (rseed : K)
    (h : (rseed + 314159265 / 100000000) * (rseed + 314159265 / 100000000) < 2147483648) :
    (SeedOK (rootSeeds m rseed).1 ∧ SeedOK (rootSeeds m rseed).2.1
        ∧ SeedOK (rootSeeds m rseed).2.2.1 ∧ SeedOK (rootSeeds m rseed).2.2.2)
      ∧ ∀ (cfg : Config K) (a b : Vertex K) (x y z : K), SeedOK a.s → SeedOK b.s →
          SeedOK (splitVertex m cfg a b x y z).s := by
  have h1 : SeedOK (rand2 m rseed rseed) := rand2_self_seedOK m rseed h
  have h2 : SeedOK (rand2 m (rand2 m rseed rseed) (rand2 m rseed rseed)) := rand2_seedOK m h1 h1
  have h3 := rand2_seedOK m h1 h2
  have h4 := rand2_seedOK m h2 h3
  refine ⟨⟨h1, h2, h3, h4⟩, ?_⟩
  intro cfg a b x y z ha hb
  exact splitSeed_seedOK m ha hb

/-- Witness of `seeds_in_range` at the default master seed 0.123. -/
theorem seeds_in_range_witness :
    (((123 / 1000 : ℚ) + 314159265 / 100000000) * (123 / 1000 + 314159265 / 100000000)
        < 2147483648)
      ∧ ((SeedOK (rootSeeds libQ (123 / 1000)).1 ∧ SeedOK (rootSeeds libQ (123 / 1000)).2.1
          ∧ SeedOK (rootSeeds libQ (123 / 1000)).2.2.1
          ∧ SeedOK (rootSeeds libQ (123 / 1000)).2.2.2)
        ∧ ∀ (cfg : Config ℚ) (a b : Vertex ℚ) (x y z : ℚ), SeedOK a.s → SeedOK b.s →
            SeedOK (splitVertex libQ cfg a b x y z).s) :=
  ⟨by norm_num, seeds_in_range libQ (123 / 1000) (by norm_num)⟩

/-- C9 (leaf contract): at level 0 `planet` returns `0.25*(a.h+b.h+c.h+d.h)` and
leaves `0.25*(a.shadow+b.shadow+c.shadow+d.shadow)` in `rainShadow`, for every
configuration (hence every shading mode), tuple and goal point, with one unit
of fuel or more; the cache is left as it was. -/
theorem planet_leaf (m : Libm K) (cfg : Config K) (fuel : Nat) (st : State K)
    (a b c d : Vertex K) (x y z : K) :
    planet m cfg (fuel + 1) st a b c d x y z 0 =
      some (1 / 4 * (a.h + b.h + c.h + d.h),
        { ssa := st.ssa, ssb := st.ssb, ssc := st.ssc, ssd := st.ssd
          rainShadow := 1 / 4 * (a.shadow + b.shadow + c.shadow + d.shadow)
          shade := leafShade m cfg st a b c d x y z }) := by
  rw [planet]
  simp only [gt_iff_lt, lt_self_iff_false, if_false]

/-- C7, refuted as stated: on a regular tetrahedron (six equal edges) `planet`
at level 1 returns nothing whatever the fuel: every call finds an edge other
than `ab` equal to `maxlength` and calls `planet` again on a rotated tuple. -/
theorem planet_regular_diverges :
    ¬ ∃ fuel : Nat,
      planet libQ (cfgQ 12) fuel zeroState regularQ.a regularQ.b regularQ.c regularQ.d
        1 0 0 1 ≠ none := by
  rintro ⟨fuel, h⟩
  apply h
  refine planet_tie libQ (cfgQ 12) 1 0 0 1 (by norm_num) fuel zeroState regularQ ?_
  rintro ⟨l, hc, -⟩
  have he : edges regularQ = [8, 8, 8, 8, 8, 8] := by decide!
  rw [he] at hc
  rcases count_six_eq_one hc with ⟨h1, h2, -⟩ | ⟨h1, h2, -⟩ | ⟨h1, -, h3, -⟩
    | ⟨h1, -, -, h4, -⟩ | ⟨h1, -, -, -, h5, -⟩ | ⟨h1, -, -, -, -, h6⟩
  · exact h2 h1
  · exact h1 h2
  · exact h1 h3
  · exact h1 h4
  · exact h1 h5
  · exact h1 h6

/-- C7, amended: when no tie for the longest edge is met on the `n` levels of
the descent, `planet` at level `n` returns a result as soon as the fuel (the
nesting depth allowed) is `2n+1`: one call for the leaf and, per level, one
split preceded by at most one rotation call.  Via `planet1` the bound is
`2*Depth+1`, or 23 on a cache hit. -/
theorem planet_terminates (m : Libm K) (cfg : Config K) (st : State K) (t : Tetra K)
    (x y z : K) (n D : Nat) (hn : NoTie m cfg n t x y z) (hD : cfg.Depth = (D : Int))
    (hroot : ¬ cacheHit st x y z → NoTie m cfg D cfg.root x y z)
    (hcache : cacheHit st x y z → NoTie m cfg 11 st.cache x y z) :
    (∀ fuel, 2 * n + 1 ≤ fuel →
        (planet m cfg fuel st t.a t.b t.c t.d x y z (n : Int)).isSome = true)
      ∧ (∀ fuel, (if cacheHit st x y z then 23 else 2 * D + 1) ≤ fuel →
          (planet1 m cfg fuel st x y z).isSome = true) := by
  refine ⟨fun fuel hf => planet_isSome_of_noTie m cfg x y z n fuel st t hn hf, ?_⟩
  intro fuel hf
  unfold planet1
  by_cases hc : cacheHit st x y z
  · rw [if_pos hc] at hf ⊢
    exact planet_isSome_of_noTie m cfg x y z 11 fuel st st.cache (hcache hc) hf
  · rw [if_neg hc] at hf ⊢
    rw [hD]
    exact planet_isSome_of_noTie m cfg x y z D fuel st cfg.root (hroot hc) hf

/-- Witness of `planet_terminates`: the root tetrahedron, goal point `(1,0,0)`,
twelve levels, from the initial globals. -/
theorem planet_terminates_witness :
    NoTie libQ (cfgQ 12) 12 (cfgQ 12).root 1 0 0
      ∧ (cfgQ 12).Depth = ((12 : Nat) : Int)
      ∧ (¬ cacheHit zeroState 1 0 0 → NoTie libQ (cfgQ 12) 12 (cfgQ 12).root 1 0 0)
      ∧ (cacheHit zeroState 1 0 0 → NoTie libQ (cfgQ 12) 11 zeroState.cache 1 0 0)
      ∧ ((∀ fuel, 2 * 12 + 1 ≤ fuel →
            (planet libQ (cfgQ 12) fuel zeroState (cfgQ 12).root.a (cfgQ 12).root.b
              (cfgQ 12).root.c (cfgQ 12).root.d 1 0 0 ((12 : Nat) : Int)).isSome = true)
        ∧ (∀ fuel, (if cacheHit zeroState 1 0 0 then 23 else 2 * 12 + 1) ≤ fuel →
            (planet1 libQ (cfgQ 12) fuel zeroState 1 0 0).isSome = true)) :=
  ⟨by decide!, rfl, by decide!, by decide!,
    planet_terminates libQ (cfgQ 12) zeroState (cfgQ 12).root 1 0 0 12 12 (by decide!) rfl
      (by decide!) (by decide!)⟩

/-- C8, refuted as stated: with the hint map on and `|ab|^2 = 0.25 > matchSize`,
the altitude of the new vertex is read from the map (cell value 8, hence 0.1);
the endpoints are at altitude 0 and the bound is `dd2 * 0.25 = 0.00875`. -/
theorem split_altitude_map_counterexample :
    ¬ (|(splitVertex libQ cfgMapQ flatA flatB 1 0 0).h - 1 / 2 * (flatA.h + flatB.h)| ≤
        cfgMapQ.dd1 * libQ.pow |flatA.h - flatB.h| cfgMapQ.POWA
          + cfgMapQ.dd2 * libQ.pow (if dist2 flatA flatB > 1 then libQ.pow (dist2 flatA flatB) (1 / 2)
              else dist2 flatA flatB) cfgMapQ.POW) := by
  decide!

/-- C8, amended: when the altitude of the new vertex is not read from the hint
map (`matchMap` off or `|ab|^2 <= matchSize`), the weights `dd1`, `dd2` are not
negative, the seeds of `a` and `b` lie in `[-1,1)` and `pow` is not negative on
non-negative bases, then `|e.h - 0.5*(a.h+b.h)| <= dd1*|a.h-b.h|^POWA + dd2*L^POW`,
where `L` is the squared length of `ab`, replaced by `pow(L,0.5)` when above 1. -/
theorem split_altitude_bound (m : Libm K) (cfg : Config K) (a b : Vertex K) (x y z : K)
    (hmap : ¬ useMap cfg a b) (hd1 : 0 ≤ cfg.dd1) (hd2 : 0 ≤ cfg.dd2)
    (ha : SeedOK a.s) (hb : SeedOK b.s) (hpow : ∀ u v : K, 0 ≤ u → 0 ≤ m.pow u v) :
    |(splitVertex m cfg a b x y z).h - 1 / 2 * (a.h + b.h)| ≤
      cfg.dd1 * m.pow |a.h - b.h| cfg.POWA
        + cfg.dd2 * m.pow (if dist2 a b > 1 then m.pow (dist2 a b) (1 / 2) else dist2 a b)
            cfg.POW := by
  obtain ⟨s0, s1⟩ := splitSeed_seedOK m ha hb
  obtain ⟨t0, t1⟩ := splitEs1_seedOK m ha hb
  have hL : 0 ≤ (if dist2 a b > 1 then m.pow (dist2 a b) (1 / 2) else dist2 a b) := by
    split_ifs
    · exact hpow _ _ (dist2_nonneg a b)
    · exact dist2_nonneg a b
  have hP1 : 0 ≤ cfg.dd1 * m.pow |a.h - b.h| cfg.POWA :=
    mul_nonneg hd1 (hpow _ _ (abs_nonneg _))
  have hP2 : 0 ≤ cfg.dd2 * m.pow (if dist2 a b > 1 then m.pow (dist2 a b) (1 / 2)
      else dist2 a b) cfg.POW := mul_nonneg hd2 (hpow _ _ hL)
  have hh : (splitVertex m cfg a b x y z).h - 1 / 2 * (a.h + b.h) =
      splitSeed m a b * (cfg.dd1 * m.pow |a.h - b.h| cfg.POWA)
        + splitEs1 m a b * (cfg.dd2 * m.pow (if dist2 a b > 1 then m.pow (dist2 a b) (1 / 2)
            else dist2 a b) cfg.POW) := by
    simp only [splitVertex, splitH, labAfter, if_neg hmap]
    ring
  rw [hh, abs_le]
  constructor <;> nlinarith

/-- Witness of `split_altitude_bound`: the edge `ab` of `wedgeQ` with the map off. -/
theorem split_altitude_bound_witness :
    ¬ useMap (cfgQ 12) wedgeQ.a wedgeQ.b ∧ 0 ≤ (cfgQ 12).dd1 ∧ 0 ≤ (cfgQ 12).dd2
      ∧ SeedOK wedgeQ.a.s ∧ SeedOK wedgeQ.b.s ∧ (∀ u v : ℚ, 0 ≤ u → 0 ≤ libQ.pow u v)
      ∧ |(splitVertex libQ (cfgQ 12) wedgeQ.a wedgeQ.b 1 0 0).h
            - 1 / 2 * (wedgeQ.a.h + wedgeQ.b.h)| ≤
          (cfgQ 12).dd1 * libQ.pow |wedgeQ.a.h - wedgeQ.b.h| (cfgQ 12).POWA
            + (cfgQ 12).dd2 * libQ.pow (if dist2 wedgeQ.a wedgeQ.b > 1 then
                libQ.pow (dist2 wedgeQ.a wedgeQ.b) (1 / 2) else dist2 wedgeQ.a wedgeQ.b)
              (cfgQ 12).POW :=
  ⟨by decide!, by decide!, by decide!, by decide!, by decide!, libQ_pow_nonneg,
    split_altitude_bound libQ (cfgQ 12) wedgeQ.a wedgeQ.b 1 0 0 (by decide!) (by decide!)
      (by decide!) (by decide!) (by decide!) libQ_pow_nonneg⟩

/-- C5, refuted as stated: the goal point `(2,1,0)` is the vertex `c` of `wedgeQ`,
hence on the plane through `c`, `d` and the cut point; the tested product is 0
and the `else` branch keeps `b` for the tuple `(a,b,c,d)` but keeps `a` for the
tuple `(b,a,c,d)`.  Both calls return, with different altitudes. -/
theorem planet_perm_counterexample :
    (planet libQ (cfgQ 12) 3 zeroState wedgeQ.b wedgeQ.a wedgeQ.c wedgeQ.d 2 1 0 1).isSome = true
      ∧ (planet libQ (cfgQ 12) 3 zeroState wedgeQ.a wedgeQ.b wedgeQ.c wedgeQ.d 2 1 0 1).isSome
          = true
      ∧ (planet libQ (cfgQ 12) 3 zeroState wedgeQ.b wedgeQ.a wedgeQ.c wedgeQ.d 2 1 0 1).map
            Prod.fst
          ≠ (planet libQ (cfgQ 12) 3 zeroState wedgeQ.a wedgeQ.b wedgeQ.c wedgeQ.d 2 1 0 1).map
            Prod.fst := by
  decide!

/-- C10, refuted as stated: at base depth 15 with rainfall on, a first query
for `(1,0,0)` fills the cache; the goal point `(9999/10001, 0, 200/10001)`
passes the cache test, and the `rainShadow` left by `planet1` (which resumes
from the cached vertices, whose shadows were computed for `(1,0,0)`) differs
from the `rainShadow` left by the descent from the root, while both return. -/
theorem rainShadow_cache_counterexample :
    planet1 libQ (cfgQ 15) 31 zeroState 1 0 0 = some (firstAltQ 15, cacheQ 15)
      ∧ cacheHit (cacheQ 15) (9999 / 10001) 0 (200 / 10001)
      ∧ (planet1 libQ (cfgQ 15) 31 (cacheQ 15) (9999 / 10001) 0 (200 / 10001)).isSome = true
      ∧ (planet libQ (cfgQ 15) 31 (cacheQ 15) (cfgQ 15).tetra0 (cfgQ 15).tetra1 (cfgQ 15).tetra2
            (cfgQ 15).tetra3 (9999 / 10001) 0 (200 / 10001) (cfgQ 15).Depth).isSome = true
      ∧ (planet1 libQ (cfgQ 15) 31 (cacheQ 15) (9999 / 10001) 0 (200 / 10001)).map
            (fun r => r.2.rainShadow)
          ≠ (planet libQ (cfgQ 15) 31 (cacheQ 15) (cfgQ 15).tetra0 (cfgQ 15).tetra1
              (cfgQ 15).tetra2 (cfgQ 15).tetra3 (9999 / 10001) 0 (200 / 10001)
              (cfgQ 15).Depth).map (fun r => r.2.rainShadow) := by
  decide!

/-- C10, amended: when the descent from the root for the goal point snapshots
at level 11 exactly the tuple held in the cache, shadows included (as it does
for the point of the query that filled the cache), a cache hit leaves the same
`rainShadow`, and returns the same altitude, as the descent from the root. -/
theorem rainShadow_cache (m : Libm K) (cfg : Config K) (st st2 : State K) (x y z h2 : K)
    (k fuel : Nat) (hD : cfg.Depth = ((11 + k : Nat) : Int)) (hhit : cacheHit st x y z)
    (hf : 2 * (11 + k) + 1 ≤ fuel)
    (hroot : planet m cfg fuel st cfg.tetra0 cfg.tetra1 cfg.tetra2 cfg.tetra3 x y z cfg.Depth
      = some (h2, st2))
    (hsame : st2.cache = st.cache) :
    (planet1 m cfg fuel st x y z).map (fun r => (r.1, r.2.rainShadow))
      = some (h2, st2.rainShadow) := by
  have h1 : planet1 m cfg fuel st x y z
      = planet m cfg fuel st st.cache.a st.cache.b st.cache.c st.cache.d x y z ((11 : Nat) : Int) := by
    unfold planet1
    rw [if_pos hhit]
    rfl
  rw [hD] at hroot
  have hd := descend_of_planet m cfg x y z fuel (11 + k) st cfg.root (h2, st2) hroot
  obtain ⟨hn, -, hc⟩ := descend_cache m cfg x y z k st cfg.root (h2, st2) hd
  obtain ⟨st3, h3⟩ := descend_add m cfg x y z 11 k st cfg.root hn
  rw [h1, planet_eq_descend m cfg x y z 11 fuel st st.cache (by omega), ← hsame, hc,
    descend_rotate, descend_state_indep m cfg x y z 11 st st3, ← h3, hd]
  rfl

/-- Witness of `rainShadow_cache`: the second of two identical queries for
`(1,0,0)` at base depth 15. -/
theorem rainShadow_cache_witness :
    (cfgQ 15).Depth = ((11 + 4 : Nat) : Int) ∧ cacheHit (cacheQ 15) 1 0 0
      ∧ 2 * (11 + 4) + 1 ≤ 31
      ∧ planet libQ (cfgQ 15) 31 (cacheQ 15) (cfgQ 15).tetra0 (cfgQ 15).tetra1 (cfgQ 15).tetra2
          (cfgQ 15).tetra3 1 0 0 (cfgQ 15).Depth
          = some ((restartQ 15 1 0 0).1, (restartQ 15 1 0 0).2)
      ∧ (restartQ 15 1 0 0).2.cache = (cacheQ 15).cache
      ∧ (planet1 libQ (cfgQ 15) 31 (cacheQ 15) 1 0 0).map (fun r => (r.1, r.2.rainShadow))
          = some ((restartQ 15 1 0 0).1, (restartQ 15 1 0 0).2.rainShadow) :=
  ⟨rfl, by decide!, by decide, by decide!, by decide!,
    rainShadow_cache libQ (cfgQ 15) (cacheQ 15) (restartQ 15 1 0 0).2 1 0 0 (restartQ 15 1 0 0).1
      4 31 rfl (by decide!) (by decide) (by decide!) (by decide!)⟩

/-- C11 (colour monotonicity): with biomes off, latitude colouring `latic ≥ 0`,
palette roles `LOWEST ≤ SEA < LAND ≤ HIGHEST` and a fixed `y`, the colour of
`planet0` does not decrease when the display altitude goes from `alt` to
`alt1 ≥ alt` on the same ramp (both at or below 0, or both above 0).  The
operand of the sea-ramp conversion is taken in the range of `int`, and the
number of land colours fits in an `int`. -/
theorem colour_monotone (m : Libm K) (cfg : Config K) (dsp : Display K)
    (alt alt1 temp rain y : K) (hb : cfg.makeBiomes = 0) (hl : 0 ≤ dsp.latic)
    (h1 : dsp.LOWEST ≤ dsp.SEA) (h2 : dsp.SEA < dsp.LAND) (h3 : dsp.LAND ≤ dsp.HIGHEST)
    (hR : dsp.HIGHEST - dsp.LAND + 1 < 2147483648)
    (hr : -2147483649 < ((dsp.SEA - dsp.LOWEST + 1 : Int) : K) * (10 * alt))
    (h : alt ≤ alt1) (hside : alt1 ≤ 0 ∨ 0 < alt) :
    colourOf m cfg dsp alt temp rain y ≤ colourOf m cfg dsp alt1 temp rain y := by
  rcases hside with hs | hs
  · have ha : alt ≤ 0 := le_trans h hs
    rw [colourOf_sea m cfg dsp alt temp rain y hb ha,
      colourOf_sea m cfg dsp alt1 temp rain y hb hs]
    by_cases hice : dsp.latic > 0 ∧ y * y * (y * y) * (y * y * (y * y)) + alt1
        ≥ 1 - 2 / 100 * (dsp.latic : K) * (dsp.latic : K)
    · rw [if_pos hice]
      split_ifs
      · exact le_rfl
      · have := seaColour_le m dsp h1 ha hr
        omega
    · have hice0 : ¬ (dsp.latic > 0 ∧ y * y * (y * y) * (y * y * (y * y)) + alt
          ≥ 1 - 2 / 100 * (dsp.latic : K) * (dsp.latic : K)) := by
        rintro ⟨q1, q2⟩
        exact hice ⟨q1, by linarith⟩
      rw [if_neg hice, if_neg hice0]
      exact seaColour_mono m dsp h1 h hs hr
  · have ha1 : 0 < alt1 := lt_of_lt_of_le hs h
    rw [colourOf_land m cfg dsp alt temp rain y hb hs,
      colourOf_land m cfg dsp alt1 temp rain y hb ha1]
    have hy := y8_nonneg y
    have hlK : (0 : K) ≤ (dsp.latic : K) := by exact_mod_cast hl
    apply landRamp_mono m dsp _ _ h3 hR
    · split_ifs
      · have : 0 ≤ 1 / 10 * (dsp.latic : K) * (y * y * (y * y) * (y * y * (y * y))) :=
          mul_nonneg (mul_nonneg (by norm_num) hlK) hy
        linarith
      · exact hs
    · split_ifs <;> linarith

/-- A sea pair and a land pair for C11, with the default palette roles. -/
theorem colour_monotone_witness :
    colourOf libQ (cfgDryQ 6) dspQ (-3 / 100) 0 0 0 ≤ colourOf libQ (cfgDryQ 6) dspQ (-1 / 100) 0 0 0
      ∧ colourOf libQ (cfgDryQ 6) dspQ (1 / 100) 0 0 0
        ≤ colourOf libQ (cfgDryQ 6) dspQ (7 / 100) 0 0 0 :=
  ⟨colour_monotone libQ (cfgDryQ 6) dspQ (-3 / 100) (-1 / 100) 0 0 0 rfl (by decide) (by decide)
      (by decide) (by decide) (by decide) (by decide!) (by norm_num) (Or.inl (by norm_num)),
    colour_monotone libQ (cfgDryQ 6) dspQ (1 / 100) (7 / 100) 0 0 0 rfl (by decide) (by decide)
      (by decide) (by decide) (by decide) (by decide!) (by norm_num) (Or.inr (by norm_num))⟩

/-- C12, refuted as stated: for the goal point `(0,0,-1)` at depth 6, without
the rainfall display and with the palette roles `LOWEST = 6`, `SEA = 7`, the
altitude is negative and above -0.05, `planet0` stores the colour 7 (`SEA`),
and the claimed value `max(LOWEST, SEA + floor((SEA-LOWEST+1)*10*alt))` is 6. -/
theorem sea_ramp_counterexample :
    ∃ alt : ℚ, ∃ st : State ℚ, ∃ px : Pixel ℚ, ∃ stats : Stats ℚ,
      planet1 libQ (cfgDryQ 6) 13 zeroState 0 0 (-1) = some (alt, st)
      ∧ planet0 libQ (cfgDryQ 6) dspQ 13 zeroState statsQ 0 0 (-1) = some (px, stats, st)
      ∧ alt ≤ 0 ∧ px.col = 7
      ∧ max dspQ.LOWEST (dspQ.SEA + ⌊((dspQ.SEA - dspQ.LOWEST + 1 : Int) : ℚ) * 10 * alt⌋) = 6 := by
  refine ⟨((planet1 libQ (cfgDryQ 6) 13 zeroState 0 0 (-1)).getD (0, zeroState)).1,
    ((planet1 libQ (cfgDryQ 6) 13 zeroState 0 0 (-1)).getD (0, zeroState)).2,
    ((planet0 libQ (cfgDryQ 6) dspQ 13 zeroState statsQ 0 0 (-1)).getD
      (⟨0, none, none, none, none, none⟩, statsQ, zeroState)).1,
    ((planet0 libQ (cfgDryQ 6) dspQ 13 zeroState statsQ 0 0 (-1)).getD
      (⟨0, none, none, none, none, none⟩, statsQ, zeroState)).2.1, ?_⟩
  decide!

/-- C12, amended: with biomes off and palette roles `LOWEST ≤ SEA`, for every
display altitude `alt ≤ 0` that is not turned into polar ice and whose ramp
operand `(SEA-LOWEST+1)*10*alt` is above `INT_MIN - 1`, the colour is
`max(LOWEST, SEA + ceil((SEA-LOWEST+1)*10*alt))`: the conversion to `int`
rounds toward zero. -/
theorem sea_ramp (m : Libm K) (cfg : Config K) (dsp : Display K) (alt temp rain y : K)
    (hb : cfg.makeBiomes = 0) (hL : dsp.LOWEST ≤ dsp.SEA) (ha : alt ≤ 0)
    (hice : ¬ (dsp.latic > 0 ∧ y * y * (y * y) * (y * y * (y * y)) + alt
      ≥ 1 - 2 / 100 * (dsp.latic : K) * (dsp.latic : K)))
    (hr : -2147483649 < ((dsp.SEA - dsp.LOWEST + 1 : Int) : K) * (10 * alt)) :
    colourOf m cfg dsp alt temp rain y
      = max dsp.LOWEST (dsp.SEA + ⌈((dsp.SEA - dsp.LOWEST + 1 : Int) : K) * (10 * alt)⌉) := by
  rw [colourOf_sea m cfg dsp alt temp rain y hb ha, if_neg hice, seaColour_eq m dsp hL ha hr]

/-- The amended sea ramp at altitude -0.01 with the default palette roles: colour 7. -/
theorem sea_ramp_witness :
    colourOf libQ (cfgDryQ 6) dspQ (-1 / 100) 0 0 0
      = max dspQ.LOWEST (dspQ.SEA + ⌈((dspQ.SEA - dspQ.LOWEST + 1 : Int) : ℚ) * (10 * (-1 / 100))⌉) :=
  sea_ramp libQ (cfgDryQ 6) dspQ (-1 / 100) 0 0 0 rfl (by decide) (by norm_num) (by decide!)
    (by decide!)

/-- C13 (biome classification): with `makeBiomes` on and a display altitude
above 0, the colour of `planet0` is `biomes[tt][rr] - 64 + LAND` with
`tt = clamp(floor(300*rain - 9), 0, 44)` and `rr = clamp(floor(300*temp + 10), 0, 44)`
(the operands of the two conversions being in the range of `int`), both indices
lie in `0..44`, and `temp = rain = 0.5` selects the cell `(44,44)`, whose letter
is `O` (code 79), giving the colour `LAND + 15`. -/
theorem biome_colour (m : Libm K) (cfg : Config K) (dsp : Display K) (alt temp rain y : K)
    (hb : cfg.makeBiomes ≠ 0) (ha : 0 < alt)
    (hr : -2147483649 < rain * 300 - 9 ∧ rain * 300 - 9 < 2147483648)
    (ht : -2147483649 < temp * 300 + 10 ∧ temp * 300 + 10 < 2147483648) :
    colourOf m cfg dsp alt temp rain y
        = biomes (max 0 (min 44 ⌊rain * 300 - 9⌋)) (max 0 (min 44 ⌊temp * 300 + 10⌋))
          - 64 + dsp.LAND
      ∧ 0 ≤ max 0 (min 44 ⌊rain * 300 - 9⌋) ∧ max 0 (min 44 ⌊rain * 300 - 9⌋) ≤ 44
      ∧ 0 ≤ max 0 (min 44 ⌊temp * 300 + 10⌋) ∧ max 0 (min 44 ⌊temp * 300 + 10⌋) ≤ 44
      ∧ biomes 44 44 = 79
      ∧ colourOf m cfg dsp alt (1 / 2) (1 / 2) y = dsp.LAND + 15 := by
  refine ⟨?_, ?_, ?_, ?_, ?_, biomes_corner, ?_⟩
  · rw [colourOf_biome m cfg dsp alt temp rain y hb ha, clamp_toInt m hr.1 hr.2,
      clamp_toInt m ht.1 ht.2]
  · exact le_max_left _ _
  · exact max_le (by norm_num) (min_le_left _ _)
  · exact le_max_left _ _
  · exact max_le (by norm_num) (min_le_left _ _)
  · rw [colourOf_biome m cfg dsp alt (1 / 2) (1 / 2) y hb ha,
      clamp_toInt m (by norm_num) (by norm_num), clamp_toInt m (by norm_num) (by norm_num)]
    have e1 : ⌊(1 / 2 : K) * 300 - 9⌋ = 141 := by
      rw [show (1 / 2 : K) * 300 - 9 = ((141 : Int) : K) by norm_num]
      exact Int.floor_intCast _
    have e2 : ⌊(1 / 2 : K) * 300 + 10⌋ = 160 := by
      rw [show (1 / 2 : K) * 300 + 10 = ((160 : Int) : K) by norm_num]
      exact Int.floor_intCast _
    rw [e1, e2]
    have e3 : max (0 : Int) (min 44 141) = 44 := by decide
    have e4 : max (0 : Int) (min 44 160) = 44 := by decide
    rw [e3, e4, biomes_corner]
    ring

/-- C13 at `temp = 0.1`, `rain = 0.1` with biomes on: the cell `(21,40)`. -/
theorem biome_colour_witness :
    colourOf libQ { cfgQ 6 with makeBiomes := 1 } dspQ (1 / 100) (1 / 10) (1 / 10) 0
        = biomes (max 0 (min 44 ⌊(1 / 10 : ℚ) * 300 - 9⌋)) (max 0 (min 44 ⌊(1 / 10 : ℚ) * 300 + 10⌋))
          - 64 + dspQ.LAND
      ∧ 0 ≤ max 0 (min 44 ⌊(1 / 10 : ℚ) * 300 - 9⌋) ∧ max 0 (min 44 ⌊(1 / 10 : ℚ) * 300 - 9⌋) ≤ 44
      ∧ 0 ≤ max 0 (min 44 ⌊(1 / 10 : ℚ) * 300 + 10⌋) ∧ max 0 (min 44 ⌊(1 / 10 : ℚ) * 300 + 10⌋) ≤ 44
      ∧ biomes 44 44 = 79
      ∧ colourOf libQ { cfgQ 6 with makeBiomes := 1 } dspQ (1 / 100) (1 / 2) (1 / 2) 0
        = dspQ.LAND + 15 :=
  biome_colour libQ { cfgQ 6 with makeBiomes := 1 } dspQ (1 / 100) (1 / 10) (1 / 10) 0
    (by decide) (by norm_num) (by norm_num) (by norm_num)

/-- C17, the failing sample: with the temperature display on, the goal point
`(0,0,-1)` at depth 6 is a sea sample (the altitude returned by `planet1` is
negative), `tempMin` and `tempMax` keep their values, and `planet0` replaces
both `rainMin` and `rainMax`. -/
theorem rain_stats_sea_sample :
    ∃ alt : ℚ, ∃ st : State ℚ, ∃ px : Pixel ℚ, ∃ stats : Stats ℚ,
      planet1 libQ (cfgQ 6) 13 zeroState 0 0 (-1) = some (alt, st)
      ∧ planet0 libQ (cfgQ 6) { dspQ with temperature := 1 } 13 zeroState statsQ 0 0 (-1)
          = some (px, stats, st)
      ∧ alt < 0 ∧ stats.tempMin = statsQ.tempMin ∧ stats.tempMax = statsQ.tempMax
      ∧ stats.rainMin ≠ statsQ.rainMin ∧ stats.rainMax ≠ statsQ.rainMax := by
  refine ⟨((planet1 libQ (cfgQ 6) 13 zeroState 0 0 (-1)).getD (0, zeroState)).1,
    ((planet1 libQ (cfgQ 6) 13 zeroState 0 0 (-1)).getD (0, zeroState)).2,
    ((planet0 libQ (cfgQ 6) { dspQ with temperature := 1 } 13 zeroState statsQ 0 0 (-1)).getD
      (⟨0, none, none, none, none, none⟩, statsQ, zeroState)).1,
    ((planet0 libQ (cfgQ 6) { dspQ with temperature := 1 } 13 zeroState statsQ 0 0 (-1)).getD
      (⟨0, none, none, none, none, none⟩, statsQ, zeroState)).2.1, ?_⟩
  decide!

/-- C14 (rain-shadow zeroing): the vertex `e` that `planet` creates at a split
has `e.shadow = 0` whenever `e.h ≤ 0`, for every configuration (so also with
`rainfall` or `makeBiomes` on), every pair of end points (whatever their rain
shadows) and every goal point. -/
theorem shadow_zero_below_sea (m : Libm K) (cfg : Config K) (a b : Vertex K) (x y z : K)
    (h : (splitVertex m cfg a b x y z).h ≤ 0) : (splitVertex m cfg a b x y z).shadow = 0 :=
  splitShadow_of_nonpos m cfg a b x y z _ h

/-- C14 with rainfall on, for an edge whose end points carry the rain shadows
1/2 and 1/3: the new vertex is below sea level and its rain shadow is 0. -/
theorem shadow_zero_below_sea_witness :
    (cfgQ 12).rainfall = 1 ∧ (splitVertex libQ (cfgQ 12) seaA seaB 1 0 0).h ≤ 0
      ∧ (splitVertex libQ (cfgQ 12) seaA seaB 1 0 0).shadow = 0 :=
  ⟨rfl, by decide!, shadow_zero_below_sea libQ (cfgQ 12) seaA seaB 1 0 0 (by decide!)⟩

/-- C15, refuted as stated: at level 0 with `doshade = 1`, for the tuple `bumpQ`
and the goal point `(1,0,0)`, the converted value is `v = 89.6`; `planet` stores
the shade 89, and `clamp(round(v), 10, 255)` is 90. -/
theorem bump_shade_counterexample :
    bumpValue libQ cfgBumpQ bumpQ.a bumpQ.b bumpQ.c bumpQ.d 1 0 0 = 896 / 10
      ∧ (planet libQ cfgBumpQ 1 zeroState bumpQ.a bumpQ.b bumpQ.c bumpQ.d 1 0 0 0).map
          (fun r => r.2.shade) = some 89
      ∧ max 10 (min 255 (round (bumpValue libQ cfgBumpQ bumpQ.a bumpQ.b bumpQ.c bumpQ.d 1 0 0)))
          = 90 := by
  decide!

/-- C15, amended: at level 0 with `doshade = 1`, when the value
`v = (-sin(a1)*y2 - cos(a1)*z2)/l1*48 + 128` is in the range of `int`, `planet`
returns and the stored shade is `clamp(floor(v), 10, 255)`: the conversion
truncates, it does not round to nearest. -/
theorem bump_shade (m : Libm K) (cfg : Config K) (fuel : Nat) (st : State K)
    (a b c d : Vertex K) (x y z : K) (hd : cfg.doshade = 1)
    (h1 : -2147483649 < bumpValue m cfg a b c d x y z)
    (h2 : bumpValue m cfg a b c d x y z < 2147483648) :
    (planet m cfg (fuel + 1) st a b c d x y z 0).map (fun r => r.2.shade)
      = some (max 10 (min 255 ⌊bumpValue m cfg a b c d x y z⌋)) := by
  rw [planet_zero, Option.map_some', leafResult]
  simp only
  rw [leafShade_bump m cfg st a b c d x y z hd, clampShade_toInt m h1 h2]

/-- The amended C15 on the tuple `bumpQ`: the stored shade is `floor(89.6) = 89`. -/
theorem bump_shade_witness :
    (planet libQ cfgBumpQ 1 zeroState bumpQ.a bumpQ.b bumpQ.c bumpQ.d 1 0 0 0).map
        (fun r => r.2.shade)
      = some (max 10 (min 255 ⌊bumpValue libQ cfgBumpQ bumpQ.a bumpQ.b bumpQ.c bumpQ.d 1 0 0⌋)) :=
  bump_shade libQ cfgBumpQ 0 zeroState bumpQ.a bumpQ.b bumpQ.c bumpQ.d 1 0 0 rfl (by decide!)
    (by decide!)

/-- C16 (guards): for every goal point with `|y| ≤ 1` (so that the operand of
`sqrt(1.0-y*y)` is not negative) and every vertex data, the guarded `tmp` is at
least 0.0001, the guarded length `l1` is not 0 (it is 1 when the square root is
0), and the rain-shadow computation and the level-0 shading code (bump map and
daylight), run with checked divisions, never meet a zero divisor: they return
the values of `splitShadow` and `leafShade`. -/
theorem guards_no_zero_divisor (m : Libm K) (cfg : Config K) (st : State K)
    (a b c d : Vertex K) (x y z eh u v w : K) (_hy : |y| ≤ 1) :
    1 / 10000 ≤ guardTmp m y
      ∧ guardLen m u v w ≠ 0
      ∧ (m.sqrt (u * u + v * v + w * w) = 0 → guardLen m u v w = 1)
      ∧ splitShadowChk m cfg a b x y z eh = some (splitShadow m cfg a b x y z eh)
      ∧ leafShadeChk m cfg st a b c d x y z = some (leafShade m cfg st a b c d x y z) := by
  refine ⟨guardTmp_ge m y, guardLen_ne m u v w, ?_, splitShadowChk_eq m cfg a b x y z eh,
    leafShadeChk_eq m cfg st a b c d x y z⟩
  intro h
  simp [guardLen, h]

/-- C16 at the pole `y = 1`, with rainfall and bump-map shading on, for the
tuple `bumpQ` and a new vertex of altitude 1 on its edge `ab`. -/
theorem guards_no_zero_divisor_witness :
    |(1 : ℚ)| ≤ 1
      ∧ (1 / 10000 ≤ guardTmp libQ (1 : ℚ)
        ∧ guardLen libQ (0 : ℚ) 0 0 ≠ 0
        ∧ (libQ.sqrt ((0 : ℚ) * 0 + 0 * 0 + 0 * 0) = 0 → guardLen libQ (0 : ℚ) 0 0 = 1)
        ∧ splitShadowChk libQ cfgBumpQ bumpQ.a bumpQ.b 0 1 0 1
          = some (splitShadow libQ cfgBumpQ bumpQ.a bumpQ.b 0 1 0 1)
        ∧ leafShadeChk libQ cfgBumpQ zeroState bumpQ.a bumpQ.b bumpQ.c bumpQ.d 0 1 0
          = some (leafShade libQ cfgBumpQ zeroState bumpQ.a bumpQ.b bumpQ.c bumpQ.d 0 1 0)) :=
  ⟨by decide!, guards_no_zero_divisor libQ cfgBumpQ zeroState bumpQ.a bumpQ.b bumpQ.c bumpQ.d
    0 1 0 1 0 0 0 (by decide!)⟩

/-- C19 (palette roles): after `readcolors` has processed any sequence of colour
records (and any biome colour records), starting from globals with `LOWEST = 6`:
`LOWEST = 6`, `HIGHEST = nocols - 1` with `10 ≤ nocols ≤ 65536`,
`SEA = (LOWEST + HIGHEST)/2` in integer division, `LAND = SEA + 1`,
`LOWEST ≤ SEA < LAND ≤ HIGHEST`, and `SEA = 32770` when the last colour number
is 65535. -/
theorem palette_roles (makeBiomes : Int) (pal : Palette) (recs : List ColRec)
    (bio : Option (List BioRec)) (h6 : pal.LOWEST = 6) :
    (readcolors makeBiomes pal recs bio).LOWEST = 6
      ∧ (readcolors makeBiomes pal recs bio).HIGHEST
          = (readcolors makeBiomes pal recs bio).nocols - 1
      ∧ 10 ≤ (readcolors makeBiomes pal recs bio).nocols
      ∧ (readcolors makeBiomes pal recs bio).nocols ≤ 65536
      ∧ (readcolors makeBiomes pal recs bio).SEA
          = ((readcolors makeBiomes pal recs bio).LOWEST
              + (readcolors makeBiomes pal recs bio).HIGHEST) / 2
      ∧ (readcolors makeBiomes pal recs bio).LAND = (readcolors makeBiomes pal recs bio).SEA + 1
      ∧ (readcolors makeBiomes pal recs bio).LOWEST ≤ (readcolors makeBiomes pal recs bio).SEA
      ∧ (readcolors makeBiomes pal recs bio).SEA < (readcolors makeBiomes pal recs bio).LAND
      ∧ (readcolors makeBiomes pal recs bio).LAND ≤ (readcolors makeBiomes pal recs bio).HIGHEST
      ∧ ((readRecords pal recs).1 = 65535 → (readcolors makeBiomes pal recs bio).SEA = 32770) := by
  have hr := readcolors_roles makeBiomes pal recs bio
  obtain ⟨⟨c0, c1⟩, cL⟩ := readRecords_spec pal recs
  rw [cL, h6] at hr
  simp only [Palette.roles, Prod.mk.injEq] at hr
  obtain ⟨e1, e2, e3, e4, e5⟩ := hr
  generalize (readRecords pal recs).1 = cNum at *
  have ht : Int.tdiv ((if cNum + 1 < 10 then 10 else cNum + 1) - 1 + 6) 2
      = ((if cNum + 1 < 10 then 10 else cNum + 1) - 1 + 6) / 2 :=
    Int.tdiv_eq_ediv (by split_ifs <;> omega) (by norm_num)
  rw [ht] at e3 e4
  rw [e1, e2, e3, e4, e5]
  split_ifs <;> omega

/-- C19 for a colour file of two records, the second with colour number 65535,
read into the initial globals. -/
theorem palette_roles_witness :
    initPalette.LOWEST = 6
      ∧ (readcolors 1 initPalette [⟨0, 0, 0, 0⟩, ⟨65535, 255, 255, 255⟩] none).SEA = 32770
      ∧ (readcolors 1 initPalette [⟨0, 0, 0, 0⟩, ⟨65535, 255, 255, 255⟩] none).LAND = 32771
      ∧ (readcolors 1 initPalette [⟨0, 0, 0, 0⟩, ⟨65535, 255, 255, 255⟩] none).LOWEST = 6 := by
  have h := palette_roles 1 initPalette [⟨0, 0, 0, 0⟩, ⟨65535, 255, 255, 255⟩] none rfl
  obtain ⟨h1, h2, h3, h4, h5, h6, h7, h8, h9, h10⟩ := h
  have e : (readRecords initPalette [⟨0, 0, 0, 0⟩, ⟨65535, 255, 255, 255⟩]).1 = 65535 := by
    decide
  have hs := h10 e
  exact ⟨rfl, hs, by omega, h1⟩

/-- C20 (hint-map lookup equivalence): for `MatchWidth = 48` and
`MatchHeight = 24` the grid coordinates `(xx, yy)` of planet.c equal those of
planet_mod.c, and so does the altitude `e.h` of the new vertex, for every edge,
every position of the new vertex and the same grid contents. -/
theorem hint_map_equivalence (m : Libm K) (cfg : Config K) (a b : Vertex K) (ex ey ez : K)
    (hw : cfg.MatchWidth = 48) (hh : cfg.MatchHeight = 24) :
    mapCoords m cfg ex ey ez = mapCoordsMod m ex ey ez
      ∧ splitH m cfg a b ex ey ez = splitHMod m cfg a b ex ey ez := by
  refine ⟨mapCoords_canonical m cfg ex ey ez hw hh, ?_⟩
  rw [splitH_map, splitHMod_map, mapCoords_canonical m cfg ex ey ez hw hh]

/-- C20 on the configuration `cfgMapQ`, whose map is consulted for the root edge. -/
theorem hint_map_equivalence_witness :
    useMap cfgMapQ cfgMapQ.tetra0 cfgMapQ.tetra1
      ∧ mapCoords libQ cfgMapQ 1 2 3 = mapCoordsMod libQ 1 2 3
      ∧ splitH libQ cfgMapQ cfgMapQ.tetra0 cfgMapQ.tetra1 1 2 3
          = splitHMod libQ cfgMapQ cfgMapQ.tetra0 cfgMapQ.tetra1 1 2 3 :=
  ⟨by decide!, hint_map_equivalence libQ cfgMapQ cfgMapQ.tetra0 cfgMapQ.tetra1 1 2 3 rfl rfl⟩

/-- C18 (bounding tetrahedron): every point of the closed unit ball lies
strictly inside the tetrahedron `tetra[0..3]` that `main` builds, and strictly
inside its image under the two rotation loops of the `-T` option, for every
pair of angles.  The library is only asked that `sqrt(3.0)` is at least 1.7
and that `sin^2 + cos^2` is at least 0.95 at the two rotation angles. -/
theorem unit_ball_in_root (m : Libm K) (rotate1 rotate2 x y z : K)
    (hs : 17 / 10 ≤ m.sqrt 3)
    (h1 : 19 / 20 ≤ m.sin ((-rotate1) * DEG2RAD) * m.sin ((-rotate1) * DEG2RAD)
      + m.cos ((-rotate1) * DEG2RAD) * m.cos ((-rotate1) * DEG2RAD))
    (h2 : 19 / 20 ≤ m.sin ((-rotate2) * DEG2RAD) * m.sin ((-rotate2) * DEG2RAD)
      + m.cos ((-rotate2) * DEG2RAD) * m.cos ((-rotate2) * DEG2RAD))
    (hp : x * x + y * y + z * z ≤ 1) :
    StrictIn (mainTetra m) x y z
      ∧ StrictIn (rotateTetra m rotate1 rotate2 (mainTetra m)) x y z :=
  ⟨mainTetra_ball m x y z hs (by linarith),
    strictIn_rotations _ _ _ _ (mainTetra m) h1 h2
      (fun u v w h => mainTetra_ball m u v w hs h) x y z hp⟩

/-- C18 for the point `(3/5, 0, 4/5)` of the unit sphere, with the library `libQ`. -/
theorem unit_ball_in_root_witness :
    StrictIn (mainTetra libQ) (3 / 5) 0 (4 / 5)
      ∧ StrictIn (rotateTetra libQ 30 60 (mainTetra libQ)) (3 / 5) 0 (4 / 5) :=
  unit_ball_in_root libQ 30 60 (3 / 5) 0 (4 / 5) (by decide!) (by decide!) (by decide!)
    (by norm_num)

/-- C21, refuted as stated: from the default `dd1 = 0.45`, the option `-S`
processed twice leaves `dd1 = 0.1125`, processed once `dd1 = 0.225`. -/
theorem wrinkly_counterexample :
    (optS (optS (cfgQ 12))).dd1 = 1125 / 10000 ∧ (optS (cfgQ 12)).dd1 = 225 / 1000
      ∧ ¬ ((optS (optS (cfgQ 12))).dd1 = (optS (cfgQ 12)).dd1
        ∧ (optS (optS (cfgQ 12))).POWA = (optS (cfgQ 12)).POWA) := by
  decide!

/-- C21, amended: the option `-S` processed twice leaves `POWA = 0.75`, as
processed once, and `dd1` equal to a quarter of its initial value, half the
value left by one `-S`; the two are equal only for `dd1 = 0`. -/
theorem wrinkly_twice (cfg : Config K) :
    (optS (optS cfg)).POWA = (optS cfg).POWA
      ∧ (optS cfg).POWA = 75 / 100
      ∧ (optS (optS cfg)).dd1 = cfg.dd1 / 4
      ∧ (optS (optS cfg)).dd1 = (optS cfg).dd1 / 2
      ∧ ((optS (optS cfg)).dd1 = (optS cfg).dd1 ↔ cfg.dd1 = 0) := by
  refine ⟨rfl, rfl, ?_, rfl, ?_⟩
  · show cfg.dd1 / 2 / 2 = cfg.dd1 / 4
    ring
  · show cfg.dd1 / 2 / 2 = cfg.dd1 / 2 ↔ cfg.dd1 = 0
    constructor
    · intro h
      linarith
    · intro h
      rw [h]
      norm_num

/-- C22 (order independence of the split vertex): the vertex that `planet`
creates on edge `ab` (seed, position, altitude with or without hint map, rain
shadow) is the same when `a` and `b` are exchanged, for every configuration
and goal point. -/
theorem split_vertex_order (m : Libm K) (cfg : Config K) (a b : Vertex K) (x y z : K) :
    splitVertex m cfg b a x y z = splitVertex m cfg a b x y z :=
  splitVertex_swap m cfg a b x y z

/-- C23 (longest edge at the split): a call of `planet` at a level above 0 that
reaches the split after `k` calls which only rotate the tuple holds the tuple
`rotate^[k] t`; the call on `t` equals the call made after the split of edge
`ab` of that tuple (same goal point, level decreased there by one only), the
squared length of `ab` is at least that of `ac`, `ad`, `bc`, `bd` and `cd`, and
the tuple is a permutation of the four vertices passed in. -/
theorem longest_edge_at_split (m : Libm K) (cfg : Config K) (st : State K) (t : Tetra K)
    (x y z : K) (level : Int) (k fuel : Nat) (hl : 0 < level)
    (hk : ∀ j < k, ¬ StrictAB (rotate^[j] t)) (hs : StrictAB (rotate^[k] t)) :
    planet m cfg (fuel + 1 + k) st t.a t.b t.c t.d x y z level
        = planet m cfg fuel (snapshot st (rotate^[k] t) level)
            (child m cfg (rotate^[k] t) x y z).a (child m cfg (rotate^[k] t) x y z).b
            (child m cfg (rotate^[k] t) x y z).c (child m cfg (rotate^[k] t) x y z).d
            x y z (level - 1)
      ∧ (child m cfg (rotate^[k] t) x y z).d
          = splitVertex m cfg (rotate^[k] t).a (rotate^[k] t).b x y z
      ∧ dist2 (rotate^[k] t).a (rotate^[k] t).c ≤ dist2 (rotate^[k] t).a (rotate^[k] t).b
      ∧ dist2 (rotate^[k] t).a (rotate^[k] t).d ≤ dist2 (rotate^[k] t).a (rotate^[k] t).b
      ∧ dist2 (rotate^[k] t).b (rotate^[k] t).c ≤ dist2 (rotate^[k] t).a (rotate^[k] t).b
      ∧ dist2 (rotate^[k] t).b (rotate^[k] t).d ≤ dist2 (rotate^[k] t).a (rotate^[k] t).b
      ∧ dist2 (rotate^[k] t).c (rotate^[k] t).d ≤ dist2 (rotate^[k] t).a (rotate^[k] t).b
      ∧ (rotate^[k] t).toList.Perm t.toList := by
  obtain ⟨g1, g2, g3, g4, g5⟩ := strictAB_le hs
  refine ⟨?_, ?_, g1, g2, g3, g4, g5, iterate_rotate_perm t k⟩
  · rw [planet_iterate_rotate m cfg st x y z level hl k (fuel + 1) t hk,
      planet_succ_of_strictAB m cfg fuel st _ x y z level hl hs]
  · unfold child
    split_ifs <;> rfl

/-- C23 on the tuple `wedgeSwapQ`, whose longest edge is `ac`: one rotating
call, then the split on the tuple `wedgeQ`. -/
theorem longest_edge_at_split_witness :
    (0 : Int) < 3 ∧ ¬ StrictAB wedgeSwapQ ∧ rotate wedgeSwapQ = wedgeQ
      ∧ planet libQ (cfgQ 12) (4 + 1 + 1) zeroState wedgeSwapQ.a wedgeSwapQ.b wedgeSwapQ.c
          wedgeSwapQ.d 1 0 0 3
        = planet libQ (cfgQ 12) 4 (snapshot zeroState (rotate^[1] wedgeSwapQ) 3)
            (child libQ (cfgQ 12) (rotate^[1] wedgeSwapQ) 1 0 0).a
            (child libQ (cfgQ 12) (rotate^[1] wedgeSwapQ) 1 0 0).b
            (child libQ (cfgQ 12) (rotate^[1] wedgeSwapQ) 1 0 0).c
            (child libQ (cfgQ 12) (rotate^[1] wedgeSwapQ) 1 0 0).d 1 0 0 (3 - 1)
      ∧ (rotate^[1] wedgeSwapQ).toList.Perm wedgeSwapQ.toList := by
  have h := longest_edge_at_split libQ (cfgQ 12) zeroState wedgeSwapQ 1 0 0 3 1 4 (by norm_num)
    (by
      intro j hj
      have hj0 : j = 0 := by omega
      subst hj0
      simp only [Function.iterate_zero, id_eq]
      decide!)
    (by
      simp only [Function.iterate_succ, Function.iterate_zero, Function.comp_apply, id_eq]
      decide!)
  exact ⟨by norm_num, by decide!, by decide!, h.1, h.2.2.2.2.2.2.2⟩

/-- C26 (progress condition): at a level above 0, the split is reached at once
or after one rotating call exactly when one of the six squared edge lengths
alone attains the maximum, and the call then equals the call made after the
split of the rotated tuple; at level 1 the call then returns, within three
calls, the leaf value of the sub-tetrahedron chosen after the split, and a call
at level 1 returns for some fuel exactly when one edge alone attains the
maximum; when two or more edges tie for the maximum, every call calls `planet`
on a permutation of the tuple at the same level, with the tie still there, no
tuple of the chain has `ab` strictly longest, and the call returns nothing
whatever the fuel. -/
theorem progress_condition (m : Libm K) (cfg : Config K) (st : State K) (t : Tetra K)
    (x y z : K) (level : Int) (hl : 0 < level) :
    ((StrictAB t ∨ StrictAB (rotate t)) ↔ HasStrictMax t)
      ∧ (HasStrictMax t → ∀ fuel : Nat,
          planet m cfg (if StrictAB t then fuel + 1 else fuel + 2) st t.a t.b t.c t.d x y z level
            = planet m cfg fuel (snapshot st (rotate t) level)
                (child m cfg (rotate t) x y z).a (child m cfg (rotate t) x y z).b
                (child m cfg (rotate t) x y z).c (child m cfg (rotate t) x y z).d
                x y z (level - 1))
      ∧ (HasStrictMax t →
          planet m cfg 3 st t.a t.b t.c t.d x y z 1
            = some (leafResult m cfg (snapshot st (rotate t) 1) (child m cfg (rotate t) x y z)
                x y z))
      ∧ ((∃ fuel : Nat, planet m cfg fuel st t.a t.b t.c t.d x y z 1 ≠ none) ↔ HasStrictMax t)
      ∧ (¬ HasStrictMax t →
          (∀ fuel : Nat, planet m cfg (fuel + 1) st t.a t.b t.c t.d x y z level
              = planet m cfg fuel st (rotate t).a (rotate t).b (rotate t).c (rotate t).d
                  x y z level)
            ∧ (rotate t).toList.Perm t.toList
            ∧ ¬ HasStrictMax (rotate t)
            ∧ (∀ k : Nat, ¬ StrictAB (rotate^[k] t))
            ∧ ∀ fuel : Nat, planet m cfg fuel st t.a t.b t.c t.d x y z level = none) := by
  refine ⟨split_within_one_iff t, ?_, planet_level_one m cfg st t x y z, ?_, ?_⟩
  · intro h fuel
    by_cases hs : StrictAB t
    · rw [if_pos hs, rotate_of_strictAB hs]
      exact planet_succ_of_strictAB m cfg fuel st t x y z level hl hs
    · rw [if_neg hs, planet_succ_of_not_strictAB m cfg (fuel + 1) st t x y z level hl hs]
      exact planet_succ_of_strictAB m cfg fuel st (rotate t) x y z level hl (strictAB_rotate h)
  · constructor
    · exact hasStrictMax_of_planet_ne_none m cfg st t x y z 1 one_pos
    · intro h
      refine ⟨3, ?_⟩
      rw [planet_level_one m cfg st t x y z h]
      exact Option.some_ne_none _
  · intro h
    have hs : ¬ StrictAB t := fun hs => h (hasStrictMax_of_strictAB hs)
    refine ⟨fun fuel => planet_succ_of_not_strictAB m cfg fuel st t x y z level hl hs,
      rotate_perm t, not_hasStrictMax_rotate h, ?_,
      fun fuel => planet_tie m cfg x y z level hl fuel st t h⟩
    intro k hk
    exact not_hasStrictMax_iterate h k (hasStrictMax_of_strictAB hk)

/-- C26 on the tuple `wedgeSwapQ` (unique longest edge `ac`: the split comes
after one rotating call): at level 1 the call with fuel 3 returns the leaf value
of the chosen sub-tetrahedron, whose altitude is about 0.1986, and the call with
fuel 2 has not returned yet. -/
theorem progress_condition_witness :
    (0 : Int) < 3 ∧ HasStrictMax wedgeSwapQ ∧ ¬ StrictAB wedgeSwapQ
      ∧ StrictAB (rotate wedgeSwapQ)
      ∧ planet libQ (cfgQ 12) 3 zeroState wedgeSwapQ.a wedgeSwapQ.b wedgeSwapQ.c wedgeSwapQ.d
            1 0 0 1
          = some (leafResult libQ (cfgQ 12) (snapshot zeroState (rotate wedgeSwapQ) 1)
              (child libQ (cfgQ 12) (rotate wedgeSwapQ) 1 0 0) 1 0 0)
      ∧ (planet libQ (cfgQ 12) 3 zeroState wedgeSwapQ.a wedgeSwapQ.b wedgeSwapQ.c wedgeSwapQ.d
            1 0 0 1).map Prod.fst
          = some (794334125985687624043380834167 / 4000000000000000000000000000000)
      ∧ planet libQ (cfgQ 12) 2 zeroState wedgeSwapQ.a wedgeSwapQ.b wedgeSwapQ.c wedgeSwapQ.d
            1 0 0 1 = none :=
  ⟨by norm_num,
    ((progress_condition libQ (cfgQ 12) zeroState wedgeSwapQ 1 0 0 3 (by norm_num)).1).mp
      (Or.inr (by decide!)),
    by decide!, by decide!,
    (progress_condition libQ (cfgQ 12) zeroState wedgeSwapQ 1 0 0 3 (by norm_num)).2.2.1
      (((progress_condition libQ (cfgQ 12) zeroState wedgeSwapQ 1 0 0 3 (by norm_num)).1).mp
        (Or.inr (by decide!))),
    by decide!, by decide!⟩

/-- C25, refuted as stated: for the edge `twinA twinB`, whose end points have
the same seed and the altitude 0, the split vertex is the midpoint but its
altitude is not the average 0: the distance term `es1*dd2*pow(lab,POW)` is added. -/
theorem equal_seed_counterexample :
    twinA.s = twinB.s
      ∧ (splitVertex libQ (cfgQ 12) twinA twinB 1 0 0).x = 1 / 2 * twinA.x + 1 / 2 * twinB.x
      ∧ (splitVertex libQ (cfgQ 12) twinA twinB 1 0 0).h
          = splitEs1 libQ twinA twinB * (35 / 1000) * (1 / 4)
      ∧ (splitVertex libQ (cfgQ 12) twinA twinB 1 0 0).h ≠ 1 / 2 * (twinA.h + twinB.h) := by
  decide!

/-- C25, amended: when `a.s = b.s` the split vertex is the midpoint
`0.5*a + 0.5*b` of edge `ab`; its altitude, when the hint map is not used, is
the average `0.5*(a.h+b.h)` plus the two displacement terms of every split,
`e.s*dd1*pow(|a.h-b.h|,POWA) + es1*dd2*pow(lab,POW)`. -/
theorem equal_seed_split (m : Libm K) (cfg : Config K) (a b : Vertex K) (x y z : K)
    (hs : a.s = b.s) (hm : ¬ useMap cfg a b) :
    (splitVertex m cfg a b x y z).x = 1 / 2 * a.x + 1 / 2 * b.x
      ∧ (splitVertex m cfg a b x y z).y = 1 / 2 * a.y + 1 / 2 * b.y
      ∧ (splitVertex m cfg a b x y z).z = 1 / 2 * a.z + 1 / 2 * b.z
      ∧ (splitVertex m cfg a b x y z).h
          = 1 / 2 * (a.h + b.h) + splitSeed m a b * cfg.dd1 * m.pow |a.h - b.h| cfg.POWA
            + splitEs1 m a b * cfg.dd2 * m.pow (labAfter m cfg a b) cfg.POW := by
  refine ⟨?_, ?_, ?_, ?_⟩
  · simp only [splitVertex, splitCoord, hs, lt_irrefl, gt_iff_lt, if_false]
  · simp only [splitVertex, splitCoord, hs, lt_irrefl, gt_iff_lt, if_false]
  · simp only [splitVertex, splitCoord, hs, lt_irrefl, gt_iff_lt, if_false]
  · simp only [splitVertex, splitH, if_neg hm]

/-- The amended C25 on the edge `twinA twinB`. -/
theorem equal_seed_split_witness :
    twinA.s = twinB.s ∧ ¬ useMap (cfgQ 12) twinA twinB
      ∧ (splitVertex libQ (cfgQ 12) twinA twinB 1 0 0).x = 1 / 2 * twinA.x + 1 / 2 * twinB.x
      ∧ (splitVertex libQ (cfgQ 12) twinA twinB 1 0 0).h
          = 1 / 2 * (twinA.h + twinB.h)
            + splitSeed libQ twinA twinB * (cfgQ 12).dd1
              * libQ.pow |twinA.h - twinB.h| (cfgQ 12).POWA
            + splitEs1 libQ twinA twinB * (cfgQ 12).dd2
              * libQ.pow (labAfter libQ (cfgQ 12) twinA twinB) (cfgQ 12).POW :=
  ⟨rfl, by decide!,
    (equal_seed_split libQ (cfgQ 12) twinA twinB 1 0 0 rfl (by decide!)).1,
    (equal_seed_split libQ (cfgQ 12) twinA twinB 1 0 0 rfl (by decide!)).2.2.2⟩

/-- C28 (land/sea separation of the colour indices): with biomes off,
`latic = 0` and palette roles `LOWEST ≤ SEA`, `LAND = SEA + 1 ≤ HIGHEST`, the
colour of `planet0` lies in `[LOWEST, SEA]` exactly when the display altitude
is at most 0 and in `[LAND, HIGHEST]` exactly when it is above 0, hence always
in `[LOWEST, HIGHEST]`.  The operand of the sea-ramp conversion is taken in the
range of `int`, and the number of land colours fits in an `int`. -/
theorem land_sea_separation (m : Libm K) (cfg : Config K) (dsp : Display K)
    (alt temp rain y : K) (hb : cfg.makeBiomes = 0) (hl : dsp.latic = 0)
    (h1 : dsp.LOWEST ≤ dsp.SEA) (h2 : dsp.LAND = dsp.SEA + 1) (h3 : dsp.LAND ≤ dsp.HIGHEST)
    (hR : dsp.HIGHEST - dsp.LAND + 1 < 2147483648)
    (hr : -2147483649 < ((dsp.SEA - dsp.LOWEST + 1 : Int) : K) * (10 * alt)) :
    (alt ≤ 0 ↔ dsp.LOWEST ≤ colourOf m cfg dsp alt temp rain y
        ∧ colourOf m cfg dsp alt temp rain y ≤ dsp.SEA)
      ∧ (0 < alt ↔ dsp.LAND ≤ colourOf m cfg dsp alt temp rain y
        ∧ colourOf m cfg dsp alt temp rain y ≤ dsp.HIGHEST)
      ∧ dsp.LOWEST ≤ colourOf m cfg dsp alt temp rain y
      ∧ colourOf m cfg dsp alt temp rain y ≤ dsp.HIGHEST := by
  by_cases ha : alt ≤ 0
  · have hc := colourOf_sea m cfg dsp alt temp rain y hb ha
    have hice : ¬ (dsp.latic > 0 ∧ y * y * (y * y) * (y * y * (y * y)) + alt
        ≥ 1 - 2 / 100 * (dsp.latic : K) * (dsp.latic : K)) := by
      rintro ⟨q, -⟩
      omega
    rw [if_neg hice] at hc
    have hle := seaColour_le m dsp h1 ha hr
    have hge : dsp.LOWEST ≤ seaColour m dsp alt := by
      rw [seaColour_eq m dsp h1 ha hr]
      exact le_max_left _ _
    rw [hc]
    refine ⟨⟨fun _ => ⟨hge, hle⟩, fun _ => ha⟩, ⟨fun h => absurd h (not_lt.mpr ha), ?_⟩, hge,
      by omega⟩
    rintro ⟨q, -⟩
    omega
  · have ha0 : 0 < alt := not_le.mp ha
    have hc := colourOf_land m cfg dsp alt temp rain y hb ha0
    have hl0 : ¬ dsp.latic ≠ 0 := fun q => q hl
    simp only [if_neg hl0] at hc
    have hcast : (0 : K) < ((dsp.HIGHEST - dsp.LAND + 1 : Int) : K) := by
      exact_mod_cast (by omega : (0 : Int) < dsp.HIGHEST - dsp.LAND + 1)
    have hcR : ((dsp.HIGHEST - dsp.LAND + 1 : Int) : K) < 2147483648 := by
      exact_mod_cast hR
    have hrange : dsp.LAND ≤ colourOf m cfg dsp alt temp rain y
        ∧ colourOf m cfg dsp alt temp rain y ≤ dsp.HIGHEST := by
      rw [hc]
      by_cases hh : alt ≥ 1 / 10
      · rw [if_pos hh]
        exact ⟨h3, le_rfl⟩
      · rw [if_neg hh]
        have hw0 : 0 ≤ ((dsp.HIGHEST - dsp.LAND + 1 : Int) : K) * (10 * alt) :=
          mul_nonneg hcast.le (by linarith)
        have hw1 : ((dsp.HIGHEST - dsp.LAND + 1 : Int) : K) * (10 * alt) < 2147483648 := by
          have : ((dsp.HIGHEST - dsp.LAND + 1 : Int) : K) * (10 * alt)
              < ((dsp.HIGHEST - dsp.LAND + 1 : Int) : K) * 1 :=
            mul_lt_mul_of_pos_left (by linarith [not_le.mp hh]) hcast
          linarith
        rw [toInt_of_nonneg m hw0 hw1]
        have hf : 0 ≤ ⌊((dsp.HIGHEST - dsp.LAND + 1 : Int) : K) * (10 * alt)⌋ :=
          Int.floor_nonneg.mpr hw0
        split_ifs <;> constructor <;> omega
    refine ⟨⟨fun h => absurd h ha, ?_⟩, ⟨fun _ => hrange, fun _ => ha0⟩, by omega, hrange.2⟩
    rintro ⟨-, q⟩
    omega

/-- C28 at the display altitudes -0.01 (colour 7, sea) and 0.03 (colour 8,
land) with the default palette roles. -/
theorem land_sea_separation_witness :
    colourOf libQ (cfgDryQ 6) dspQ (-1 / 100) 0 0 0 = 7
      ∧ ((-1 / 100 : ℚ) ≤ 0 ↔ dspQ.LOWEST ≤ colourOf libQ (cfgDryQ 6) dspQ (-1 / 100) 0 0 0
        ∧ colourOf libQ (cfgDryQ 6) dspQ (-1 / 100) 0 0 0 ≤ dspQ.SEA)
      ∧ colourOf libQ (cfgDryQ 6) dspQ (3 / 100) 0 0 0 = 8
      ∧ ((0 : ℚ) < 3 / 100 ↔ dspQ.LAND ≤ colourOf libQ (cfgDryQ 6) dspQ (3 / 100) 0 0 0
        ∧ colourOf libQ (cfgDryQ 6) dspQ (3 / 100) 0 0 0 ≤ dspQ.HIGHEST) :=
  ⟨by decide!,
    (land_sea_separation libQ (cfgDryQ 6) dspQ (-1 / 100) 0 0 0 rfl rfl (by decide) (by decide)
      (by decide) (by decide) (by decide!)).1,
    by decide!,
    (land_sea_separation libQ (cfgDryQ 6) dspQ (3 / 100) 0 0 0 rfl rfl (by decide) (by decide)
      (by decide) (by decide) (by decide!)).2.1⟩

/-- C30, the failing input: for every parsed `rotate2` above 180 (and every
`rotate1`) the loops of the case `'T'` do not end, whatever the fuel: the loop
`while (rotate2>180) rotate2 += 360;` increases a value that is already above
180. -/
theorem rotate2_loop_diverges (rotate1 rotate2 : K) (fuel : Nat) (h : 180 < rotate2) :
    normRotate fuel rotate1 rotate2 = none ∧ whileAboveAdd fuel rotate2 = none :=
  ⟨normRotate_none rotate1 rotate2 h fuel, whileAboveAdd_none fuel rotate2 h⟩

/-- C30 for `-T 200 0` (`rotate2 = 200`, `rotate1 = 0`) with fuel 1000. -/
theorem rotate2_loop_diverges_witness :
    (180 : ℚ) < 200 ∧ normRotate 1000 (0 : ℚ) 200 = none
      ∧ whileAboveAdd 1000 (200 : ℚ) = none :=
  ⟨by norm_num, rotate2_loop_diverges 0 200 1000 (by norm_num)⟩

/-- C6, refuted as stated, in `double` arithmetic: level 1, the tuple `skewD`
(edge `ab` strictly the longest, on the x axis; non-zero volume) and the goal
point `(1.9904832051096495, 0.6848331028007923, 0.21245815629228493)`, which
lies in the closed tetrahedron; the new vertex is exactly on `ab`, strictly
between `a` and `b`.  The computed product is not positive (it is about
-5.3e-17, the exact product about +1.0e-16), so the recursive call is made on
`(c,d,b,e)`, and the goal point is outside the closed tetrahedron of that tuple. -/
theorem planet_point_location_counterexample :
    (0 : Int) < 1 ∧ StrictABD skewD ∧ vol skewD.toQ ≠ 0
      ∧ InTetra skewD.toQ (1.9904832051096495 : Dbl).val (0.6848331028007923 : Dbl).val
          (0.21245815629228493 : Dbl).val
      ∧ Between skewD.a.toQ skewD.b.toQ
          (splitVertexD libD (cfgD 1) skewD.a skewD.b 1.9904832051096495 0.6848331028007923
            0.21245815629228493).toQ
      ∧ ¬ (sideProductD skewD.a skewD.c skewD.d
            (splitVertexD libD (cfgD 1) skewD.a skewD.b 1.9904832051096495 0.6848331028007923
              0.21245815629228493) 1.9904832051096495 0.6848331028007923 0.21245815629228493
            > 0.0)
      ∧ planetD libD (cfgD 1) 2 zeroStateD skewD.a skewD.b skewD.c skewD.d 1.9904832051096495
            0.6848331028007923 0.21245815629228493 1
          = planetD libD (cfgD 1) 1 zeroStateD skewD.c skewD.d skewD.b
              (splitVertexD libD (cfgD 1) skewD.a skewD.b 1.9904832051096495 0.6848331028007923
                0.21245815629228493) 1.9904832051096495 0.6848331028007923 0.21245815629228493 0
      ∧ ¬ InTetra (Tetra.toQ ⟨skewD.c, skewD.d, skewD.b,
            splitVertexD libD (cfgD 1) skewD.a skewD.b 1.9904832051096495 0.6848331028007923
              0.21245815629228493⟩) (1.9904832051096495 : Dbl).val (0.6848331028007923 : Dbl).val
          (0.21245815629228493 : Dbl).val :=
  ⟨by decide, by decide!, by decide!,
    ⟨353832660301925466338522184096475497828561421613
        / 1600344292877338706791184269869263857745829822464,
      309543340822805254041399511784672838255191816915
        / 1600344292877338706791184269869263857745829822464,
      741830240543726038305941144081788 / 1421391265023909073398286535433911,
      90364776134231205149069438074776 / 1421391265023909073398286535433911,
      by decide!, by decide!, by decide!, by decide!, by decide!⟩,
    ⟨300267238034219 / 562949953421312, by decide!, by decide!,
      ⟨by decide!, by decide!, by decide!⟩⟩,
    by decide!, by decide!, not_inTetra_of_third (by decide!)⟩

/-- C6, amended, in `double` arithmetic: when `planet` at a positive level cuts
edge `ab` (strictly the longest in computed length) of a non-degenerate
tetrahedron whose closure contains the goal point, the new vertex lies exactly
on `ab` strictly between `a` and `b`, and the computed product does not have
the sign opposite to that of the exact product (a positive computed product
goes with an exact product that is not negative, a computed product that is not
positive with an exact product that is not positive), then the tuple passed to
the recursive call, `(c,d,a,e)` when the computed product is positive and
`(c,d,b,e)` otherwise, again contains the goal point.  Positions are the exact
values of the doubles. -/
theorem planet_point_location_double (m : Libm Dbl) (cfg : Config Dbl) (fuel : Nat)
    (st : State Dbl) (t : Tetra Dbl) (x y z : Dbl) (level : Int) (hl : 0 < level)
    (hab : StrictABD t) (hv : vol t.toQ ≠ 0) (hin : InTetra t.toQ x.val y.val z.val)
    (he : Between t.a.toQ t.b.toQ (splitVertexD m cfg t.a t.b x y z).toQ)
    (hpos : sideProductD t.a t.c t.d (splitVertexD m cfg t.a t.b x y z) x y z > 0.0 →
      0 ≤ sideProduct t.a.toQ t.c.toQ t.d.toQ (splitVertexD m cfg t.a t.b x y z).toQ
        x.val y.val z.val)
    (hneg : ¬ sideProductD t.a t.c t.d (splitVertexD m cfg t.a t.b x y z) x y z > 0.0 →
      sideProduct t.a.toQ t.c.toQ t.d.toQ (splitVertexD m cfg t.a t.b x y z).toQ
        x.val y.val z.val ≤ 0) :
    InTetra (childD m cfg t x y z).toQ x.val y.val z.val
      ∧ childD m cfg t x y z
          = (if sideProductD t.a t.c t.d (splitVertexD m cfg t.a t.b x y z) x y z > 0.0 then
              ⟨t.c, t.d, t.a, splitVertexD m cfg t.a t.b x y z⟩
            else ⟨t.c, t.d, t.b, splitVertexD m cfg t.a t.b x y z⟩)
      ∧ planetD m cfg (fuel + 1) st t.a t.b t.c t.d x y z level
          = planetD m cfg fuel (snapshot st t level) (childD m cfg t x y z).a
              (childD m cfg t x y z).b (childD m cfg t x y z).c (childD m cfg t x y z).d
              x y z (level - 1) :=
  ⟨inTetra_childD m cfg t x y z hv hin he hpos hneg, childD_eq m cfg t x y z,
    planetD_succ_of_strictABD m cfg fuel st t x y z level hl hab⟩

/-- Witness of `planet_point_location_double`: the tuple `skewD` at level 1 and
the goal point `(1.5, 0.5, 0.5)`; the computed product is positive, as the
exact one, and the call returns the altitude 0.19858353149642427. -/
theorem planet_point_location_double_witness :
    (0 : Int) < 1 ∧ StrictABD skewD ∧ vol skewD.toQ ≠ 0
      ∧ InTetra skewD.toQ (1.5 : Dbl).val (0.5 : Dbl).val (0.5 : Dbl).val
      ∧ Between skewD.a.toQ skewD.b.toQ (splitVertexD libD (cfgD 1) skewD.a skewD.b 1.5 0.5 0.5).toQ
      ∧ sideProductD skewD.a skewD.c skewD.d (splitVertexD libD (cfgD 1) skewD.a skewD.b 1.5 0.5 0.5)
          1.5 0.5 0.5 > 0.0
      ∧ 0 ≤ sideProduct skewD.a.toQ skewD.c.toQ skewD.d.toQ
          (splitVertexD libD (cfgD 1) skewD.a skewD.b 1.5 0.5 0.5).toQ (1.5 : Dbl).val
          (0.5 : Dbl).val (0.5 : Dbl).val
      ∧ InTetra (childD libD (cfgD 1) skewD 1.5 0.5 0.5).toQ (1.5 : Dbl).val (0.5 : Dbl).val
          (0.5 : Dbl).val
      ∧ (planetD libD (cfgD 1) 2 zeroStateD skewD.a skewD.b skewD.c skewD.d 1.5 0.5 0.5 1).map
          Prod.fst = some 0.19858353149642427 :=
  ⟨by decide, by decide!, by decide!,
    ⟨3634607800974379435447659530708571 / 11371130120191272587186292283471288,
      726921560194875896457019131072349 / 11371130120191272587186292283471288,
      519229685853482746640090974388224 / 1421391265023909073398286535433911,
      356970409024269410270110728323072 / 1421391265023909073398286535433911,
      by decide!, by decide!, by decide!, by decide!, by decide!⟩,
    ⟨300267238034219 / 562949953421312, by decide!, by decide!,
      ⟨by decide!, by decide!, by decide!⟩⟩,
    by decide!, by decide!,
    (planet_point_location_double libD (cfgD 1) 1 zeroStateD skewD 1.5 0.5 0.5 1 (by decide)
      (by decide!) (by decide!)
      ⟨3634607800974379435447659530708571 / 11371130120191272587186292283471288,
        726921560194875896457019131072349 / 11371130120191272587186292283471288,
        519229685853482746640090974388224 / 1421391265023909073398286535433911,
        356970409024269410270110728323072 / 1421391265023909073398286535433911,
        by decide!, by decide!, by decide!, by decide!, by decide!⟩
      ⟨300267238034219 / 562949953421312, by decide!, by decide!,
        ⟨by decide!, by decide!, by decide!⟩⟩
      (fun _ => by decide!) (fun h => absurd (by decide!) h)).1,
    by decide!⟩

/-- Permutation invariance fails in `double` arithmetic at ordinary points too:
for the root tetrahedron of `cfgD 2`, the goal point
`(-0.6266948505712533, 0.6899863691649402, 0.36217726962643226)` and level 2,
exchanging the second and third vertex changes the altitude returned from
0.026289184352553584 to -0.050470031584596876: the sign tests computed for the
two orders send the point to different sides of the first cutting plane. -/
theorem planet_perm_rounding_example :
    [(cfgD 2).root.a, (cfgD 2).root.c, (cfgD 2).root.b, (cfgD 2).root.d].Perm
        (cfgD 2).root.toList
      ∧ (planetD libD (cfgD 2) 5 zeroStateD (cfgD 2).root.a (cfgD 2).root.b (cfgD 2).root.c
            (cfgD 2).root.d (-0.6266948505712533) 0.6899863691649402 0.36217726962643226
            2).map Prod.fst = some 0.026289184352553584
      ∧ (planetD libD (cfgD 2) 5 zeroStateD (cfgD 2).root.a (cfgD 2).root.c (cfgD 2).root.b
            (cfgD 2).root.d (-0.6266948505712533) 0.6899863691649402 0.36217726962643226
            2).map Prod.fst = some (-0.050470031584596876)
      ∧ (0.026289184352553584 : Dbl) ≠ -0.050470031584596876 :=
  ⟨List.Perm.cons _ (List.Perm.swap _ _ _), by decide!, by decide!, by decide!⟩

/-- At level 0 the order of the vertices changes the rounded sum of the four
altitudes: 0.1, 0.2, 0.3, 0.4 give 0.25, and in reverse order
0.24999999999999997. -/
theorem planet_perm_leaf_example :
    (planetD libD (cfgD 0) 1 zeroStateD ⟨0.1, 0.1, 0.0, 0.0, 0.0, 0.0⟩
          ⟨0.2, 0.2, 1.0, 0.0, 0.0, 0.0⟩ ⟨0.3, 0.3, 0.0, 1.0, 0.0, 0.0⟩
          ⟨0.4, 0.4, 0.0, 0.0, 1.0, 0.0⟩ 1.0 0.0 0.0 0).map Prod.fst = some 0.25
      ∧ (planetD libD (cfgD 0) 1 zeroStateD ⟨0.4, 0.4, 0.0, 0.0, 1.0, 0.0⟩
          ⟨0.3, 0.3, 0.0, 1.0, 0.0, 0.0⟩ ⟨0.2, 0.2, 1.0, 0.0, 0.0, 0.0⟩
          ⟨0.1, 0.1, 0.0, 0.0, 0.0, 0.0⟩ 1.0 0.0 0.0 0).map Prod.fst
        = some 0.24999999999999997
      ∧ (0.25 : Dbl) ≠ 0.24999999999999997 := by
  decide!

/-- C5, amended, in `double` arithmetic: for every level `n+1 >= 1`, every
permutation `t1` of the tuple `t2` and every goal point in general position for
`t2` (at every level of the descent one edge is strictly the longest in
computed length, and the computed sign test gives the same verdict for the four
orders in which the tuple can reach the split), `planet` returns on both tuples
with fuel `2(n+1)+1` or more, and returns the same altitude. -/
theorem planet_perm_invariant_double (m : Libm Dbl) (cfg : Config Dbl) (st : State Dbl)
    (t1 t2 : Tetra Dbl) (x y z : Dbl) (n fuel : Nat) (hg : GenPosD m cfg (n + 1) t2 x y z)
    (hp : t1.toList.Perm t2.toList) (hf : 2 * (n + 1) + 1 ≤ fuel) :
    (planetD m cfg fuel st t1.a t1.b t1.c t1.d x y z ((n + 1 : Nat) : Int)).map Prod.fst
        = (planetD m cfg fuel st t2.a t2.b t2.c t2.d x y z ((n + 1 : Nat) : Int)).map Prod.fst
      ∧ (planetD m cfg fuel st t2.a t2.b t2.c t2.d x y z ((n + 1 : Nat) : Int)).isSome = true :=
  planetD_perm m cfg st t1 t2 x y z n fuel hg hp hf

/-- Witness of `planet_perm_invariant_double`: the root tetrahedron of `cfgD 12`
in reverse order, the goal point `(1,0,0)`, level 2; the altitude returned is
0.026289184352553584. -/
theorem planet_perm_invariant_double_witness :
    GenPosD libD (cfgD 12) (1 + 1) (cfgD 12).root 1.0 0.0 0.0
      ∧ (Tetra.toList ⟨(cfgD 12).root.d, (cfgD 12).root.c, (cfgD 12).root.b,
            (cfgD 12).root.a⟩).Perm (cfgD 12).root.toList
      ∧ 2 * (1 + 1) + 1 ≤ 5
      ∧ ((planetD libD (cfgD 12) 5 zeroStateD (cfgD 12).root.d (cfgD 12).root.c (cfgD 12).root.b
            (cfgD 12).root.a 1.0 0.0 0.0 ((1 + 1 : Nat) : Int)).map Prod.fst
          = (planetD libD (cfgD 12) 5 zeroStateD (cfgD 12).root.a (cfgD 12).root.b
              (cfgD 12).root.c (cfgD 12).root.d 1.0 0.0 0.0 ((1 + 1 : Nat) : Int)).map Prod.fst
        ∧ (planetD libD (cfgD 12) 5 zeroStateD (cfgD 12).root.a (cfgD 12).root.b
            (cfgD 12).root.c (cfgD 12).root.d 1.0 0.0 0.0 ((1 + 1 : Nat) : Int)).isSome = true)
      ∧ (planetD libD (cfgD 12) 5 zeroStateD (cfgD 12).root.d (cfgD 12).root.c (cfgD 12).root.b
            (cfgD 12).root.a 1.0 0.0 0.0 2).map Prod.fst = some 0.026289184352553584 :=
  ⟨genPosD_root, List.reverse_perm (cfgD 12).root.toList, by decide,
    planet_perm_invariant_double libD (cfgD 12) zeroStateD
      ⟨(cfgD 12).root.d, (cfgD 12).root.c, (cfgD 12).root.b, (cfgD 12).root.a⟩
      (cfgD 12).root 1.0 0.0 0.0 1 5 genPosD_root
      (List.reverse_perm (cfgD 12).root.toList) (by decide),
    by decide!⟩

/-- The same failure in the exact embedding with a library whose square root is
rounded down to twelve decimals: for the leaf `bump79Q` the shade written is 79. -/
theorem bump_shade_rounded_root :
    (planet libQ cfgBumpQ 1 zeroState bump79Q.a bump79Q.b bump79Q.c bump79Q.d 1 0 0 0).map
        (fun r => r.2.shade) = some 79 := by
  decide!

end Claims

end Planet
